import Mathlib

/-!
# OpenTESArena: legacy tile decoding, map generation, level data and ray casting

A shallow embedding of `World/VoxelUtils.cpp`, of the decoding half and the name and
dungeon generators of `World/MapGeneration.cpp`, of the readers, the chasm states and
the fading voxels of `World/LevelData.cpp`, and of the ray caster of
`Rendering/SoftwareRenderer.cpp`, followed by theorems about them.

Conventions of the embedding.

* `ArenaTypes::VoxelID` is `uint16_t`; a tile code is a `Nat` and the bit
  operations of the source are the bit operations of `Nat`. Every field the
  decoders read is masked, so the theorems hold for every `Nat` and in
  particular for every 16-bit code.
* Texture indices are C++ `int`s and may be negative (`byte - 1`): they are `Int`.
* The crash family of `components/debug/Debug.h` (`DebugCrash`, `DebugAssert`,
  `DebugNotImplemented`, `DebugUnhandledReturnMsg`) ends the program; a function
  that can reach one of them returns `Except Fatal _`. `DebugLogWarning` only
  logs and is not represented.
* Out-parameters and caches are passed and returned explicitly.
-/

namespace OpenTESArena

/-! ## Coordinates (`VoxelUtils.cpp`) -/

/-- Integer pair, the shape of `OriginalInt2`, `NewInt2` and `LevelInt2`. -/
structure Int2 where
  x : Int
  y : Int
deriving DecidableEq

namespace VoxelUtils

/-- Embeds `VoxelUtils::originalVoxelToNewVoxel`: `NewInt2(voxel.y, voxel.x)`. -/
def originalVoxelToNewVoxel (voxel : Int2) : Int2 :=
  ⟨voxel.y, voxel.x⟩

/-- Embeds `VoxelUtils::newVoxelToOriginalVoxel`: delegates to `originalVoxelToNewVoxel`. -/
def newVoxelToOriginalVoxel (voxel : Int2) : Int2 :=
  originalVoxelToNewVoxel voxel

end VoxelUtils

/-! ## Diagnostics -/

/-- The fatal diagnostics reachable from the embedded code. -/
inductive Fatal where
  /-- Raised by `DebugAssert(condition)` with a false condition. -/
  | assertion
  /-- Raised by `DebugCrash` with the message `Unsupported chasm type` in
  `makeVoxelDefFromFLOR`. -/
  | unsupportedChasm (textureID : Nat)
  /-- Raised by `DebugUnhandledReturnMsg(VoxelDefinition, mostSigNibble)` in
  `makeVoxelDefFromMAP1`. -/
  | unhandledReturn (mostSigNibble : Nat)
  /-- Raised by `DebugUnhandledReturnMsg(..., worldType)`: a world type the function has
  no arm for. -/
  | unhandledWorldType
  /-- Raised by `DebugNotImplemented()` and `DebugNotImplementedMsg(...)`. -/
  | notImplemented
  /-- Raised by `DebugUnhandledReturnMsg(std::string, menuType)`: a menu type the name
  generator has no arm for. -/
  | unhandledMenuType
  /-- Stands for `*inf.getLevelUpIndex()` and `*inf.getLevelDownIndex()` on an empty
  optional, which the source leaves undefined; taken as the end of the run. -/
  | emptyOptional
  /-- Stands for a signed integer product that does not fit an `int`, which the
  language leaves undefined; taken as the end of the run. -/
  | signedOverflow
  /-- Stands for the conversion to `int` of a `double` that is not a number, is infinite
  or has an integral part outside `int`, which the language leaves undefined; taken as
  the end of the run. -/
  | floatToInt
  /-- Stands for a read of a vector or an array past its end, which the language leaves
  undefined; taken as the end of the run. -/
  | outOfBounds
  /-- Stands for the exception of `std::vector::resize` on a negative count. -/
  | lengthError
deriving DecidableEq

/-! ## Voxel definitions -/

/-- Embeds `WorldType`. -/
inductive WorldType where
  | City
  | Interior
  | Wilderness
deriving DecidableEq

/-- Embeds `InteriorType`, as far as `tryGetInteriorTypeFromMenuIndex` names it. -/
inductive InteriorType where
  | Crypt
  | Dungeon
  | Equipment
  | House
  | MagesGuild
  | Noble
  | Palace
  | Tavern
  | Temple
  | Tower
deriving DecidableEq

/-- Embeds `VoxelDefinition::WallData::Type`. -/
inductive WallType where
  | Solid
  | LevelUp
  | LevelDown
  | Menu
deriving DecidableEq

/-- Embeds `VoxelDefinition::ChasmData::Type`. -/
inductive ChasmType where
  | Dry
  | Wet
  | Lava
deriving DecidableEq

/-- Embeds `VoxelDefinition::DoorData::Type`. -/
inductive DoorType where
  | Swinging
  | Sliding
  | Raising
  | Splitting
deriving DecidableEq

/-- Embeds `VoxelFacing2D`. -/
inductive VoxelFacing2D where
  | PositiveX
  | NegativeX
  | PositiveZ
  | NegativeZ
deriving DecidableEq

/-- Modelled from the spec: `VoxelDefinition` (its class is not among the sources) is the
tagged variant of section 3, and each `VoxelDefinition::make...` factory records the
arguments it is called with. `None` is the default-constructed definition (air).

Two payloads are floating point in the source and are kept here as the integers they are
computed from: a raised platform keeps `baseOffset`, `baseSize` and the ceiling height
(`yOffset`, `ySize`, `vTop`, `vBottom` are quotients of these by `MIFUtils::ARENA_UNITS`),
and an edge keeps `fullOffset` (`yOffset = fullOffset / ARENA_UNITS`). -/
inductive VoxelDefinition where
  | None
  | Wall (sideID floorID ceilingID : Int) (menuID : Option Int) (type : WallType)
  | Floor (id : Int)
  | Ceiling (id : Int)
  | Raised (sideID floorID ceilingID : Int) (baseOffset baseSize ceilingHeight : Int)
  | Diagonal (id : Int) (isRightDiag : Bool)
  | TransparentWall (id : Int) (collider : Bool)
  | Edge (id : Int) (fullOffset : Int) (collider flipped : Bool) (facing : VoxelFacing2D)
  | Chasm (id : Int) (type : ChasmType)
  | Door (id : Int) (type : DoorType)
deriving DecidableEq

/-! ## Parameter tables -/

/-- Embeds `INFFile::CeilingData`, the fields the decoder reads. -/
structure CeilingData where
  textureIndex : Option Int
  height : Int
  boxScale : Option Int
  outdoorDungeon : Bool

/-- Embeds `INFFile`, the lookups the decoder reads (the class is not among the sources; each
getter is a field). -/
structure INFFile where
  getMenuIndex : Int → Option Int
  getLevelUpIndex : Option Int
  getLevelDownIndex : Option Int
  getDryChasmIndex : Option Int
  getLavaChasmIndex : Option Int
  getWetChasmIndex : Option Int
  getBoxSide : Nat → Option Int
  getBoxCap : Nat → Option Int
  getCeiling : CeilingData

/-- Embeds `ExeData::wallHeightTables`: fixed arrays read with `.at(index)`; every index the
decoder forms is masked to the array length (3 bits for `box1*`, 4 bits for `box2*`),
so a lookup is a total function of the index. -/
structure WallHeightTables where
  box1a : Nat → Int
  box1b : Nat → Int
  box1c : Nat → Int
  box2a : Nat → Int
  box2b : Nat → Int

/-- Embeds `ExeData`, the part the decoder reads. -/
structure ExeData where
  wallHeightTables : WallHeightTables

/-- The three reserved FLOR texture values of `MIFUtils` (their header is not among the
sources; the values are parameters). -/
structure MIFUtils where
  DRY_CHASM : Nat
  LAVA_CHASM : Nat
  WET_CHASM : Nat

/-- Modelled from the spec: `MIFUtils::isChasm` is not among the sources; a FLOR texture
value is a chasm exactly when it matches one of the reserved chasm sentinel values. -/
def MIFUtils.isChasm (mif : MIFUtils) (textureID : Nat) : Bool :=
  textureID == mif.DRY_CHASM || textureID == mif.LAVA_CHASM || textureID == mif.WET_CHASM

/-! ## Levels, catalogs and caches -/

/-- Embeds `BufferView2D<const ArenaTypes::VoxelID>`: `get x z` is the code in column `x` of
row `z`. -/
structure BufferView2D where
  width : Nat
  height : Nat
  get : Nat → Nat → Nat

/-- The cells of a buffer in the order of the source loops: rows `z` outermost, columns
`x` innermost. A cell is the pair `(x, z)`. -/
def BufferView2D.cells (b : BufferView2D) : List (Nat × Nat) :=
  (List.range b.height).flatMap fun z => (List.range b.width).map fun x => (x, z)

/-- Embeds `LevelDouble3`; the coordinates the generator produces are half-integers, exact
as rationals. -/
structure LevelDouble3 where
  x : ℚ
  y : ℚ
  z : ℚ

/-- Embeds `LevelInt3`. -/
abbrev LevelInt3 := Nat × Nat × Nat

/-- Modelled from the spec: `LevelDefinition` is not among the sources. It owns the voxel
grid (a 3D array of definition IDs in which 0 is air) and the placement lists. The grid is
kept as the list of `setVoxel` calls, newest first, over a grid that starts as air;
`addEntity` and `addTransition` put a placement in front of their lists. -/
structure LevelDefinition where
  width : Nat
  height : Nat
  depth : Nat
  voxels : List (LevelInt3 × Nat)
  entityPlacements : List (Nat × LevelDouble3)
  transitionPlacements : List (Nat × LevelInt3)
  lockPlacements : List (Nat × LevelInt3) := []
  triggerPlacements : List (Nat × LevelInt3) := []
  buildingNamePlacements : List (Nat × LevelInt3) := []

namespace LevelDefinition

/-- Embeds `LevelDefinition::init`: all cells air, no placements. -/
def init (width height depth : Nat) : LevelDefinition :=
  { width := width, height := height, depth := depth, voxels := [], entityPlacements := [],
    transitionPlacements := [] }

/-- Modelled from the spec: whether `(x, y, z)` is a cell of the grid, the condition
under which a voxel-grid index is not a structural invariant violation. -/
def coordIsValid (ld : LevelDefinition) (x y z : Nat) : Bool :=
  decide (x < ld.width) && decide (y < ld.height) && decide (z < ld.depth)

/-- Embeds `LevelDefinition::setVoxel`: the call is recorded in `voxels`. The abort on a
coordinate outside the grid is not represented here: a statement about a run that must
not abort says that every call recorded by the run satisfies `coordIsValid`. -/
def setVoxel (ld : LevelDefinition) (x y z : Nat) (id : Nat) : LevelDefinition :=
  { ld with voxels := ((x, y, z), id) :: ld.voxels }

/-- Embeds `LevelDefinition::getVoxel`: the last ID set at the cell, air (0) if none was. -/
def getVoxel (ld : LevelDefinition) (x y z : Nat) : Nat :=
  (ld.voxels.lookup (x, y, z)).getD 0

/-- Embeds `LevelDefinition::addEntity`. -/
def addEntity (ld : LevelDefinition) (id : Nat) (position : LevelDouble3) : LevelDefinition :=
  { ld with entityPlacements := (id, position) :: ld.entityPlacements }

/-- Embeds `LevelDefinition::addTransition`. -/
def addTransition (ld : LevelDefinition) (id : Nat) (position : LevelInt3) : LevelDefinition :=
  { ld with transitionPlacements := (id, position) :: ld.transitionPlacements }

/-- Embeds `LevelDefinition::addLock`. -/
def addLock (ld : LevelDefinition) (id : Nat) (position : LevelInt3) : LevelDefinition :=
  { ld with lockPlacements := (id, position) :: ld.lockPlacements }

/-- Embeds `LevelDefinition::addTrigger`. -/
def addTrigger (ld : LevelDefinition) (id : Nat) (position : LevelInt3) : LevelDefinition :=
  { ld with triggerPlacements := (id, position) :: ld.triggerPlacements }

/-- Embeds `LevelDefinition::addBuildingName`. -/
def addBuildingName (ld : LevelDefinition) (id : Nat) (position : LevelInt3) :
    LevelDefinition :=
  { ld with buildingNamePlacements := (id, position) :: ld.buildingNamePlacements }

end LevelDefinition

/-- Embeds `MapGeneration::InteriorGenInfo` (`initPrefab` / `initDungeon`). -/
inductive InteriorGenInfo where
  | Prefab (mifName : String) (interiorType : InteriorType) (rulerIsMale : Option Bool)
  | Dungeon (dungeonSeed : Nat) (widthChunks depthChunks : Int) (isArtifactDungeon : Bool)
deriving DecidableEq

/-- Embeds `TransitionType`. -/
inductive TransitionType where
  | CityGate
  | EnterInterior
  | ExitInterior
  | LevelChange
deriving DecidableEq

/-- Embeds `TransitionDefinition`. -/
inductive TransitionDefinition where
  | CityGate
  | EnterInterior (interiorGenInfo : InteriorGenInfo)
  | ExitInterior
  | LevelChange (isLevelUp : Bool)
deriving DecidableEq

/-- Embeds `LockDefinition::makeLeveledLock(x, y, z, lockLevel)`. -/
structure LockDefinition where
  x : Nat
  y : Nat
  z : Nat
  lockLevel : Nat
deriving DecidableEq

/-- Embeds `TriggerDefinition`: `init(x, y, z)`, then `setTextDef(text, displayedOnce)` and
`setSoundDef(filename)` when the trigger has them. -/
structure TriggerDefinition where
  x : Nat
  y : Nat
  z : Nat
  textDef : Option (String × Bool)
  soundDef : Option String
deriving DecidableEq

/-- Modelled from the spec: `LevelInfoDefinition` is not among the sources. It is the
catalog of definitions; `addVoxelDef`, `addEntityDef`, `addTransitionDef`, `addLockDef`,
`addTriggerDef` and `addBuildingName` append a definition and return its index;
`setBuildingNameOverride` records a replacement name for an index. `E` is the type of
entity definitions. -/
structure LevelInfoDefinition (E : Type) where
  voxelDefs : List VoxelDefinition
  entityDefs : List E
  transitionDefs : List TransitionDefinition
  lockDefs : List LockDefinition := []
  triggerDefs : List TriggerDefinition := []
  buildingNames : List String := []
  buildingNameOverrides : List (Nat × String) := []

namespace LevelInfoDefinition

variable {E : Type}

/-- Embeds `LevelInfoDefinition::addVoxelDef`. -/
def addVoxelDef (info : LevelInfoDefinition E) (voxelDef : VoxelDefinition) :
    Nat × LevelInfoDefinition E :=
  (info.voxelDefs.length, { info with voxelDefs := info.voxelDefs ++ [voxelDef] })

/-- Embeds `LevelInfoDefinition::addEntityDef`. -/
def addEntityDef (info : LevelInfoDefinition E) (entityDef : E) :
    Nat × LevelInfoDefinition E :=
  (info.entityDefs.length, { info with entityDefs := info.entityDefs ++ [entityDef] })

/-- Embeds `LevelInfoDefinition::addTransitionDef`. -/
def addTransitionDef (info : LevelInfoDefinition E) (transitionDef : TransitionDefinition) :
    Nat × LevelInfoDefinition E :=
  (info.transitionDefs.length,
    { info with transitionDefs := info.transitionDefs ++ [transitionDef] })

/-- Embeds `LevelInfoDefinition::addLockDef`. -/
def addLockDef (info : LevelInfoDefinition E) (lockDef : LockDefinition) :
    Nat × LevelInfoDefinition E :=
  (info.lockDefs.length, { info with lockDefs := info.lockDefs ++ [lockDef] })

/-- Embeds `LevelInfoDefinition::addTriggerDef`. -/
def addTriggerDef (info : LevelInfoDefinition E) (triggerDef : TriggerDefinition) :
    Nat × LevelInfoDefinition E :=
  (info.triggerDefs.length, { info with triggerDefs := info.triggerDefs ++ [triggerDef] })

/-- Embeds `LevelInfoDefinition::addBuildingName`. -/
def addBuildingName (info : LevelInfoDefinition E) (name : String) :
    Nat × LevelInfoDefinition E :=
  (info.buildingNames.length, { info with buildingNames := info.buildingNames ++ [name] })

/-- Embeds `LevelInfoDefinition::setBuildingNameOverride`. -/
def setBuildingNameOverride (info : LevelInfoDefinition E) (id : Nat) (name : String) :
    LevelInfoDefinition E :=
  { info with buildingNameOverrides := (id, name) :: info.buildingNameOverrides }

/-- Embeds `LevelInfoDefinition::getVoxelDef`, whose index is asserted. -/
def getVoxelDef (info : LevelInfoDefinition E) (id : Nat) : Except Fatal VoxelDefinition :=
  match info.voxelDefs[id]? with
  | some voxelDef => .ok voxelDef
  | none => .error Fatal.assertion

end LevelInfoDefinition

/-- Embeds `ArenaVoxelMappingCache`, `ArenaEntityMappingCache`, `ArenaTransitionMappingCache`:
`std::unordered_map` from a tile code to a definition ID. `find` is `List.lookup`. -/
abbrev MappingCache := List (Nat × Nat)

/-- Embeds `std::unordered_map::insert`: keeps an existing entry for the key. -/
def MappingCache.insert (cache : MappingCache) (key id : Nat) : MappingCache :=
  match cache.lookup key with
  | some _ => cache
  | none => (key, id) :: cache

/-! ## The per-tile decoders (`MapGeneration.cpp`) -/

namespace MapGeneration

/-- Embeds `getVoxelMostSigByte`: `(voxelID & 0x7F00) >> 8`. -/
def getVoxelMostSigByte (voxelID : Nat) : Nat :=
  (voxelID &&& 0x7F00) >>> 8

/-- Embeds `getVoxelLeastSigByte`: `voxelID & 0x007F`. -/
def getVoxelLeastSigByte (voxelID : Nat) : Nat :=
  voxelID &&& 0x007F

/-- Embeds `isCityGateMenuIndex`. -/
def isCityGateMenuIndex (menuIndex : Int) (worldType : WorldType) : Bool :=
  match worldType with
  | .Interior => false
  | .City => menuIndex == 7 || menuIndex == 8
  | .Wilderness => menuIndex == 6 || menuIndex == 7

/-- Embeds `tryGetInteriorTypeFromMenuIndex`; the unhandled arm is the interior world type. -/
def tryGetInteriorTypeFromMenuIndex (menuIndex : Int) (worldType : WorldType) :
    Except Fatal (Option InteriorType) :=
  match worldType with
  | .City =>
    .ok (([ (0, InteriorType.Equipment), (1, .Tavern), (2, .MagesGuild), (3, .Temple),
            (4, .House), (5, .House), (6, .House), (9, .Noble), (11, .Palace),
            (12, .Palace), (13, .Palace) ] : List (Int × InteriorType)).lookup menuIndex)
  | .Wilderness =>
    .ok (([ (1, InteriorType.Crypt), (2, .House), (3, .Tavern), (4, .Temple),
            (5, .Tower), (8, .Dungeon), (9, .Dungeon) ] : List (Int × InteriorType)).lookup
              menuIndex)
  | .Interior => .error Fatal.unhandledWorldType

/-- Embeds `makeVoxelDefFromFLOR`. -/
def makeVoxelDefFromFLOR (mif : MIFUtils) (florVoxel : Nat) (inf : INFFile) :
    Except Fatal VoxelDefinition :=
  let textureID := (florVoxel &&& 0xFF00) >>> 8
  if !mif.isChasm textureID then
    .ok (VoxelDefinition.Floor textureID)
  else if textureID = mif.DRY_CHASM then
    .ok (VoxelDefinition.Chasm (inf.getDryChasmIndex.getD 0) ChasmType.Dry)
  else if textureID = mif.LAVA_CHASM then
    .ok (VoxelDefinition.Chasm (inf.getLavaChasmIndex.getD 0) ChasmType.Lava)
  else if textureID = mif.WET_CHASM then
    .ok (VoxelDefinition.Chasm (inf.getWetChasmIndex.getD 0) ChasmType.Wet)
  else
    .error (Fatal.unsupportedChasm textureID)

/-- The lambda `matchesIndex` of the solid-wall branch. -/
def matchesIndex (textureIndex : Int) (index : Option Int) : Bool :=
  match index with
  | some i => i == textureIndex
  | none => false

/-- The lambda computing `WallData::Type` in the solid-wall branch. -/
def wallTypeOf (inf : INFFile) (textureIndex : Int) (isMenu : Bool) : WallType :=
  if matchesIndex textureIndex inf.getLevelUpIndex then WallType.LevelUp
  else if matchesIndex textureIndex inf.getLevelDownIndex then WallType.LevelDown
  else if isMenu then WallType.Menu
  else WallType.Solid

/-- The raised-platform branch of `makeVoxelDefFromMAP1`. C++ `/` on `int` truncates,
which is `Int.tdiv`. -/
def makeRaised (map1Voxel mostSigByte : Nat) (worldType : WorldType) (inf : INFFile)
    (exeData : ExeData) : VoxelDefinition :=
  let wallTextureID := map1Voxel &&& 0x000F
  let capTextureID := (map1Voxel &&& 0x00F0) >>> 4
  let sideID := (inf.getBoxSide wallTextureID).getD 0
  let floorID := inf.getCeiling.textureIndex.getD 0
  let ceilingID := (inf.getBoxCap capTextureID).getD 0
  let wallHeightTables := exeData.wallHeightTables
  let heightIndex := mostSigByte &&& 0x07
  let thicknessIndex := (mostSigByte &&& 0x78) >>> 3
  let (baseOffset, baseSize) : Int × Int :=
    match worldType with
    | .Interior =>
      let boxSize := wallHeightTables.box2a thicknessIndex
      (wallHeightTables.box1a heightIndex,
        match inf.getCeiling.boxScale with
        | some boxScale => (boxSize * boxScale).tdiv 256
        | none => boxSize)
    | .City => (wallHeightTables.box1b heightIndex, wallHeightTables.box2b thicknessIndex)
    | .Wilderness =>
      (wallHeightTables.box1c heightIndex,
        ((32 : Int) * (inf.getCeiling.boxScale.getD 192)).tdiv 256)
  VoxelDefinition.Raised sideID floorID ceilingID baseOffset baseSize inf.getCeiling.height

/-- Embeds `makeVoxelDefFromMAP1`. -/
def makeVoxelDefFromMAP1 (map1Voxel mostSigNibble : Nat) (worldType : WorldType)
    (inf : INFFile) (exeData : ExeData) : Except Fatal VoxelDefinition :=
  if map1Voxel = 0 then .error Fatal.assertion
  else if mostSigNibble = 0x8 then .error Fatal.assertion
  else if map1Voxel &&& 0x8000 = 0 then
    let mostSigByte := getVoxelMostSigByte map1Voxel
    let leastSigByte := getVoxelLeastSigByte map1Voxel
    if mostSigByte = leastSigByte then
      let textureIndex : Int := (mostSigByte : Int) - 1
      let menuIndex := inf.getMenuIndex textureIndex
      let type := wallTypeOf inf textureIndex menuIndex.isSome
      .ok (VoxelDefinition.Wall textureIndex textureIndex textureIndex menuIndex type)
    else
      .ok (makeRaised map1Voxel mostSigByte worldType inf exeData)
  else if mostSigNibble = 0x9 then
    let textureIndex : Int := ((map1Voxel &&& 0x00FF : Nat) : Int) - 1
    let collider := decide (map1Voxel &&& 0x0100 = 0)
    .ok (VoxelDefinition.TransparentWall textureIndex collider)
  else if mostSigNibble = 0xA then
    let textureIndex : Int := ((map1Voxel &&& 0x003F : Nat) : Int) - 1
    let baseOffset : Int := (((map1Voxel &&& 0x0E00) >>> 9 : Nat) : Int)
    let fullOffset : Int :=
      if worldType = WorldType.Interior then baseOffset * 8 else baseOffset * 32 - 8
    let collider := decide (map1Voxel &&& 0x0100 ≠ 0)
    let flipped := collider
    let orientation := (map1Voxel &&& 0x00C0) >>> 4
    let facing :=
      if orientation = 0x0 then VoxelFacing2D.NegativeX
      else if orientation = 0x4 then VoxelFacing2D.PositiveZ
      else if orientation = 0x8 then VoxelFacing2D.PositiveX
      else VoxelFacing2D.NegativeZ
    .ok (VoxelDefinition.Edge textureIndex fullOffset collider flipped facing)
  else if mostSigNibble = 0xB then
    let textureIndex : Int := ((map1Voxel &&& 0x003F : Nat) : Int) - 1
    let type := (map1Voxel &&& 0x00C0) >>> 4
    let doorType :=
      if type = 0x0 then DoorType.Swinging
      else if type = 0x4 then DoorType.Sliding
      else if type = 0x8 then DoorType.Raising
      else DoorType.Splitting
    .ok (VoxelDefinition.Door textureIndex doorType)
  else if mostSigNibble = 0xC then
    .ok VoxelDefinition.None
  else if mostSigNibble = 0xD then
    let textureIndex : Int := ((map1Voxel &&& 0x00FF : Nat) : Int) - 1
    let isRightDiag := decide (map1Voxel &&& 0x0100 = 0)
    .ok (VoxelDefinition.Diagonal textureIndex isRightDiag)
  else
    .error (Fatal.unhandledReturn mostSigNibble)

/-- Embeds `makeVoxelDefFromMAP2`. -/
def makeVoxelDefFromMAP2 (map2Voxel : Nat) : VoxelDefinition :=
  let textureIndex : Int := ((map2Voxel &&& 0x007F : Nat) : Int) - 1
  VoxelDefinition.Wall textureIndex textureIndex textureIndex none WallType.Solid

/-! ## Transitions -/

/-- Embeds `MapGeneration::TransitionDefGenInfo`. -/
structure TransitionDefGenInfo where
  transitionType : TransitionType
  interiorType : Option InteriorType
  isLevelUp : Option Bool
deriving DecidableEq

/-- Embeds `makeInteriorGenInfo`: each of its three branches reaches `DebugNotImplemented`
(or `DebugNotImplementedMsg`) before an `InteriorGenInfo` is initialised. -/
def makeInteriorGenInfo (_interiorType : InteriorType) (_rulerIsMale : Option Bool) :
    Except Fatal InteriorGenInfo :=
  .error Fatal.notImplemented

/-- Embeds `tryMakeVoxelTransitionDefGenInfo`. -/
def tryMakeVoxelTransitionDefGenInfo (map1Voxel : Nat) (worldType : WorldType)
    (inf : INFFile) : Except Fatal (Option TransitionDefGenInfo) :=
  let mostSigByte := getVoxelMostSigByte map1Voxel
  let leastSigByte := getVoxelLeastSigByte map1Voxel
  if mostSigByte ≠ leastSigByte then .ok none
  else
    let textureIndex : Int := (mostSigByte : Int) - 1
    let menuIndex := inf.getMenuIndex textureIndex
    match worldType with
    | .Interior =>
      let matchesLevelUp := matchesIndex textureIndex inf.getLevelUpIndex
      let matchesLevelDown := matchesIndex textureIndex inf.getLevelDownIndex
      let isMenu := menuIndex.isSome
      if matchesLevelUp || matchesLevelDown || isMenu then
        let isLevelChange := matchesLevelUp || matchesLevelDown
        let transitionType :=
          if isLevelChange then TransitionType.LevelChange else TransitionType.ExitInterior
        let isLevelUp := if isLevelChange then some matchesLevelUp else none
        .ok (some ⟨transitionType, none, isLevelUp⟩)
      else .ok none
    | _ =>
      match menuIndex with
      | some menu =>
        let isCityGate := isCityGateMenuIndex menu worldType
        match tryGetInteriorTypeFromMenuIndex menu worldType with
        | .error e => .error e
        | .ok interiorType =>
          if isCityGate then .ok (some ⟨TransitionType.CityGate, interiorType, none⟩)
          else if interiorType.isSome then
            .ok (some ⟨TransitionType.EnterInterior, interiorType, none⟩)
          else .ok none
      | none => .ok none

/-- Embeds `makeTransitionDef`. -/
def makeTransitionDef (transitionDefGenInfo : TransitionDefGenInfo)
    (rulerIsMale : Option Bool) : Except Fatal TransitionDefinition :=
  match transitionDefGenInfo.transitionType with
  | .CityGate => .ok TransitionDefinition.CityGate
  | .EnterInterior =>
    match transitionDefGenInfo.interiorType with
    | none => .error Fatal.assertion
    | some interiorType =>
      match makeInteriorGenInfo interiorType rulerIsMale with
      | .error e => .error e
      | .ok interiorGenInfo => .ok (TransitionDefinition.EnterInterior interiorGenInfo)
  | .ExitInterior => .ok TransitionDefinition.ExitInterior
  | .LevelChange =>
    match transitionDefGenInfo.isLevelUp with
    | none => .error Fatal.assertion
    | some isLevelUp => .ok (TransitionDefinition.LevelChange isLevelUp)

/-! ## Layer readers -/

/-- The pass-wide arguments of the layer readers. `tryMakeEntityDefFromArenaFlat` stands
for the source function of that name applied to the fixed world type, interior type,
ruler flag, `.INF` file and asset libraries of the pass: a function of the flat index
alone, whose result is a fatal diagnostic, `none` (it returned false) or the definition
it built. `getMap2VoxelHeight` is `ArenaLevelUtils::getMap2VoxelHeight`. Neither has its
helpers among the sources. -/
structure Context (E : Type) where
  worldType : WorldType
  rulerIsMale : Option Bool
  inf : INFFile
  exeData : ExeData
  mif : MIFUtils
  tryMakeEntityDefFromArenaFlat : Nat → Except Fatal (Option E)
  getMap2VoxelHeight : Nat → Int

/-- What a layer reader writes through its pointers: the level, the catalog and the caches
it was handed (`readArenaFLOR` and `readArenaMAP2` leave the caches they are not handed
as they were). -/
structure Out (E : Type) where
  levelDef : LevelDefinition
  levelInfoDef : LevelInfoDefinition E
  voxelCache : MappingCache
  entityCache : MappingCache
  transitionCache : MappingCache

/-- Runs a loop body over the cells in order; a fatal diagnostic ends the loop. -/
def forCells {σ : Type} (body : σ → Nat × Nat → Except Fatal σ) :
    List (Nat × Nat) → σ → Except Fatal σ
  | [], s => .ok s
  | cell :: rest, s =>
    match body s cell with
    | .error e => .error e
    | .ok s1 => forCells body rest s1

/-- The block "get voxel def ID from cache or create a new one" shared by the three
readers: the cached ID of the code, else the index of the newly added definition, which
is then cached under the code. -/
def getOrAddVoxelDef {E : Type} (s : Out E) (code : Nat)
    (make : Except Fatal VoxelDefinition) : Except Fatal (Nat × Out E) :=
  match s.voxelCache.lookup code with
  | some voxelDefID => .ok (voxelDefID, s)
  | none =>
    match make with
    | .error e => .error e
    | .ok voxelDef =>
      let r := s.levelInfoDef.addVoxelDef voxelDef
      .ok (r.1, { s with levelInfoDef := r.2, voxelCache := s.voxelCache.insert code r.1 })

/-- The block "get entity def ID from cache or create a new one" shared by `readArenaFLOR`
and `readArenaMAP1`; `none` is the `continue` taken when no definition could be made. -/
def getOrAddEntityDef {E : Type} (ctx : Context E) (s : Out E) (code flatIndex : Nat) :
    Except Fatal (Option (Nat × Out E)) :=
  match s.entityCache.lookup code with
  | some entityDefID => .ok (some (entityDefID, s))
  | none =>
    match ctx.tryMakeEntityDefFromArenaFlat flatIndex with
    | .error e => .error e
    | .ok none => .ok none
    | .ok (some entityDef) =>
      let r := s.levelInfoDef.addEntityDef entityDef
      .ok (some (r.1,
        { s with levelInfoDef := r.2, entityCache := s.entityCache.insert code r.1 }))

/-- The centre of the cell, `(levelX + 0.5, 1.0, levelZ + 0.5)`. -/
def entityPos (levelX levelZ : Nat) : LevelDouble3 :=
  ⟨(levelX : ℚ) + 1 / 2, 1, (levelZ : ℚ) + 1 / 2⟩

/-- The loop body of `readArenaFLOR` for the cell in column `florX` of row `florZ`. -/
def readArenaFLORCell {E : Type} (ctx : Context E) (flor : BufferView2D) (s : Out E)
    (cell : Nat × Nat) : Except Fatal (Out E) :=
  let florX := cell.1
  let florZ := cell.2
  let florVoxel := flor.get florX florZ
  match getOrAddVoxelDef s florVoxel (makeVoxelDefFromFLOR ctx.mif florVoxel ctx.inf) with
  | .error e => .error e
  | .ok (voxelDefID, s1) =>
    let levelX := florZ
    let levelZ := florX
    let s2 := { s1 with levelDef := s1.levelDef.setVoxel levelX 0 levelZ voxelDefID }
    let floorFlatID := florVoxel &&& 0x00FF
    if floorFlatID > 0 then
      match getOrAddEntityDef ctx s2 florVoxel (floorFlatID - 1) with
      | .error e => .error e
      | .ok none => .ok s2
      | .ok (some (entityDefID, s3)) =>
        .ok { s3 with levelDef := s3.levelDef.addEntity entityDefID (entityPos levelX levelZ) }
    else .ok s2

/-- Embeds `readArenaFLOR`. -/
def readArenaFLOR {E : Type} (ctx : Context E) (flor : BufferView2D) (s : Out E) :
    Except Fatal (Out E) :=
  forCells (readArenaFLORCell ctx flor) flor.cells s

/-- The transition part of the MAP1 loop body, run after the voxel has been set. -/
def readArenaMAP1Transition {E : Type} (ctx : Context E) (s : Out E) (map1Voxel : Nat)
    (levelX levelZ : Nat) : Except Fatal (Out E) :=
  match tryMakeVoxelTransitionDefGenInfo map1Voxel ctx.worldType ctx.inf with
  | .error e => .error e
  | .ok none => .ok s
  | .ok (some transitionDefGenInfo) =>
    match s.transitionCache.lookup map1Voxel with
    | some transitionDefID =>
      .ok { s with levelDef := s.levelDef.addTransition transitionDefID (levelX, 1, levelZ) }
    | none =>
      match makeTransitionDef transitionDefGenInfo ctx.rulerIsMale with
      | .error e => .error e
      | .ok transitionDef =>
        let r := s.levelInfoDef.addTransitionDef transitionDef
        .ok { s with
              levelInfoDef := r.2
              transitionCache := s.transitionCache.insert map1Voxel r.1
              levelDef := s.levelDef.addTransition r.1 (levelX, 1, levelZ) }

/-- The loop body of `readArenaMAP1` for the cell in column `map1X` of row `map1Z`. -/
def readArenaMAP1Cell {E : Type} (ctx : Context E) (map1 : BufferView2D) (s : Out E)
    (cell : Nat × Nat) : Except Fatal (Out E) :=
  let map1X := cell.1
  let map1Z := cell.2
  let map1Voxel := map1.get map1X map1Z
  if map1Voxel = 0 then .ok s
  else
    let levelX := map1Z
    let levelZ := map1X
    let mostSigNibble := (map1Voxel &&& 0xF000) >>> 12
    if mostSigNibble ≠ 0x8 then
      match getOrAddVoxelDef s map1Voxel
          (makeVoxelDefFromMAP1 map1Voxel mostSigNibble ctx.worldType ctx.inf ctx.exeData) with
      | .error e => .error e
      | .ok (voxelDefID, s1) =>
        let s2 := { s1 with levelDef := s1.levelDef.setVoxel levelX 1 levelZ voxelDefID }
        readArenaMAP1Transition ctx s2 map1Voxel levelX levelZ
    else
      match getOrAddEntityDef ctx s map1Voxel (map1Voxel &&& 0x00FF) with
      | .error e => .error e
      | .ok none => .ok s
      | .ok (some (entityDefID, s1)) =>
        .ok { s1 with levelDef := s1.levelDef.addEntity entityDefID (entityPos levelX levelZ) }

/-- Embeds `readArenaMAP1`. -/
def readArenaMAP1 {E : Type} (ctx : Context E) (map1 : BufferView2D) (s : Out E) :
    Except Fatal (Out E) :=
  forCells (readArenaMAP1Cell ctx map1) map1.cells s

/-- The inner loop of `readArenaMAP2`: `setVoxel(levelX, y, levelZ, id)` for
`yStart <= y < yStart + count`, ascending. -/
def setVoxelColumn (ld : LevelDefinition) (levelX levelZ id yStart : Nat) :
    Nat → LevelDefinition
  | 0 => ld
  | count + 1 =>
    setVoxelColumn (ld.setVoxel levelX yStart levelZ id) levelX levelZ id (yStart + 1) count

/-- The loop body of `readArenaMAP2` for the cell in column `map2X` of row `map2Z`. -/
def readArenaMAP2Cell {E : Type} (ctx : Context E) (map2 : BufferView2D) (s : Out E)
    (cell : Nat × Nat) : Except Fatal (Out E) :=
  let map2X := cell.1
  let map2Z := cell.2
  let map2Voxel := map2.get map2X map2Z
  if map2Voxel = 0 then .ok s
  else
    match getOrAddVoxelDef s map2Voxel (.ok (makeVoxelDefFromMAP2 map2Voxel)) with
    | .error e => .error e
    | .ok (voxelDefID, s1) =>
      .ok { s1 with
            levelDef := setVoxelColumn s1.levelDef map2Z map2X voxelDefID 2
              (ctx.getMap2VoxelHeight map2Voxel).toNat }

/-- Embeds `readArenaMAP2`. -/
def readArenaMAP2 {E : Type} (ctx : Context E) (map2 : BufferView2D) (s : Out E) :
    Except Fatal (Out E) :=
  forCells (readArenaMAP2Cell ctx map2) map2.cells s

/-- Embeds `readArenaCeiling`: one new ceiling definition, set at height 2 over the whole
footprint of the level (`levelX` outermost). -/
def readArenaCeiling {E : Type} (inf : INFFile) (levelDef : LevelDefinition)
    (levelInfoDef : LevelInfoDefinition E) : LevelDefinition × LevelInfoDefinition E :=
  let textureIndex := inf.getCeiling.textureIndex.getD 1
  let r := levelInfoDef.addVoxelDef (VoxelDefinition.Ceiling textureIndex)
  let cells : List (Nat × Nat) :=
    (List.range levelDef.width).flatMap fun levelX =>
      (List.range levelDef.depth).map fun levelZ => (levelX, levelZ)
  (cells.foldl (fun ld c => ld.setVoxel c.1 2 c.2 r.1) levelDef, r.2)

/-- Embeds `ArenaTypes::MIFLock` (its header is not among the sources; the generator
reads and writes these three members). -/
structure MIFLock where
  x : Nat
  y : Nat
  lockLevel : Nat
deriving DecidableEq

/-- Embeds `ArenaTypes::MIFTrigger`; an index of -1 stands for "none". -/
structure MIFTrigger where
  x : Nat
  y : Nat
  textIndex : Int
  soundIndex : Int
deriving DecidableEq

/-- Embeds `MIFFile::Level`: the three layers, where `MAP2` is absent when
`getMAP2().isValid()` is false, and the `LOCK` and `TRIG` records. -/
structure MIFLevel where
  flor : BufferView2D
  map1 : BufferView2D
  map2 : Option BufferView2D
  lock : List MIFLock := []
  trig : List MIFTrigger := []

/-- The local caches of `readMifVoxels` together with the catalog. -/
structure PassState (E : Type) where
  levelInfoDef : LevelInfoDefinition E
  florMappings : MappingCache
  map1Mappings : MappingCache
  map2Mappings : MappingCache
  entityMappings : MappingCache
  transitionMappings : MappingCache

/-- The body of the level loop of `readMifVoxels`. -/
def readMifLevel {E : Type} (ctx : Context E) (level : MIFLevel) (levelDef : LevelDefinition)
    (p : PassState E) : Except Fatal (LevelDefinition × PassState E) :=
  match readArenaFLOR ctx level.flor
      ⟨levelDef, p.levelInfoDef, p.florMappings, p.entityMappings, p.transitionMappings⟩ with
  | .error e => .error e
  | .ok f =>
    match readArenaMAP1 ctx level.map1
        ⟨f.levelDef, f.levelInfoDef, p.map1Mappings, f.entityCache, f.transitionCache⟩ with
    | .error e => .error e
    | .ok m =>
      match level.map2 with
      | some map2 =>
        match readArenaMAP2 ctx map2
            ⟨m.levelDef, m.levelInfoDef, p.map2Mappings, m.entityCache, m.transitionCache⟩ with
        | .error e => .error e
        | .ok c =>
          .ok (c.levelDef,
            ⟨c.levelInfoDef, f.voxelCache, m.voxelCache, c.voxelCache, c.entityCache,
              c.transitionCache⟩)
      | none =>
        if !ctx.inf.getCeiling.outdoorDungeon then
          let r := readArenaCeiling ctx.inf m.levelDef m.levelInfoDef
          .ok (r.1,
            ⟨r.2, f.voxelCache, m.voxelCache, p.map2Mappings, m.entityCache,
              m.transitionCache⟩)
        else
          .ok (m.levelDef,
            ⟨m.levelInfoDef, f.voxelCache, m.voxelCache, p.map2Mappings, m.entityCache,
              m.transitionCache⟩)

/-- The level loop of `readMifVoxels`: level `i` is read into `outLevelDefs.get(i)`,
whose index is asserted. -/
def readMifLevels {E : Type} (ctx : Context E) :
    List MIFLevel → List LevelDefinition → PassState E →
      Except Fatal (List LevelDefinition × PassState E)
  | [], outLevelDefs, p => .ok (outLevelDefs, p)
  | _ :: _, [], _ => .error Fatal.assertion
  | level :: levels, levelDef :: outLevelDefs, p =>
    match readMifLevel ctx level levelDef p with
    | .error e => .error e
    | .ok (levelDef1, p1) =>
      match readMifLevels ctx levels outLevelDefs p1 with
      | .error e => .error e
      | .ok (rest, p2) => .ok (levelDef1 :: rest, p2)

/-- Embeds `readMifVoxels`: the caches start empty. -/
def readMifVoxels {E : Type} (ctx : Context E) (levels : List MIFLevel)
    (outLevelDefs : List LevelDefinition) (outLevelInfoDef : LevelInfoDefinition E) :
    Except Fatal (List LevelDefinition × PassState E) :=
  readMifLevels ctx levels outLevelDefs ⟨outLevelInfoDef, [], [], [], [], []⟩

end MapGeneration


/-! ## Building names (`MapGeneration.cpp`) -/

/-- Embeds `ArenaTypes::MenuType`, the kinds of `*MENU` voxel (the header is not among the
sources; the generators compare against `Tavern`, `Equipment` and `Temple` only). -/
inductive MenuType where
  | None
  | CityGates
  | Crypt
  | Dungeon
  | Equipment
  | House
  | MagesGuild
  | Noble
  | Palace
  | Tavern
  | Temple
  | Tower
deriving DecidableEq

/-- Embeds `ExeData::cityGen`, the name tables the generators index. -/
structure CityGenData where
  tavernPrefixes : List String
  tavernSuffixes : List String
  tavernMarineSuffixes : List String
  equipmentPrefixes : List String
  equipmentSuffixes : List String
  templePrefixes : List String
  temple1Suffixes : List String
  temple2Suffixes : List String
  temple3Suffixes : List String

/-- The dimensions of a wilderness chunk, `RMDFile::WIDTH` and `RMDFile::DEPTH` (their
header is not among the sources; the values are parameters). -/
structure RMDFile where
  WIDTH : Nat
  DEPTH : Nat

/-- The pass-wide arguments of the name generators whose code is not among the sources:
`next` is `ArenaRandom::next` as a function from the state of the generator to the number
drawn and the new state (constructing an `ArenaRandom` from a seed, and `srand`, set the
state to the seed); `getMenuType` is `ArenaVoxelUtils::getMenuType`;
`substituteEquipmentTokens` is the replacement of `%ct`, `%ef` and `%n` in an equipment
store name for the voxel at `(x, z)`, which calls the text asset library. -/
structure NameContext where
  cityGen : CityGenData
  rmd : RMDFile
  next : Nat → Nat × Nat
  getMenuType : Option Int → WorldType → MenuType
  substituteEquipmentTokens : String → Nat → Nat → String

/-- Embeds `LocationDefinition::CityDefinition::MainQuestTempleOverride` (its header is
not among the sources; the generator reads these three members). -/
structure MainQuestTempleOverride where
  modelIndex : Nat
  suffixIndex : Nat
  menuNamesIndex : Nat

namespace MapGeneration

/-- The pair `DebugAssertIndex(container, index); container[index]`. -/
def assertIndex (container : List String) (index : Nat) : Except Fatal String :=
  match container[index]? with
  | some str => .ok str
  | none => .error Fatal.assertion

/-- The lambda `createTavernName` of `generateArenaWildChunkBuildingNames`, and of
`generateArenaCityBuildingNames` with its choice of suffix table made by the caller. -/
def createTavernName (tavernPrefixes tavernSuffixes : List String)
    (prefixIndex suffixIndex : Nat) : Except Fatal String :=
  match assertIndex tavernPrefixes prefixIndex with
  | .error e => .error e
  | .ok pre =>
    match assertIndex tavernSuffixes suffixIndex with
    | .error e => .error e
    | .ok suf => .ok (pre ++ " " ++ suf)

/-- The lambda `createTempleName` (the same in both generators). -/
def createTempleName (cityGen : CityGenData) (model suffixIndex : Nat) :
    Except Fatal String :=
  let suffixes :=
    if model = 0 then cityGen.temple1Suffixes
    else if model = 1 then cityGen.temple2Suffixes
    else cityGen.temple3Suffixes
  match assertIndex suffixes suffixIndex with
  | .error e => .error e
  | .ok templeSuffix =>
    match assertIndex cityGen.templePrefixes model with
    | .error e => .error e
    | .ok pre => .ok (pre ++ templeSuffix)

/-- The lambda `matchesTargetType`: the voxel at `(x, 1, z)` is a `*MENU` wall whose menu
type, in the given world type, is the target. `WallData::isMenu` is the wall kind Menu. -/
def matchesTargetType {E : Type} (nc : NameContext) (worldType : WorldType)
    (levelDef : LevelDefinition) (levelInfoDef : LevelInfoDefinition E)
    (menuType : MenuType) (x z : Nat) : Except Fatal Bool :=
  match levelInfoDef.getVoxelDef (levelDef.getVoxel x 1 z) with
  | .error e => .error e
  | .ok voxelDef =>
    match voxelDef with
    | VoxelDefinition.Wall _ _ _ menuID type =>
      .ok (decide (type = WallType.Menu) && decide (nc.getMenuType menuID worldType = menuType))
    | _ => .ok false

/-- Embeds `MapGeneration::WildChunkBuildingNameInfo`: the chunk and its map from menu
type to building name ID. -/
structure WildChunkBuildingNameInfo where
  chunk : Int2
  ids : List (MenuType × Nat)

/-- Embeds `WildChunkBuildingNameInfo::init`. -/
def WildChunkBuildingNameInfo.init (chunk : Int2) : WildChunkBuildingNameInfo :=
  ⟨chunk, []⟩

/-- The map update of `setBuildingNameID`: the entry of the menu type is overwritten if
there is one, else added. -/
def setMenuTypeID (menuType : MenuType) (id : Nat) :
    List (MenuType × Nat) → List (MenuType × Nat)
  | [] => [(menuType, id)]
  | (m, i) :: rest =>
    if m = menuType then (m, id) :: rest else (m, i) :: setMenuTypeID menuType id rest

/-- Embeds `WildChunkBuildingNameInfo::setBuildingNameID`. -/
def WildChunkBuildingNameInfo.setBuildingNameID (info : WildChunkBuildingNameInfo)
    (menuType : MenuType) (id : Nat) : WildChunkBuildingNameInfo :=
  { info with ids := setMenuTypeID menuType id info.ids }

/-- Embeds `WildChunkBuildingNameInfo::tryGetBuildingNameID`. -/
def WildChunkBuildingNameInfo.tryGetBuildingNameID (info : WildChunkBuildingNameInfo)
    (menuType : MenuType) : Option Nat :=
  info.ids.lookup menuType

/-- Embeds `WildChunkBuildingNameInfo::hasBuildingNames`. -/
def WildChunkBuildingNameInfo.hasBuildingNames (info : WildChunkBuildingNameInfo) : Bool :=
  decide (info.ids.length > 0)

/-- What `generateArenaWildChunkBuildingNames` writes through its pointers:
`outBuildingNameInfo`, `outLevelInfoDef` and `buildingNameMappings` (an
`ArenaBuildingNameMappingCache`, from name to building name ID). -/
structure WildNamesOut (E : Type) where
  buildingNameInfo : WildChunkBuildingNameInfo
  levelInfoDef : LevelInfoDefinition E
  buildingNameMappings : List (String × Nat)

/-- The lambda that makes `name` in the wilderness `tryGenerateBlockName`, with a
generator freshly constructed from the chunk seed. -/
def wildBlockName (nc : NameContext) (wildChunkSeed : Nat) (menuType : MenuType) :
    Except Fatal String :=
  let r1 := nc.next wildChunkSeed
  let r2 := nc.next r1.2
  if menuType = MenuType.Tavern then
    createTavernName nc.cityGen.tavernPrefixes nc.cityGen.tavernSuffixes (r1.1 % 23)
      (r2.1 % 23)
  else if menuType = MenuType.Temple then
    let model := r1.1 % 3
    let vars := if model = 0 then 5 else if model = 1 then 9 else 10
    createTempleName nc.cityGen model (r2.1 % vars)
  else .error Fatal.unhandledMenuType

/-- The block "set building name info for the given menu type" of the wilderness
`tryGenerateBlockName`. -/
def recordWildName {E : Type} (name : String) (menuType : MenuType) (s : WildNamesOut E) :
    WildNamesOut E :=
  match s.buildingNameMappings.lookup name with
  | some id =>
    { s with buildingNameInfo := s.buildingNameInfo.setBuildingNameID menuType id }
  | none =>
    let r := s.levelInfoDef.addBuildingName name
    { buildingNameInfo := s.buildingNameInfo.setBuildingNameID menuType r.1
      levelInfoDef := r.2
      buildingNameMappings := (name, r.1) :: s.buildingNameMappings }

/-- The lambda `tryGenerateBlockName` of `generateArenaWildChunkBuildingNames`; the
Boolean is its return value. -/
def wildTryGenerateBlockName {E : Type} (nc : NameContext) (wildChunkSeed : Nat)
    (levelDef : LevelDefinition) (menuType : MenuType) (x z : Nat) (s : WildNamesOut E) :
    Except Fatal (Bool × WildNamesOut E) :=
  match matchesTargetType nc WorldType.Wilderness levelDef s.levelInfoDef menuType x z with
  | .error e => .error e
  | .ok false => .ok (false, s)
  | .ok true =>
    match wildBlockName nc wildChunkSeed menuType with
    | .error e => .error e
    | .ok name => .ok (true, recordWildName name menuType s)

/-- The inner loop of the chunk scan: `z` runs over `zs` until `tryGenerateBlockName`
returns true, which is where the `break` leaves this loop. -/
def wildScanRow {E : Type} (nc : NameContext) (wildChunkSeed : Nat)
    (levelDef : LevelDefinition) (menuType : MenuType) (x : Nat) :
    List Nat → WildNamesOut E → Except Fatal (WildNamesOut E)
  | [], s => .ok s
  | z :: zs, s =>
    match wildTryGenerateBlockName nc wildChunkSeed levelDef menuType x z s with
    | .error e => .error e
    | .ok (true, s1) => .ok s1
    | .ok (false, s1) => wildScanRow nc wildChunkSeed levelDef menuType x zs s1

/-- The outer loop of the chunk scan: every row `x` is scanned. -/
def wildScanRows {E : Type} (nc : NameContext) (wildChunkSeed : Nat)
    (levelDef : LevelDefinition) (menuType : MenuType) :
    List Nat → WildNamesOut E → Except Fatal (WildNamesOut E)
  | [], s => .ok s
  | x :: xs, s =>
    match wildScanRow nc wildChunkSeed levelDef menuType x (List.range nc.rmd.WIDTH) s with
    | .error e => .error e
    | .ok s1 => wildScanRows nc wildChunkSeed levelDef menuType xs s1

/-- The lambda `tryGenerateChunkBuildingName`. -/
def tryGenerateChunkBuildingName {E : Type} (nc : NameContext) (wildChunkSeed : Nat)
    (levelDef : LevelDefinition) (menuType : MenuType) (s : WildNamesOut E) :
    Except Fatal (WildNamesOut E) :=
  wildScanRows nc wildChunkSeed levelDef menuType (List.range nc.rmd.DEPTH) s

/-- Embeds `generateArenaWildChunkBuildingNames`. -/
def generateArenaWildChunkBuildingNames {E : Type} (nc : NameContext) (wildChunkSeed : Nat)
    (levelDef : LevelDefinition) (s : WildNamesOut E) : Except Fatal (WildNamesOut E) :=
  match tryGenerateChunkBuildingName nc wildChunkSeed levelDef MenuType.Tavern s with
  | .error e => .error e
  | .ok s1 => tryGenerateChunkBuildingName nc wildChunkSeed levelDef MenuType.Temple s1

/-- The scan of the specification, which stops at the first qualifying voxel: the cells
`(x, z)` are visited in the order of the source loops until `tryGenerateBlockName`
returns true. -/
def wildScanUntilFirst {E : Type} (nc : NameContext) (wildChunkSeed : Nat)
    (levelDef : LevelDefinition) (menuType : MenuType) :
    List (Nat × Nat) → WildNamesOut E → Except Fatal (WildNamesOut E)
  | [], s => .ok s
  | (x, z) :: rest, s =>
    match wildTryGenerateBlockName nc wildChunkSeed levelDef menuType x z s with
    | .error e => .error e
    | .ok (true, s1) => .ok s1
    | .ok (false, s1) => wildScanUntilFirst nc wildChunkSeed levelDef menuType rest s1

/-- The cells of a chunk in the order of the source loops: `x` outermost. -/
def wildCells (rmd : RMDFile) : List (Nat × Nat) :=
  (List.range rmd.DEPTH).flatMap fun x => (List.range rmd.WIDTH).map fun z => (x, z)

/-- The generator of the specification: for taverns and then for temples, the scan that
stops at the first qualifying voxel. -/
def generateWildChunkBuildingNamesFirst {E : Type} (nc : NameContext) (wildChunkSeed : Nat)
    (levelDef : LevelDefinition) (s : WildNamesOut E) : Except Fatal (WildNamesOut E) :=
  match wildScanUntilFirst nc wildChunkSeed levelDef MenuType.Tavern (wildCells nc.rmd) s with
  | .error e => .error e
  | .ok s1 => wildScanUntilFirst nc wildChunkSeed levelDef MenuType.Temple (wildCells nc.rmd) s1

/-- What `generateArenaCityBuildingNames` reads and writes through its references: the
state of `random`, `outLevelDef` and `outLevelInfoDef`. -/
structure CityNamesOut (E : Type) where
  random : Nat
  levelDef : LevelDefinition
  levelInfoDef : LevelInfoDefinition E

/-- The expression `(prefixIndex << 8) + suffixIndex` (for a temple,
`(model << 8) + suffixIndex`) that the city generator keeps in `seen`. -/
def nameHash (prefixIndex suffixIndex : Nat) : Nat :=
  (prefixIndex <<< 8) + suffixIndex

/-- The value `(localCityPoint.x << 16) + localCityPoint.y` stored in the 32-bit
`citySeed` and handed to `random.srand`. -/
def cityReseed (localCityPoint : Int2) : Nat :=
  ((localCityPoint.x * 65536 + localCityPoint.y) % 4294967296).toNat

/-- One pass through the body of the `do ... while (hashInSeen(hash))` loop of the menu
type: the two indices drawn and the state of `random` after the pass. The last arm is
the temple one, as in the source. -/
def cityDraw (nc : NameContext) (menuType : MenuType) (state : Nat) : Nat × Nat × Nat :=
  let r1 := nc.next state
  let r2 := nc.next r1.2
  if menuType = MenuType.Tavern then (r1.1 % 23, r2.1 % 23, r2.2)
  else if menuType = MenuType.Equipment then (r1.1 % 20, r2.1 % 10, r2.2)
  else
    let model := r1.1 % 3
    let vars := if model = 0 then 5 else if model = 1 then 9 else 10
    (model, r2.1 % vars, r2.2)

/-- The loop `do ... while (hashInSeen(hash))`, run for at most `fuel` passes: the
indices of the first pass whose hash is not in `seen` and the state of `random` after
it, `none` when the passes run out first. -/
def cityDrawFresh (nc : NameContext) (menuType : MenuType) (seen : List Nat) :
    Nat → Nat → Option (Nat × Nat × Nat)
  | 0, _ => none
  | fuel + 1, state =>
    let d := cityDraw nc menuType state
    if nameHash d.1 d.2.1 ∈ seen then cityDrawFresh nc menuType seen fuel d.2.2
    else some d

/-- The lambda `createEquipmentName`; the replacement of the tokens of the name is the
parameter `substituteEquipmentTokens`. -/
def createEquipmentName (nc : NameContext) (prefixIndex suffixIndex x z : Nat) :
    Except Fatal String :=
  match assertIndex nc.cityGen.equipmentPrefixes prefixIndex with
  | .error e => .error e
  | .ok pre =>
    match assertIndex nc.cityGen.equipmentSuffixes suffixIndex with
    | .error e => .error e
    | .ok suf => .ok (nc.substituteEquipmentTokens (pre ++ " " ++ suf) x z)

/-- The name of the city `tryGenerateBlockName` for the indices drawn: `createTavernName`
(with the marine suffixes in a coastal city), `createEquipmentName` or
`createTempleName`. -/
def cityBlockName (nc : NameContext) (coastal : Bool) (menuType : MenuType)
    (prefixIndex suffixIndex x z : Nat) : Except Fatal String :=
  if menuType = MenuType.Tavern then
    createTavernName nc.cityGen.tavernPrefixes
      (if coastal then nc.cityGen.tavernMarineSuffixes else nc.cityGen.tavernSuffixes)
      prefixIndex suffixIndex
  else if menuType = MenuType.Equipment then
    createEquipmentName nc prefixIndex suffixIndex x z
  else createTempleName nc.cityGen prefixIndex suffixIndex

/-- The lambda `tryGenerateBlockName` of `generateArenaCityBuildingNames`, on the pair of
the local vector `seen` and the outputs; `none` when a draw loop runs out of passes. -/
def cityTryGenerateBlockName {E : Type} (fuel : Nat) (nc : NameContext) (coastal : Bool)
    (menuType : MenuType) (x z : Nat) (acc : List Nat × CityNamesOut E) :
    Option (Except Fatal (List Nat × CityNamesOut E)) :=
  match matchesTargetType nc WorldType.City acc.2.levelDef acc.2.levelInfoDef menuType x z with
  | .error e => some (.error e)
  | .ok false => some (.ok acc)
  | .ok true =>
    match cityDrawFresh nc menuType acc.1 fuel acc.2.random with
    | none => none
    | some (prefixIndex, suffixIndex, state) =>
      match cityBlockName nc coastal menuType prefixIndex suffixIndex x z with
      | .error e => some (.error e)
      | .ok name =>
        let r := acc.2.levelInfoDef.addBuildingName name
        some (.ok (acc.1 ++ [nameHash prefixIndex suffixIndex],
          { random := state
            levelDef := acc.2.levelDef.addBuildingName r.1 (x, 1, z)
            levelInfoDef := r.2 }))

/-- The two loops of `generateNames` over the main-floor voxels, as a pass over the list
of their cells. -/
def cityScan {E : Type} (fuel : Nat) (nc : NameContext) (coastal : Bool)
    (menuType : MenuType) :
    List (Nat × Nat) → List Nat × CityNamesOut E →
      Option (Except Fatal (List Nat × CityNamesOut E))
  | [], acc => some (.ok acc)
  | (x, z) :: rest, acc =>
    match cityTryGenerateBlockName fuel nc coastal menuType x z acc with
    | none => none
    | some (.error e) => some (.error e)
    | some (.ok acc1) => cityScan fuel nc coastal menuType rest acc1

/-- The cells of the loops of `generateNames`, in their order: `x` below `getWidth()`
outermost, `z` below `getDepth()` innermost. -/
def cityCells (levelDef : LevelDefinition) : List (Nat × Nat) :=
  (List.range levelDef.width).flatMap fun x => (List.range levelDef.depth).map fun z => (x, z)

/-- The lambda `generateNames`: reseeding for equipment stores and temples, the scan, and
the main quest temple override. The vector `seen`, local to the lambda, is returned next
to the outputs so that it can be spoken about. -/
def generateNames {E : Type} (fuel : Nat) (nc : NameContext) (localCityPoint : Int2)
    (coastal : Bool) (mainQuestTempleOverride : Option MainQuestTempleOverride)
    (menuType : MenuType) (s : CityNamesOut E) :
    Option (Except Fatal (List Nat × CityNamesOut E)) :=
  let s0 : CityNamesOut E :=
    if menuType = MenuType.Equipment ∨ menuType = MenuType.Temple then
      { s with random := cityReseed localCityPoint }
    else s
  match cityScan fuel nc coastal menuType (cityCells s0.levelDef) ([], s0) with
  | none => none
  | some (.error e) => some (.error e)
  | some (.ok (seen, s1)) =>
    match (if menuType = MenuType.Temple then mainQuestTempleOverride else none) with
    | none => some (.ok (seen, s1))
    | some o =>
      match createTempleName nc.cityGen o.modelIndex o.suffixIndex with
      | .error e => some (.error e)
      | .ok buildingName =>
        some (.ok (seen, { s1 with
          levelInfoDef := s1.levelInfoDef.setBuildingNameOverride o.menuNamesIndex buildingName }))

/-- Embeds `generateArenaCityBuildingNames`: taverns, equipment stores, temples. -/
def generateArenaCityBuildingNames {E : Type} (fuel : Nat) (nc : NameContext)
    (localCityPoint : Int2) (coastal : Bool)
    (mainQuestTempleOverride : Option MainQuestTempleOverride) (s : CityNamesOut E) :
    Option (Except Fatal (CityNamesOut E)) :=
  match generateNames fuel nc localCityPoint coastal mainQuestTempleOverride
      MenuType.Tavern s with
  | none => none
  | some (.error e) => some (.error e)
  | some (.ok (_, s1)) =>
    match generateNames fuel nc localCityPoint coastal mainQuestTempleOverride
        MenuType.Equipment s1 with
    | none => none
    | some (.error e) => some (.error e)
    | some (.ok (_, s2)) =>
      match generateNames fuel nc localCityPoint coastal mainQuestTempleOverride
          MenuType.Temple s2 with
      | none => none
      | some (.error e) => some (.error e)
      | some (.ok (_, s3)) => some (.ok s3)

end MapGeneration
/-! ## Dungeon generation (`MapGeneration.cpp`) -/

/-- The code the dungeon generator calls that is not among the sources, as parameters:
the constant and the four functions of `ArenaInteriorUtils` (coordinates and packed blocks
are natural numbers), `ArenaRandom::next` as a function from the state of the generator
to the number drawn and the new state (`getSeed` returns the state and `srand` sets it),
and the `.INF` getters and the string function of `makeTriggerDefFromArenaTrigger`. -/
structure DungeonContext where
  DUNGEON_CHUNK_DIM : Nat
  packLevelChangeVoxel : Nat → Nat → Nat
  unpackLevelChangeVoxel : Nat → Nat × Nat
  offsetLevelChangeVoxel : Nat → Nat
  convertLevelChangeVoxel : Nat → Nat
  next : Nat → Nat × Nat
  hasTextIndex : Int → Bool
  getText : Int → String × Bool
  getSound : Int → String
  toUppercase : String → String

/-- Embeds `MIFFile`, the part the dungeon generator reads. -/
structure MIFFile where
  width : Nat
  depth : Nat
  levels : List MapGeneration.MIFLevel

/-- Embeds `Buffer2D<ArenaTypes::VoxelID>` (its header is not among the sources): a
buffer of the given size, kept as the list of its `set` calls, newest first, over the
zeroes of `fill(0)`. -/
structure Buffer2D where
  width : Nat
  height : Nat
  cells : List ((Nat × Nat) × Nat)

namespace Buffer2D

/-- The constructor followed by `fill(0)`. -/
def filled (width height : Nat) : Buffer2D :=
  ⟨width, height, []⟩

/-- Embeds `Buffer2D::get`. -/
def get (b : Buffer2D) (x z : Nat) : Nat :=
  (b.cells.lookup (x, z)).getD 0

/-- Embeds `Buffer2D::set`, whose coordinates are asserted to lie in the buffer. -/
def set (b : Buffer2D) (x z value : Nat) : Except Fatal Buffer2D :=
  if x < b.width ∧ z < b.height then .ok { b with cells := ((x, z), value) :: b.cells }
  else .error Fatal.assertion

/-- The read-only view `BufferView2D(buffer.get(), getWidth(), getHeight())`. -/
def view (b : Buffer2D) : BufferView2D :=
  ⟨b.width, b.height, b.get⟩

end Buffer2D

namespace MapGeneration

/-- Runs a loop body over the elements in order; a fatal diagnostic ends the loop. -/
def forEach {α σ : Type} (body : σ → α → Except Fatal σ) : List α → σ → Except Fatal σ
  | [], s => .ok s
  | a :: rest, s =>
    match body s a with
    | .error e => .error e
    | .ok s1 => forEach body rest s1

/-- Embeds `makeLockDefFromArenaLock`. -/
def makeLockDefFromArenaLock (lock : MIFLock) : LockDefinition :=
  let newLockPos := VoxelUtils.originalVoxelToNewVoxel ⟨lock.x, lock.y⟩
  ⟨newLockPos.x.toNat, 1, newLockPos.y.toNat, lock.lockLevel⟩

/-- Embeds `makeTriggerDefFromArenaTrigger`. -/
def makeTriggerDefFromArenaTrigger (dc : DungeonContext) (trigger : MIFTrigger) :
    TriggerDefinition :=
  let newTriggerPos := VoxelUtils.originalVoxelToNewVoxel ⟨trigger.x, trigger.y⟩
  let isTextTrigger := decide (trigger.textIndex ≠ -1)
  let isSoundTrigger := decide (trigger.soundIndex ≠ -1)
  { x := newTriggerPos.x.toNat
    y := 1
    z := newTriggerPos.y.toNat
    textDef :=
      (if isTextTrigger && dc.hasTextIndex trigger.textIndex then
        some (dc.getText trigger.textIndex)
      else none)
    soundDef :=
      (if isSoundTrigger then some (dc.toUppercase (dc.getSound trigger.soundIndex))
      else none) }

/-- The outputs that the chunk loop of `generateArenaDungeonLevel` writes, with its two
local buffers and the state of `random`. -/
structure LevelBuffers (E : Type) where
  random : Nat
  levelFLOR : Buffer2D
  levelMAP1 : Buffer2D
  levelDef : LevelDefinition
  levelInfoDef : LevelInfoDefinition E
  lockMappings : List (MIFLock × Nat)
  triggerMappings : List (MIFTrigger × Nat)

/-- Embeds `readArenaLock`; `getLockDef` asserts its index. -/
def readArenaLock {E : Type} (lock : MIFLock) (s : LevelBuffers E) :
    Except Fatal (LevelBuffers E) :=
  let found := s.lockMappings.find? fun pair =>
    decide (pair.1.x = lock.x) && decide (pair.1.y = lock.y) &&
      decide (pair.1.lockLevel = lock.lockLevel)
  let r : Nat × LevelInfoDefinition E × List (MIFLock × Nat) :=
    match found with
    | some pair => (pair.2, s.levelInfoDef, s.lockMappings)
    | none =>
      let a := s.levelInfoDef.addLockDef (makeLockDefFromArenaLock lock)
      (a.1, a.2, s.lockMappings ++ [(lock, a.1)])
  match r.2.1.lockDefs[r.1]? with
  | none => .error Fatal.assertion
  | some lockDef =>
    .ok { s with
          levelDef := s.levelDef.addLock r.1 (lockDef.x, lockDef.y, lockDef.z)
          levelInfoDef := r.2.1
          lockMappings := r.2.2 }

/-- Embeds `readArenaTrigger`; `getTriggerDef` asserts its index. -/
def readArenaTrigger {E : Type} (dc : DungeonContext) (trigger : MIFTrigger)
    (s : LevelBuffers E) : Except Fatal (LevelBuffers E) :=
  let found := s.triggerMappings.find? fun pair =>
    decide (pair.1.x = trigger.x) && decide (pair.1.y = trigger.y) &&
      decide (pair.1.textIndex = trigger.textIndex) &&
      decide (pair.1.soundIndex = trigger.soundIndex)
  let r : Nat × LevelInfoDefinition E × List (MIFTrigger × Nat) :=
    match found with
    | some pair => (pair.2, s.levelInfoDef, s.triggerMappings)
    | none =>
      let a := s.levelInfoDef.addTriggerDef (makeTriggerDefFromArenaTrigger dc trigger)
      (a.1, a.2, s.triggerMappings ++ [(trigger, a.1)])
  match r.2.1.triggerDefs[r.1]? with
  | none => .error Fatal.assertion
  | some triggerDef =>
    .ok { s with
          levelDef := s.levelDef.addTrigger r.1 (triggerDef.x, triggerDef.y, triggerDef.z)
          levelInfoDef := r.2.1
          triggerMappings := r.2.2 }

/-- The body of the loops "copy block data to temp buffers" for the cell `(x, z)` of the
block. -/
def copyBlockCell {E : Type} (blockFLOR blockMAP1 : BufferView2D) (xOffset zOffset : Nat)
    (s : LevelBuffers E) (cell : Nat × Nat) : Except Fatal (LevelBuffers E) :=
  let x := cell.1
  let z := cell.2
  let srcFlorVoxel := blockFLOR.get x z
  let srcMap1Voxel := blockMAP1.get x z
  let dstX := xOffset + x
  let dstZ := zOffset + z
  match s.levelFLOR.set dstX dstZ srcFlorVoxel with
  | .error e => .error e
  | .ok levelFLOR =>
    match s.levelMAP1.set dstX dstZ srcMap1Voxel with
    | .error e => .error e
    | .ok levelMAP1 => .ok { s with levelFLOR := levelFLOR, levelMAP1 := levelMAP1 }

/-- The body of the chunk loops of `generateArenaDungeonLevel` for the chunk in column
`cell.1` of row `cell.2`: a block is drawn and copied, then its locks and its triggers
are read at the place of the chunk. `getLevel` asserts its index. -/
def placeChunk {E : Type} (dc : DungeonContext) (mif : MIFFile) (tileSet : Nat)
    (s : LevelBuffers E) (cell : Nat × Nat) : Except Fatal (LevelBuffers E) :=
  let column := cell.1
  let row := cell.2
  let zOffset := row * dc.DUNGEON_CHUNK_DIM
  let xOffset := column * dc.DUNGEON_CHUNK_DIM
  let r := dc.next s.random
  let blockIndex := (tileSet * 8) + (r.1 % 8)
  match mif.levels[blockIndex]? with
  | none => .error Fatal.assertion
  | some blockLevel =>
    let blockCells : List (Nat × Nat) :=
      (List.range dc.DUNGEON_CHUNK_DIM).flatMap fun z =>
        (List.range dc.DUNGEON_CHUNK_DIM).map fun x => (x, z)
    match forCells (copyBlockCell blockLevel.flor blockLevel.map1 xOffset zOffset) blockCells
        { s with random := r.2 } with
    | .error e => .error e
    | .ok s1 =>
      match forEach (fun (t : LevelBuffers E) (lock : MIFLock) =>
          readArenaLock ⟨xOffset + lock.x, zOffset + lock.y, lock.lockLevel⟩ t)
          blockLevel.lock s1 with
      | .error e => .error e
      | .ok s2 =>
        forEach (fun (t : LevelBuffers E) (trigger : MIFTrigger) =>
          readArenaTrigger dc
            ⟨xOffset + trigger.x, zOffset + trigger.y, trigger.textIndex, trigger.soundIndex⟩ t)
          blockLevel.trig s2

/-- The block "draw perimeter blocks" of `generateArenaDungeonLevel`: code 0x7800 on the
first and the last row, then on the first and the last column of the rows between. -/
def drawPerimeter (levelMAP1 : Buffer2D) : Except Fatal Buffer2D :=
  let perimeterVoxel := 0x7800
  match forEach (fun (b : Buffer2D) (x : Nat) =>
      match b.set x 0 perimeterVoxel with
      | .error e => .error e
      | .ok b1 => b1.set x (b1.height - 1) perimeterVoxel)
      (List.range levelMAP1.width) levelMAP1 with
  | .error e => .error e
  | .ok b =>
    forEach (fun (b : Buffer2D) (z : Nat) =>
      match b.set 0 z perimeterVoxel with
      | .error e => .error e
      | .ok b1 => b1.set (b1.width - 1) z perimeterVoxel)
      (List.range' 1 (b.height - 2)) b

/-- The cell of the level buffers that a packed transition block stands for:
`unpackLevelChangeVoxel`, then `offsetLevelChangeVoxel` on each coordinate. -/
def levelChangeCell (dc : DungeonContext) (block : Nat) : Nat × Nat :=
  let xz := dc.unpackLevelChangeVoxel block
  (dc.offsetLevelChangeVoxel xz.1, dc.offsetLevelChangeVoxel xz.2)

/-- The code stamped for a `*LEVELUP` or `*LEVELDOWN` index: the index plus one, as a
`uint8_t`, through `convertLevelChangeVoxel`. -/
def levelChangeCode (dc : DungeonContext) (index : Int) : Nat :=
  dc.convertLevelChangeVoxel ((index + 1) % 256).toNat

/-- The block "put transition block(s)" of `generateArenaDungeonLevel`. -/
def stampTransitions (dc : DungeonContext) (inf : INFFile) (levelUpBlock : Nat)
    (levelDownBlock : Option Nat) (levelMAP1 : Buffer2D) : Except Fatal Buffer2D :=
  match inf.getLevelUpIndex with
  | none => .error Fatal.emptyOptional
  | some levelUpIndex =>
    match levelMAP1.set (levelChangeCell dc levelUpBlock).1 (levelChangeCell dc levelUpBlock).2
        (levelChangeCode dc levelUpIndex) with
    | .error e => .error e
    | .ok b =>
      match levelDownBlock with
      | none => .ok b
      | some block =>
        match inf.getLevelDownIndex with
        | none => .error Fatal.emptyOptional
        | some levelDownIndex =>
          b.set (levelChangeCell dc block).1 (levelChangeCell dc block).2
            (levelChangeCode dc levelDownIndex)

/-- The caches of `generateMifDungeon`, the catalog and the state of `random`, which the
levels share. -/
structure DungeonState (E : Type) where
  random : Nat
  levelInfoDef : LevelInfoDefinition E
  florMappings : MappingCache
  map1Mappings : MappingCache
  entityMappings : MappingCache
  lockMappings : List (MIFLock × Nat)
  triggerMappings : List (MIFTrigger × Nat)
  transitionMappings : MappingCache

/-- The first part of `generateArenaDungeonLevel`, up to the conversion of the buffers:
the two buffers are made and filled, the tile set is drawn, the chunks are placed (rows
outermost), the perimeter is drawn and the transition blocks are stamped. -/
def assembleDungeonLevel {E : Type} (dc : DungeonContext) (ctx : Context E) (mif : MIFFile)
    (widthChunks depthChunks levelUpBlock : Nat) (levelDownBlock : Option Nat)
    (levelDef : LevelDefinition) (st : DungeonState E) : Except Fatal (LevelBuffers E) :=
  let levelFLOR := Buffer2D.filled (mif.width * widthChunks) (mif.depth * depthChunks)
  let levelMAP1 := Buffer2D.filled levelFLOR.width levelFLOR.height
  let r := dc.next st.random
  let tileSet := r.1 % 4
  let chunks : List (Nat × Nat) :=
    (List.range depthChunks).flatMap fun row =>
      (List.range widthChunks).map fun column => (column, row)
  match forCells (placeChunk dc mif tileSet) chunks
      ⟨r.2, levelFLOR, levelMAP1, levelDef, st.levelInfoDef, st.lockMappings,
        st.triggerMappings⟩ with
  | .error e => .error e
  | .ok s =>
    match drawPerimeter s.levelMAP1 with
    | .error e => .error e
    | .ok perimeter =>
      match stampTransitions dc ctx.inf levelUpBlock levelDownBlock perimeter with
      | .error e => .error e
      | .ok stamped => .ok { s with levelMAP1 := stamped }

/-- Embeds `generateArenaDungeonLevel`: the buffers are assembled, read by `readArenaFLOR`
and `readArenaMAP1`, and the ceiling is made unless the dungeon is an outdoor one. -/
def generateArenaDungeonLevel {E : Type} (dc : DungeonContext) (ctx : Context E)
    (mif : MIFFile) (widthChunks depthChunks levelUpBlock : Nat) (levelDownBlock : Option Nat)
    (levelDef : LevelDefinition) (st : DungeonState E) :
    Except Fatal (LevelDefinition × DungeonState E) :=
  match assembleDungeonLevel dc ctx mif widthChunks depthChunks levelUpBlock levelDownBlock
      levelDef st with
  | .error e => .error e
  | .ok s =>
    match readArenaFLOR ctx s.levelFLOR.view
        ⟨s.levelDef, s.levelInfoDef, st.florMappings, st.entityMappings,
          st.transitionMappings⟩ with
    | .error e => .error e
    | .ok f =>
      match readArenaMAP1 ctx s.levelMAP1.view
          ⟨f.levelDef, f.levelInfoDef, st.map1Mappings, f.entityCache, f.transitionCache⟩ with
      | .error e => .error e
      | .ok m =>
        let r :=
          if !ctx.inf.getCeiling.outdoorDungeon then
            readArenaCeiling ctx.inf m.levelDef m.levelInfoDef
          else (m.levelDef, m.levelInfoDef)
        .ok (r.1,
          { random := s.random
            levelInfoDef := r.2
            florMappings := f.voxelCache
            map1Mappings := m.voxelCache
            entityMappings := m.entityCache
            lockMappings := s.lockMappings
            triggerMappings := s.triggerMappings
            transitionMappings := m.transitionCache })

/-- The lambda `getNextTransBlock` of `generateMifDungeon`: the packed block and the
state of `random` after its two draws. -/
def getNextTransBlock (dc : DungeonContext) (widthChunks depthChunks random : Nat) :
    Nat × Nat :=
  let r1 := dc.next random
  let tY := r1.1 % depthChunks
  let r2 := dc.next r1.2
  let tX := r2.1 % widthChunks
  (dc.packLevelChangeVoxel tX tY, r2.2)

/-- The loop `do { transBlock = getNextTransBlock(); } while (transBlock ==
transitions.back())`, run for at most `fuel` passes, where `back` is the block pushed
last: the block it leaves with and the state of `random`, `none` when the passes run out
first. -/
def nextDistinctTransBlock (dc : DungeonContext) (widthChunks depthChunks back : Nat) :
    Nat → Nat → Option (Nat × Nat)
  | 0, _ => none
  | fuel + 1, random =>
    let r := getNextTransBlock dc widthChunks depthChunks random
    if r.1 = back then nextDistinctTransBlock dc widthChunks depthChunks back fuel r.2
    else some r

/-- The loop `for (int i = 1; i < levelCount; i++)` of `generateMifDungeon` with `count`
passes left: the blocks it pushes, in order, after the block `back` pushed last. -/
def addTransitions (fuel : Nat) (dc : DungeonContext) (widthChunks depthChunks : Nat) :
    Nat → Nat → Nat → Option (List Nat × Nat)
  | 0, _, random => some ([], random)
  | count + 1, back, random =>
    match nextDistinctTransBlock dc widthChunks depthChunks back fuel random with
    | none => none
    | some (transBlock, random1) =>
      match addTransitions fuel dc widthChunks depthChunks count transBlock random1 with
      | none => none
      | some (rest, random2) => some (transBlock :: rest, random2)

/-- The vector `transitions` of `generateMifDungeon` once it is filled: the block of the
initial case, then those of the general case. -/
def chooseTransitions (fuel : Nat) (dc : DungeonContext)
    (widthChunks depthChunks levelCount random : Nat) : Option (List Nat × Nat) :=
  let first := getNextTransBlock dc widthChunks depthChunks random
  match addTransitions fuel dc widthChunks depthChunks (levelCount - 1) first.1 first.2 with
  | none => none
  | some (rest, random1) => some (first.1 :: rest, random1)

/-- The lambda that makes `levelDownBlock` for level `i`; `DebugMakeIndex` asserts the
index. -/
def levelDownBlockOf (transitions : List Nat) (levelCount i : Nat) :
    Except Fatal (Option Nat) :=
  if i + 1 < levelCount then
    match transitions[i + 1]? with
    | some block => .ok (some block)
    | none => .error Fatal.assertion
  else .ok none

/-- The body of the loop "generate each level" of `generateMifDungeon` for level `i`;
the indices into `transitions` and `outLevelDefs` are asserted. -/
def generateDungeonLevel {E : Type} (dc : DungeonContext) (ctx : Context E) (mif : MIFFile)
    (levelCount widthChunks depthChunks seed2 : Nat) (transitions : List Nat)
    (s : List LevelDefinition × DungeonState E) (i : Nat) :
    Except Fatal (List LevelDefinition × DungeonState E) :=
  let st : DungeonState E := { s.2 with random := (seed2 + i) % 4294967296 }
  match transitions[i]? with
  | none => .error Fatal.assertion
  | some levelUpBlock =>
    match levelDownBlockOf transitions levelCount i with
    | .error e => .error e
    | .ok levelDownBlock =>
      match s.1[i]? with
      | none => .error Fatal.assertion
      | some levelDef =>
        match generateArenaDungeonLevel dc ctx mif widthChunks depthChunks levelUpBlock
            levelDownBlock levelDef st with
        | .error e => .error e
        | .ok (levelDef1, st1) => .ok (s.1.set i levelDef1, st1)

/-- What `generateMifDungeon` writes: the level definitions, the catalog, the state of
`random` and the start point. -/
structure DungeonOut (E : Type) where
  levelDefs : List LevelDefinition
  levelInfoDef : LevelInfoDefinition E
  random : Nat
  startPoint : Int2

/-- Embeds `generateMifDungeon`: the caches start empty; `none` when a loop that draws a
transition block runs out of its `fuel` passes. -/
def generateMifDungeon {E : Type} (fuel : Nat) (dc : DungeonContext) (ctx : Context E)
    (mif : MIFFile) (levelCount widthChunks depthChunks : Nat)
    (outLevelDefs : List LevelDefinition) (outLevelInfoDef : LevelInfoDefinition E)
    (random : Nat) : Option (Except Fatal (DungeonOut E)) :=
  let seed2 := random
  match chooseTransitions fuel dc widthChunks depthChunks levelCount random with
  | none => none
  | some (transitions, random1) =>
    match forEach
        (generateDungeonLevel dc ctx mif levelCount widthChunks depthChunks seed2 transitions)
        (List.range levelCount)
        (outLevelDefs, ⟨random1, outLevelInfoDef, [], [], [], [], [], []⟩) with
    | .error e => some (.error e)
    | .ok (levelDefs, st) =>
      match transitions[0]? with
      | none => some (.error Fatal.assertion)
      | some firstTransition =>
        let chunk := dc.unpackLevelChangeVoxel firstTransition
        let startPoint : Int2 :=
          ⟨dc.offsetLevelChangeVoxel chunk.1, dc.offsetLevelChangeVoxel chunk.2⟩
        some (.ok
          { levelDefs := levelDefs
            levelInfoDef := st.levelInfoDef
            random := st.random
            startPoint := VoxelUtils.originalVoxelToNewVoxel startPoint })

end MapGeneration
/-! ## The software renderer -/

/-- Models the C++ `double` of `SoftwareRenderer.cpp`: not-a-number, the two infinities,
and the finite values, each carrying an exact rational. The operators `+`, `-`, `*` and
`/` below return the exact result; where the outcome of the code depends on the rounding
of a result, the embedding applies `Dbl.rounded fl` to it, with `fl` the rounding to
`double` (`Dbl.binary64` is that of IEEE 754). Zero has no sign: it divides like
`+0.0`. -/
inductive Dbl where
  | nan
  | posInf
  | negInf
  | fin (q : ℚ)
deriving DecidableEq

namespace Dbl

/-- The conversion `static_cast<double>(int)`. -/
def ofInt (n : Int) : Dbl :=
  .fin (n : ℚ)

/-- Unary minus. -/
def neg : Dbl → Dbl
  | .nan => .nan
  | .posInf => .negInf
  | .negInf => .posInf
  | .fin a => .fin (-a)

/-- Addition: the sum of opposite infinities is not a number. -/
def add : Dbl → Dbl → Dbl
  | .nan, _ => .nan
  | _, .nan => .nan
  | .fin a, .fin b => .fin (a + b)
  | .posInf, .negInf => .nan
  | .negInf, .posInf => .nan
  | .posInf, _ => .posInf
  | .negInf, _ => .negInf
  | .fin _, .posInf => .posInf
  | .fin _, .negInf => .negInf

/-- Subtraction. -/
def sub (a b : Dbl) : Dbl :=
  a.add b.neg

/-- The product of an infinity (positive or not) with a value: zero times infinity is
not a number. -/
def mulInf (positive : Bool) : Dbl → Dbl
  | .nan => .nan
  | .posInf => if positive then .posInf else .negInf
  | .negInf => if positive then .negInf else .posInf
  | .fin q =>
    if q = 0 then .nan
    else if decide (0 < q) == positive then .posInf else .negInf

/-- Multiplication. -/
def mul : Dbl → Dbl → Dbl
  | .nan, _ => .nan
  | .fin a, .fin b => .fin (a * b)
  | .posInf, b => mulInf true b
  | .negInf, b => mulInf false b
  | .fin a, b => match b with
    | .posInf => mulInf true (.fin a)
    | .negInf => mulInf false (.fin a)
    | _ => .nan

/-- Division: a finite non-zero value over zero is an infinity, zero over zero and an
infinity over an infinity are not numbers, a finite value over an infinity is zero. -/
def div : Dbl → Dbl → Dbl
  | .nan, _ => .nan
  | _, .nan => .nan
  | .fin a, .fin b =>
    if b = 0 then
      if a = 0 then .nan else if 0 < a then .posInf else .negInf
    else .fin (a / b)
  | .fin _, _ => .fin 0
  | .posInf, .fin b => if 0 ≤ b then .posInf else .negInf
  | .negInf, .fin b => if 0 ≤ b then .negInf else .posInf
  | _, _ => .nan

/-- The comparison `a < b`: false when either side is not a number. -/
def lt : Dbl → Dbl → Bool
  | .nan, _ => false
  | _, .nan => false
  | .fin a, .fin b => decide (a < b)
  | .negInf, .negInf => false
  | .negInf, _ => true
  | _, .negInf => false
  | .posInf, _ => false
  | .fin _, .posInf => true

/-- The comparison `a >= b`: false when either side is not a number. -/
def ge : Dbl → Dbl → Bool
  | .nan, _ => false
  | _, .nan => false
  | .fin a, .fin b => decide (b ≤ a)
  | .posInf, _ => true
  | _, .negInf => true
  | .negInf, _ => false
  | .fin _, .posInf => false

/-- Embeds `std::min(a, b)`, which is `(b < a) ? b : a`. -/
def min (a b : Dbl) : Dbl :=
  if b.lt a then b else a

/-- Embeds `std::floor`. -/
def floor : Dbl → Dbl
  | .fin a => .fin (Int.floor a : Int)
  | a => a

/-- The integral part of a rational, towards zero. -/
def truncQ (q : ℚ) : Int :=
  if 0 ≤ q then Int.floor q else -Int.floor (-q)

/-- Embeds `std::round`: to the nearest integer, halves away from zero. -/
def round : Dbl → Dbl
  | .fin a =>
    .fin ((if 0 ≤ a then Int.floor (a + 1 / 2) else -Int.floor (-a + 1 / 2) : Int) : ℚ)
  | a => a

/-- Embeds `std::fmod`: the remainder of the division truncated towards zero, which has
the sign of `x`; not a number when `x` is infinite or `y` is zero. -/
def fmod : Dbl → Dbl → Dbl
  | .nan, _ => .nan
  | _, .nan => .nan
  | .fin a, .fin b => if b = 0 then .nan else .fin (a - (truncQ (a / b) : ℚ) * b)
  | .fin a, _ => .fin a
  | _, _ => .nan

/-- Embeds `std::sqrt`, over a square root `sqrtQ` of the finite non-negative values. -/
def sqrt (sqrtQ : ℚ → ℚ) : Dbl → Dbl
  | .nan => .nan
  | .posInf => .posInf
  | .negInf => .nan
  | .fin a => if a < 0 then .nan else .fin (sqrtQ a)

/-- The conversion `static_cast<int>(double)`: the integral part towards zero, defined
only when that part fits a 32-bit `int`. -/
def toInt : Dbl → Except Fatal Int
  | .fin a =>
    if -2147483648 ≤ truncQ a ∧ truncQ a ≤ 2147483647 then .ok (truncQ a)
    else .error Fatal.floatToInt
  | _ => .error Fatal.floatToInt

/-- The result of an operation as the `double` that the code gets: the exact result
rounded by `fl`; the infinities and not-a-number are kept. -/
def rounded (fl : ℚ → Dbl) : Dbl → Dbl
  | .fin q => fl q
  | d => d

/-- The floor of the binary logarithm of `n`, for `1 <= n <= fuel`. -/
def log2Fuel : Nat → Nat → Nat
  | 0, _ => 0
  | fuel + 1, n => if n < 2 then 0 else log2Fuel fuel (n / 2) + 1

/-- The power `2 ^ e` for an integer `e`. -/
def pow2 (e : Int) : ℚ :=
  if 0 ≤ e then ((2 ^ e.toNat : Nat) : ℚ) else 1 / ((2 ^ (-e).toNat : Nat) : ℚ)

/-- The floor of the binary logarithm of a positive rational. -/
def floorLog2 (q : ℚ) : Int :=
  let k : Int := (log2Fuel q.num.natAbs q.num.natAbs : Int) - (log2Fuel q.den q.den : Int)
  if pow2 k ≤ q then k else k - 1

/-- The nearest integer, a tie going to the even one. -/
def roundHalfEven (x : ℚ) : Int :=
  if x - (Int.floor x : ℚ) < 1 / 2 then Int.floor x
  else if 1 / 2 < x - (Int.floor x : ℚ) then Int.floor x + 1
  else if Int.floor x % 2 = 0 then Int.floor x
  else Int.floor x + 1

/-- The exponent of the last bit of the 53-bit significand of a positive `x` in IEEE 754
binary64: 52 below the binary exponent of `x`, which is at least -1022 (below it the
values are subnormal). -/
def ulpExp (x : ℚ) : Int :=
  max (floorLog2 x) (-1022) - 52

/-- The significand of a positive `x` rounded to binary64, as an integer multiple of
`2 ^ ulpExp x`. -/
def significand (x : ℚ) : Int :=
  roundHalfEven (x / pow2 (ulpExp x))

/-- Whether a positive `x` rounds to a value of `2 ^ 1024` or more, which binary64
does not hold: the last bit has exponent above 971, or exactly 971 with a significand that
has reached `2 ^ 53`. -/
def overflows (x : ℚ) : Bool :=
  decide (971 < ulpExp x) ||
    (decide (ulpExp x = 971) && decide (9007199254740992 ≤ significand x))

/-- The rounding of an exact result to IEEE 754 binary64, the `double` of C++ on the
platforms of the program, in the default mode (to nearest, ties to even): 53 bits of
significand, gradual underflow below `2 ^ -1022`, an infinity on overflow. -/
def binary64 (q : ℚ) : Dbl :=
  if q = 0 then .fin 0
  else if 0 < q then
    if overflows q then .posInf else .fin ((significand q : ℚ) * pow2 (ulpExp q))
  else
    if overflows (-q) then .negInf
    else .fin (-((significand (-q) : ℚ) * pow2 (ulpExp (-q))))

end Dbl

instance : Add Dbl := ⟨Dbl.add⟩

instance : Sub Dbl := ⟨Dbl.sub⟩

instance : Mul Dbl := ⟨Dbl.mul⟩

instance : Div Dbl := ⟨Dbl.div⟩

/-- Embeds `Double3` (its header is not among the sources), as far as `castRay` uses
it. -/
structure Double3 where
  x : Dbl
  y : Dbl
  z : Dbl
deriving DecidableEq

/-- Embeds `Double4`, the type of a texel. -/
structure Double4 where
  x : Dbl
  y : Dbl
  z : Dbl
  w : Dbl
deriving DecidableEq

/-- Embeds `Int3`. -/
structure Int3 where
  x : Int
  y : Int
  z : Int
deriving DecidableEq

/-- The operator `Double3 + Double3`, componentwise. -/
def Double3.add (a b : Double3) : Double3 :=
  ⟨a.x + b.x, a.y + b.y, a.z + b.z⟩

/-- The operator `Double3 * double`, componentwise. -/
def Double3.scale (a : Double3) (m : Dbl) : Double3 :=
  ⟨a.x * m, a.y * m, a.z * m⟩

/-- Embeds `VoxelData` (its header is not among the sources): the two texture IDs that
`castRay` reads. -/
structure VoxelData where
  sideID : Int
  floorAndCeilingID : Int
deriving DecidableEq

/-- Embeds `VoxelGrid` (its header is not among the sources), as far as `castRay` reads
it: the three sizes, the voxel height, the array of voxel IDs and the voxel data. -/
structure VoxelGrid where
  width : Int
  height : Int
  depth : Int
  voxelHeight : Dbl
  voxels : List Int
  voxelData : List VoxelData

/-- The read `voxels[gridIndex]` of the array behind `getVoxels()`. -/
def VoxelGrid.voxelAt (grid : VoxelGrid) (gridIndex : Int) : Except Fatal Int :=
  if gridIndex < 0 then .error Fatal.outOfBounds
  else
    match grid.voxels[gridIndex.toNat]? with
    | none => .error Fatal.outOfBounds
    | some voxelID => .ok voxelID

/-- Embeds `VoxelGrid::getVoxelData`. -/
def VoxelGrid.getVoxelData (grid : VoxelGrid) (id : Int) : Except Fatal VoxelData :=
  if id < 0 then .error Fatal.outOfBounds
  else
    match grid.voxelData[id.toNat]? with
    | none => .error Fatal.outOfBounds
    | some voxelData => .ok voxelData

/-- Embeds `TextureData`: the texels with the width and the height. -/
structure TextureData where
  pixels : List Double4
  width : Int
  height : Int
deriving DecidableEq

/-- What the renderer takes from outside its source file: the square root of the finite
non-negative values, and `Double3::lerp`, whose header is not among the sources. -/
structure RenderContext where
  sqrt : ℚ → ℚ
  lerp : Double3 → Double3 → Dbl → Double3

/-- Embeds the members of `SoftwareRenderer`. -/
structure SoftwareRenderer where
  colorBuffer : List Nat
  width : Int
  height : Int
  renderThreadCount : Int
  eye : Double3
  forward : Double3
  fovY : Dbl
  viewDistance : Dbl
  viewDistSquared : Dbl
  startCellReal : Double3
  startCell : Int3
  textures : List TextureData

namespace SoftwareRenderer

/-- Embeds `SoftwareRenderer::setViewDistance`. -/
def setViewDistance (r : SoftwareRenderer) (viewDistance : Dbl) : SoftwareRenderer :=
  { r with viewDistance := viewDistance, viewDistSquared := viewDistance * viewDistance }

/-- The product of two `int` values, defined only when it fits 32 bits. -/
def mulInt32 (a b : Int) : Except Fatal Int :=
  if -2147483648 ≤ a * b ∧ a * b ≤ 2147483647 then .ok (a * b)
  else .error Fatal.signedOverflow

/-- Embeds `SoftwareRenderer::resize`: the pixel count is an `int` product, the buffer
is resized to it and filled with zeroes, then the width and the height are stored. -/
def resize (r : SoftwareRenderer) (width height : Int) : Except Fatal SoftwareRenderer :=
  match mulInt32 width height with
  | .error e => .error e
  | .ok pixelCount =>
    if pixelCount < 0 then .error Fatal.lengthError
    else
      .ok { r with
            colorBuffer := List.replicate pixelCount.toNat 0
            width := width
            height := height }

/-- The enumeration `Axis` of `castRay`. -/
inductive Axis where
  | X
  | Y
  | Z
deriving DecidableEq

/-- The values that `castRay` computes before its loop. -/
structure RaySetup where
  voxelHeight : Dbl
  eyeYRelativeFloor : Dbl
  deltaDist : Double3
  nonNegativeDirX : Bool
  nonNegativeDirY : Bool
  nonNegativeDirZ : Bool
  step : Int3
  initialSideDist : Double3
  stepReal : Double3
  startCellWithOffset : Double3
  cellOffset : Double3

/-- The variables that the loop of `castRay` changes. -/
structure RayState where
  sideDist : Double3
  cell : Int3
  hitID : Int
  axis : Axis
  cellDistSquared : Dbl
  voxelIsValid : Bool
deriving DecidableEq

/-- The delta distances of `castRay`. -/
def deltaDistOf (ctx : RenderContext) (direction : Double3) : Double3 :=
  let dirSquared : Double3 :=
    ⟨direction.x * direction.x, direction.y * direction.y, direction.z * direction.z⟩
  ⟨Dbl.sqrt ctx.sqrt (.fin 1 + (dirSquared.y / dirSquared.x) + (dirSquared.z / dirSquared.x)),
    Dbl.sqrt ctx.sqrt (.fin 1 + (dirSquared.x / dirSquared.y) + (dirSquared.z / dirSquared.y)),
    Dbl.sqrt ctx.sqrt (.fin 1 + (dirSquared.x / dirSquared.z) + (dirSquared.y / dirSquared.z))⟩

/-- The part of `castRay` before the loop, from `dirSquared` to `cellOffset`. -/
def raySetup (ctx : RenderContext) (r : SoftwareRenderer) (direction : Double3)
    (voxelGrid : VoxelGrid) : RaySetup :=
  let voxelHeight := voxelGrid.voxelHeight
  let eyeYRelativeFloor := r.eye.y - Dbl.fmod r.eye.y voxelHeight
  let deltaDist := deltaDistOf ctx direction
  let nonNegativeDirX := direction.x.ge (.fin 0)
  let nonNegativeDirY := direction.y.ge (.fin 0)
  let nonNegativeDirZ := direction.z.ge (.fin 0)
  let stepX : Int := if nonNegativeDirX then 1 else -1
  let sideDistX :=
    if nonNegativeDirX then (r.startCellReal.x + .fin 1 - r.eye.x) * deltaDist.x
    else (r.eye.x - r.startCellReal.x) * deltaDist.x
  let stepY : Int := if nonNegativeDirY then 1 else -1
  let sideDistY :=
    if nonNegativeDirY then (eyeYRelativeFloor + voxelHeight - r.eye.y) * deltaDist.y
    else (r.eye.y - eyeYRelativeFloor) * deltaDist.y
  let stepZ : Int := if nonNegativeDirZ then 1 else -1
  let sideDistZ :=
    if nonNegativeDirZ then (r.startCellReal.z + .fin 1 - r.eye.z) * deltaDist.z
    else (r.eye.z - r.startCellReal.z) * deltaDist.z
  let stepReal : Double3 :=
    ⟨Dbl.ofInt stepX, Dbl.ofInt stepY * voxelHeight, Dbl.ofInt stepZ⟩
  { voxelHeight := voxelHeight
    eyeYRelativeFloor := eyeYRelativeFloor
    deltaDist := deltaDist
    nonNegativeDirX := nonNegativeDirX
    nonNegativeDirY := nonNegativeDirY
    nonNegativeDirZ := nonNegativeDirZ
    step := ⟨stepX, stepY, stepZ⟩
    initialSideDist := ⟨sideDistX, sideDistY, sideDistZ⟩
    stepReal := stepReal
    startCellWithOffset :=
      ⟨r.startCellReal.x + ((.fin 1 + stepReal.x) / .fin 2),
        eyeYRelativeFloor + ((voxelHeight + stepReal.y) / .fin 2),
        r.startCellReal.z + ((.fin 1 + stepReal.z) / .fin 2)⟩
    cellOffset :=
      ⟨(.fin 1 - stepReal.x) / .fin 2, (voxelHeight - stepReal.y) / .fin 2,
        (.fin 1 - stepReal.z) / .fin 2⟩ }

/-- The variables of `castRay` on entry to its loop. -/
def rayStart (r : SoftwareRenderer) (voxelGrid : VoxelGrid) (c : RaySetup) : RayState :=
  let cell := r.startCell
  { sideDist := c.initialSideDist
    cell := cell
    hitID := 0
    axis := Axis.X
    cellDistSquared := .fin 0
    voxelIsValid :=
      decide (cell.x ≥ 0) && decide (cell.y ≥ 0) && decide (cell.z ≥ 0) &&
        decide (cell.x < voxelGrid.width) && decide (cell.y < voxelGrid.height) &&
        decide (cell.z < voxelGrid.depth) }

/-- The part of the loop body of `castRay` after the test of the voxel: the step along
the chosen axis, then the refresh of `cellDistSquared`. -/
def advance (voxelGrid : VoxelGrid) (c : RaySetup) (s : RayState) : RayState :=
  let s1 : RayState :=
    if s.sideDist.x.lt s.sideDist.y && s.sideDist.x.lt s.sideDist.z then
      let cellX := s.cell.x + c.step.x
      { s with
        sideDist := { s.sideDist with x := s.sideDist.x + c.deltaDist.x }
        cell := { s.cell with x := cellX }
        axis := Axis.X
        voxelIsValid :=
          s.voxelIsValid && (decide (cellX ≥ 0) && decide (cellX < voxelGrid.width)) }
    else if s.sideDist.y.lt s.sideDist.z then
      let cellY := s.cell.y + c.step.y
      { s with
        sideDist := { s.sideDist with y := s.sideDist.y + c.deltaDist.y }
        cell := { s.cell with y := cellY }
        axis := Axis.Y
        voxelIsValid :=
          s.voxelIsValid && (decide (cellY ≥ 0) && decide (cellY < voxelGrid.height)) }
    else
      let cellZ := s.cell.z + c.step.z
      { s with
        sideDist := { s.sideDist with z := s.sideDist.z + c.deltaDist.z }
        cell := { s.cell with z := cellZ }
        axis := Axis.Z
        voxelIsValid :=
          s.voxelIsValid && (decide (cellZ ≥ 0) && decide (cellZ < voxelGrid.depth)) }
  let cellDiff : Double3 :=
    ⟨(Dbl.ofInt s1.cell.x + c.cellOffset.x) - c.startCellWithOffset.x,
      ((Dbl.ofInt s1.cell.y * c.voxelHeight) + c.cellOffset.y) - c.startCellWithOffset.y,
      (Dbl.ofInt s1.cell.z + c.cellOffset.z) - c.startCellWithOffset.z⟩
  { s1 with
    cellDistSquared :=
      (cellDiff.x * cellDiff.x) + (cellDiff.y * cellDiff.y) + (cellDiff.z * cellDiff.z) }

/-- The loop of `castRay`, run for at most `fuel` passes: `none` when the passes run
out. The grid index is taken without overflow. -/
def ddaLoop (r : SoftwareRenderer) (voxelGrid : VoxelGrid) (c : RaySetup) :
    Nat → RayState → Option (Except Fatal RayState)
  | 0, s =>
    if s.voxelIsValid && s.cellDistSquared.lt r.viewDistSquared then none
    else some (.ok s)
  | fuel + 1, s =>
    if s.voxelIsValid && s.cellDistSquared.lt r.viewDistSquared then
      let gridIndex := s.cell.x + (s.cell.y * voxelGrid.width) +
        (s.cell.z * voxelGrid.width * voxelGrid.height)
      match voxelGrid.voxelAt gridIndex with
      | .error e => some (.error e)
      | .ok voxelID =>
        if voxelID > 0 then some (.ok { s with hitID := voxelID })
        else ddaLoop r voxelGrid c fuel (advance voxelGrid c s)
    else some (.ok s)

/-- What `castRay` knows of the ray after the distance is computed. -/
structure RayTrace where
  hitID : Int
  cell : Int3
  axis : Axis
  stoppedInFirstVoxel : Bool
  distance : Dbl
deriving DecidableEq

/-- The part of `castRay` after the loop that computes `stoppedInFirstVoxel`, the
distance and, in the first voxel, the axis. -/
def rayDistance (r : SoftwareRenderer) (direction : Double3) (c : RaySetup) (s : RayState) :
    RayTrace :=
  let stoppedInFirstVoxel := decide (s.cell = r.startCell)
  if stoppedInFirstVoxel then
    if c.initialSideDist.x.lt c.initialSideDist.y &&
        c.initialSideDist.x.lt c.initialSideDist.z then
      ⟨s.hitID, s.cell, Axis.X, stoppedInFirstVoxel, c.initialSideDist.x⟩
    else if c.initialSideDist.y.lt c.initialSideDist.z then
      ⟨s.hitID, s.cell, Axis.Y, stoppedInFirstVoxel, c.initialSideDist.y⟩
    else
      ⟨s.hitID, s.cell, Axis.Z, stoppedInFirstVoxel, c.initialSideDist.z⟩
  else
    match s.axis with
    | Axis.X =>
      ⟨s.hitID, s.cell, s.axis, stoppedInFirstVoxel,
        (Dbl.ofInt s.cell.x - r.eye.x + ((.fin 1 - c.stepReal.x) / .fin 2)) / direction.x⟩
    | Axis.Y =>
      ⟨s.hitID, s.cell, s.axis, stoppedInFirstVoxel,
        ((Dbl.ofInt s.cell.y * c.voxelHeight) - r.eye.y +
          ((c.voxelHeight - c.stepReal.y) / .fin 2)) / direction.y⟩
    | Axis.Z =>
      ⟨s.hitID, s.cell, s.axis, stoppedInFirstVoxel,
        (Dbl.ofInt s.cell.z - r.eye.z + ((.fin 1 - c.stepReal.z) / .fin 2)) / direction.z⟩

/-- The first part of `castRay`, up to the distance: `none` when the passes of the loop
run out. -/
def traceRay (fuel : Nat) (ctx : RenderContext) (r : SoftwareRenderer) (direction : Double3)
    (voxelGrid : VoxelGrid) : Option (Except Fatal RayTrace) :=
  let c := raySetup ctx r direction voxelGrid
  match ddaLoop r voxelGrid c fuel (rayStart r voxelGrid c) with
  | none => none
  | some (.error e) => some (.error e)
  | some (.ok s) => some (.ok (rayDistance r direction c s))

/-- The simple fog colour of `castRay`. -/
def fog : Double3 :=
  ⟨.fin (45 / 100), .fin (75 / 100), .fin 1⟩

/-- The colour of bad texture coordinates. -/
def badCoordinates : Double3 :=
  ⟨.fin 1, .fin 0, .fin 1⟩

/-- The texture coordinates `u` and `v` of `castRay` at the hit point. -/
def textureCoordinates (r : SoftwareRenderer) (direction : Double3) (c : RaySetup)
    (t : RayTrace) : Dbl × Dbl :=
  let hitPoint := r.eye.add (direction.scale t.distance)
  let backFace := t.stoppedInFirstVoxel
  match t.axis with
  | Axis.X =>
    let uVal := hitPoint.z - hitPoint.z.floor
    (if xor c.nonNegativeDirX backFace then uVal else .fin 1 - uVal,
      .fin 1 - (Dbl.fmod hitPoint.y c.voxelHeight / c.voxelHeight))
  | Axis.Y =>
    let vVal := hitPoint.x - hitPoint.x.floor
    (hitPoint.z - hitPoint.z.floor,
      if xor c.nonNegativeDirY backFace then vVal else .fin 1 - vVal)
  | Axis.Z =>
    let uVal := hitPoint.x - hitPoint.x.floor
    (if xor c.nonNegativeDirZ backFace then .fin 1 - uVal else uVal,
      .fin 1 - (Dbl.fmod hitPoint.y c.voxelHeight / c.voxelHeight))

/-- The test of `castRay` for bad texture coordinates. -/
def badTextureCoordinates (u v : Dbl) : Bool :=
  u.lt (.fin 0) || u.ge (.fin 1) || v.lt (.fin 0) || v.ge (.fin 1)

/-- The index `textureX + (textureY * texture.width)` of the texel that `castRay`
reads. -/
def texelIndex (texture : TextureData) (u v : Dbl) : Except Fatal Int :=
  match (u * Dbl.ofInt texture.width).toInt with
  | .error e => .error e
  | .ok textureX =>
    match (v * Dbl.ofInt texture.height).toInt with
    | .error e => .error e
    | .ok textureY => .ok (textureX + (textureY * texture.width))

/-- The read of a vector of the renderer at an `int` index. -/
def vectorAt {α : Type} (v : List α) (index : Int) : Except Fatal α :=
  if index < 0 then .error Fatal.outOfBounds
  else
    match v[index.toNat]? with
    | none => .error Fatal.outOfBounds
    | some a => .ok a

/-- The last part of `castRay`, from the fog colour to the end. -/
def shadeRay (ctx : RenderContext) (r : SoftwareRenderer) (direction : Double3)
    (voxelGrid : VoxelGrid) (c : RaySetup) (t : RayTrace) : Except Fatal Double3 :=
  if t.hitID > 0 then
    let uv := textureCoordinates r direction c t
    if badTextureCoordinates uv.1 uv.2 then .ok badCoordinates
    else
      match voxelGrid.getVoxelData (t.hitID - 1) with
      | .error e => .error e
      | .ok voxelData =>
        match vectorAt r.textures
            (if t.axis = Axis.Y then voxelData.floorAndCeilingID else voxelData.sideID) with
        | .error e => .error e
        | .ok texture =>
          match texelIndex texture uv.1 uv.2 with
          | .error e => .error e
          | .ok index =>
            match vectorAt texture.pixels index with
            | .error e => .error e
            | .ok texel =>
              let color : Double3 := ⟨texel.x, texel.y, texel.z⟩
              let depth := Dbl.min t.distance r.viewDistance / r.viewDistance
              .ok (ctx.lerp color fog depth)
  else .ok fog

/-- Embeds `SoftwareRenderer::castRay`: `none` when the passes of the loop run out. -/
def castRay (fuel : Nat) (ctx : RenderContext) (r : SoftwareRenderer) (direction : Double3)
    (voxelGrid : VoxelGrid) : Option (Except Fatal Double3) :=
  match traceRay fuel ctx r direction voxelGrid with
  | none => none
  | some (.error e) => some (.error e)
  | some (.ok t) =>
    some (shadeRay ctx r direction voxelGrid (raySetup ctx r direction voxelGrid) t)

/-- The part of `render` that sets the start cell from the eye. -/
def renderStartCell (r : SoftwareRenderer) (voxelGrid : VoxelGrid) :
    Except Fatal SoftwareRenderer :=
  let startCellReal : Double3 :=
    ⟨r.eye.x.floor, (r.eye.y / voxelGrid.voxelHeight).floor, r.eye.z.floor⟩
  match startCellReal.x.toInt with
  | .error e => .error e
  | .ok x =>
    match startCellReal.y.toInt with
    | .error e => .error e
    | .ok y =>
      match startCellReal.z.toInt with
      | .error e => .error e
      | .ok z => .ok { r with startCellReal := startCellReal, startCell := ⟨x, y, z⟩ }

/-- The rows of the band of render thread `i`: `startY` and `endY` with the two
assertions of `render`. The quotient `heightReal / renderThreadCount` and the products
`i * blockSize` are values of `double`: each is the exact result rounded by `fl`. -/
def renderBand (fl : ℚ → Dbl) (r : SoftwareRenderer) (i : Int) : Except Fatal (Int × Int) :=
  let heightReal := Dbl.ofInt r.height
  let blockSize := (heightReal / Dbl.ofInt r.renderThreadCount).rounded fl
  match ((Dbl.ofInt i * blockSize).rounded fl).round.toInt with
  | .error e => .error e
  | .ok startY =>
    match ((Dbl.ofInt (i + 1) * blockSize).rounded fl).round.toInt with
    | .error e => .error e
    | .ok endY =>
      if ¬ (startY ≥ 0) then .error Fatal.assertion
      else if ¬ (endY ≤ r.height) then .error Fatal.assertion
      else .ok (startY, endY)

/-- The loop of `render` that starts the render threads: the bands handed to
`renderRows`, in the order of the threads. -/
def renderBands (fl : ℚ → Dbl) (r : SoftwareRenderer) : Except Fatal (List (Int × Int)) :=
  MapGeneration.forEach
    (fun (bands : List (Int × Int)) (i : Nat) =>
      match renderBand fl r (i : Int) with
      | .error e => .error e
      | .ok band => .ok (bands ++ [band]))
    (List.range r.renderThreadCount.toNat) []

end SoftwareRenderer

/-! ## Chunk coordinates and normals (`VoxelUtils.cpp`) -/

/-- Embeds `ChunkCoord`: a chunk and a voxel within it. -/
structure ChunkCoord where
  chunk : Int2
  voxel : Int2
deriving DecidableEq

namespace VoxelUtils

/-- Embeds `VoxelUtils::chunkVoxelToNewVoxel`: `(chunk * CHUNK_DIM) + voxel` on each
component. `ChunkUtils::CHUNK_DIM` is not among the sources and is a parameter; the
integers are taken without overflow. -/
def chunkVoxelToNewVoxel (CHUNK_DIM : Int) (chunk voxel : Int2) : Int2 :=
  ⟨(chunk.x * CHUNK_DIM) + voxel.x, (chunk.y * CHUNK_DIM) + voxel.y⟩

/-- Embeds `VoxelUtils::newVoxelToChunkVoxel`: the C++ operators `/` and `%` on `int`,
which truncate towards zero (`Int.tdiv`, `Int.tmod`). -/
def newVoxelToChunkVoxel (CHUNK_DIM : Int) (voxel : Int2) : ChunkCoord :=
  { chunk := ⟨voxel.x.tdiv CHUNK_DIM, voxel.y.tdiv CHUNK_DIM⟩
    voxel := ⟨voxel.x.tmod CHUNK_DIM, voxel.y.tmod CHUNK_DIM⟩ }

/-- Embeds `VoxelUtils::levelVoxelToChunkVoxel`. -/
def levelVoxelToChunkVoxel (CHUNK_DIM : Int) (voxel : Int2) : ChunkCoord :=
  newVoxelToChunkVoxel CHUNK_DIM voxel

/-- Embeds `VoxelUtils::wrapVoxelCoord`. -/
def wrapVoxelCoord (CHUNK_DIM : Int) (voxel : Int2) : Int2 :=
  ⟨voxel.x.tmod CHUNK_DIM, voxel.y.tmod CHUNK_DIM⟩

/-- Embeds `VoxelUtils::getNormal`: `Double3::UnitX`, `Double3::UnitZ` and their
negations; the enumeration has no fifth value, so the unhandled arm is not reached. -/
def getNormal (facing : VoxelFacing2D) : Double3 :=
  match facing with
  | .PositiveX => ⟨Dbl.fin 1, Dbl.fin 0, Dbl.fin 0⟩
  | .NegativeX => ⟨Dbl.fin (-1), Dbl.fin 0, Dbl.fin 0⟩
  | .PositiveZ => ⟨Dbl.fin 0, Dbl.fin 0, Dbl.fin 1⟩
  | .NegativeZ => ⟨Dbl.fin 0, Dbl.fin 0, Dbl.fin (-1)⟩

end VoxelUtils


/-! ## The level data of the old loader (`LevelData.cpp`) -/

/-- The comparison `a == b` of two `double` values: false when either side is not a
number. -/
def Dbl.eq : Dbl → Dbl → Bool
  | .nan, _ => false
  | _, .nan => false
  | a, b => decide (a = b)

/-- Embeds `std::clamp(v, lo, hi)`, which is `(v < lo) ? lo : (hi < v) ? hi : v`. -/
def Dbl.clamp (v lo hi : Dbl) : Dbl :=
  if v.lt lo then lo else if hi.lt v then hi else v

/-- Embeds `LevelData::FlatDef`: a flat index with the positions of its instances. -/
structure FlatDef where
  flatIndex : Nat
  positions : List Int2
deriving DecidableEq

/-- Embeds `LevelData::FadeState`. -/
structure FadeState where
  voxel : Int3
  currentSeconds : Dbl
  targetSeconds : Dbl
deriving DecidableEq

namespace FadeState

/-- Embeds `FadeState::getPercentDone`; the quotient is a value of `double`, the exact
quotient rounded by `fl`. -/
def getPercentDone (fl : ℚ → Dbl) (f : FadeState) : Dbl :=
  Dbl.clamp ((f.currentSeconds / f.targetSeconds).rounded fl) (.fin 0) (.fin 1)

/-- Embeds `FadeState::isDoneFading`. -/
def isDoneFading (fl : ℚ → Dbl) (f : FadeState) : Bool :=
  (f.getPercentDone fl).eq (.fin 1)

/-- Embeds `FadeState::update`; the sum is a value of `double`, the exact sum rounded by
`fl`. -/
def update (fl : ℚ → Dbl) (f : FadeState) (dt : Dbl) : FadeState :=
  { f with currentSeconds := Dbl.min ((f.currentSeconds + dt).rounded fl) f.targetSeconds }

end FadeState

/-- Embeds `LevelData::ChasmState`; the constructor takes the voxel, then the north,
east, south and west flags. -/
structure ChasmState where
  voxel : Int2
  north : Bool
  east : Bool
  south : Bool
  west : Bool
deriving DecidableEq

/-- Embeds `ChasmState::faceIsVisible`; the enumeration has no fifth value, so the
default arm is not reached. -/
def ChasmState.faceIsVisible (c : ChasmState) (facing : VoxelFacing2D) : Bool :=
  match facing with
  | .PositiveX => c.south
  | .PositiveZ => c.west
  | .NegativeX => c.north
  | .NegativeZ => c.east

/-- Embeds `ChasmState::getFaceCount`. -/
def ChasmState.getFaceCount (c : ChasmState) : Int :=
  1 + (if c.north then 1 else 0) + (if c.east then 1 else 0) +
    (if c.south then 1 else 0) + (if c.west then 1 else 0)

/-- The test `voxelDef.dataType == VoxelDataType::Chasm`. -/
def VoxelDefinition.isChasmType : VoxelDefinition → Bool
  | .Chasm _ _ => true
  | _ => false

/-- Modelled from the spec: `VoxelGrid` as the old loader uses it (its class is not
among the sources) is the fixed-size array of voxel IDs, every cell air (ID 0) until
it is written, with the list of voxel definitions that the IDs index. The array is
kept as the list of the writes, newest first. -/
structure LevelVoxelGrid where
  width : Int
  height : Int
  depth : Int
  voxels : List (Int3 × Nat)
  voxelDefs : List VoxelDefinition

namespace LevelVoxelGrid

/-- Modelled from the spec: `VoxelGrid::coordIsValid`, the test that a coordinate lies
in the array. -/
def coordIsValid (g : LevelVoxelGrid) (x y z : Int) : Bool :=
  decide (x ≥ 0) && decide (y ≥ 0) && decide (z ≥ 0) &&
    decide (x < g.width) && decide (y < g.height) && decide (z < g.depth)

/-- Modelled from the spec: `VoxelGrid::getVoxel`, the ID last written at the
coordinate, 0 when none was; a coordinate outside the array is a read past its end. -/
def getVoxel (g : LevelVoxelGrid) (x y z : Int) : Except Fatal Nat :=
  if g.coordIsValid x y z then .ok ((g.voxels.lookup ⟨x, y, z⟩).getD 0)
  else .error Fatal.outOfBounds

/-- Modelled from the spec: `VoxelGrid::setVoxel`, the write of an ID at the
coordinate; a coordinate outside the array is a write past its end. -/
def setVoxel (g : LevelVoxelGrid) (x y z : Int) (id : Nat) : Except Fatal LevelVoxelGrid :=
  if g.coordIsValid x y z then .ok { g with voxels := (⟨x, y, z⟩, id) :: g.voxels }
  else .error Fatal.outOfBounds

/-- Modelled from the spec: `VoxelGrid::getVoxelDef`, the definition at an index of the
list; an index past the end is a read past its end. -/
def getVoxelDef (g : LevelVoxelGrid) (id : Nat) : Except Fatal VoxelDefinition :=
  match g.voxelDefs[id]? with
  | some voxelDef => .ok voxelDef
  | none => .error Fatal.outOfBounds

/-- Modelled from the spec: `VoxelGrid::addVoxelDef` puts the definition at the end of
the list and returns its index. -/
def addVoxelDef (g : LevelVoxelGrid) (voxelDef : VoxelDefinition) : Nat × LevelVoxelGrid :=
  (g.voxelDefs.length, { g with voxelDefs := g.voxelDefs ++ [voxelDef] })

/-- Modelled from the spec: `VoxelGrid::findVoxelDef` returns the first index of the
list whose definition satisfies the predicate, if there is one. -/
def findVoxelDef (g : LevelVoxelGrid) (predicate : VoxelDefinition → Bool) : Option Nat :=
  (List.range g.voxelDefs.length).find? fun i =>
    match g.voxelDefs[i]? with
    | some voxelDef => predicate voxelDef
    | none => false

end LevelVoxelGrid

/-- What `LevelData.cpp` takes from `VoxelDefinition`, whose class is not among the
sources: `VoxelDefinition::allowsChasmFace`, and `ChasmData::matches` on the texture
index and the type of two chasm definitions. -/
structure LevelContext where
  allowsChasmFace : VoxelDefinition → Bool
  chasmMatches : Int × ChasmType → Int × ChasmType → Bool

/-- Embeds the members of `LevelData` that the readers and the fading update use.
`floorDataMappings` and `wallDataMappings` are vectors of pairs searched with
`std::find_if` (`List.lookup`); `chasmStates` is the `std::unordered_map` from a voxel
`(x, z)` to its chasm state. -/
structure LevelData where
  voxelGrid : LevelVoxelGrid
  inf : INFFile
  floorDataMappings : List (Nat × Nat)
  wallDataMappings : List (Nat × Nat)
  flatsLists : List FlatDef
  chasmStates : List (Int2 × ChasmState)
  fadingVoxels : List FadeState

namespace LevelData

/-- The search and the update of `addFlatInstance` on the list of flat definitions: a
position is added to the first definition with the flat index, or a new definition is
put at the end. -/
def addFlatPosition (flatIndex : Nat) (flatPosition : Int2) : List FlatDef → List FlatDef
  | [] => [⟨flatIndex, [flatPosition]⟩]
  | flatDef :: rest =>
    if flatDef.flatIndex = flatIndex then
      { flatDef with positions := flatDef.positions ++ [flatPosition] } :: rest
    else flatDef :: addFlatPosition flatIndex flatPosition rest

/-- Embeds `LevelData::addFlatInstance`. -/
def addFlatInstance (ld : LevelData) (flatIndex : Nat) (flatPosition : Int2) : LevelData :=
  { ld with flatsLists := addFlatPosition flatIndex flatPosition ld.flatsLists }

/-- Embeds `LevelData::setVoxel`. -/
def setVoxel (ld : LevelData) (x y z : Int) (id : Nat) : Except Fatal LevelData :=
  match ld.voxelGrid.setVoxel x y z id with
  | .error e => .error e
  | .ok voxelGrid => .ok { ld with voxelGrid := voxelGrid }

/-- The operation `chasmStates.emplace(voxel, state)`: an existing entry for the key is
kept. -/
def emplaceChasmState (chasmStates : List (Int2 × ChasmState)) (voxel : Int2)
    (state : ChasmState) : List (Int2 × ChasmState) :=
  match chasmStates.lookup voxel with
  | some _ => chasmStates
  | none => (voxel, state) :: chasmStates

/-- The assignment `chasmStateIter->second = state` through the iterator that
`chasmStates.find(voxel)` returned. -/
def assignChasmState (chasmStates : List (Int2 × ChasmState)) (voxel : Int2)
    (state : ChasmState) : List (Int2 × ChasmState) :=
  chasmStates.map fun entry => if entry.1 = voxel then (entry.1, state) else entry

/-- The operation `chasmStates.erase(chasmStateIter)` on the iterator that
`chasmStates.find(voxel)` returned: the map holds no entry for the key afterwards. -/
def eraseChasmState (chasmStates : List (Int2 × ChasmState)) (voxel : Int2) :
    List (Int2 × ChasmState) :=
  chasmStates.filter fun entry => !decide (entry.1 = voxel)

/-- The lambda `getFlorDataIndex` of `readFLOR`. -/
def getFlorDataIndex (ld : LevelData) (florVoxel floorTextureID : Nat) : Nat × LevelData :=
  match ld.floorDataMappings.lookup florVoxel with
  | some index => (index, ld)
  | none =>
    let added := ld.voxelGrid.addVoxelDef (VoxelDefinition.Floor floorTextureID)
    (added.1,
      { ld with
        voxelGrid := added.2
        floorDataMappings := ld.floorDataMappings ++ [(florVoxel, added.1)] })

/-- The lambda `getChasmDataIndex` of `readFLOR`; `chasmFunc` is called only when the
code has no mapping. -/
def getChasmDataIndex (ld : LevelData) (inf : INFFile) (florVoxel : Nat)
    (chasmFunc : INFFile → VoxelDefinition) : Nat × LevelData :=
  match ld.floorDataMappings.lookup florVoxel with
  | some index => (index, ld)
  | none =>
    let added := ld.voxelGrid.addVoxelDef (chasmFunc inf)
    (added.1,
      { ld with
        voxelGrid := added.2
        floorDataMappings := ld.floorDataMappings ++ [(florVoxel, added.1)] })

/-- The lambda `makeDryChasmVoxelDef` of `readFLOR`. -/
def makeDryChasmVoxelDef (inf : INFFile) : VoxelDefinition :=
  VoxelDefinition.Chasm (match inf.getDryChasmIndex with | some index => index | none => 0)
    ChasmType.Dry

/-- The lambda `makeLavaChasmVoxelDef` of `readFLOR`. -/
def makeLavaChasmVoxelDef (inf : INFFile) : VoxelDefinition :=
  VoxelDefinition.Chasm (match inf.getLavaChasmIndex with | some index => index | none => 0)
    ChasmType.Lava

/-- The lambda `makeWetChasmVoxelDef` of `readFLOR`. -/
def makeWetChasmVoxelDef (inf : INFFile) : VoxelDefinition :=
  VoxelDefinition.Chasm (match inf.getWetChasmIndex with | some index => index | none => 0)
    ChasmType.Wet

/-- The body of the first pair of loops of `readFLOR` at `(x, z)`: the voxel ID of the
floor, then the flat of the low byte. -/
def readFLORCell (mif : MIFUtils) (flor : BufferView2D) (inf : INFFile) (ld : LevelData)
    (cell : Nat × Nat) : Except Fatal LevelData :=
  let x := cell.1
  let z := cell.2
  let florVoxel := flor.get z x
  let floorTextureID := (florVoxel &&& 0xFF00) >>> 8
  let written : Except Fatal LevelData :=
    if !mif.isChasm floorTextureID then
      let indexed := getFlorDataIndex ld florVoxel floorTextureID
      indexed.2.setVoxel x 0 z indexed.1
    else if floorTextureID = mif.DRY_CHASM then
      let indexed := getChasmDataIndex ld inf florVoxel makeDryChasmVoxelDef
      indexed.2.setVoxel x 0 z indexed.1
    else if floorTextureID = mif.LAVA_CHASM then
      let indexed := getChasmDataIndex ld inf florVoxel makeLavaChasmVoxelDef
      indexed.2.setVoxel x 0 z indexed.1
    else if floorTextureID = mif.WET_CHASM then
      let indexed := getChasmDataIndex ld inf florVoxel makeWetChasmVoxelDef
      indexed.2.setVoxel x 0 z indexed.1
    else .error Fatal.notImplemented
  match written with
  | .error e => .error e
  | .ok ld1 =>
    let floorFlatID := florVoxel &&& 0x00FF
    if floorFlatID > 0 then .ok (ld1.addFlatInstance (floorFlatID - 1) ⟨x, z⟩)
    else .ok ld1

/-- The lambda `getVoxelIdOrAir` of `getAdjacentVoxelIDs`. -/
def getVoxelIdOrAir (ld : LevelData) (voxel : Int3) : Except Fatal Nat :=
  if ld.voxelGrid.coordIsValid voxel.x voxel.y voxel.z then
    ld.voxelGrid.getVoxel voxel.x voxel.y voxel.z
  else .ok 0

/-- The four voxel IDs that `getAdjacentVoxelIDs` writes. -/
structure AdjacentVoxelIDs where
  northID : Nat
  southID : Nat
  eastID : Nat
  westID : Nat
deriving DecidableEq

/-- Embeds `LevelData::getAdjacentVoxelIDs`, called with four non-null pointers. -/
def getAdjacentVoxelIDs (ld : LevelData) (voxel : Int3) : Except Fatal AdjacentVoxelIDs :=
  let northVoxel : Int3 := ⟨voxel.x - 1, voxel.y, voxel.z⟩
  let southVoxel : Int3 := ⟨voxel.x + 1, voxel.y, voxel.z⟩
  let eastVoxel : Int3 := ⟨voxel.x, voxel.y, voxel.z - 1⟩
  let westVoxel : Int3 := ⟨voxel.x, voxel.y, voxel.z + 1⟩
  match ld.getVoxelIdOrAir northVoxel with
  | .error e => .error e
  | .ok northID =>
    match ld.getVoxelIdOrAir southVoxel with
    | .error e => .error e
    | .ok southID =>
      match ld.getVoxelIdOrAir eastVoxel with
      | .error e => .error e
      | .ok eastID =>
        match ld.getVoxelIdOrAir westVoxel with
        | .error e => .error e
        | .ok westID => .ok ⟨northID, southID, eastID, westID⟩

/-- The four booleans `hasNorthFace`, `hasSouthFace`, `hasEastFace` and `hasWestFace`. -/
structure ChasmFaces where
  hasNorthFace : Bool
  hasSouthFace : Bool
  hasEastFace : Bool
  hasWestFace : Bool
deriving DecidableEq

/-- The statements that `readFLOR`, `tryUpdateChasmVoxel` and
`getChasmIdFromFadedFloorVoxel` share word for word: the adjacent voxel IDs, their four
definitions, and whether each allows a chasm face. -/
def chasmFaces (ctx : LevelContext) (ld : LevelData) (voxel : Int3) :
    Except Fatal ChasmFaces :=
  match ld.getAdjacentVoxelIDs voxel with
  | .error e => .error e
  | .ok ids =>
    match ld.voxelGrid.getVoxelDef ids.northID with
    | .error e => .error e
    | .ok northDef =>
      match ld.voxelGrid.getVoxelDef ids.southID with
      | .error e => .error e
      | .ok southDef =>
        match ld.voxelGrid.getVoxelDef ids.eastID with
        | .error e => .error e
        | .ok eastDef =>
          match ld.voxelGrid.getVoxelDef ids.westID with
          | .error e => .error e
          | .ok westDef =>
            .ok ⟨ctx.allowsChasmFace northDef, ctx.allowsChasmFace southDef,
              ctx.allowsChasmFace eastDef, ctx.allowsChasmFace westDef⟩

/-- The body of the second pair of loops of `readFLOR` at `(x, z)`: the chasm state of
a chasm voxel with a face. -/
def readFLORChasmCell (ctx : LevelContext) (ld : LevelData) (cell : Nat × Nat) :
    Except Fatal LevelData :=
  let voxel : Int3 := ⟨cell.1, 0, cell.2⟩
  match ld.voxelGrid.getVoxel voxel.x voxel.y voxel.z with
  | .error e => .error e
  | .ok voxelID =>
    match ld.voxelGrid.getVoxelDef voxelID with
    | .error e => .error e
    | .ok voxelDef =>
      if !voxelDef.isChasmType then .ok ld
      else
        match chasmFaces ctx ld voxel with
        | .error e => .error e
        | .ok faces =>
          let shouldAddChasmState :=
            faces.hasNorthFace || faces.hasEastFace || faces.hasSouthFace || faces.hasWestFace
          if shouldAddChasmState then
            let voxelXZ : Int2 := ⟨cell.1, cell.2⟩
            let newChasmState : ChasmState :=
              ⟨voxelXZ, faces.hasNorthFace, faces.hasEastFace, faces.hasSouthFace,
                faces.hasWestFace⟩
            .ok { ld with
                  chasmStates := emplaceChasmState ld.chasmStates voxelXZ newChasmState }
          else .ok ld

/-- The cells of the loops of the old readers: `x` outermost up to the height of the
buffer, `z` innermost up to its width. A cell is the pair `(x, z)`. -/
def readerCells (buffer : BufferView2D) : List (Nat × Nat) :=
  (List.range buffer.height).flatMap fun x => (List.range buffer.width).map fun z => (x, z)

/-- Embeds `LevelData::readFLOR`. -/
def readFLOR (ctx : LevelContext) (mif : MIFUtils) (flor : BufferView2D) (inf : INFFile)
    (ld : LevelData) : Except Fatal LevelData :=
  match MapGeneration.forCells (readFLORCell mif flor inf) (readerCells flor) ld with
  | .error e => .error e
  | .ok ld1 => MapGeneration.forCells (readFLORChasmCell ctx) (readerCells flor) ld1

/-- The lambda `getDataIndex` of `readMAP1`; `func` is called only when the code has no
mapping. -/
def getDataIndex (ld : LevelData) (map1Voxel : Nat)
    (func : Nat → Except Fatal VoxelDefinition) : Except Fatal (Nat × LevelData) :=
  match ld.wallDataMappings.lookup map1Voxel with
  | some index => .ok (index, ld)
  | none =>
    match func map1Voxel with
    | .error e => .error e
    | .ok voxelDef =>
      let added := ld.voxelGrid.addVoxelDef voxelDef
      .ok (added.1,
        { ld with
          voxelGrid := added.2
          wallDataMappings := ld.wallDataMappings ++ [(map1Voxel, added.1)] })

/-- The lambda `makeWallVoxelData` of `getWallDataIndex`: the wall type by the tests on
the `*LEVELUP`, `*LEVELDOWN` and `*MENU` indices, `makeWall`, then the assignment of the
menu ID of a menu voxel. -/
def makeWallVoxelData (inf : INFFile) (mostSigByte : Nat) : VoxelDefinition :=
  let textureIndex : Int := (mostSigByte : Int) - 1
  let menuIndex := inf.getMenuIndex textureIndex
  let isMenu := menuIndex.isSome
  let matchesIndex : Option Int → Bool := fun index =>
    match index with
    | some i => i == textureIndex
    | none => false
  let type :=
    if matchesIndex inf.getLevelUpIndex then WallType.LevelUp
    else if matchesIndex inf.getLevelDownIndex then WallType.LevelDown
    else if isMenu then WallType.Menu
    else WallType.Solid
  match menuIndex with
  | some menuID => VoxelDefinition.Wall textureIndex textureIndex textureIndex (some menuID) type
  | none => VoxelDefinition.Wall textureIndex textureIndex textureIndex menuIndex type

/-- The lambda `getWallDataIndex` of `readMAP1`. -/
def getWallDataIndex (ld : LevelData) (inf : INFFile) (map1Voxel mostSigByte : Nat) :
    Nat × LevelData :=
  match ld.wallDataMappings.lookup map1Voxel with
  | some index => (index, ld)
  | none =>
    let added := ld.voxelGrid.addVoxelDef (makeWallVoxelData inf mostSigByte)
    (added.1,
      { ld with
        voxelGrid := added.2
        wallDataMappings := ld.wallDataMappings ++ [(map1Voxel, added.1)] })

/-- The lambda `makeRaisedVoxelData` of `getRaisedDataIndex`. The three world types are
all there are, so the arm that throws is not reached; the definition keeps the base
offset, the base size and the ceiling height, from which the source computes
`yOffsetNormalized`, `ySizeNormalized`, `vTop` and `vBottom`. -/
def makeRaisedVoxelData (worldType : WorldType) (exeData : ExeData) (map1Voxel : Nat)
    (inf : INFFile) (mostSigByte : Nat) : VoxelDefinition :=
  let wallTextureID := map1Voxel &&& 0x000F
  let capTextureID := (map1Voxel &&& 0x00F0) >>> 4
  let sideID : Int :=
    match inf.getBoxSide wallTextureID with
    | some id => id
    | none => 0
  let floorID : Int :=
    match inf.getCeiling.textureIndex with
    | some id => id
    | none => 0
  let ceilingID : Int :=
    match inf.getBoxCap capTextureID with
    | some id => id
    | none => 0
  let wallHeightTables := exeData.wallHeightTables
  let heightIndex := mostSigByte &&& 0x07
  let thicknessIndex := (mostSigByte &&& 0x78) >>> 3
  let base : Int × Int :=
    if worldType = WorldType.Interior then
      let boxSize := wallHeightTables.box2a thicknessIndex
      (wallHeightTables.box1a heightIndex,
        match inf.getCeiling.boxScale with
        | some boxScale => (boxSize * boxScale).tdiv 256
        | none => boxSize)
    else if worldType = WorldType.City then
      (wallHeightTables.box1b heightIndex, wallHeightTables.box2b thicknessIndex)
    else
      (wallHeightTables.box1c heightIndex,
        ((32 : Int) * (match inf.getCeiling.boxScale with
          | some boxScale => boxScale
          | none => 192)).tdiv 256)
  VoxelDefinition.Raised sideID floorID ceilingID base.1 base.2 inf.getCeiling.height

/-- The lambda `getRaisedDataIndex` of `readMAP1`. -/
def getRaisedDataIndex (ld : LevelData) (inf : INFFile) (worldType : WorldType)
    (exeData : ExeData) (map1Voxel mostSigByte : Nat) : Nat × LevelData :=
  match ld.wallDataMappings.lookup map1Voxel with
  | some index => (index, ld)
  | none =>
    let added := ld.voxelGrid.addVoxelDef
      (makeRaisedVoxelData worldType exeData map1Voxel inf mostSigByte)
    (added.1,
      { ld with
        voxelGrid := added.2
        wallDataMappings := ld.wallDataMappings ++ [(map1Voxel, added.1)] })

/-- The lambda `makeType9VoxelData` of `readMAP1`. -/
def makeType9VoxelData (map1Voxel : Nat) : VoxelDefinition :=
  let textureIndex : Int := ((map1Voxel &&& 0x00FF : Nat) : Int) - 1
  let collider := decide (map1Voxel &&& 0x0100 = 0)
  VoxelDefinition.TransparentWall textureIndex collider

/-- The lambda `makeTypeAVoxelData` of `getTypeADataIndex`; the definition keeps the
full offset, from which the source computes `yOffset`. -/
def makeTypeAVoxelData (worldType : WorldType) (map1Voxel : Nat) (textureIndex : Int) :
    VoxelDefinition :=
  let baseOffset : Int := (((map1Voxel &&& 0x0E00) >>> 9 : Nat) : Int)
  let fullOffset : Int :=
    if worldType = WorldType.Interior then baseOffset * 8 else (baseOffset * 32) - 8
  let collider := decide (map1Voxel &&& 0x0100 ≠ 0)
  let flipped := collider
  let orientation := (map1Voxel &&& 0x00C0) >>> 4
  let facing :=
    if orientation = 0x0 then VoxelFacing2D.NegativeX
    else if orientation = 0x4 then VoxelFacing2D.PositiveZ
    else if orientation = 0x8 then VoxelFacing2D.PositiveX
    else VoxelFacing2D.NegativeZ
  VoxelDefinition.Edge textureIndex fullOffset collider flipped facing

/-- The lambda `getTypeADataIndex` of `readMAP1`. -/
def getTypeADataIndex (ld : LevelData) (worldType : WorldType) (map1Voxel : Nat)
    (textureIndex : Int) : Nat × LevelData :=
  match ld.wallDataMappings.lookup map1Voxel with
  | some index => (index, ld)
  | none =>
    let added := ld.voxelGrid.addVoxelDef (makeTypeAVoxelData worldType map1Voxel textureIndex)
    (added.1,
      { ld with
        voxelGrid := added.2
        wallDataMappings := ld.wallDataMappings ++ [(map1Voxel, added.1)] })

/-- The lambda `makeTypeBVoxelData` of `readMAP1`: a door type other than 0, 4 and 8
reaches `DebugUnhandledReturnMsg`. -/
def makeTypeBVoxelData (map1Voxel : Nat) : Except Fatal VoxelDefinition :=
  let textureIndex : Int := ((map1Voxel &&& 0x003F : Nat) : Int) - 1
  let type := (map1Voxel &&& 0x00C0) >>> 4
  let doorType : Except Fatal DoorType :=
    if type = 0x0 then .ok DoorType.Swinging
    else if type = 0x4 then .ok DoorType.Sliding
    else if type = 0x8 then .ok DoorType.Raising
    else .error (Fatal.unhandledReturn type)
  match doorType with
  | .error e => .error e
  | .ok doorType => .ok (VoxelDefinition.Door textureIndex doorType)

/-- The lambda `makeTypeDVoxelData` of `readMAP1`. -/
def makeTypeDVoxelData (map1Voxel : Nat) : VoxelDefinition :=
  let textureIndex : Int := ((map1Voxel &&& 0x00FF : Nat) : Int) - 1
  let isRightDiag := decide (map1Voxel &&& 0x0100 = 0)
  VoxelDefinition.Diagonal textureIndex isRightDiag

/-- The body of the loops of `readMAP1` at `(x, z)`. -/
def readMAP1Cell (map1 : BufferView2D) (inf : INFFile) (worldType : WorldType)
    (exeData : ExeData) (ld : LevelData) (cell : Nat × Nat) : Except Fatal LevelData :=
  let x := cell.1
  let z := cell.2
  let map1Voxel := map1.get z x
  if map1Voxel &&& 0x8000 = 0 then
    let voxelIsEmpty := decide (map1Voxel = 0)
    if !voxelIsEmpty then
      let mostSigByte := (map1Voxel &&& 0x7F00) >>> 8
      let leastSigByte := map1Voxel &&& 0x007F
      let voxelIsSolid := decide (mostSigByte = leastSigByte)
      if voxelIsSolid then
        let indexed := getWallDataIndex ld inf map1Voxel mostSigByte
        indexed.2.setVoxel x 1 z indexed.1
      else
        let indexed := getRaisedDataIndex ld inf worldType exeData map1Voxel mostSigByte
        indexed.2.setVoxel x 1 z indexed.1
    else .ok ld
  else
    let mostSigNibble := (map1Voxel &&& 0xF000) >>> 12
    if mostSigNibble = 0x8 then
      .ok (ld.addFlatInstance (map1Voxel &&& 0x00FF) ⟨x, z⟩)
    else if mostSigNibble = 0x9 then
      match getDataIndex ld map1Voxel (fun voxel => .ok (makeType9VoxelData voxel)) with
      | .error e => .error e
      | .ok indexed => indexed.2.setVoxel x 1 z indexed.1
    else if mostSigNibble = 0xA then
      let textureIndex : Int := ((map1Voxel &&& 0x003F : Nat) : Int) - 1
      if textureIndex ≥ 0 then
        let indexed := getTypeADataIndex ld worldType map1Voxel textureIndex
        indexed.2.setVoxel x 1 z indexed.1
      else .ok ld
    else if mostSigNibble = 0xB then
      match getDataIndex ld map1Voxel makeTypeBVoxelData with
      | .error e => .error e
      | .ok indexed => indexed.2.setVoxel x 1 z indexed.1
    else if mostSigNibble = 0xC then .ok ld
    else if mostSigNibble = 0xD then
      match getDataIndex ld map1Voxel (fun voxel => .ok (makeTypeDVoxelData voxel)) with
      | .error e => .error e
      | .ok indexed => indexed.2.setVoxel x 1 z indexed.1
    else .ok ld

/-- Embeds `LevelData::readMAP1`. -/
def readMAP1 (map1 : BufferView2D) (inf : INFFile) (worldType : WorldType)
    (exeData : ExeData) (ld : LevelData) : Except Fatal LevelData :=
  MapGeneration.forCells (readMAP1Cell map1 inf worldType exeData) (readerCells map1) ld

/-- The statements that `tryUpdateChasmVoxel` and `getChasmIdFromFadedFloorVoxel`
share word for word under the comment `Add/update chasm state`: an entry found for the
voxel is assigned the new state or erased, and without one the new state is emplaced
if it has a face. -/
def updateChasmState (chasmStates : List (Int2 × ChasmState)) (voxel : Int3)
    (faces : ChasmFaces) : List (Int2 × ChasmState) :=
  let voxelXZ : Int2 := ⟨voxel.x, voxel.z⟩
  let newChasmState : ChasmState :=
    ⟨voxelXZ, faces.hasNorthFace, faces.hasEastFace, faces.hasSouthFace, faces.hasWestFace⟩
  let shouldAddChasmState :=
    faces.hasNorthFace || faces.hasEastFace || faces.hasSouthFace || faces.hasWestFace
  match chasmStates.lookup newChasmState.voxel with
  | some _ =>
    if shouldAddChasmState then assignChasmState chasmStates newChasmState.voxel newChasmState
    else eraseChasmState chasmStates newChasmState.voxel
  | none =>
    if shouldAddChasmState then emplaceChasmState chasmStates voxelXZ newChasmState
    else chasmStates

/-- Embeds `LevelData::tryUpdateChasmVoxel`. -/
def tryUpdateChasmVoxel (ctx : LevelContext) (ld : LevelData) (voxel : Int3) :
    Except Fatal LevelData :=
  if !ld.voxelGrid.coordIsValid voxel.x voxel.y voxel.z then .ok ld
  else
    match ld.voxelGrid.getVoxel voxel.x voxel.y voxel.z with
    | .error e => .error e
    | .ok voxelID =>
      match ld.voxelGrid.getVoxelDef voxelID with
      | .error e => .error e
      | .ok voxelDef =>
        if !voxelDef.isChasmType then .ok ld
        else
          match chasmFaces ctx ld voxel with
          | .error e => .error e
          | .ok faces =>
            .ok { ld with chasmStates := updateChasmState ld.chasmStates voxel faces }

/-- The predicate that `getChasmIdFromFadedFloorVoxel` hands to `findVoxelDef`. -/
def matchesChasm (ctx : LevelContext) (newTextureID : Int) (newChasmType : ChasmType) :
    VoxelDefinition → Bool
  | .Chasm id type => ctx.chasmMatches (id, type) (newTextureID, newChasmType)
  | _ => false

/-- Embeds `LevelData::getChasmIdFromFadedFloorVoxel`: the new chasm type is always
`Wet`. -/
def getChasmIdFromFadedFloorVoxel (ctx : LevelContext) (ld : LevelData) (voxel : Int3) :
    Except Fatal (Nat × LevelData) :=
  if !ld.voxelGrid.coordIsValid voxel.x voxel.y voxel.z then .error Fatal.assertion
  else
    match chasmFaces ctx ld voxel with
    | .error e => .error e
    | .ok faces =>
      let newChasmType := ChasmType.Wet
      let newTextureID : Int :=
        match (match newChasmType with
          | .Dry => ld.inf.getDryChasmIndex
          | .Wet => ld.inf.getWetChasmIndex
          | .Lava => ld.inf.getLavaChasmIndex) with
        | some chasmIndex => chasmIndex
        | none => 0
      let newDef := VoxelDefinition.Chasm newTextureID newChasmType
      let optChasmID := ld.voxelGrid.findVoxelDef (matchesChasm ctx newTextureID newChasmType)
      let ld1 := { ld with chasmStates := updateChasmState ld.chasmStates voxel faces }
      match optChasmID with
      | some chasmID => .ok (chasmID, ld1)
      | none =>
        let added := ld1.voxelGrid.addVoxelDef newDef
        .ok (added.1, { ld1 with voxelGrid := added.2 })

/-- The first loop of `updateFadingVoxels` from index `count - 1` down to 0, with the
list `completedVoxels`; `fl` is the rounding of the results of `double`. -/
def fadeLoop (fl : ℚ → Dbl) (ctx : LevelContext) (dt : Dbl) :
    Nat → LevelData × List Int3 → Except Fatal (LevelData × List Int3)
  | 0, acc => .ok acc
  | i + 1, (ld, completedVoxels) =>
    match ld.fadingVoxels[i]? with
    | none => .error Fatal.outOfBounds
    | some fadingVoxel =>
      let voxel := fadingVoxel.voxel
      let updated := fadingVoxel.update fl dt
      let ld1 := { ld with fadingVoxels := ld.fadingVoxels.set i updated }
      if updated.isDoneFading fl then
        let completedVoxels1 := completedVoxels ++ [voxel]
        let isFloorVoxel := decide (voxel.y = 0)
        let newVoxel : Except Fatal (Nat × LevelData) :=
          if isFloorVoxel then getChasmIdFromFadedFloorVoxel ctx ld1 voxel
          else .ok (0, ld1)
        match newVoxel with
        | .error e => .error e
        | .ok (newVoxelID, ld2) =>
          match ld2.voxelGrid.setVoxel voxel.x voxel.y voxel.z newVoxelID with
          | .error e => .error e
          | .ok voxelGrid =>
            fadeLoop fl ctx dt i
              ({ ld2 with
                 voxelGrid := voxelGrid
                 fadingVoxels := ld2.fadingVoxels.eraseIdx i }, completedVoxels1)
      else fadeLoop fl ctx dt i (ld1, completedVoxels)

/-- The body of the second loop of `updateFadingVoxels`: the four neighbours of a
completed floor voxel. -/
def updateAdjacentChasms (ctx : LevelContext) (ld : LevelData) (voxel : Int3) :
    Except Fatal LevelData :=
  let isFloorVoxel := decide (voxel.y = 0)
  if isFloorVoxel then
    let northVoxel : Int3 := ⟨voxel.x - 1, voxel.y, voxel.z⟩
    let southVoxel : Int3 := ⟨voxel.x + 1, voxel.y, voxel.z⟩
    let eastVoxel : Int3 := ⟨voxel.x, voxel.y, voxel.z - 1⟩
    let westVoxel : Int3 := ⟨voxel.x, voxel.y, voxel.z + 1⟩
    match tryUpdateChasmVoxel ctx ld northVoxel with
    | .error e => .error e
    | .ok ld1 =>
      match tryUpdateChasmVoxel ctx ld1 southVoxel with
      | .error e => .error e
      | .ok ld2 =>
        match tryUpdateChasmVoxel ctx ld2 eastVoxel with
        | .error e => .error e
        | .ok ld3 => tryUpdateChasmVoxel ctx ld3 westVoxel
  else .ok ld

/-- Embeds `LevelData::updateFadingVoxels`. -/
def updateFadingVoxels (fl : ℚ → Dbl) (ctx : LevelContext) (ld : LevelData) (dt : Dbl) :
    Except Fatal LevelData :=
  match fadeLoop fl ctx dt ld.fadingVoxels.length (ld, []) with
  | .error e => .error e
  | .ok (ld1, completedVoxels) =>
    MapGeneration.forEach (updateAdjacentChasms ctx) completedVoxels ld1

end LevelData
/-! ## Relations used in the statements -/

/-- Cache `c2` extends cache `c1`: every code found in `c1` is found in `c2` with the
same ID. -/
def MappingCache.Extends (c1 c2 : MappingCache) : Prop :=
  ∀ code id, c1.lookup code = some id → c2.lookup code = some id

/-- Whether `tryMakeEntityDefFromArenaFlat` builds a definition for the flat index. -/
def MapGeneration.Context.builds {E : Type} (ctx : MapGeneration.Context E)
    (flatIndex : Nat) : Bool :=
  match ctx.tryMakeEntityDefFromArenaFlat flatIndex with
  | .ok (some _) => true
  | _ => false

/-- The `setVoxel` calls recorded in `new` all lie in the layer `layer` (a condition on
the height `y`) and each holds the ID that `cache` has for the code of its cell in `buf`
(level `x` is the buffer row, level `z` the buffer column). -/
def VoxelsFromCache (buf : BufferView2D) (layer : Nat → Prop) (cache : MappingCache)
    (new : List (LevelInt3 × Nat)) : Prop :=
  ∀ x y z id, ((x, y, z), id) ∈ new → layer y ∧ cache.lookup (buf.get z x) = some id

/-- What one loop body of a layer reader does to the voxel grid and the voxel cache when
it turns `s` into `s1` at `cell`: the cache is extended, the `setVoxel` calls it adds are
at the level position of the cell, in the layer, with the ID now cached for the code of
the cell, and every height `y` with `isSet cell y` is among them. -/
def CellEffect {E : Type} (buf : BufferView2D) (layer : Nat → Prop)
    (isSet : Nat × Nat → Nat → Prop) (s : MapGeneration.Out E) (cell : Nat × Nat)
    (s1 : MapGeneration.Out E) : Prop :=
  s.voxelCache.Extends s1.voxelCache ∧
  ∃ added, s1.levelDef.voxels = added ++ s.levelDef.voxels ∧
    (∀ x y z id, ((x, y, z), id) ∈ added →
      layer y ∧ x = cell.2 ∧ z = cell.1 ∧
        s1.voxelCache.lookup (buf.get cell.1 cell.2) = some id) ∧
    (∀ y, isSet cell y → ∃ id, ((cell.2, y, cell.1), id) ∈ added)

/-- What a layer reader has done to the voxel grid and the voxel cache after the cells
`done`, started in `s0` and now in `s`. -/
def LayerEffect {E : Type} (buf : BufferView2D) (layer : Nat → Prop)
    (isSet : Nat × Nat → Nat → Prop) (s0 : MapGeneration.Out E) (done : List (Nat × Nat))
    (s : MapGeneration.Out E) : Prop :=
  s0.voxelCache.Extends s.voxelCache ∧
  ∃ new, s.levelDef.voxels = new ++ s0.levelDef.voxels ∧
    VoxelsFromCache buf layer s.voxelCache new ∧
    (∀ c ∈ done, ∀ y, isSet c y → ∃ id, ((c.2, y, c.1), id) ∈ new)

/-- What a reader has done to the transition placements and the transition cache,
started in `s0` and now in `s`: the cache is extended and every placement added holds the
ID that the cache has for the MAP1 code of its cell. -/
def TransitionEffect {E : Type} (map1 : BufferView2D) (s0 s : MapGeneration.Out E) : Prop :=
  s0.transitionCache.Extends s.transitionCache ∧
  ∃ new, s.levelDef.transitionPlacements = new ++ s0.levelDef.transitionPlacements ∧
    ∀ t x y z, (t, (x, y, z)) ∈ new → s.transitionCache.lookup (map1.get z x) = some t

/-- The state of a finished level `ld`, read from `level`, against the caches of the pass
`p`: every voxel set in the floor layer (`y = 0`), the wall layer (`y = 1`) or the ceiling
layers (`2 <= y`, when the level has MAP2 data) holds the ID cached for the code of its
cell in that layer, every transition placement holds the ID cached for the MAP1 code of
its cell, and the cells that a reader sets have been set. -/
structure LevelOK {E : Type} (ctx : MapGeneration.Context E) (level : MapGeneration.MIFLevel)
    (ld : LevelDefinition) (p : MapGeneration.PassState E) : Prop where
  flor : ∀ x y z id, ((x, y, z), id) ∈ ld.voxels → y = 0 →
    p.florMappings.lookup (level.flor.get z x) = some id
  map1 : ∀ x y z id, ((x, y, z), id) ∈ ld.voxels → y = 1 →
    p.map1Mappings.lookup (level.map1.get z x) = some id
  map2 : ∀ x y z id, ((x, y, z), id) ∈ ld.voxels → 2 ≤ y → ∀ m2, level.map2 = some m2 →
    p.map2Mappings.lookup (m2.get z x) = some id
  transitions : ∀ t x y z, (t, (x, y, z)) ∈ ld.transitionPlacements →
    p.transitionMappings.lookup (level.map1.get z x) = some t
  florSet : ∀ x z, x < level.flor.width → z < level.flor.height →
    ∃ id, ((z, 0, x), id) ∈ ld.voxels
  map1Set : ∀ x z, x < level.map1.width → z < level.map1.height →
    level.map1.get x z ≠ 0 → (level.map1.get x z &&& 0xF000) >>> 12 ≠ 0x8 →
    ∃ id, ((z, 1, x), id) ∈ ld.voxels
  map2Set : ∀ m2, level.map2 = some m2 → ∀ x z y, x < m2.width → z < m2.height →
    m2.get x z ≠ 0 → 2 ≤ y → y < 2 + (ctx.getMap2VoxelHeight (m2.get x z)).toNat →
    ∃ id, ((z, y, x), id) ∈ ld.voxels

/-- Every cache of `p2` extends the cache of the same layer of `p1`. -/
def PassExtends {E : Type} (p1 p2 : MapGeneration.PassState E) : Prop :=
  p1.florMappings.Extends p2.florMappings ∧ p1.map1Mappings.Extends p2.map1Mappings ∧
  p1.map2Mappings.Extends p2.map2Mappings ∧
  p1.transitionMappings.Extends p2.transitionMappings

/-- The FLOR caches agree with the catalog: a cached voxel ID names the definition
decoded from its FLOR code, and a cached entity ID names the definition built from the
flat index of its FLOR code, the bottom byte minus 1. -/
def FlorCatalogInv {E : Type} (ctx : MapGeneration.Context E) (s : MapGeneration.Out E) :
    Prop :=
  (∀ code id, s.voxelCache.lookup code = some id →
    ∃ d, MapGeneration.makeVoxelDefFromFLOR ctx.mif code ctx.inf = .ok d ∧
      s.levelInfoDef.voxelDefs[id]? = some d) ∧
  (∀ code id, s.entityCache.lookup code = some id →
    ∃ e, ctx.tryMakeEntityDefFromArenaFlat ((code &&& 0x00FF) - 1) = .ok (some e) ∧
      s.levelInfoDef.entityDefs[id]? = some e)

/-- The entity placement `pl` is the one of FLOR cell `c`: it stands at the centre of the
cell and its ID names, in `entityDefs`, a definition built from the flat index of the
cell, the bottom byte of its code minus 1. -/
def FlorEntityPlaced {E : Type} (ctx : MapGeneration.Context E) (flor : BufferView2D)
    (entityDefs : List E) (pl : Nat × LevelDouble3) (c : Nat × Nat) : Prop :=
  pl.2 = MapGeneration.entityPos c.2 c.1 ∧
  ∃ e, ctx.tryMakeEntityDefFromArenaFlat ((flor.get c.1 c.2 &&& 0x00FF) - 1) = .ok (some e) ∧
    entityDefs[pl.1]? = some e

/-- Whether FLOR cell `c` carries an entity: its bottom byte is non-zero and a definition
can be built for its flat index. -/
def florCellHasEntity {E : Type} (ctx : MapGeneration.Context E) (flor : BufferView2D)
    (c : Nat × Nat) : Bool :=
  decide (flor.get c.1 c.2 &&& 0x00FF ≠ 0) && ctx.builds ((flor.get c.1 c.2 &&& 0x00FF) - 1)

/-- The facing that the orientation field (bits 6..7 of a type 0xA code) stands for. -/
def facingOfField (field : Nat) : VoxelFacing2D :=
  match field with
  | 0 => VoxelFacing2D.NegativeX
  | 1 => VoxelFacing2D.PositiveZ
  | 2 => VoxelFacing2D.PositiveX
  | _ => VoxelFacing2D.NegativeZ

/-- The door kind that the type field (bits 6..7 of a type 0xB code) stands for. -/
def doorTypeOfField (field : Nat) : DoorType :=
  match field with
  | 0 => DoorType.Swinging
  | 1 => DoorType.Sliding
  | 2 => DoorType.Raising
  | _ => DoorType.Splitting

/-- The effect of a qualifying voxel on the wilderness name state: the name of the chunk
and menu type is made and recorded; making it may end in a fatal diagnostic. -/
def applyWildName {E : Type} (nc : NameContext) (wildChunkSeed : Nat) (menuType : MenuType)
    (s : MapGeneration.WildNamesOut E) : Except Fatal (MapGeneration.WildNamesOut E) :=
  match MapGeneration.wildBlockName nc wildChunkSeed menuType with
  | .error e => .error e
  | .ok name => .ok (MapGeneration.recordWildName name menuType s)

/-- Whether the voxel at `(x, 1, z)` qualifies for the menu type, read off the catalog
`levelInfoDef`; false when its definition ID is not in the catalog. -/
def wildMatches {E : Type} (nc : NameContext) (levelDef : LevelDefinition)
    (levelInfoDef : LevelInfoDefinition E) (menuType : MenuType) (x z : Nat) : Bool :=
  match MapGeneration.matchesTargetType nc WorldType.Wilderness levelDef levelInfoDef
      menuType x z with
  | .ok b => b
  | .error _ => false

/-- The invariant of the vector `seen` during the scan of a city for one menu type: no
hash is in it twice, each is the hash of a pair of indices below 23, and the catalog has
gained one name for each hash since it held `count` names. -/
def SeenInv {E : Type} (count : Nat) (acc : List Nat × MapGeneration.CityNamesOut E) : Prop :=
  acc.1.Nodup ∧
  (∀ h ∈ acc.1, ∃ a b, a < 23 ∧ b < 23 ∧ h = MapGeneration.nameHash a b) ∧
  acc.2.levelInfoDef.buildingNames.length = count + acc.1.length

/-- The list `defs2` keeps the definitions of `defs1` at their indices. -/
def KeepsDefs (defs1 defs2 : List VoxelDefinition) : Prop :=
  ∀ (i : Nat) (d : VoxelDefinition), defs1[i]? = some d → defs2[i]? = some d

/-- The MAP1 cache agrees with the catalog: a cached voxel ID names the definition
decoded from its MAP1 code. -/
def Map1CatalogInv {E : Type} (ctx : MapGeneration.Context E) (cache : MappingCache)
    (voxelDefs : List VoxelDefinition) : Prop :=
  ∀ code id, cache.lookup code = some id →
    ∃ d, MapGeneration.makeVoxelDefFromMAP1 code ((code &&& 0xF000) >>> 12) ctx.worldType
        ctx.inf ctx.exeData = .ok d ∧
      voxelDefs[id]? = some d

/-- The city-gate `*MENU` indices of the specification: 7 or 8 in a city, 6 or 7 in the
wilderness, none in an interior. -/
def isCityGateIndexSpec (menuIndex : Int) (worldType : WorldType) : Bool :=
  match worldType with
  | .Interior => false
  | .City => decide (menuIndex = 7 ∨ menuIndex = 8)
  | .Wilderness => decide (menuIndex = 6 ∨ menuIndex = 7)

/-- The interior type that a `*MENU` index is mapped to outside interiors, if any (the
tables of `tryGetInteriorTypeFromMenuIndex`; the specification does not list them). -/
def interiorTypeOfMenuIndex (menuIndex : Int) (worldType : WorldType) : Option InteriorType :=
  match MapGeneration.tryGetInteriorTypeFromMenuIndex menuIndex worldType with
  | .ok interiorType => interiorType
  | .error _ => none

/-- The classification of the specification for a MAP1 code: none when its two masked
bytes differ; in an interior, for texture index `t`, a level change up if `*LEVELUP` is
`t`, else a level change down if `*LEVELDOWN` is `t`, else an interior exit if `t` has a
`*MENU` index, else none; in a city or the wilderness, for the `*MENU` index `m` of `t`,
a city gate if `m` is a city-gate index, else an interior entrance with the interior type
mapped from `m` if there is one, else none. -/
def classifyTransitionSpec (map1Voxel : Nat) (worldType : WorldType) (inf : INFFile) :
    Option MapGeneration.TransitionDefGenInfo :=
  if MapGeneration.getVoxelMostSigByte map1Voxel ≠ MapGeneration.getVoxelLeastSigByte map1Voxel
  then none
  else
    let t : Int := (MapGeneration.getVoxelMostSigByte map1Voxel : Int) - 1
    match worldType with
    | .Interior =>
      if inf.getLevelUpIndex = some t then some ⟨TransitionType.LevelChange, none, some true⟩
      else if inf.getLevelDownIndex = some t then
        some ⟨TransitionType.LevelChange, none, some false⟩
      else if (inf.getMenuIndex t).isSome then some ⟨TransitionType.ExitInterior, none, none⟩
      else none
    | worldType =>
      match inf.getMenuIndex t with
      | none => none
      | some m =>
        if isCityGateIndexSpec m worldType then some ⟨TransitionType.CityGate, none, none⟩
        else
          match interiorTypeOfMenuIndex m worldType with
          | some interiorType => some ⟨TransitionType.EnterInterior, some interiorType, none⟩
          | none => none


/-- The finite values of IEEE 754 binary64: an integer significand below `2 ^ 53` in
absolute value times a power of two with an exponent from -1074 to 971. -/
def Dbl.IsDouble (q : ℚ) : Prop :=
  ∃ m e : Int, |m| < 2 ^ 53 ∧ -1074 ≤ e ∧ e ≤ 971 ∧ q = (m : ℚ) * (2 : ℚ) ^ e

/-- What the statements ask of the rounding `fl` of exact results to `double`: it is
monotone, never gives not-a-number, leaves the values of `double` unchanged, returns
values of `double`, and in the range of the normal numbers its relative error is at most
`2 ^ -53`. -/
def Dbl.IsRounding (fl : ℚ → Dbl) : Prop :=
  (∀ q1 q2 : ℚ, q1 ≤ q2 → (fl q2).lt (fl q1) = false) ∧
  (∀ q : ℚ, fl q ≠ Dbl.nan) ∧
  (∀ q : ℚ, Dbl.IsDouble q → fl q = Dbl.fin q) ∧
  (∀ q v : ℚ, fl q = Dbl.fin v → Dbl.IsDouble v) ∧
  (∀ q : ℚ, (2 : ℚ) ^ (-1022 : Int) ≤ |q| → |q| < (2 : ℚ) ^ (1023 : Int) →
    ∃ v, fl q = Dbl.fin v ∧ |v - q| ≤ |q| / 2 ^ 53)

/-- The row `round(i * H / N)` at which band `i` of `N` starts in an image of `H` rows, in
the words of the specification. The quotient is not negative where it is used, so the
rounding is the floor of the quotient plus one half. -/
def bandStartSpec (H N i : Int) : Int :=
  Int.floor (((i : ℚ) * (H : ℚ)) / (N : ℚ) + 1 / 2)

/-- The bound `static_cast<int>(std::round(i * blockSize))` of a band of `render`, with
`blockSize = H / N`, as a function of `i`: the expression of `startY` for `i` and of
`endY` for `i - 1`. -/
def SoftwareRenderer.bandEdge (fl : ℚ → Dbl) (H N i : Int) : Except Fatal Int :=
  ((Dbl.ofInt i * (Dbl.ofInt H / Dbl.ofInt N).rounded fl).rounded fl).round.toInt

/-- The number of steps that the loop of `castRay` takes in its first `fuel` passes: the
loop of `ddaLoop` with a count of the passes that reach the stepping part. -/
def SoftwareRenderer.ddaSteps (r : SoftwareRenderer) (voxelGrid : VoxelGrid)
    (c : SoftwareRenderer.RaySetup) : Nat → SoftwareRenderer.RayState → Nat
  | 0, _ => 0
  | fuel + 1, s =>
    if s.voxelIsValid && s.cellDistSquared.lt r.viewDistSquared then
      let gridIndex := s.cell.x + (s.cell.y * voxelGrid.width) +
        (s.cell.z * voxelGrid.width * voxelGrid.height)
      match voxelGrid.voxelAt gridIndex with
      | .error _ => 0
      | .ok voxelID =>
        if voxelID > 0 then 0
        else
          SoftwareRenderer.ddaSteps r voxelGrid c fuel
            (SoftwareRenderer.advance voxelGrid c s) + 1
    else 0

/-- The cells at which the loop of `castRay` reads the voxel array in its first `fuel`
passes, in order: the loop of `ddaLoop` with a record of the cell of each read. -/
def SoftwareRenderer.ddaReads (r : SoftwareRenderer) (voxelGrid : VoxelGrid)
    (c : SoftwareRenderer.RaySetup) : Nat → SoftwareRenderer.RayState → List Int3
  | 0, _ => []
  | fuel + 1, s =>
    if s.voxelIsValid && s.cellDistSquared.lt r.viewDistSquared then
      let gridIndex := s.cell.x + (s.cell.y * voxelGrid.width) +
        (s.cell.z * voxelGrid.width * voxelGrid.height)
      match voxelGrid.voxelAt gridIndex with
      | .error _ => [s.cell]
      | .ok voxelID =>
        if voxelID > 0 then [s.cell]
        else
          s.cell :: SoftwareRenderer.ddaReads r voxelGrid c fuel
            (SoftwareRenderer.advance voxelGrid c s)
    else []

/-- Whether a cell lies in the grid. -/
def VoxelGrid.contains (voxelGrid : VoxelGrid) (cell : Int3) : Prop :=
  0 ≤ cell.x ∧ cell.x < voxelGrid.width ∧ 0 ≤ cell.y ∧ cell.y < voxelGrid.height ∧
    0 ≤ cell.z ∧ cell.z < voxelGrid.depth

/-- Whether every chasm state of the map is keyed by its own voxel and has at least one
of its four face flags set. -/
def LevelData.ChasmStatesOK (chasmStates : List (Int2 × ChasmState)) : Prop :=
  ∀ entry ∈ chasmStates, entry.2.voxel = entry.1 ∧
    (entry.2.north || entry.2.east || entry.2.south || entry.2.west) = true

/-- The entry that the faces of a chasm voxel call for: the state with the four flags
when one of them is set, none otherwise. -/
def LevelData.chasmStateOf (voxel : Int2) (faces : LevelData.ChasmFaces) :
    Option ChasmState :=
  if faces.hasNorthFace || faces.hasEastFace || faces.hasSouthFace || faces.hasWestFace then
    some ⟨voxel, faces.hasNorthFace, faces.hasEastFace, faces.hasSouthFace, faces.hasWestFace⟩
  else none

/-- The MAP1 codes on which the old reader is said to add a voxel definition: a solid
wall or a raised platform (a non-zero code with the high bit clear), type 0x9, type 0xA
with a non-negative texture index, type 0xB with door field 0 to 2, and type 0xD. -/
def LevelData.oldReaderAdds (map1Voxel : Nat) : Prop :=
  (map1Voxel ≠ 0 ∧ map1Voxel &&& 0x8000 = 0) ∨
  (map1Voxel &&& 0x8000 ≠ 0 ∧
    ((map1Voxel &&& 0xF000) >>> 12 = 0x9 ∨
     ((map1Voxel &&& 0xF000) >>> 12 = 0xA ∧ ((map1Voxel &&& 0x003F : Nat) : Int) - 1 ≥ 0) ∨
     ((map1Voxel &&& 0xF000) >>> 12 = 0xB ∧ (map1Voxel &&& 0x00C0) >>> 6 ≤ 2) ∨
     (map1Voxel &&& 0xF000) >>> 12 = 0xD))

instance (map1Voxel : Nat) : Decidable (LevelData.oldReaderAdds map1Voxel) := by
  unfold LevelData.oldReaderAdds
  infer_instance

/-- The fade states that are said to remain after `updateFadingVoxels`: those whose sum
`currentSeconds + dt`, a value of `double`, is below `targetSeconds`, in their order, with
the time advanced by `dt`. -/
def LevelData.stillFading (fl : ℚ → Dbl) (dt : Dbl) (fadingVoxels : List FadeState) :
    List FadeState :=
  (fadingVoxels.filter fun f =>
    ((f.currentSeconds + dt).rounded fl).lt f.targetSeconds).map fun f =>
    { f with currentSeconds := (f.currentSeconds + dt).rounded fl }

/-- Whether the grid holds the empty form of a faded voxel: ID 0 above the floor, the ID
of a chasm definition on the floor. -/
def LevelVoxelGrid.holdsFaded (g : LevelVoxelGrid) (voxel : Int3) : Prop :=
  ∃ id, g.getVoxel voxel.x voxel.y voxel.z = .ok id ∧
    (voxel.y ≠ 0 → id = 0) ∧
    (voxel.y = 0 → ∃ textureID type, g.getVoxelDef id = .ok (VoxelDefinition.Chasm textureID type))

/-- The fade states that the first loop of `updateFadingVoxels` keeps: each state
updated by `dt`, without those that are done fading, in their order. -/
def LevelData.unfinished (fl : ℚ → Dbl) (dt : Dbl) (fadingVoxels : List FadeState) :
    List FadeState :=
  (fadingVoxels.map fun f => f.update fl dt).filter fun f => !f.isDoneFading fl

/-- Whether every voxel ID of the grid has a definition: the list of definitions holds
one for ID 0, and every ID written to the array is below its length. -/
def LevelVoxelGrid.WellFormed (g : LevelVoxelGrid) : Prop :=
  0 < g.voxelDefs.length ∧ ∀ entry ∈ g.voxels, entry.2 < g.voxelDefs.length
/-! ## Sample inputs -/

/-- A parameter table with no entries and a ceiling of height 128. -/
def sampleInf : INFFile :=
  { getMenuIndex := fun _ => none
    getLevelUpIndex := none
    getLevelDownIndex := none
    getDryChasmIndex := none
    getLavaChasmIndex := none
    getWetChasmIndex := none
    getBoxSide := fun _ => none
    getBoxCap := fun _ => none
    getCeiling := ⟨none, 128, none, false⟩ }

/-- A parameter table of an interior with `*LEVELUP 4`, `*LEVELDOWN 5`, a `*MENU` entry
for texture 6 and chasm indices. -/
def sampleInteriorInf : INFFile :=
  { getMenuIndex := fun t => if t = 6 then some 0 else none
    getLevelUpIndex := some 4
    getLevelDownIndex := some 5
    getDryChasmIndex := some 20
    getLavaChasmIndex := some 22
    getWetChasmIndex := none
    getBoxSide := fun _ => none
    getBoxCap := fun _ => none
    getCeiling := ⟨some 3, 100, some 192, false⟩ }

/-- Wall height tables with all entries zero. -/
def sampleExeData : ExeData :=
  ⟨⟨fun _ => 0, fun _ => 0, fun _ => 0, fun _ => 0, fun _ => 0⟩⟩

/-- Three distinct chasm sentinel values. -/
def sampleMif : MIFUtils :=
  ⟨12, 14, 13⟩

/-- A pass context in which an entity definition is the flat index it was built from
and every flat can be built. -/
def sampleContext (worldType : WorldType) (inf : INFFile) : MapGeneration.Context Nat :=
  { worldType := worldType
    rulerIsMale := none
    inf := inf
    exeData := sampleExeData
    mif := sampleMif
    tryMakeEntityDefFromArenaFlat := fun flatIndex => .ok (some flatIndex)
    getMap2VoxelHeight := fun _ => 1 }

/-- An empty catalog. -/
def emptyInfo : LevelInfoDefinition Nat :=
  { voxelDefs := [], entityDefs := [], transitionDefs := [] }

/-- A buffer of the given size holding the codes of `rows` (row `z`, column `x`), zero
elsewhere. -/
def bufferOf (width height : Nat) (rows : List (List Nat)) : BufferView2D :=
  ⟨width, height, fun x z => (rows.getD z []).getD x 0⟩

/-- A catalog holding only the air definition, at index 0. -/
def airInfo : LevelInfoDefinition Nat :=
  { voxelDefs := [VoxelDefinition.None], entityDefs := [], transitionDefs := [] }

/-- Two one-row levels of an interior: floors, a `*LEVELUP` wall (code 0x0505) in each
level, a plain wall, and no MAP2 data. -/
def sampleLevels : List MapGeneration.MIFLevel :=
  [ { flor := bufferOf 2 1 [[0x0100, 0x0200]], map1 := bufferOf 2 1 [[0x0505, 0x0101]],
      map2 := none },
    { flor := bufferOf 2 1 [[0x0200, 0x0200]], map1 := bufferOf 2 1 [[0x0000, 0x0505]],
      map2 := none } ]

/-- Two fresh level definitions for `sampleLevels`. -/
def sampleLevelDefs : List LevelDefinition :=
  [LevelDefinition.init 1 3 2, LevelDefinition.init 1 3 2]

/-- Wall height tables whose five arrays differ: entry `i` is `10 + i`, `20 + i`,
`30 + i`, `40 + i` and `50 + i`. -/
def sampleHeightExeData : ExeData :=
  ⟨⟨fun i => 10 + i, fun i => 20 + i, fun i => 30 + i, fun i => 40 + i, fun i => 50 + i⟩⟩


/-- Name tables of 23 tavern prefixes and suffixes, 3 temple prefixes and 5, 9 and 10
temple suffixes, each entry spelling its own index. -/
def sampleCityGen : CityGenData :=
  { tavernPrefixes := (List.range 23).map fun i => "P" ++ toString i
    tavernSuffixes := (List.range 23).map fun i => "S" ++ toString i
    tavernMarineSuffixes := (List.range 23).map fun i => "M" ++ toString i
    equipmentPrefixes := (List.range 20).map fun i => "E" ++ toString i
    equipmentSuffixes := (List.range 10).map fun i => "F" ++ toString i
    templePrefixes := (List.range 3).map fun i => "T" ++ toString i
    temple1Suffixes := (List.range 5).map fun i => "A" ++ toString i
    temple2Suffixes := (List.range 9).map fun i => "B" ++ toString i
    temple3Suffixes := (List.range 10).map fun i => "C" ++ toString i }

/-- A name context over chunks of 2 by 2 voxels: the generator counts upward from its
seed, menu ID 0 is a tavern and menu ID 1 a temple. -/
def sampleNameContext : NameContext :=
  { cityGen := sampleCityGen
    rmd := ⟨2, 2⟩
    next := fun state => (state + 1, state + 1)
    getMenuType := fun menuID _ =>
      if menuID = some 0 then MenuType.Tavern
      else if menuID = some 1 then MenuType.Temple
      else MenuType.None
    substituteEquipmentTokens := fun name _ _ => name }

/-- A catalog of air, a tavern `*MENU` wall (ID 1) and a temple `*MENU` wall (ID 2). -/
def sampleMenuInfo : LevelInfoDefinition Nat :=
  { voxelDefs := [VoxelDefinition.None,
      VoxelDefinition.Wall 6 6 6 (some 0) WallType.Menu,
      VoxelDefinition.Wall 7 7 7 (some 1) WallType.Menu]
    entityDefs := [], transitionDefs := [] }

/-- A chunk of 2 by 2 voxels with tavern walls at `(0, 1, 1)` and `(1, 1, 0)`, in two
different rows, and a temple wall at `(1, 1, 1)`. -/
def sampleWildChunk : LevelDefinition :=
  (((LevelDefinition.init 2 3 2).setVoxel 0 1 1 1).setVoxel 1 1 0 1).setVoxel 1 1 1 2

/-- The name state before the first chunk: no names, no mappings. -/
def sampleWildNames : MapGeneration.WildNamesOut Nat :=
  { buildingNameInfo := MapGeneration.WildChunkBuildingNameInfo.init ⟨0, 0⟩
    levelInfoDef := sampleMenuInfo
    buildingNameMappings := [] }

/-- A name context whose generator repeats itself: from state 0 it draws 1, 2, 1, 2 and
from then on its own state, so the second tavern of a city first draws the pair of the
first one. -/
def sampleCityNameContext : NameContext :=
  { sampleNameContext with
    next := fun state => (if state < 4 then state % 2 + 1 else state, state + 1) }

/-- A city of 2 by 2 voxels with two taverns and a temple, before any name is made, the
generator in state 0. -/
def sampleCity : MapGeneration.CityNamesOut Nat :=
  { random := 0
    levelDef := sampleWildChunk
    levelInfoDef := sampleMenuInfo }

/-- A dungeon context over chunks of 3 by 3 voxels: a block packs as `10 * y + x`, the
transition voxel of chunk coordinate `c` is at `1 + 3 * c`, a level change byte `v`
becomes the code `(v << 8) | v`, and from state `s` the generator draws `s / 4` and
moves to `s + 1`. -/
def sampleDungeonContext : DungeonContext :=
  { DUNGEON_CHUNK_DIM := 3
    packLevelChangeVoxel := fun x y => 10 * y + x
    unpackLevelChangeVoxel := fun voxel => (voxel % 10, voxel / 10)
    offsetLevelChangeVoxel := fun coord => 1 + 3 * coord
    convertLevelChangeVoxel := fun voxel => (voxel <<< 8) ||| voxel
    next := fun state => (state / 4, state + 1)
    hasTextIndex := fun _ => false
    getText := fun _ => ("", false)
    getSound := fun _ => ""
    toUppercase := fun str => str }

/-- A chunk file of 32 equal blocks of 3 by 3 voxels: floors everywhere, one wall in the
middle of the first row, and a lock. -/
def sampleDungeonMif : MIFFile :=
  { width := 3
    depth := 3
    levels := List.replicate 32
      { flor := bufferOf 3 3 [[0x0100, 0x0100, 0x0100], [0x0100, 0x0100, 0x0100],
          [0x0100, 0x0100, 0x0100]]
        map1 := bufferOf 3 3 [[0, 0x0101, 0], [0, 0, 0], [0, 0, 0]]
        map2 := none
        lock := [⟨1, 1, 2⟩]
        trig := [] } }


/-- A renderer with the given eye, view distance and textures: no pixels, one render
thread, and the start cell at the origin. -/
def sampleRenderer (eye : Double3) (viewDistance : Dbl) (textures : List TextureData) :
    SoftwareRenderer :=
  SoftwareRenderer.setViewDistance
    { colorBuffer := []
      width := 0
      height := 0
      renderThreadCount := 1
      eye := eye
      forward := ⟨.fin 0, .fin 0, .fin 1⟩
      fovY := Dbl.fin 90
      viewDistance := Dbl.fin 0
      viewDistSquared := Dbl.fin 0
      startCellReal := ⟨.fin 0, .fin 0, .fin 0⟩
      startCell := ⟨0, 0, 0⟩
      textures := textures }
    viewDistance

/-- The middle of the voxel at the origin. -/
def sampleEye : Double3 :=
  ⟨.fin (1 / 2), .fin (1 / 2), .fin (1 / 2)⟩

/-- A texture of one white texel. -/
def sampleTexture : TextureData :=
  ⟨[⟨.fin 1, .fin 1, .fin 1, .fin 1⟩], 1, 1⟩

/-- A grid of 3 by 1 by 3 unit voxels, all air but the voxel at `(1, 0, 0)`. -/
def sampleRayGrid : VoxelGrid :=
  { width := 3
    height := 1
    depth := 3
    voxelHeight := Dbl.fin 1
    voxels := [0, 1, 0, 0, 0, 0, 0, 0, 0]
    voxelData := [⟨0, 0⟩] }

/-- A grid of 1 by 1 by 2 unit voxels: air at the origin, a solid voxel at
`(0, 0, 1)`. -/
def sampleDeepGrid : VoxelGrid :=
  { width := 1
    height := 1
    depth := 2
    voxelHeight := Dbl.fin 1
    voxels := [0, 1]
    voxelData := [⟨0, 0⟩] }

/-- A grid of one solid unit voxel. -/
def sampleSolidGrid : VoxelGrid :=
  { width := 1
    height := 1
    depth := 1
    voxelHeight := Dbl.fin 1
    voxels := [1]
    voxelData := [⟨0, 0⟩] }

/-- A render context whose square root is right on 1, on 25/9 and on 25/16, and whose
`lerp` is the usual one. -/
def sampleRenderContext : RenderContext :=
  { sqrt := fun q => if q = 25 / 9 then 5 / 3 else if q = 25 / 16 then 5 / 4 else q
    lerp := fun a b p =>
      ⟨a.x + ((b.x - a.x) * p), a.y + ((b.y - a.y) * p), a.z + ((b.z - a.z) * p)⟩ }

/-- A renderer of 4 by 10 pixels, all of the value 7, with three render threads. -/
def sampleScreen : SoftwareRenderer :=
  { sampleRenderer sampleEye (Dbl.fin 10) [sampleTexture] with
    colorBuffer := List.replicate 40 7
    width := 4
    height := 10
    renderThreadCount := 3 }

/-- A renderer of 4 by 82 pixels with twenty render threads. -/
def sampleTallScreen : SoftwareRenderer :=
  { sampleRenderer sampleEye (Dbl.fin 10) [sampleTexture] with
    colorBuffer := List.replicate 328 7
    width := 4
    height := 82
    renderThreadCount := 20 }

/-- A level context in which floors and walls allow a chasm face and two chasm
definitions match when their texture index and type are equal. -/
def sampleLevelContext : LevelContext :=
  { allowsChasmFace := fun voxelDef =>
      match voxelDef with
      | .Floor _ => true
      | .Wall _ _ _ _ _ => true
      | _ => false
    chasmMatches := fun a b => a == b }

/-- A level of 2 by 2 by 2 voxels with the definitions air, floor and wet chasm: a
chasm at `(0, 0, 0)`, a floor at `(1, 0, 0)`, air elsewhere, no chasm state and no
fading voxel. -/
def sampleLevelData : LevelData :=
  { voxelGrid :=
      { width := 2
        height := 2
        depth := 2
        voxels := [(⟨0, 0, 0⟩, 2), (⟨1, 0, 0⟩, 1)]
        voxelDefs := [VoxelDefinition.None, VoxelDefinition.Floor 0,
          VoxelDefinition.Chasm 0 ChasmType.Wet] }
    inf := sampleInf
    floorDataMappings := []
    wallDataMappings := []
    flatsLists := []
    chasmStates := []
    fadingVoxels := [] }

/-- The sample level with three fading voxels: the floor at `(1, 0, 0)` and the voxel
at `(1, 1, 0)`, both with a second to go at most, and the voxel at `(0, 1, 1)` with
two seconds to go. -/
def sampleFadingLevel : LevelData :=
  { sampleLevelData with
    fadingVoxels :=
      [⟨⟨1, 0, 0⟩, Dbl.fin 0, Dbl.fin 1⟩, ⟨⟨1, 1, 0⟩, Dbl.fin (1 / 2), Dbl.fin 1⟩,
        ⟨⟨0, 1, 1⟩, Dbl.fin 0, Dbl.fin 2⟩] }

/-- The sample level with one fading voxel whose target is zero seconds. -/
def sampleStuckLevel : LevelData :=
  { sampleLevelData with fadingVoxels := [⟨⟨1, 1, 0⟩, Dbl.fin 0, Dbl.fin 0⟩] }

/-- The sample level with one fading voxel at `(1, 1, 0)` whose time is the `double`
nearest to 0.7 and whose target is one second. -/
def sampleRoundedFadeLevel : LevelData :=
  { sampleLevelData with
    fadingVoxels := [⟨⟨1, 1, 0⟩, Dbl.fin (3152519739159347 / 4503599627370496), Dbl.fin 1⟩] }
/-! ## Theorems -/

/-! ## Bit fields of a tile code -/

theorem and_shiftLeft_shiftRight (c k m : Nat) :
    (c &&& (m <<< k)) >>> k = (c >>> k) &&& m := by
  apply Nat.eq_of_testBit_eq
  intro i
  simp [Nat.testBit_shiftRight, Nat.testBit_and, Nat.testBit_shiftLeft]

theorem and_shiftLeft_eq_zero_iff (c k m : Nat) :
    (c &&& (m <<< k)) = 0 ↔ (c >>> k) &&& m = 0 := by
  rw [← and_shiftLeft_shiftRight]
  constructor
  · intro h; rw [h]; simp
  · intro h
    apply Nat.eq_of_testBit_eq
    intro i
    simp only [Nat.zero_testBit]
    by_cases hik : k ≤ i
    · have h1 := congrArg (fun n => n.testBit (i - k)) h
      simp [Nat.testBit_shiftRight, Nat.testBit_and, Nat.testBit_shiftLeft] at h1
      simp [Nat.testBit_and, Nat.testBit_shiftLeft, hik]
      have e : k + (i - k) = i := by omega
      rw [e] at h1
      intro hc
      simpa using h1 hc
    · simp [Nat.testBit_and, Nat.testBit_shiftLeft, hik]

/-- The tile-type nibble is the fourth hexadecimal digit of the code. -/
theorem mostSigNibble_eq (c : Nat) : (c &&& 0xF000) >>> 12 = (c / 4096) % 16 := by
  have h := and_shiftLeft_shiftRight c 12 0xF
  have e : (0xF <<< 12 : Nat) = 0xF000 := by decide
  rw [e] at h
  rw [h, Nat.shiftRight_eq_div_pow]
  exact Nat.and_pow_two_sub_one_eq_mod _ 4

/-- Bit 15 of the code is clear exactly when the code is below 0x8000 modulo 0x10000. -/
theorem highBit_clear_iff (c : Nat) : c &&& 0x8000 = 0 ↔ (c / 32768) % 2 = 0 := by
  have h := and_shiftLeft_eq_zero_iff c 15 1
  have e : (1 <<< 15 : Nat) = 0x8000 := by decide
  rw [e] at h
  rw [h, Nat.shiftRight_eq_div_pow]
  have := Nat.and_pow_two_sub_one_eq_mod (c / 2 ^ 15) 1
  simp at this
  simp [this]

theorem mostSigNibble_ne_eight_of_highBit_clear (c : Nat) (h : c &&& 0x8000 = 0) :
    (c &&& 0xF000) >>> 12 ≠ 8 := by
  rw [mostSigNibble_eq]
  rw [highBit_clear_iff] at h
  omega

theorem mostSigNibble_ge_eight_of_highBit_set (c : Nat) (h : c &&& 0x8000 ≠ 0) :
    8 ≤ (c &&& 0xF000) >>> 12 ∧ (c &&& 0xF000) >>> 12 < 16 := by
  rw [mostSigNibble_eq]
  rw [Ne, highBit_clear_iff] at h
  omega


/-- C1: converting a coordinate pair to the other axis convention and back gives the
pair again, in both orders; each conversion is the swap of the two components. -/
theorem voxel_axis_swap_round_trip (v : Int2) :
    VoxelUtils.newVoxelToOriginalVoxel (VoxelUtils.originalVoxelToNewVoxel v) = v ∧
    VoxelUtils.originalVoxelToNewVoxel (VoxelUtils.newVoxelToOriginalVoxel v) = v ∧
    VoxelUtils.originalVoxelToNewVoxel v = ⟨v.y, v.x⟩ ∧
    VoxelUtils.newVoxelToOriginalVoxel v = ⟨v.y, v.x⟩ := by
  cases v
  simp [VoxelUtils.newVoxelToOriginalVoxel, VoxelUtils.originalVoxelToNewVoxel]

open MapGeneration

/-- The solid-wall branch of `makeVoxelDefFromMAP1`. -/
theorem makeVoxelDefFromMAP1_wall (c : Nat) (worldType : WorldType) (inf : INFFile)
    (exeData : ExeData) (h0 : c ≠ 0) (h15 : c &&& 0x8000 = 0)
    (hb : getVoxelMostSigByte c = getVoxelLeastSigByte c) :
    makeVoxelDefFromMAP1 c ((c &&& 0xF000) >>> 12) worldType inf exeData
      = .ok (VoxelDefinition.Wall ((getVoxelMostSigByte c : Int) - 1)
          ((getVoxelMostSigByte c : Int) - 1) ((getVoxelMostSigByte c : Int) - 1)
          (inf.getMenuIndex ((getVoxelMostSigByte c : Int) - 1))
          (wallTypeOf inf ((getVoxelMostSigByte c : Int) - 1)
            (inf.getMenuIndex ((getVoxelMostSigByte c : Int) - 1)).isSome)) := by
  have h8 := mostSigNibble_ne_eight_of_highBit_clear c h15
  simp only [makeVoxelDefFromMAP1, if_neg h0, if_neg h8, if_pos h15, if_pos hb]

/-- The raised-platform branch of `makeVoxelDefFromMAP1`. -/
theorem makeVoxelDefFromMAP1_raised (c : Nat) (worldType : WorldType) (inf : INFFile)
    (exeData : ExeData) (h0 : c ≠ 0) (h15 : c &&& 0x8000 = 0)
    (hb : getVoxelMostSigByte c ≠ getVoxelLeastSigByte c) :
    makeVoxelDefFromMAP1 c ((c &&& 0xF000) >>> 12) worldType inf exeData
      = .ok (makeRaised c (getVoxelMostSigByte c) worldType inf exeData) := by
  have h8 := mostSigNibble_ne_eight_of_highBit_clear c h15
  simp only [makeVoxelDefFromMAP1, if_neg h0, if_neg h8, if_pos h15, if_neg hb]

/-- C3 (as stated, refuted): code 0x0181 is non-zero with bit 0x8000 clear, its top byte
0x01 differs from its bottom byte 0x81, and yet `makeVoxelDefFromMAP1` returns a Wall:
the comparison is between the bytes masked to seven bits. -/
theorem map1_wall_with_unequal_bytes :
    (0x0181 : Nat) ≠ 0 ∧ (0x0181 : Nat) &&& 0x8000 = 0 ∧
    ((0x0181 : Nat) >>> 8) &&& 0xFF ≠ (0x0181 : Nat) &&& 0xFF ∧
    makeVoxelDefFromMAP1 0x0181 ((0x0181 &&& 0xF000) >>> 12) WorldType.Interior sampleInf
      sampleExeData = .ok (VoxelDefinition.Wall 0 0 0 none WallType.Solid) := by
  refine ⟨by decide, by decide, by decide, ?_⟩
  rfl

/-- C3 (amended): for a non-zero MAP1 code with bit 0x8000 clear, `makeVoxelDefFromMAP1`
returns a Wall exactly when bits 8..14 of the code equal its low seven bits
(`getVoxelMostSigByte` = `getVoxelLeastSigByte`), with side, floor and ceiling texture IDs
equal to that value minus 1; otherwise it returns a Raised definition. -/
theorem map1_wall_iff_masked_bytes_equal (c : Nat) (worldType : WorldType) (inf : INFFile)
    (exeData : ExeData) (h0 : c ≠ 0) (h15 : c &&& 0x8000 = 0) :
    ((∃ s f g m t, makeVoxelDefFromMAP1 c ((c &&& 0xF000) >>> 12) worldType inf exeData
        = .ok (VoxelDefinition.Wall s f g m t)) ↔
      getVoxelMostSigByte c = getVoxelLeastSigByte c) ∧
    (getVoxelMostSigByte c = getVoxelLeastSigByte c →
      ∃ m t, makeVoxelDefFromMAP1 c ((c &&& 0xF000) >>> 12) worldType inf exeData
        = .ok (VoxelDefinition.Wall ((getVoxelMostSigByte c : Int) - 1)
            ((getVoxelMostSigByte c : Int) - 1) ((getVoxelMostSigByte c : Int) - 1) m t)) ∧
    (getVoxelMostSigByte c ≠ getVoxelLeastSigByte c →
      ∃ s f g o z h, makeVoxelDefFromMAP1 c ((c &&& 0xF000) >>> 12) worldType inf exeData
        = .ok (VoxelDefinition.Raised s f g o z h)) := by
  by_cases hb : getVoxelMostSigByte c = getVoxelLeastSigByte c
  · have hw := makeVoxelDefFromMAP1_wall c worldType inf exeData h0 h15 hb
    exact ⟨⟨fun _ => hb, fun _ => ⟨_, _, _, _, _, hw⟩⟩, fun _ => ⟨_, _, hw⟩,
      fun hne => absurd hb hne⟩
  · have hr := makeVoxelDefFromMAP1_raised c worldType inf exeData h0 h15 hb
    refine ⟨⟨fun hw => ?_, fun h => absurd h hb⟩, fun h => absurd h hb, fun _ => ?_⟩
    · obtain ⟨s, f, g, m, t, hw⟩ := hw
      rw [hr] at hw
      simp [makeRaised] at hw
    · rw [hr]
      exact ⟨_, _, _, _, _, _, rfl⟩

/-- C3 (amended), at code 0x0505 (wall, texture 4) in an interior. -/
theorem map1_wall_iff_masked_bytes_equal_witness :
    ((∃ s f g m t, makeVoxelDefFromMAP1 0x0505 ((0x0505 &&& 0xF000) >>> 12)
        WorldType.Interior sampleInteriorInf sampleExeData
        = .ok (VoxelDefinition.Wall s f g m t)) ↔
      getVoxelMostSigByte 0x0505 = getVoxelLeastSigByte 0x0505) ∧
    (getVoxelMostSigByte 0x0505 = getVoxelLeastSigByte 0x0505 →
      ∃ m t, makeVoxelDefFromMAP1 0x0505 ((0x0505 &&& 0xF000) >>> 12)
        WorldType.Interior sampleInteriorInf sampleExeData
        = .ok (VoxelDefinition.Wall ((getVoxelMostSigByte 0x0505 : Int) - 1)
            ((getVoxelMostSigByte 0x0505 : Int) - 1)
            ((getVoxelMostSigByte 0x0505 : Int) - 1) m t)) ∧
    (getVoxelMostSigByte 0x0505 ≠ getVoxelLeastSigByte 0x0505 →
      ∃ s f g o z h, makeVoxelDefFromMAP1 0x0505 ((0x0505 &&& 0xF000) >>> 12)
        WorldType.Interior sampleInteriorInf sampleExeData
        = .ok (VoxelDefinition.Raised s f g o z h)) :=
  map1_wall_iff_masked_bytes_equal 0x0505 WorldType.Interior sampleInteriorInf sampleExeData
    (by decide) (by decide)

/-- C4: for a solid-wall MAP1 code (non-zero, bit 0x8000 clear, equal masked bytes) with
texture index `t`, the wall kind returned by `makeVoxelDefFromMAP1` is LevelUp if the
table has `*LEVELUP` equal to `t`, otherwise LevelDown if it has `*LEVELDOWN` equal to `t`,
otherwise Menu if it has a `*MENU` index for `t`, otherwise Solid. -/
theorem map1_solid_wall_kind_priority (c : Nat) (worldType : WorldType) (inf : INFFile)
    (exeData : ExeData) (t : Int) (h0 : c ≠ 0) (h15 : c &&& 0x8000 = 0)
    (hb : getVoxelMostSigByte c = getVoxelLeastSigByte c)
    (ht : t = (getVoxelMostSigByte c : Int) - 1) :
    ∃ m, makeVoxelDefFromMAP1 c ((c &&& 0xF000) >>> 12) worldType inf exeData
      = .ok (VoxelDefinition.Wall t t t m
          (if inf.getLevelUpIndex = some t then WallType.LevelUp
           else if inf.getLevelDownIndex = some t then WallType.LevelDown
           else if (inf.getMenuIndex t).isSome then WallType.Menu
           else WallType.Solid)) := by
  refine ⟨inf.getMenuIndex t, ?_⟩
  have hm : ∀ o : Option Int, matchesIndex t o = true ↔ o = some t := by
    intro o
    cases o with
    | none => simp [matchesIndex]
    | some i => simp [matchesIndex]
  rw [makeVoxelDefFromMAP1_wall c worldType inf exeData h0 h15 hb, ← ht]
  simp only [wallTypeOf, hm]

/-- C4, at the codes of a level-up, a level-down, a menu and a plain wall of
`sampleInteriorInf`. -/
theorem map1_solid_wall_kind_priority_witness :
    ((0x0505 : Nat) ≠ 0 ∧ (0x0505 : Nat) &&& 0x8000 = 0 ∧
      getVoxelMostSigByte 0x0505 = getVoxelLeastSigByte 0x0505) ∧
    ∃ m, makeVoxelDefFromMAP1 0x0505 ((0x0505 &&& 0xF000) >>> 12) WorldType.Interior
      sampleInteriorInf sampleExeData
      = .ok (VoxelDefinition.Wall 4 4 4 m
          (if sampleInteriorInf.getLevelUpIndex = some 4 then WallType.LevelUp
           else if sampleInteriorInf.getLevelDownIndex = some 4 then WallType.LevelDown
           else if (sampleInteriorInf.getMenuIndex 4).isSome then WallType.Menu
           else WallType.Solid)) :=
  ⟨⟨by decide, by decide, by decide⟩,
    map1_solid_wall_kind_priority 0x0505 WorldType.Interior sampleInteriorInf sampleExeData 4
      (by decide) (by decide) (by decide) (by decide)⟩

/-- C5: `makeVoxelDefFromFLOR` depends only on the top byte of the code and on the table.
A top byte that is no chasm sentinel gives a Floor whose texture ID is the top byte; the
dry, lava or wet sentinel gives a Chasm of that kind whose texture ID is the table's chasm
index of that kind, or 0 when the table has none. The three sentinels are distinct. -/
theorem flor_decode_by_top_byte (mif : MIFUtils) (inf : INFFile) (c : Nat)
    (hdl : mif.DRY_CHASM ≠ mif.LAVA_CHASM) (hdw : mif.DRY_CHASM ≠ mif.WET_CHASM)
    (hlw : mif.LAVA_CHASM ≠ mif.WET_CHASM) :
    (∀ c2, (c2 &&& 0xFF00) >>> 8 = (c &&& 0xFF00) >>> 8 →
      makeVoxelDefFromFLOR mif c2 inf = makeVoxelDefFromFLOR mif c inf) ∧
    (((c &&& 0xFF00) >>> 8 ≠ mif.DRY_CHASM ∧ (c &&& 0xFF00) >>> 8 ≠ mif.LAVA_CHASM ∧
        (c &&& 0xFF00) >>> 8 ≠ mif.WET_CHASM) →
      makeVoxelDefFromFLOR mif c inf
        = .ok (VoxelDefinition.Floor (((c &&& 0xFF00) >>> 8 : Nat) : Int))) ∧
    ((c &&& 0xFF00) >>> 8 = mif.DRY_CHASM →
      makeVoxelDefFromFLOR mif c inf
        = .ok (VoxelDefinition.Chasm (inf.getDryChasmIndex.getD 0) ChasmType.Dry)) ∧
    ((c &&& 0xFF00) >>> 8 = mif.LAVA_CHASM →
      makeVoxelDefFromFLOR mif c inf
        = .ok (VoxelDefinition.Chasm (inf.getLavaChasmIndex.getD 0) ChasmType.Lava)) ∧
    ((c &&& 0xFF00) >>> 8 = mif.WET_CHASM →
      makeVoxelDefFromFLOR mif c inf
        = .ok (VoxelDefinition.Chasm (inf.getWetChasmIndex.getD 0) ChasmType.Wet)) := by
  refine ⟨?_, ?_, ?_, ?_, ?_⟩
  · intro c2 h
    simp only [makeVoxelDefFromFLOR, h]
  · rintro ⟨h1, h2, h3⟩
    simp [makeVoxelDefFromFLOR, MIFUtils.isChasm, h1, h2, h3]
  · intro h
    simp [makeVoxelDefFromFLOR, MIFUtils.isChasm, h]
  · intro h
    simp [makeVoxelDefFromFLOR, MIFUtils.isChasm, h, hdl.symm]
  · intro h
    simp [makeVoxelDefFromFLOR, MIFUtils.isChasm, h, hdw.symm, hlw.symm]

/-- C5, at the lava chasm code 0x0E07 with the sentinels 12, 14, 13. -/
theorem flor_decode_by_top_byte_witness :
    (sampleMif.DRY_CHASM ≠ sampleMif.LAVA_CHASM ∧ sampleMif.DRY_CHASM ≠ sampleMif.WET_CHASM ∧
      sampleMif.LAVA_CHASM ≠ sampleMif.WET_CHASM) ∧
    makeVoxelDefFromFLOR sampleMif 0x0E07 sampleInteriorInf
      = .ok (VoxelDefinition.Chasm 22 ChasmType.Lava) :=
  ⟨⟨by decide, by decide, by decide⟩,
    (flor_decode_by_top_byte sampleMif sampleInteriorInf 0x0E07 (by decide) (by decide)
      (by decide)).2.2.2.1 (by decide)⟩

/-- C9 (as stated, refuted): for the non-zero code 0xE000, whose tile-type nibble 0xE is
not the entity nibble, `makeVoxelDefFromMAP1` ends in the unhandled-value diagnostic, and
`readArenaMAP1` over a level holding that code ends with it instead of a level. -/
theorem map1_unhandled_nibble_is_fatal :
    makeVoxelDefFromMAP1 0xE000 ((0xE000 &&& 0xF000) >>> 12) WorldType.Interior sampleInf
      sampleExeData = .error (Fatal.unhandledReturn 0xE) ∧
    (∀ s, readArenaMAP1 (sampleContext WorldType.Interior sampleInf)
        (bufferOf 2 1 [[0xE000, 0x0101]])
        ⟨LevelDefinition.init 1 3 2, emptyInfo, [], [], []⟩ ≠ .ok s) := by
  refine ⟨rfl, ?_⟩
  intro s h
  have : readArenaMAP1 (sampleContext WorldType.Interior sampleInf)
        (bufferOf 2 1 [[0xE000, 0x0101]])
        ⟨LevelDefinition.init 1 3 2, emptyInfo, [], [], []⟩
      = .error (Fatal.unhandledReturn 0xE) := rfl
  rw [this] at h
  cases h

/-- C9 (amended): for a non-zero MAP1 code whose tile-type nibble is not 0x8,
`makeVoxelDefFromMAP1` returns a definition exactly when the nibble is neither 0xE nor
0xF (that is, for the nibbles 0x0 to 0x7 and 0x9 to 0xD), in every world type; for the
nibbles 0xE and 0xF it ends in the unhandled-value diagnostic. -/
theorem map1_decode_returns_iff_handled_nibble (c : Nat) (worldType : WorldType)
    (inf : INFFile) (exeData : ExeData) (h0 : c ≠ 0)
    (h8 : (c &&& 0xF000) >>> 12 ≠ 0x8) :
    ((∃ d, makeVoxelDefFromMAP1 c ((c &&& 0xF000) >>> 12) worldType inf exeData = .ok d) ↔
      ((c &&& 0xF000) >>> 12 ≠ 0xE ∧ (c &&& 0xF000) >>> 12 ≠ 0xF)) ∧
    (((c &&& 0xF000) >>> 12 = 0xE ∨ (c &&& 0xF000) >>> 12 = 0xF) →
      makeVoxelDefFromMAP1 c ((c &&& 0xF000) >>> 12) worldType inf exeData
        = .error (Fatal.unhandledReturn ((c &&& 0xF000) >>> 12))) := by
  by_cases h15 : c &&& 0x8000 = 0
  · have hn : (c &&& 0xF000) >>> 12 < 8 := by
      rw [mostSigNibble_eq]; rw [highBit_clear_iff] at h15; omega
    have hd : ∃ d, makeVoxelDefFromMAP1 c ((c &&& 0xF000) >>> 12) worldType inf exeData
        = .ok d := by
      by_cases hb : getVoxelMostSigByte c = getVoxelLeastSigByte c
      · exact ⟨_, makeVoxelDefFromMAP1_wall c worldType inf exeData h0 h15 hb⟩
      · exact ⟨_, makeVoxelDefFromMAP1_raised c worldType inf exeData h0 h15 hb⟩
    exact ⟨⟨fun _ => ⟨by omega, by omega⟩, fun _ => hd⟩, fun h => by omega⟩
  · have hn := mostSigNibble_ge_eight_of_highBit_set c h15
    generalize (c &&& 0xF000) >>> 12 = n at *
    have hcases : n = 9 ∨ n = 10 ∨ n = 11 ∨ n = 12 ∨ n = 13 ∨ n = 14 ∨ n = 15 := by omega
    rcases hcases with h | h | h | h | h | h | h <;> subst h <;>
      simp [makeVoxelDefFromMAP1, h0, h15]

/-- C9 (amended), at the door code 0xB041 in a city. -/
theorem map1_decode_returns_iff_handled_nibble_witness :
    ((0xB041 : Nat) ≠ 0 ∧ ((0xB041 : Nat) &&& 0xF000) >>> 12 ≠ 0x8) ∧
    ((∃ d, makeVoxelDefFromMAP1 0xB041 ((0xB041 &&& 0xF000) >>> 12) WorldType.City sampleInf
        sampleExeData = .ok d) ↔
      ((0xB041 &&& 0xF000) >>> 12 ≠ 0xE ∧ (0xB041 &&& 0xF000) >>> 12 ≠ 0xF)) :=
  ⟨⟨by decide, by decide⟩,
    (map1_decode_returns_iff_handled_nibble 0xB041 WorldType.City sampleInf sampleExeData
      (by decide) (by decide)).1⟩

/-! ## Caches, catalogs and loops -/

theorem lookup_mem {β : Type} (l : List (Nat × β)) (k : Nat) (v : β)
    (h : l.lookup k = some v) : (k, v) ∈ l := by
  induction l with
  | nil => simp at h
  | cons a t ih =>
    obtain ⟨a1, a2⟩ := a
    rw [List.lookup_cons] at h
    by_cases hk : k = a1
    · subst hk
      simp at h
      subst h
      simp
    · have hf : (k == a1) = false := by simpa using hk
      rw [hf] at h
      exact List.mem_cons_of_mem _ (ih h)

theorem lookup_isSome_of_mem {α β : Type} [BEq α] [LawfulBEq α] (l : List (α × β)) (k : α)
    (v : β) (h : (k, v) ∈ l) : ∃ w, l.lookup k = some w ∧ (k, w) ∈ l := by
  induction l with
  | nil => simp at h
  | cons a t ih =>
    obtain ⟨a1, a2⟩ := a
    by_cases hk : k = a1
    · subst hk
      exact ⟨a2, by simp [List.lookup_cons], by simp⟩
    · have hf : (k == a1) = false := by simpa using hk
      have ht : (k, v) ∈ t := by
        rcases List.mem_cons.1 h with h1 | h1
        · exact absurd (congrArg Prod.fst h1) hk
        · exact h1
      obtain ⟨w, hw, hm⟩ := ih ht
      exact ⟨w, by rw [List.lookup_cons, hf]; exact hw, List.mem_cons_of_mem _ hm⟩

theorem MappingCache.Extends.refl (c : MappingCache) : c.Extends c :=
  fun _ _ h => h

theorem cacheExtends_trans {c1 c2 c3 : MappingCache} (h12 : c1.Extends c2)
    (h23 : c2.Extends c3) : c1.Extends c3 :=
  fun k v h => h23 k v (h12 k v h)

theorem MappingCache.lookup_insert_of_none (c : MappingCache) (k v : Nat)
    (h : c.lookup k = none) : (c.insert k v).lookup k = some v := by
  simp [MappingCache.insert, h, List.lookup_cons]

theorem MappingCache.extends_insert (c : MappingCache) (k v : Nat) :
    c.Extends (c.insert k v) := by
  intro k2 v2 h2
  unfold MappingCache.insert
  cases hk : c.lookup k with
  | some w => simpa using h2
  | none =>
    simp only []
    rw [List.lookup_cons]
    by_cases hkk : k2 = k
    · subst hkk
      rw [hk] at h2
      cases h2
    · have hf : (k2 == k) = false := by simpa using hkk
      rw [hf]
      exact h2

theorem forCells_ok {σ : Type} (body : σ → Nat × Nat → Except Fatal σ)
    (cells : List (Nat × Nat))
    (hbody : ∀ c ∈ cells, ∀ s, ∃ s1, body s c = .ok s1) :
    ∀ s, ∃ s1, MapGeneration.forCells body cells s = .ok s1 := by
  induction cells with
  | nil => intro s; exact ⟨s, rfl⟩
  | cons c rest ih =>
    intro s
    obtain ⟨s1, h1⟩ := hbody c (List.mem_cons_self _ _) s
    obtain ⟨s2, h2⟩ := ih (fun c hc => hbody c (List.mem_cons_of_mem _ hc)) s1
    exact ⟨s2, by simp only [MapGeneration.forCells, h1, h2]⟩

theorem forCells_invariant {σ : Type} (body : σ → Nat × Nat → Except Fatal σ)
    (P : List (Nat × Nat) → σ → Prop) (cells : List (Nat × Nat))
    (hstep : ∀ done c s s1, c ∈ cells → P done s → body s c = .ok s1 → P (done ++ [c]) s1) :
    ∀ done s s1, P done s → MapGeneration.forCells body cells s = .ok s1 →
      P (done ++ cells) s1 := by
  induction cells with
  | nil =>
    intro done s s1 hP h
    simp only [MapGeneration.forCells] at h
    cases h
    simpa using hP
  | cons c rest ih =>
    intro done s s1 hP h
    simp only [MapGeneration.forCells] at h
    cases hb : body s c with
    | error e => rw [hb] at h; cases h
    | ok s2 =>
      rw [hb] at h
      have h2 := hstep done c s s2 (List.mem_cons_self _ _) hP hb
      have h3 := ih (fun d c s s1 hc => hstep d c s s1 (List.mem_cons_of_mem _ hc))
        (done ++ [c]) s2 s1 h2 h
      simpa using h3

theorem mem_cells (b : BufferView2D) (x z : Nat) :
    (x, z) ∈ b.cells ↔ x < b.width ∧ z < b.height := by
  simp only [BufferView2D.cells, List.mem_flatMap, List.mem_map, List.mem_range, Prod.mk.injEq]
  constructor
  · rintro ⟨z1, hz, x1, hx, rfl, rfl⟩
    exact ⟨hx, hz⟩
  · rintro ⟨hx, hz⟩
    exact ⟨z, hz, x, hx, rfl, rfl⟩

/-! ## The layer readers and the voxel caches -/

theorem voxelsFromCache_mono {buf : BufferView2D} {layer : Nat → Prop}
    {c1 c2 : MappingCache} {new : List (LevelInt3 × Nat)} (h : VoxelsFromCache buf layer c1 new)
    (hext : c1.Extends c2) : VoxelsFromCache buf layer c2 new :=
  fun x y z id hm => ⟨(h x y z id hm).1, hext _ _ (h x y z id hm).2⟩

theorem layerEffect_of_cellEffect {E : Type} (body : Out E → Nat × Nat → Except Fatal (Out E))
    (buf : BufferView2D) (layer : Nat → Prop) (isSet : Nat × Nat → Nat → Prop)
    (cells : List (Nat × Nat))
    (hcell : ∀ s c s1, body s c = .ok s1 → CellEffect buf layer isSet s c s1)
    (s0 s1 : Out E) (h : forCells body cells s0 = .ok s1) :
    LayerEffect buf layer isSet s0 cells s1 := by
  have key := forCells_invariant body (LayerEffect buf layer isSet s0) cells
    (fun done c s s1 _ hP hb => by
      obtain ⟨hext, new, hnew, hfrom, hset⟩ := hP
      obtain ⟨hext1, added, hadded, hprop, hset1⟩ := hcell s c s1 hb
      refine ⟨cacheExtends_trans hext hext1, added ++ new, ?_, ?_, ?_⟩
      · rw [hadded, hnew, List.append_assoc]
      · intro x y z id hm
        rcases List.mem_append.1 hm with hm | hm
        · obtain ⟨hl, hx, hz, hc⟩ := hprop x y z id hm
          subst hx; subst hz
          exact ⟨hl, hc⟩
        · exact (voxelsFromCache_mono hfrom hext1) x y z id hm
      · intro c2 hc2 y hy
        rcases List.mem_append.1 hc2 with hc2 | hc2
        · obtain ⟨id, hid⟩ := hset c2 hc2 y hy
          exact ⟨id, List.mem_append_right _ hid⟩
        · have : c2 = c := by simpa using hc2
          subst this
          obtain ⟨id, hid⟩ := hset1 y hy
          exact ⟨id, List.mem_append_left _ hid⟩)
    [] s0 s1 ⟨MappingCache.Extends.refl _, [], rfl, fun _ _ _ _ hm => by simp at hm,
      fun _ hc => by simp at hc⟩ h
  simpa using key

theorem layer_writes_at_cells {E : Type} (body : Out E → Nat × Nat → Except Fatal (Out E))
    (buf : BufferView2D) (layer : Nat → Prop) (isSet : Nat × Nat → Nat → Prop)
    (cells : List (Nat × Nat))
    (hcell : ∀ s c s1, body s c = .ok s1 → CellEffect buf layer isSet s c s1)
    (s0 s1 : Out E) (h : forCells body cells s0 = .ok s1) :
    ∃ new, s1.levelDef.voxels = new ++ s0.levelDef.voxels ∧
      ∀ x y z id, ((x, y, z), id) ∈ new → layer y ∧ (z, x) ∈ cells := by
  have key := forCells_invariant body
    (fun done s => ∃ new, s.levelDef.voxels = new ++ s0.levelDef.voxels ∧
      ∀ x y z id, ((x, y, z), id) ∈ new → layer y ∧ (z, x) ∈ done) cells
    (fun done c s s1 _ hP hb => by
      obtain ⟨new, hnew, hat⟩ := hP
      obtain ⟨-, added, hadded, hprop, -⟩ := hcell s c s1 hb
      refine ⟨added ++ new, by rw [hadded, hnew, List.append_assoc], ?_⟩
      intro x y z id hm
      rcases List.mem_append.1 hm with hm | hm
      · obtain ⟨hl, hx, hz, -⟩ := hprop x y z id hm
        subst hx; subst hz
        exact ⟨hl, List.mem_append_right _ (by simp)⟩
      · exact ⟨(hat x y z id hm).1, List.mem_append_left _ (hat x y z id hm).2⟩)
    [] s0 s1 ⟨[], rfl, fun _ _ _ _ hm => by simp at hm⟩ h
  simpa using key

theorem getOrAddVoxelDef_cases {E : Type} (s : Out E) (code : Nat)
    (make : Except Fatal VoxelDefinition) (id : Nat) (s1 : Out E)
    (h : getOrAddVoxelDef s code make = .ok (id, s1)) :
    (s.voxelCache.lookup code = some id ∧ s1 = s) ∨
    (s.voxelCache.lookup code = none ∧ ∃ d, make = .ok d ∧
      id = s.levelInfoDef.voxelDefs.length ∧
      s1 = { s with
        levelInfoDef := { s.levelInfoDef with voxelDefs := s.levelInfoDef.voxelDefs ++ [d] }
        voxelCache := s.voxelCache.insert code s.levelInfoDef.voxelDefs.length }) := by
  unfold getOrAddVoxelDef at h
  cases hl : s.voxelCache.lookup code with
  | some v =>
    rw [hl] at h
    simp only [Except.ok.injEq, Prod.mk.injEq] at h
    exact Or.inl ⟨by rw [h.1], h.2.symm⟩
  | none =>
    rw [hl] at h
    cases hm : make with
    | error e => rw [hm] at h; cases h
    | ok d =>
      rw [hm] at h
      simp only [LevelInfoDefinition.addVoxelDef, Except.ok.injEq, Prod.mk.injEq] at h
      exact Or.inr ⟨rfl, d, rfl, h.1.symm, h.2.symm⟩

theorem getOrAddVoxelDef_cache {E : Type} (s : Out E) (code : Nat)
    (make : Except Fatal VoxelDefinition) (id : Nat) (s1 : Out E)
    (h : getOrAddVoxelDef s code make = .ok (id, s1)) :
    s.voxelCache.Extends s1.voxelCache ∧ s1.voxelCache.lookup code = some id ∧
    s1.levelDef = s.levelDef ∧ s1.entityCache = s.entityCache ∧
    s1.transitionCache = s.transitionCache ∧
    s1.levelInfoDef.entityDefs = s.levelInfoDef.entityDefs ∧
    s1.levelInfoDef.transitionDefs = s.levelInfoDef.transitionDefs := by
  rcases getOrAddVoxelDef_cases s code make id s1 h with ⟨hl, rfl⟩ | ⟨hl, d, _, hid, rfl⟩
  · exact ⟨MappingCache.Extends.refl _, hl, rfl, rfl, rfl, rfl, rfl⟩
  · subst hid
    exact ⟨MappingCache.extends_insert _ _ _, MappingCache.lookup_insert_of_none _ _ _ hl,
      rfl, rfl, rfl, rfl, rfl⟩

theorem getOrAddEntityDef_cases {E : Type} (ctx : Context E) (s : Out E)
    (code flatIndex : Nat) (r : Option (Nat × Out E))
    (h : getOrAddEntityDef ctx s code flatIndex = .ok r) :
    (∃ id, s.entityCache.lookup code = some id ∧ r = some (id, s)) ∨
    (s.entityCache.lookup code = none ∧
      ctx.tryMakeEntityDefFromArenaFlat flatIndex = .ok none ∧ r = none) ∨
    (s.entityCache.lookup code = none ∧ ∃ e,
      ctx.tryMakeEntityDefFromArenaFlat flatIndex = .ok (some e) ∧
      r = some (s.levelInfoDef.entityDefs.length,
        { s with
          levelInfoDef := { s.levelInfoDef with entityDefs := s.levelInfoDef.entityDefs ++ [e] }
          entityCache := s.entityCache.insert code s.levelInfoDef.entityDefs.length })) := by
  unfold getOrAddEntityDef at h
  cases hl : s.entityCache.lookup code with
  | some v =>
    rw [hl] at h
    simp only [Except.ok.injEq] at h
    exact Or.inl ⟨v, rfl, h.symm⟩
  | none =>
    rw [hl] at h
    cases hm : ctx.tryMakeEntityDefFromArenaFlat flatIndex with
    | error e => rw [hm] at h; cases h
    | ok o =>
      rw [hm] at h
      cases o with
      | none =>
        simp only [Except.ok.injEq] at h
        exact Or.inr (Or.inl ⟨rfl, rfl, h.symm⟩)
      | some e =>
        simp only [LevelInfoDefinition.addEntityDef, Except.ok.injEq] at h
        exact Or.inr (Or.inr ⟨rfl, e, rfl, h.symm⟩)

theorem getOrAddEntityDef_frame {E : Type} (ctx : Context E) (s : Out E)
    (code flatIndex : Nat) (id : Nat) (s1 : Out E)
    (h : getOrAddEntityDef ctx s code flatIndex = .ok (some (id, s1))) :
    s1.voxelCache = s.voxelCache ∧ s1.levelDef = s.levelDef ∧
    s1.transitionCache = s.transitionCache ∧
    s1.levelInfoDef.voxelDefs = s.levelInfoDef.voxelDefs ∧
    s1.levelInfoDef.transitionDefs = s.levelInfoDef.transitionDefs := by
  rcases getOrAddEntityDef_cases ctx s code flatIndex _ h with
    ⟨id2, _, hr⟩ | ⟨_, _, hr⟩ | ⟨_, e, _, hr⟩
  · simp only [Option.some.injEq, Prod.mk.injEq] at hr
    obtain ⟨_, rfl⟩ := hr
    exact ⟨rfl, rfl, rfl, rfl, rfl⟩
  · cases hr
  · simp only [Option.some.injEq, Prod.mk.injEq] at hr
    obtain ⟨_, rfl⟩ := hr
    exact ⟨rfl, rfl, rfl, rfl, rfl⟩

theorem readArenaFLORCell_cases {E : Type} (ctx : Context E) (flor : BufferView2D)
    (s : Out E) (c : Nat × Nat) (s1 : Out E)
    (h : readArenaFLORCell ctx flor s c = .ok s1) :
    ∃ id sv, getOrAddVoxelDef s (flor.get c.1 c.2)
        (makeVoxelDefFromFLOR ctx.mif (flor.get c.1 c.2) ctx.inf) = .ok (id, sv) ∧
      ((s1 = { sv with levelDef := sv.levelDef.setVoxel c.2 0 c.1 id } ∧
          (flor.get c.1 c.2 &&& 0x00FF = 0 ∨
            getOrAddEntityDef ctx { sv with levelDef := sv.levelDef.setVoxel c.2 0 c.1 id }
              (flor.get c.1 c.2) ((flor.get c.1 c.2 &&& 0x00FF) - 1) = .ok none)) ∨
        (flor.get c.1 c.2 &&& 0x00FF ≠ 0 ∧ ∃ eid se,
          getOrAddEntityDef ctx { sv with levelDef := sv.levelDef.setVoxel c.2 0 c.1 id }
            (flor.get c.1 c.2) ((flor.get c.1 c.2 &&& 0x00FF) - 1) = .ok (some (eid, se)) ∧
          s1 = { se with levelDef := se.levelDef.addEntity eid (entityPos c.2 c.1) })) := by
  unfold readArenaFLORCell at h
  cases hv : getOrAddVoxelDef s (flor.get c.1 c.2)
      (makeVoxelDefFromFLOR ctx.mif (flor.get c.1 c.2) ctx.inf) with
  | error e => simp only [hv] at h; cases h
  | ok r =>
    obtain ⟨id, sv⟩ := r
    simp only [hv] at h
    refine ⟨id, sv, rfl, ?_⟩
    by_cases hb : flor.get c.1 c.2 &&& 0x00FF > 0
    · rw [if_pos hb] at h
      cases he : getOrAddEntityDef ctx
          { sv with levelDef := sv.levelDef.setVoxel c.2 0 c.1 id }
          (flor.get c.1 c.2) ((flor.get c.1 c.2 &&& 0x00FF) - 1) with
      | error e => simp only [he] at h; cases h
      | ok o =>
        cases o with
        | none =>
          simp only [he, Except.ok.injEq] at h
          exact Or.inl ⟨h.symm, Or.inr rfl⟩
        | some p =>
          obtain ⟨eid, se⟩ := p
          simp only [he, Except.ok.injEq] at h
          exact Or.inr ⟨by omega, eid, se, rfl, h.symm⟩
    · rw [if_neg hb] at h
      simp only [Except.ok.injEq] at h
      exact Or.inl ⟨h.symm, Or.inl (by omega)⟩

theorem readArenaFLORCell_cellEffect {E : Type} (ctx : Context E) (flor : BufferView2D)
    (s : Out E) (c : Nat × Nat) (s1 : Out E)
    (h : readArenaFLORCell ctx flor s c = .ok s1) :
    CellEffect flor (fun y => y = 0) (fun _ y => y = 0) s c s1 := by
  obtain ⟨id, sv, hv, hrest⟩ := readArenaFLORCell_cases ctx flor s c s1 h
  obtain ⟨hext, hlook, hld, -, -, -, -⟩ := getOrAddVoxelDef_cache _ _ _ _ _ hv
  have hgoal : s1.voxelCache = sv.voxelCache ∧
      s1.levelDef.voxels = ((c.2, 0, c.1), id) :: s.levelDef.voxels := by
    rcases hrest with ⟨rfl, _⟩ | ⟨_, eid, se, he, rfl⟩
    · exact ⟨rfl, by simp [LevelDefinition.setVoxel, hld]⟩
    · obtain ⟨hvc, hl, -, -, -⟩ := getOrAddEntityDef_frame _ _ _ _ _ _ he
      exact ⟨hvc, by simp [LevelDefinition.addEntity, hl, LevelDefinition.setVoxel, hld]⟩
  obtain ⟨hvc, hvox⟩ := hgoal
  refine ⟨by rw [hvc]; exact hext, [((c.2, 0, c.1), id)], by simpa using hvox, ?_, ?_⟩
  · intro x y z id2 hm
    simp only [List.mem_singleton, Prod.mk.injEq] at hm
    obtain ⟨⟨rfl, rfl, rfl⟩, rfl⟩ := hm
    exact ⟨rfl, rfl, rfl, by rw [hvc]; exact hlook⟩
  · intro y hy
    subst hy
    exact ⟨id, by simp⟩

theorem readArenaMAP1Transition_frame {E : Type} (ctx : Context E) (s : Out E)
    (code levelX levelZ : Nat) (s1 : Out E)
    (h : readArenaMAP1Transition ctx s code levelX levelZ = .ok s1) :
    s1.voxelCache = s.voxelCache ∧ s1.levelDef.voxels = s.levelDef.voxels ∧
    s1.entityCache = s.entityCache ∧
    s1.levelDef.entityPlacements = s.levelDef.entityPlacements ∧
    s1.levelInfoDef.voxelDefs = s.levelInfoDef.voxelDefs ∧
    s1.levelInfoDef.entityDefs = s.levelInfoDef.entityDefs := by
  unfold readArenaMAP1Transition at h
  cases ht : tryMakeVoxelTransitionDefGenInfo code ctx.worldType ctx.inf with
  | error e => simp only [ht] at h; cases h
  | ok o =>
    cases o with
    | none =>
      simp only [ht, Except.ok.injEq] at h
      subst h
      exact ⟨rfl, rfl, rfl, rfl, rfl, rfl⟩
    | some g =>
      simp only [ht] at h
      cases hl : s.transitionCache.lookup code with
      | some tid =>
        simp only [hl, Except.ok.injEq] at h
        subst h
        exact ⟨rfl, rfl, rfl, rfl, rfl, rfl⟩
      | none =>
        simp only [hl] at h
        cases hm : makeTransitionDef g ctx.rulerIsMale with
        | error e => simp only [hm] at h; cases h
        | ok d =>
          simp only [hm, Except.ok.injEq] at h
          subst h
          exact ⟨rfl, rfl, rfl, rfl, rfl, rfl⟩

theorem readArenaMAP1Cell_cellEffect {E : Type} (ctx : Context E) (map1 : BufferView2D)
    (s : Out E) (c : Nat × Nat) (s1 : Out E)
    (h : readArenaMAP1Cell ctx map1 s c = .ok s1) :
    CellEffect map1 (fun y => y = 1)
      (fun c y => y = 1 ∧ map1.get c.1 c.2 ≠ 0 ∧ (map1.get c.1 c.2 &&& 0xF000) >>> 12 ≠ 0x8)
      s c s1 := by
  unfold readArenaMAP1Cell at h
  by_cases h0 : map1.get c.1 c.2 = 0
  · simp only [h0, if_true, Except.ok.injEq] at h
    subst h
    exact ⟨MappingCache.Extends.refl _, [], rfl, fun _ _ _ _ hm => by simp at hm,
      fun y hy => absurd h0 hy.2.1⟩
  · simp only [if_neg h0] at h
    by_cases h8 : (map1.get c.1 c.2 &&& 0xF000) >>> 12 = 0x8
    · have h8n : ¬ ((map1.get c.1 c.2 &&& 0xF000) >>> 12 ≠ 0x8) := by simpa using h8
      rw [if_neg h8n] at h
      have hframe : s1.voxelCache = s.voxelCache ∧ s1.levelDef.voxels = s.levelDef.voxels := by
        cases he : getOrAddEntityDef ctx s (map1.get c.1 c.2) (map1.get c.1 c.2 &&& 0x00FF) with
        | error e => simp only [he] at h; cases h
        | ok o =>
          cases o with
          | none =>
            simp only [he, Except.ok.injEq] at h
            subst h
            exact ⟨rfl, rfl⟩
          | some p =>
            obtain ⟨eid, se⟩ := p
            simp only [he, Except.ok.injEq] at h
            subst h
            obtain ⟨hvc, hl, -, -, -⟩ := getOrAddEntityDef_frame _ _ _ _ _ _ he
            exact ⟨hvc, by simp [LevelDefinition.addEntity, hl]⟩
      refine ⟨by rw [hframe.1]; exact MappingCache.Extends.refl _, [], by simpa using hframe.2,
        fun _ _ _ _ hm => by simp at hm, fun y hy => absurd h8 hy.2.2⟩
    · have h8n : (map1.get c.1 c.2 &&& 0xF000) >>> 12 ≠ 0x8 := h8
      rw [if_pos h8n] at h
      cases hv : getOrAddVoxelDef s (map1.get c.1 c.2)
          (makeVoxelDefFromMAP1 (map1.get c.1 c.2) ((map1.get c.1 c.2 &&& 0xF000) >>> 12)
            ctx.worldType ctx.inf ctx.exeData) with
      | error e => simp only [hv] at h; cases h
      | ok r =>
        obtain ⟨id, sv⟩ := r
        simp only [hv] at h
        obtain ⟨hext, hlook, hld, -, -, -, -⟩ := getOrAddVoxelDef_cache _ _ _ _ _ hv
        obtain ⟨hvc, hvox, -, -, -, -⟩ := readArenaMAP1Transition_frame _ _ _ _ _ _ h
        simp only [LevelDefinition.setVoxel, hld] at hvox
        simp only at hvc
        refine ⟨by rw [hvc]; exact hext, [((c.2, 1, c.1), id)], by simpa using hvox, ?_, ?_⟩
        · intro x y z id2 hm
          simp only [List.mem_singleton, Prod.mk.injEq] at hm
          obtain ⟨⟨rfl, rfl, rfl⟩, rfl⟩ := hm
          exact ⟨rfl, rfl, rfl, by rw [hvc]; exact hlook⟩
        · intro y hy
          obtain ⟨rfl, _, _⟩ := hy
          exact ⟨id, by simp⟩

theorem setVoxelColumn_spec (levelX levelZ id : Nat) :
    ∀ (count yStart : Nat) (ld : LevelDefinition),
      (setVoxelColumn ld levelX levelZ id yStart count).transitionPlacements
          = ld.transitionPlacements ∧
      (setVoxelColumn ld levelX levelZ id yStart count).entityPlacements
          = ld.entityPlacements ∧
      ∃ added, (setVoxelColumn ld levelX levelZ id yStart count).voxels = added ++ ld.voxels ∧
        (∀ x y z id2, ((x, y, z), id2) ∈ added →
          x = levelX ∧ z = levelZ ∧ id2 = id ∧ yStart ≤ y ∧ y < yStart + count) ∧
        (∀ y, yStart ≤ y → y < yStart + count → ((levelX, y, levelZ), id) ∈ added) := by
  intro count
  induction count with
  | zero =>
    intro yStart ld
    refine ⟨rfl, rfl, [], rfl, fun _ _ _ _ hm => by simp at hm, fun y h1 h2 => by omega⟩
  | succ n ih =>
    intro yStart ld
    obtain ⟨ht, he, added, hadd, hprop, hset⟩ :=
      ih (yStart + 1) (ld.setVoxel levelX yStart levelZ id)
    refine ⟨by simpa [setVoxelColumn, LevelDefinition.setVoxel] using ht,
      by simpa [setVoxelColumn, LevelDefinition.setVoxel] using he,
      added ++ [((levelX, yStart, levelZ), id)], ?_, ?_, ?_⟩
    · simp only [setVoxelColumn]
      rw [hadd]
      simp [LevelDefinition.setVoxel]
    · intro x y z id2 hm
      rcases List.mem_append.1 hm with hm | hm
      · obtain ⟨h1, h2, h3, h4, h5⟩ := hprop x y z id2 hm
        exact ⟨h1, h2, h3, by omega, by omega⟩
      · simp only [List.mem_singleton, Prod.mk.injEq] at hm
        obtain ⟨⟨rfl, rfl, rfl⟩, rfl⟩ := hm
        exact ⟨rfl, rfl, rfl, le_refl _, by omega⟩
    · intro y h1 h2
      by_cases hy : y = yStart
      · subst hy
        exact List.mem_append_right _ (by simp)
      · exact List.mem_append_left _ (hset y (by omega) (by omega))

theorem readArenaMAP2Cell_cases {E : Type} (ctx : Context E) (map2 : BufferView2D)
    (s : Out E) (c : Nat × Nat) (s1 : Out E)
    (h : readArenaMAP2Cell ctx map2 s c = .ok s1) :
    (map2.get c.1 c.2 = 0 ∧ s1 = s) ∨
    (map2.get c.1 c.2 ≠ 0 ∧ ∃ id sv,
      getOrAddVoxelDef s (map2.get c.1 c.2) (.ok (makeVoxelDefFromMAP2 (map2.get c.1 c.2)))
        = .ok (id, sv) ∧
      s1 = { sv with
              levelDef := (setVoxelColumn sv.levelDef c.2 c.1 id 2
                (ctx.getMap2VoxelHeight (map2.get c.1 c.2)).toNat) }) := by
  unfold readArenaMAP2Cell at h
  by_cases h0 : map2.get c.1 c.2 = 0
  · simp only [h0, if_true, Except.ok.injEq] at h
    exact Or.inl ⟨h0, h.symm⟩
  · simp only [if_neg h0] at h
    cases hv : getOrAddVoxelDef s (map2.get c.1 c.2)
        (.ok (makeVoxelDefFromMAP2 (map2.get c.1 c.2))) with
    | error e => simp only [hv] at h; cases h
    | ok r =>
      obtain ⟨id, sv⟩ := r
      simp only [hv, Except.ok.injEq] at h
      exact Or.inr ⟨h0, id, sv, rfl, h.symm⟩

theorem readArenaMAP2Cell_cellEffect {E : Type} (ctx : Context E) (map2 : BufferView2D)
    (s : Out E) (c : Nat × Nat) (s1 : Out E)
    (h : readArenaMAP2Cell ctx map2 s c = .ok s1) :
    CellEffect map2 (fun y => 2 ≤ y)
      (fun c y => map2.get c.1 c.2 ≠ 0 ∧ 2 ≤ y ∧
        y < 2 + (ctx.getMap2VoxelHeight (map2.get c.1 c.2)).toNat)
      s c s1 := by
  rcases readArenaMAP2Cell_cases ctx map2 s c s1 h with ⟨h0, rfl⟩ | ⟨h0, id, sv, hv, rfl⟩
  · exact ⟨MappingCache.Extends.refl _, [], rfl, fun _ _ _ _ hm => by simp at hm,
      fun y hy => absurd h0 hy.1⟩
  · obtain ⟨hext, hlook, hld, -, -, -, -⟩ := getOrAddVoxelDef_cache _ _ _ _ _ hv
    obtain ⟨-, -, added, hadd, hprop, hset⟩ := setVoxelColumn_spec c.2 c.1 id
      (ctx.getMap2VoxelHeight (map2.get c.1 c.2)).toNat 2 sv.levelDef
    refine ⟨hext, added, by simpa [hld] using hadd, ?_, ?_⟩
    · intro x y z id2 hm
      obtain ⟨h1, h2, h3, h4, _⟩ := hprop x y z id2 hm
      subst h3
      exact ⟨h4, h1, h2, hlook⟩
    · intro y hy
      exact ⟨id, hset y hy.2.1 hy.2.2⟩

theorem readArenaMAP2Cell_frame {E : Type} (ctx : Context E) (map2 : BufferView2D)
    (s : Out E) (c : Nat × Nat) (s1 : Out E)
    (h : readArenaMAP2Cell ctx map2 s c = .ok s1) :
    s1.transitionCache = s.transitionCache ∧
    s1.levelDef.transitionPlacements = s.levelDef.transitionPlacements := by
  rcases readArenaMAP2Cell_cases ctx map2 s c s1 h with ⟨_, rfl⟩ | ⟨_, id, sv, hv, rfl⟩
  · exact ⟨rfl, rfl⟩
  · obtain ⟨-, -, hld, -, htc, -, -⟩ := getOrAddVoxelDef_cache _ _ _ _ _ hv
    obtain ⟨ht, -, -⟩ := setVoxelColumn_spec c.2 c.1 id
      (ctx.getMap2VoxelHeight (map2.get c.1 c.2)).toNat 2 sv.levelDef
    exact ⟨htc, by simpa [hld] using ht⟩

theorem readArenaFLORCell_frame {E : Type} (ctx : Context E) (flor : BufferView2D)
    (s : Out E) (c : Nat × Nat) (s1 : Out E)
    (h : readArenaFLORCell ctx flor s c = .ok s1) :
    s1.transitionCache = s.transitionCache ∧
    s1.levelDef.transitionPlacements = s.levelDef.transitionPlacements := by
  obtain ⟨id, sv, hv, hrest⟩ := readArenaFLORCell_cases ctx flor s c s1 h
  obtain ⟨-, -, hld, -, htc, -, -⟩ := getOrAddVoxelDef_cache _ _ _ _ _ hv
  rcases hrest with ⟨rfl, _⟩ | ⟨_, eid, se, he, rfl⟩
  · exact ⟨htc, by simp [LevelDefinition.setVoxel, hld]⟩
  · obtain ⟨-, hl, htc2, -, -⟩ := getOrAddEntityDef_frame _ _ _ _ _ _ he
    exact ⟨by simpa [htc2] using htc,
      by simp [LevelDefinition.addEntity, hl, LevelDefinition.setVoxel, hld]⟩

theorem forCells_frame {E : Type} (body : Out E → Nat × Nat → Except Fatal (Out E))
    (cells : List (Nat × Nat))
    (hbody : ∀ s c s1, body s c = .ok s1 →
      s1.transitionCache = s.transitionCache ∧
      s1.levelDef.transitionPlacements = s.levelDef.transitionPlacements)
    (s0 s1 : Out E) (h : forCells body cells s0 = .ok s1) :
    s1.transitionCache = s0.transitionCache ∧
    s1.levelDef.transitionPlacements = s0.levelDef.transitionPlacements := by
  have key := forCells_invariant body
    (fun _ s => s.transitionCache = s0.transitionCache ∧
      s.levelDef.transitionPlacements = s0.levelDef.transitionPlacements) cells
    (fun done c s s2 _ hP hb => by
      obtain ⟨h1, h2⟩ := hbody s c s2 hb
      exact ⟨h1.trans hP.1, h2.trans hP.2⟩)
    [] s0 s1 ⟨rfl, rfl⟩ h
  exact key

theorem readArenaMAP1Transition_effect {E : Type} (ctx : Context E) (map1 : BufferView2D)
    (s : Out E) (c : Nat × Nat) (s1 : Out E)
    (h : readArenaMAP1Transition ctx s (map1.get c.1 c.2) c.2 c.1 = .ok s1) :
    s.transitionCache.Extends s1.transitionCache ∧
    ∃ added, s1.levelDef.transitionPlacements = added ++ s.levelDef.transitionPlacements ∧
      ∀ t x y z, (t, (x, y, z)) ∈ added →
        x = c.2 ∧ z = c.1 ∧ s1.transitionCache.lookup (map1.get c.1 c.2) = some t := by
  unfold readArenaMAP1Transition at h
  cases ht : tryMakeVoxelTransitionDefGenInfo (map1.get c.1 c.2) ctx.worldType ctx.inf with
  | error e => simp only [ht] at h; cases h
  | ok o =>
    cases o with
    | none =>
      simp only [ht, Except.ok.injEq] at h
      subst h
      exact ⟨MappingCache.Extends.refl _, [], rfl, fun _ _ _ _ hm => by simp at hm⟩
    | some g =>
      simp only [ht] at h
      cases hl : s.transitionCache.lookup (map1.get c.1 c.2) with
      | some tid =>
        simp only [hl, Except.ok.injEq] at h
        subst h
        refine ⟨MappingCache.Extends.refl _, [(tid, (c.2, 1, c.1))], rfl, ?_⟩
        intro t x y z hm
        simp only [List.mem_singleton, Prod.mk.injEq] at hm
        obtain ⟨rfl, rfl, rfl, rfl⟩ := hm
        exact ⟨rfl, rfl, hl⟩
      | none =>
        simp only [hl] at h
        cases hm : makeTransitionDef g ctx.rulerIsMale with
        | error e => simp only [hm] at h; cases h
        | ok d =>
          simp only [hm, Except.ok.injEq] at h
          subst h
          refine ⟨MappingCache.extends_insert _ _ _,
            [(s.levelInfoDef.transitionDefs.length, (c.2, 1, c.1))], rfl, ?_⟩
          intro t x y z hm
          simp only [LevelInfoDefinition.addTransitionDef, List.mem_singleton,
            Prod.mk.injEq] at hm
          obtain ⟨rfl, rfl, rfl, rfl⟩ := hm
          exact ⟨rfl, rfl, MappingCache.lookup_insert_of_none _ _ _ hl⟩

theorem readArenaMAP1Cell_transitionEffect {E : Type} (ctx : Context E)
    (map1 : BufferView2D) (s : Out E) (c : Nat × Nat) (s1 : Out E)
    (h : readArenaMAP1Cell ctx map1 s c = .ok s1) :
    s.transitionCache.Extends s1.transitionCache ∧
    ∃ added, s1.levelDef.transitionPlacements = added ++ s.levelDef.transitionPlacements ∧
      ∀ t x y z, (t, (x, y, z)) ∈ added →
        x = c.2 ∧ z = c.1 ∧ s1.transitionCache.lookup (map1.get c.1 c.2) = some t := by
  unfold readArenaMAP1Cell at h
  by_cases h0 : map1.get c.1 c.2 = 0
  · simp only [h0, if_true, Except.ok.injEq] at h
    subst h
    exact ⟨MappingCache.Extends.refl _, [], rfl, fun _ _ _ _ hm => by simp at hm⟩
  · simp only [if_neg h0] at h
    by_cases h8 : (map1.get c.1 c.2 &&& 0xF000) >>> 12 = 0x8
    · have h8n : ¬ ((map1.get c.1 c.2 &&& 0xF000) >>> 12 ≠ 0x8) := by simpa using h8
      rw [if_neg h8n] at h
      have hframe : s1.transitionCache = s.transitionCache ∧
          s1.levelDef.transitionPlacements = s.levelDef.transitionPlacements := by
        cases he : getOrAddEntityDef ctx s (map1.get c.1 c.2) (map1.get c.1 c.2 &&& 0x00FF) with
        | error e => simp only [he] at h; cases h
        | ok o =>
          cases o with
          | none =>
            simp only [he, Except.ok.injEq] at h
            subst h
            exact ⟨rfl, rfl⟩
          | some p =>
            obtain ⟨eid, se⟩ := p
            simp only [he, Except.ok.injEq] at h
            subst h
            obtain ⟨-, hl, htc, -, -⟩ := getOrAddEntityDef_frame _ _ _ _ _ _ he
            exact ⟨htc, by simp [LevelDefinition.addEntity, hl]⟩
      exact ⟨by rw [hframe.1]; exact MappingCache.Extends.refl _, [], by simpa using hframe.2,
        fun _ _ _ _ hm => by simp at hm⟩
    · have h8n : (map1.get c.1 c.2 &&& 0xF000) >>> 12 ≠ 0x8 := h8
      rw [if_pos h8n] at h
      cases hv : getOrAddVoxelDef s (map1.get c.1 c.2)
          (makeVoxelDefFromMAP1 (map1.get c.1 c.2) ((map1.get c.1 c.2 &&& 0xF000) >>> 12)
            ctx.worldType ctx.inf ctx.exeData) with
      | error e => simp only [hv] at h; cases h
      | ok r =>
        obtain ⟨id, sv⟩ := r
        simp only [hv] at h
        obtain ⟨-, -, hld, -, htc, -, -⟩ := getOrAddVoxelDef_cache _ _ _ _ _ hv
        obtain ⟨hext, added, hadd, hprop⟩ := readArenaMAP1Transition_effect ctx map1 _ c s1 h
        simp only [LevelDefinition.setVoxel, hld] at hadd
        simp only [htc] at hext
        exact ⟨hext, added, hadd, hprop⟩

theorem readArenaMAP1_transitionEffect {E : Type} (ctx : Context E) (map1 : BufferView2D)
    (s0 s1 : Out E) (h : readArenaMAP1 ctx map1 s0 = .ok s1) :
    TransitionEffect map1 s0 s1 := by
  have key := forCells_invariant (readArenaMAP1Cell ctx map1)
    (fun _ s => TransitionEffect map1 s0 s) map1.cells
    (fun done c s s2 _ hP hb => by
      obtain ⟨hext, new, hnew, hprop⟩ := hP
      obtain ⟨hext1, added, hadd, hprop1⟩ :=
        readArenaMAP1Cell_transitionEffect ctx map1 s c s2 hb
      refine ⟨cacheExtends_trans hext hext1, added ++ new, by rw [hadd, hnew, List.append_assoc], ?_⟩
      intro t x y z hm
      rcases List.mem_append.1 hm with hm | hm
      · obtain ⟨rfl, rfl, hl⟩ := hprop1 t x y z hm
        exact hl
      · exact hext1 _ _ (hprop t x y z hm))
    [] s0 s1 ⟨MappingCache.Extends.refl _, [], rfl, fun _ _ _ _ hm => by simp at hm⟩ h
  exact key

theorem readArenaCeiling_spec {E : Type} (inf : INFFile) (ld : LevelDefinition)
    (info : LevelInfoDefinition E) :
    (readArenaCeiling inf ld info).1.transitionPlacements = ld.transitionPlacements ∧
    ∃ added, (readArenaCeiling inf ld info).1.voxels = added ++ ld.voxels ∧
      ∀ x y z id, ((x, y, z), id) ∈ added → y = 2 := by
  unfold readArenaCeiling
  simp only []
  generalize ((List.range ld.width).flatMap fun levelX =>
      (List.range ld.depth).map fun levelZ => (levelX, levelZ)) = cells
  generalize (info.addVoxelDef (VoxelDefinition.Ceiling (inf.getCeiling.textureIndex.getD 1))).1
    = id0
  induction cells generalizing ld with
  | nil => exact ⟨rfl, [], rfl, fun _ _ _ _ hm => by simp at hm⟩
  | cons c rest ih =>
    obtain ⟨ht, added, hadd, hprop⟩ := ih (ld.setVoxel c.1 2 c.2 id0)
    refine ⟨by simpa [List.foldl, LevelDefinition.setVoxel] using ht,
      added ++ [((c.1, 2, c.2), id0)], ?_, ?_⟩
    · simp only [List.foldl]
      rw [hadd]
      simp [LevelDefinition.setVoxel]
    · intro x y z id hm
      rcases List.mem_append.1 hm with hm | hm
      · exact hprop x y z id hm
      · simp only [List.mem_singleton, Prod.mk.injEq] at hm
        exact hm.1.2.1

theorem levelOK_assemble {E : Type} (ctx : Context E) (level : MIFLevel)
    (ld : LevelDefinition) (p : PassState E) (newF newM top : List (LevelInt3 × Nat))
    (hvox : ld.voxels = top ++ (newM ++ newF))
    (hF : VoxelsFromCache level.flor (fun y => y = 0) p.florMappings newF)
    (hM : VoxelsFromCache level.map1 (fun y => y = 1) p.map1Mappings newM)
    (hT : ∀ x y z id, ((x, y, z), id) ∈ top →
      2 ≤ y ∧ ∀ m2, level.map2 = some m2 → p.map2Mappings.lookup (m2.get z x) = some id)
    (hTr : ∀ t x y z, (t, (x, y, z)) ∈ ld.transitionPlacements →
      p.transitionMappings.lookup (level.map1.get z x) = some t)
    (hFset : ∀ c ∈ level.flor.cells, ∀ y, y = 0 → ∃ id, ((c.2, y, c.1), id) ∈ newF)
    (hMset : ∀ c ∈ level.map1.cells, ∀ y,
      (y = 1 ∧ level.map1.get c.1 c.2 ≠ 0 ∧ (level.map1.get c.1 c.2 &&& 0xF000) >>> 12 ≠ 0x8) →
      ∃ id, ((c.2, y, c.1), id) ∈ newM)
    (hTset : ∀ m2, level.map2 = some m2 → ∀ c ∈ m2.cells, ∀ y,
      (m2.get c.1 c.2 ≠ 0 ∧ 2 ≤ y ∧ y < 2 + (ctx.getMap2VoxelHeight (m2.get c.1 c.2)).toNat) →
      ∃ id, ((c.2, y, c.1), id) ∈ top) :
    LevelOK ctx level ld p := by
  have hsplit : ∀ e, e ∈ ld.voxels → e ∈ top ∨ e ∈ newM ∨ e ∈ newF := by
    intro e he
    rw [hvox] at he
    rcases List.mem_append.1 he with h | h
    · exact Or.inl h
    · exact Or.inr (List.mem_append.1 h)
  refine ⟨?_, ?_, ?_, hTr, ?_, ?_, ?_⟩
  · intro x y z id hm hy
    rcases hsplit _ hm with h | h | h
    · have := (hT x y z id h).1; omega
    · have := (hM x y z id h).1; omega
    · exact (hF x y z id h).2
  · intro x y z id hm hy
    rcases hsplit _ hm with h | h | h
    · have := (hT x y z id h).1; omega
    · exact (hM x y z id h).2
    · have := (hF x y z id h).1; omega
  · intro x y z id hm hy m2 hm2
    rcases hsplit _ hm with h | h | h
    · exact (hT x y z id h).2 m2 hm2
    · have := (hM x y z id h).1; omega
    · have := (hF x y z id h).1; omega
  · intro x z hx hz
    obtain ⟨id, hid⟩ := hFset (x, z) ((mem_cells _ _ _).2 ⟨hx, hz⟩) 0 rfl
    exact ⟨id, by rw [hvox]; exact List.mem_append_right _ (List.mem_append_right _ hid)⟩
  · intro x z hx hz h0 h8
    obtain ⟨id, hid⟩ := hMset (x, z) ((mem_cells _ _ _).2 ⟨hx, hz⟩) 1 ⟨rfl, h0, h8⟩
    exact ⟨id, by rw [hvox]; exact List.mem_append_right _ (List.mem_append_left _ hid)⟩
  · intro m2 hm2 x z y hx hz h0 h2 hy
    obtain ⟨id, hid⟩ := hTset m2 hm2 (x, z) ((mem_cells _ _ _).2 ⟨hx, hz⟩) y ⟨h0, h2, hy⟩
    exact ⟨id, by rw [hvox]; exact List.mem_append_left _ hid⟩

theorem readMifLevel_levelOK {E : Type} (ctx : Context E) (level : MIFLevel)
    (ld : LevelDefinition) (p : PassState E) (ld1 : LevelDefinition) (p1 : PassState E)
    (hv : ld.voxels = []) (ht : ld.transitionPlacements = [])
    (h : readMifLevel ctx level ld p = .ok (ld1, p1)) :
    LevelOK ctx level ld1 p1 ∧ PassExtends p p1 := by
  unfold readMifLevel at h
  cases hf : readArenaFLOR ctx level.flor
      ⟨ld, p.levelInfoDef, p.florMappings, p.entityMappings, p.transitionMappings⟩ with
  | error e => simp only [hf] at h; cases h
  | ok f =>
    simp only [hf] at h
    obtain ⟨hFext, newF, hFvox, hFfrom, hFset⟩ :=
      layerEffect_of_cellEffect _ level.flor _ _ level.flor.cells
        (readArenaFLORCell_cellEffect ctx level.flor) _ _ hf
    obtain ⟨hFtc, hFtp⟩ := forCells_frame _ level.flor.cells
      (readArenaFLORCell_frame ctx level.flor) _ _ hf
    simp only [hv, List.append_nil] at hFvox
    simp only [ht] at hFtp
    simp only at hFtc hFext hFfrom
    cases hm : readArenaMAP1 ctx level.map1
        ⟨f.levelDef, f.levelInfoDef, p.map1Mappings, f.entityCache, f.transitionCache⟩ with
    | error e => simp only [hm] at h; cases h
    | ok m =>
      simp only [hm] at h
      obtain ⟨hMext, newM, hMvox, hMfrom, hMset⟩ :=
        layerEffect_of_cellEffect _ level.map1 _ _ level.map1.cells
          (readArenaMAP1Cell_cellEffect ctx level.map1) _ _ hm
      obtain ⟨hText, newT, hTnew, hTprop⟩ := readArenaMAP1_transitionEffect ctx level.map1 _ _ hm
      simp only [hFvox] at hMvox
      simp only [hFtp, List.append_nil] at hTnew
      simp only [hFtc] at hText
      simp only at hMext hMfrom
      have hTr : ∀ t x y z, (t, (x, y, z)) ∈ m.levelDef.transitionPlacements →
          m.transitionCache.lookup (level.map1.get z x) = some t := by
        intro t x y z hmem
        rw [hTnew] at hmem
        exact hTprop t x y z hmem
      cases hm2 : level.map2 with
      | some map2 =>
        simp only [hm2] at h
        cases hc : readArenaMAP2 ctx map2
            ⟨m.levelDef, m.levelInfoDef, p.map2Mappings, m.entityCache, m.transitionCache⟩ with
        | error e => simp only [hc] at h; cases h
        | ok c =>
          simp only [hc, Except.ok.injEq, Prod.mk.injEq] at h
          obtain ⟨rfl, rfl⟩ := h
          obtain ⟨hCext, newC, hCvox, hCfrom, hCset⟩ :=
            layerEffect_of_cellEffect _ map2 _ _ map2.cells
              (readArenaMAP2Cell_cellEffect ctx map2) _ _ hc
          obtain ⟨hCtc, hCtp⟩ := forCells_frame _ map2.cells
            (readArenaMAP2Cell_frame ctx map2) _ _ hc
          simp only [hMvox] at hCvox
          simp only at hCtc hCtp hCext hCfrom
          refine ⟨levelOK_assemble ctx level _ _ newF newM newC hCvox hFfrom hMfrom ?_ ?_
            hFset hMset ?_, hFext, hMext, hCext, by rw [hCtc]; exact hText⟩
          · intro x y z id hmem
            refine ⟨(hCfrom x y z id hmem).1, ?_⟩
            intro m2 hm2b
            rw [hm2] at hm2b
            cases hm2b
            exact (hCfrom x y z id hmem).2
          · intro t x y z hmem
            simp only [hCtp] at hmem
            simp only [hCtc]
            exact hTr t x y z hmem
          · intro m2 hm2b
            rw [hm2] at hm2b
            cases hm2b
            exact hCset
      | none =>
        simp only [hm2] at h
        by_cases ho : ctx.inf.getCeiling.outdoorDungeon = true
        · simp only [ho, Bool.not_true, Bool.false_eq_true, if_false, Except.ok.injEq,
            Prod.mk.injEq] at h
          obtain ⟨rfl, rfl⟩ := h
          refine ⟨levelOK_assemble ctx level _ _ newF newM [] (by simpa using hMvox)
            hFfrom hMfrom (fun _ _ _ _ hmem => by simp at hmem) hTr hFset hMset ?_,
            hFext, hMext, MappingCache.Extends.refl _, hText⟩
          intro m2 hm2b
          rw [hm2] at hm2b
          cases hm2b
        · have ho2 : ctx.inf.getCeiling.outdoorDungeon = false := by
            simpa using ho
          simp only [ho2, Bool.not_false, if_true, Except.ok.injEq, Prod.mk.injEq] at h
          obtain ⟨rfl, rfl⟩ := h
          obtain ⟨hct, added, hadd, hprop⟩ :=
            readArenaCeiling_spec ctx.inf m.levelDef m.levelInfoDef
          refine ⟨levelOK_assemble ctx level _ _ newF newM added
            (by rw [hadd, hMvox]) hFfrom hMfrom ?_ ?_ hFset hMset ?_,
            hFext, hMext, MappingCache.Extends.refl _, hText⟩
          · intro x y z id hmem
            refine ⟨by have := hprop x y z id hmem; omega, ?_⟩
            intro m2 hm2b
            rw [hm2] at hm2b
            cases hm2b
          · intro t x y z hmem
            rw [hct] at hmem
            exact hTr t x y z hmem
          · intro m2 hm2b
            rw [hm2] at hm2b
            cases hm2b

theorem levelOK_mono {E : Type} {ctx : Context E} {level : MIFLevel} {ld : LevelDefinition}
    {p p1 : PassState E} (h : LevelOK ctx level ld p) (hext : PassExtends p p1) :
    LevelOK ctx level ld p1 :=
  { flor := fun x y z id hm hy => hext.1 _ _ (h.flor x y z id hm hy)
    map1 := fun x y z id hm hy => hext.2.1 _ _ (h.map1 x y z id hm hy)
    map2 := fun x y z id hm hy m2 hm2 => hext.2.2.1 _ _ (h.map2 x y z id hm hy m2 hm2)
    transitions := fun t x y z hm => hext.2.2.2 _ _ (h.transitions t x y z hm)
    florSet := h.florSet
    map1Set := h.map1Set
    map2Set := h.map2Set }

theorem passExtends_trans {E : Type} {p1 p2 p3 : PassState E} (h12 : PassExtends p1 p2)
    (h23 : PassExtends p2 p3) : PassExtends p1 p3 :=
  ⟨cacheExtends_trans h12.1 h23.1, cacheExtends_trans h12.2.1 h23.2.1,
    cacheExtends_trans h12.2.2.1 h23.2.2.1, cacheExtends_trans h12.2.2.2 h23.2.2.2⟩

theorem readMifLevels_levelOK {E : Type} (ctx : Context E) :
    ∀ (levels : List MIFLevel) (outLevelDefs : List LevelDefinition) (p : PassState E)
      (defs : List LevelDefinition) (p1 : PassState E),
      (∀ ld ∈ outLevelDefs, ld.voxels = [] ∧ ld.transitionPlacements = []) →
      readMifLevels ctx levels outLevelDefs p = .ok (defs, p1) →
      PassExtends p p1 ∧
      ∀ (i : Nat) level ld, levels[i]? = some level → defs[i]? = some ld →
        LevelOK ctx level ld p1 := by
  intro levels
  induction levels with
  | nil =>
    intro outs p defs p1 _ h
    simp only [readMifLevels, Except.ok.injEq, Prod.mk.injEq] at h
    obtain ⟨rfl, rfl⟩ := h
    exact ⟨⟨MappingCache.Extends.refl _, MappingCache.Extends.refl _,
      MappingCache.Extends.refl _, MappingCache.Extends.refl _⟩,
      fun i level ld hl => by simp at hl⟩
  | cons level rest ih =>
    intro outs p defs p1 hfresh h
    cases outs with
    | nil => simp only [readMifLevels] at h; cases h
    | cons ld0 outs1 =>
      simp only [readMifLevels] at h
      cases hl : readMifLevel ctx level ld0 p with
      | error e => simp only [hl] at h; cases h
      | ok r =>
        obtain ⟨ldA, pA⟩ := r
        simp only [hl] at h
        cases hr : readMifLevels ctx rest outs1 pA with
        | error e => simp only [hr] at h; cases h
        | ok r2 =>
          obtain ⟨restDefs, pB⟩ := r2
          simp only [hr, Except.ok.injEq, Prod.mk.injEq] at h
          obtain ⟨rfl, rfl⟩ := h
          obtain ⟨hf1, hf2⟩ := hfresh ld0 (List.mem_cons_self _ _)
          obtain ⟨hok, hextA⟩ := readMifLevel_levelOK ctx level ld0 p ldA pA hf1 hf2 hl
          obtain ⟨hextB, hrest⟩ := ih outs1 pA restDefs pB
            (fun ld hld => hfresh ld (List.mem_cons_of_mem _ hld)) hr
          refine ⟨passExtends_trans hextA hextB, ?_⟩
          intro i lv ld hlv hld
          cases i with
          | zero =>
            simp only [List.getElem?_cons_zero, Option.some.injEq] at hlv hld
            subst hlv; subst hld
            exact levelOK_mono hok hextB
          | succ k =>
            simp only [List.getElem?_cons_succ] at hlv hld
            exact hrest k lv ld hlv hld

theorem getVoxel_of_mem_unique (ld : LevelDefinition) (x y z : Nat) (id0 : Nat)
    (hset : ∃ id, ((x, y, z), id) ∈ ld.voxels)
    (hall : ∀ id, ((x, y, z), id) ∈ ld.voxels → id = id0) :
    ld.getVoxel x y z = id0 := by
  obtain ⟨id, hid⟩ := hset
  obtain ⟨w, hw, hwm⟩ := lookup_isSome_of_mem ld.voxels (x, y, z) id hid
  unfold LevelDefinition.getVoxel
  rw [hw]
  exact hall w hwm

theorem LevelOK.getVoxel_flor {E : Type} {ctx : Context E} {level : MIFLevel}
    {ld : LevelDefinition} {p : PassState E} (h : LevelOK ctx level ld p) (x z id : Nat)
    (hx : x < level.flor.width) (hz : z < level.flor.height)
    (hc : p.florMappings.lookup (level.flor.get x z) = some id) :
    ld.getVoxel z 0 x = id :=
  getVoxel_of_mem_unique ld z 0 x id (h.florSet x z hx hz) (fun id2 hm => by
    have := h.flor z 0 x id2 hm rfl
    rw [hc] at this
    exact (Option.some.inj this).symm)

theorem LevelOK.getVoxel_map1 {E : Type} {ctx : Context E} {level : MIFLevel}
    {ld : LevelDefinition} {p : PassState E} (h : LevelOK ctx level ld p) (x z id : Nat)
    (hx : x < level.map1.width) (hz : z < level.map1.height)
    (h0 : level.map1.get x z ≠ 0) (h8 : (level.map1.get x z &&& 0xF000) >>> 12 ≠ 0x8)
    (hc : p.map1Mappings.lookup (level.map1.get x z) = some id) :
    ld.getVoxel z 1 x = id :=
  getVoxel_of_mem_unique ld z 1 x id (h.map1Set x z hx hz h0 h8) (fun id2 hm => by
    have := h.map1 z 1 x id2 hm rfl
    rw [hc] at this
    exact (Option.some.inj this).symm)

theorem LevelOK.getVoxel_map2 {E : Type} {ctx : Context E} {level : MIFLevel}
    {ld : LevelDefinition} {p : PassState E} (h : LevelOK ctx level ld p)
    (m2 : BufferView2D) (hm2 : level.map2 = some m2) (x z y id : Nat)
    (hx : x < m2.width) (hz : z < m2.height) (h0 : m2.get x z ≠ 0) (h2 : 2 ≤ y)
    (hy : y < 2 + (ctx.getMap2VoxelHeight (m2.get x z)).toNat)
    (hc : p.map2Mappings.lookup (m2.get x z) = some id) :
    ld.getVoxel z y x = id :=
  getVoxel_of_mem_unique ld z y x id (h.map2Set m2 hm2 x z y hx hz h0 h2 hy) (fun id2 hm => by
    have := h.map2 z y x id2 hm h2 m2 hm2
    rw [hc] at this
    exact (Option.some.inj this).symm)

theorem LevelOK.cached_flor {E : Type} {ctx : Context E} {level : MIFLevel}
    {ld : LevelDefinition} {p : PassState E} (h : LevelOK ctx level ld p) (x z : Nat)
    (hx : x < level.flor.width) (hz : z < level.flor.height) :
    ∃ id, p.florMappings.lookup (level.flor.get x z) = some id := by
  obtain ⟨id, hid⟩ := h.florSet x z hx hz
  exact ⟨id, h.flor z 0 x id hid rfl⟩

theorem LevelOK.cached_map1 {E : Type} {ctx : Context E} {level : MIFLevel}
    {ld : LevelDefinition} {p : PassState E} (h : LevelOK ctx level ld p) (x z : Nat)
    (hx : x < level.map1.width) (hz : z < level.map1.height)
    (h0 : level.map1.get x z ≠ 0) (h8 : (level.map1.get x z &&& 0xF000) >>> 12 ≠ 0x8) :
    ∃ id, p.map1Mappings.lookup (level.map1.get x z) = some id := by
  obtain ⟨id, hid⟩ := h.map1Set x z hx hz h0 h8
  exact ⟨id, h.map1 z 1 x id hid rfl⟩

theorem LevelOK.cached_map2 {E : Type} {ctx : Context E} {level : MIFLevel}
    {ld : LevelDefinition} {p : PassState E} (h : LevelOK ctx level ld p)
    (m2 : BufferView2D) (hm2 : level.map2 = some m2) (x z y : Nat)
    (hx : x < m2.width) (hz : z < m2.height) (h0 : m2.get x z ≠ 0) (h2 : 2 ≤ y)
    (hy : y < 2 + (ctx.getMap2VoxelHeight (m2.get x z)).toNat) :
    ∃ id, p.map2Mappings.lookup (m2.get x z) = some id := by
  obtain ⟨id, hid⟩ := h.map2Set m2 hm2 x z y hx hz h0 h2 hy
  exact ⟨id, h.map2 z y x id hid h2 m2 hm2⟩

/-- C2: in one pass of `readMifVoxels` (empty caches at the start, fresh level
definitions, any number of levels) that runs to its end, two cells of the same layer that
hold the same tile code hold the same voxel definition ID in the finished levels: FLOR
cells at height 0, MAP1 voxel cells (non-zero code, nibble other than 0x8) at height 1,
MAP2 cells (non-zero code) at every height their column covers; and two transition
placements on MAP1 cells with the same code carry the same transition definition ID. The
two cells may lie in one level or in two levels `i` and `j` of the pass. -/
theorem readMifVoxels_cache_determinism {E : Type} (ctx : Context E)
    (levels : List MIFLevel) (outLevelDefs : List LevelDefinition)
    (outLevelInfoDef : LevelInfoDefinition E) (defs : List LevelDefinition)
    (p : PassState E)
    (hfresh : ∀ ld ∈ outLevelDefs, ld.voxels = [] ∧ ld.transitionPlacements = [])
    (hrun : readMifVoxels ctx levels outLevelDefs outLevelInfoDef = .ok (defs, p))
    (i j : Nat) (li lj : MIFLevel) (di dj : LevelDefinition)
    (hli : levels[i]? = some li) (hlj : levels[j]? = some lj)
    (hdi : defs[i]? = some di) (hdj : defs[j]? = some dj) :
    (∀ x1 z1 x2 z2, x1 < li.flor.width → z1 < li.flor.height →
      x2 < lj.flor.width → z2 < lj.flor.height →
      li.flor.get x1 z1 = lj.flor.get x2 z2 →
      di.getVoxel z1 0 x1 = dj.getVoxel z2 0 x2) ∧
    (∀ x1 z1 x2 z2, x1 < li.map1.width → z1 < li.map1.height →
      x2 < lj.map1.width → z2 < lj.map1.height →
      li.map1.get x1 z1 ≠ 0 → (li.map1.get x1 z1 &&& 0xF000) >>> 12 ≠ 0x8 →
      li.map1.get x1 z1 = lj.map1.get x2 z2 →
      di.getVoxel z1 1 x1 = dj.getVoxel z2 1 x2) ∧
    (∀ mi mj, li.map2 = some mi → lj.map2 = some mj →
      ∀ x1 z1 x2 z2 y1 y2, x1 < mi.width → z1 < mi.height → x2 < mj.width → z2 < mj.height →
      mi.get x1 z1 ≠ 0 → mi.get x1 z1 = mj.get x2 z2 →
      2 ≤ y1 → y1 < 2 + (ctx.getMap2VoxelHeight (mi.get x1 z1)).toNat →
      2 ≤ y2 → y2 < 2 + (ctx.getMap2VoxelHeight (mi.get x1 z1)).toNat →
      di.getVoxel z1 y1 x1 = dj.getVoxel z2 y2 x2) ∧
    (∀ t1 t2 x1 y1 z1 x2 y2 z2, (t1, (z1, y1, x1)) ∈ di.transitionPlacements →
      (t2, (z2, y2, x2)) ∈ dj.transitionPlacements →
      li.map1.get x1 z1 = lj.map1.get x2 z2 → t1 = t2) := by
  obtain ⟨-, hall⟩ := readMifLevels_levelOK ctx levels outLevelDefs _ defs p hfresh hrun
  have hi := hall i li di hli hdi
  have hj := hall j lj dj hlj hdj
  refine ⟨?_, ?_, ?_, ?_⟩
  · intro x1 z1 x2 z2 hx1 hz1 hx2 hz2 hcode
    obtain ⟨id, hid⟩ := hi.cached_flor x1 z1 hx1 hz1
    rw [hi.getVoxel_flor x1 z1 id hx1 hz1 hid,
      hj.getVoxel_flor x2 z2 id hx2 hz2 (by rw [← hcode]; exact hid)]
  · intro x1 z1 x2 z2 hx1 hz1 hx2 hz2 h0 h8 hcode
    obtain ⟨id, hid⟩ := hi.cached_map1 x1 z1 hx1 hz1 h0 h8
    rw [hi.getVoxel_map1 x1 z1 id hx1 hz1 h0 h8 hid,
      hj.getVoxel_map1 x2 z2 id hx2 hz2 (by rw [← hcode]; exact h0)
        (by rw [← hcode]; exact h8) (by rw [← hcode]; exact hid)]
  · intro mi mj hmi hmj x1 z1 x2 z2 y1 y2 hx1 hz1 hx2 hz2 h0 hcode h21 hy1 h22 hy2
    obtain ⟨id, hid⟩ := hi.cached_map2 mi hmi x1 z1 y1 hx1 hz1 h0 h21 hy1
    rw [hi.getVoxel_map2 mi hmi x1 z1 y1 id hx1 hz1 h0 h21 hy1 hid,
      hj.getVoxel_map2 mj hmj x2 z2 y2 id hx2 hz2 (by rw [← hcode]; exact h0) h22
        (by rw [← hcode]; exact hy2) (by rw [← hcode]; exact hid)]
  · intro t1 t2 x1 y1 z1 x2 y2 z2 hm1 hm2 hcode
    have e1 := hi.transitions t1 z1 y1 x1 hm1
    have e2 := hj.transitions t2 z2 y2 x2 hm2
    rw [hcode, e2] at e1
    exact (Option.some.inj e1).symm

/-- C2, on the two levels of `sampleLevels`: the `*LEVELUP` wall code 0x0505 of level 0
(column 0) and of level 1 (column 1) gets one voxel definition ID. -/
theorem readMifVoxels_cache_determinism_witness :
    (∀ ld ∈ sampleLevelDefs, ld.voxels = [] ∧ ld.transitionPlacements = []) ∧
    ∃ defs p di dj,
      readMifVoxels (sampleContext WorldType.Interior sampleInteriorInf) sampleLevels
        sampleLevelDefs airInfo = .ok (defs, p) ∧
      defs[0]? = some di ∧ defs[1]? = some dj ∧
      di.getVoxel 0 1 0 = dj.getVoxel 0 1 1 := by
  have hfresh : ∀ ld ∈ sampleLevelDefs, ld.voxels = [] ∧ ld.transitionPlacements = [] := by
    intro ld hld
    simp only [sampleLevelDefs, List.mem_cons, List.mem_singleton, List.not_mem_nil,
      or_false, or_self] at hld
    subst hld
    exact ⟨rfl, rfl⟩
  refine ⟨hfresh, _, _, _, _, rfl, rfl, rfl, ?_⟩
  exact (readMifVoxels_cache_determinism (sampleContext WorldType.Interior sampleInteriorInf)
    sampleLevels sampleLevelDefs airInfo _ _ hfresh rfl 0 1 _ _ _ _ rfl rfl rfl rfl).2.1
    0 0 1 0 (by decide) (by decide) (by decide) (by decide) (by decide) (by decide)
    (by decide)

/-! ## `readArenaFLOR`: voxels and entity placements -/

theorem makeVoxelDefFromFLOR_ok (mif : MIFUtils) (c : Nat) (inf : INFFile) :
    ∃ d, makeVoxelDefFromFLOR mif c inf = .ok d := by
  unfold makeVoxelDefFromFLOR
  simp only []
  by_cases h : mif.isChasm ((c &&& 0xFF00) >>> 8) = true
  · simp only [h, Bool.not_true, Bool.false_eq_true, if_false]
    by_cases h1 : (c &&& 0xFF00) >>> 8 = mif.DRY_CHASM
    · exact ⟨_, by rw [if_pos h1]⟩
    · rw [if_neg h1]
      by_cases h2 : (c &&& 0xFF00) >>> 8 = mif.LAVA_CHASM
      · exact ⟨_, by rw [if_pos h2]⟩
      · rw [if_neg h2]
        by_cases h3 : (c &&& 0xFF00) >>> 8 = mif.WET_CHASM
        · exact ⟨_, by rw [if_pos h3]⟩
        · exfalso
          simp [MIFUtils.isChasm, h1, h2, h3] at h
  · have h2 : mif.isChasm ((c &&& 0xFF00) >>> 8) = false := by simpa using h
    simp only [h2, Bool.not_false, if_true]
    exact ⟨_, rfl⟩

theorem getOrAddVoxelDef_ok {E : Type} (s : Out E) (code : Nat) (d : VoxelDefinition) :
    ∃ r, getOrAddVoxelDef s code (.ok d) = .ok r := by
  unfold getOrAddVoxelDef
  cases s.voxelCache.lookup code with
  | some v => exact ⟨_, rfl⟩
  | none => exact ⟨_, rfl⟩

theorem getOrAddEntityDef_ok {E : Type} (ctx : Context E) (s : Out E) (code flatIndex : Nat)
    (hb : ∃ r, ctx.tryMakeEntityDefFromArenaFlat flatIndex = .ok r) :
    ∃ r, getOrAddEntityDef ctx s code flatIndex = .ok r := by
  unfold getOrAddEntityDef
  cases s.entityCache.lookup code with
  | some v => exact ⟨_, rfl⟩
  | none =>
    obtain ⟨r, hr⟩ := hb
    simp only [hr]
    cases r with
    | none => exact ⟨_, rfl⟩
    | some e => exact ⟨_, rfl⟩

theorem readArenaFLORCell_ok {E : Type} (ctx : Context E) (flor : BufferView2D)
    (s : Out E) (c : Nat × Nat)
    (hb : flor.get c.1 c.2 &&& 0x00FF ≠ 0 →
      ∃ r, ctx.tryMakeEntityDefFromArenaFlat ((flor.get c.1 c.2 &&& 0x00FF) - 1) = .ok r) :
    ∃ s1, readArenaFLORCell ctx flor s c = .ok s1 := by
  unfold readArenaFLORCell
  obtain ⟨d, hd⟩ := makeVoxelDefFromFLOR_ok ctx.mif (flor.get c.1 c.2) ctx.inf
  obtain ⟨r, hr⟩ := getOrAddVoxelDef_ok s (flor.get c.1 c.2) d
  obtain ⟨id, sv⟩ := r
  simp only [hd, hr]
  by_cases h0 : flor.get c.1 c.2 &&& 0x00FF > 0
  · rw [if_pos h0]
    obtain ⟨r2, hr2⟩ := getOrAddEntityDef_ok ctx
      { sv with levelDef := sv.levelDef.setVoxel c.2 0 c.1 id } (flor.get c.1 c.2)
      ((flor.get c.1 c.2 &&& 0x00FF) - 1) (hb (by omega))
    simp only [hr2]
    cases r2 with
    | none => exact ⟨_, rfl⟩
    | some p => exact ⟨_, rfl⟩
  · rw [if_neg h0]
    exact ⟨_, rfl⟩

theorem MappingCache.lookup_insert_cases (c : MappingCache) (k v k2 id : Nat)
    (h : (c.insert k v).lookup k2 = some id) :
    (k2 = k ∧ id = v ∧ c.lookup k = none) ∨ c.lookup k2 = some id := by
  unfold MappingCache.insert at h
  cases hk : c.lookup k with
  | some w =>
    rw [hk] at h
    exact Or.inr h
  | none =>
    rw [hk] at h
    simp only [] at h
    rw [List.lookup_cons] at h
    by_cases hkk : k2 = k
    · subst hkk
      simp only [beq_self_eq_true, Option.some.injEq] at h
      exact Or.inl ⟨rfl, h.symm, rfl⟩
    · have hf : (k2 == k) = false := by simpa using hkk
      rw [hf] at h
      exact Or.inr h

theorem getElem?_append_of_some {α : Type} (l : List α) (x : α) (i : Nat) (a : α)
    (h : l[i]? = some a) : (l ++ [x])[i]? = some a := by
  have hlt : i < l.length := by
    by_contra hge
    rw [List.getElem?_eq_none (by omega)] at h
    cases h
  rw [List.getElem?_append_left hlt]
  exact h

theorem getElem?_append_length {α : Type} (l : List α) (x : α) :
    (l ++ [x])[l.length]? = some x := by
  rw [List.getElem?_append_right (le_refl _)]
  simp

theorem getVoxel_of_new (ld : LevelDefinition) (new old : List (LevelInt3 × Nat))
    (hv : ld.voxels = new ++ old) (x y z : Nat)
    (hset : ∃ id, ((x, y, z), id) ∈ new) :
    ∃ id, ((x, y, z), id) ∈ new ∧ ld.getVoxel x y z = id := by
  obtain ⟨id, hid⟩ := hset
  obtain ⟨w, hw, hwm⟩ := lookup_isSome_of_mem new (x, y, z) id hid
  refine ⟨w, hwm, ?_⟩
  unfold LevelDefinition.getVoxel
  rw [hv, List.lookup_append, hw]
  rfl

theorem getOrAddVoxelDef_florCatalog {E : Type} (ctx : Context E) (s : Out E) (code : Nat)
    (id : Nat) (sv : Out E) (hinv : FlorCatalogInv ctx s)
    (h : getOrAddVoxelDef s code (makeVoxelDefFromFLOR ctx.mif code ctx.inf) = .ok (id, sv)) :
    FlorCatalogInv ctx sv ∧ sv.levelInfoDef.entityDefs = s.levelInfoDef.entityDefs ∧
    sv.levelDef = s.levelDef ∧ sv.entityCache = s.entityCache := by
  rcases getOrAddVoxelDef_cases s code _ id sv h with ⟨_, rfl⟩ | ⟨hl, d, hd, hid, rfl⟩
  · exact ⟨hinv, rfl, rfl, rfl⟩
  · refine ⟨⟨?_, hinv.2⟩, rfl, rfl, rfl⟩
    intro k2 id2 hk2
    rcases MappingCache.lookup_insert_cases _ _ _ _ _ hk2 with ⟨rfl, rfl, _⟩ | hold
    · exact ⟨d, hd, getElem?_append_length _ _⟩
    · obtain ⟨d2, hd2, hg⟩ := hinv.1 k2 id2 hold
      exact ⟨d2, hd2, getElem?_append_of_some _ _ _ _ hg⟩

theorem florEntityPlaced_mono {E : Type} {ctx : Context E} {flor : BufferView2D}
    {defs1 defs2 : List E} (hmono : ∀ (i : Nat) e, defs1[i]? = some e → defs2[i]? = some e)
    {pl : Nat × LevelDouble3} {c : Nat × Nat} (h : FlorEntityPlaced ctx flor defs1 pl c) :
    FlorEntityPlaced ctx flor defs2 pl c := by
  obtain ⟨hp, e, he, hg⟩ := h
  exact ⟨hp, e, he, hmono _ _ hg⟩

theorem readArenaFLORCell_catalog {E : Type} (ctx : Context E) (flor : BufferView2D)
    (s : Out E) (c : Nat × Nat) (s1 : Out E) (hinv : FlorCatalogInv ctx s)
    (h : readArenaFLORCell ctx flor s c = .ok s1) :
    FlorCatalogInv ctx s1 ∧
    (∀ (i : Nat) e, s.levelInfoDef.entityDefs[i]? = some e →
      s1.levelInfoDef.entityDefs[i]? = some e) ∧
    ∃ added, s1.levelDef.entityPlacements = added ++ s.levelDef.entityPlacements ∧
      List.Forall₂ (FlorEntityPlaced ctx flor s1.levelInfoDef.entityDefs) added
        ([c].filter (florCellHasEntity ctx flor)) := by
  obtain ⟨id, sv, hv, hrest⟩ := readArenaFLORCell_cases ctx flor s c s1 h
  obtain ⟨hinvv, hed, hld, hec⟩ := getOrAddVoxelDef_florCatalog ctx s _ id sv hinv hv
  rcases hrest with ⟨rfl, hno⟩ | ⟨hb, eid, se, he, rfl⟩
  · -- no placement: the bottom byte is zero or no definition could be made
    have hq : florCellHasEntity ctx flor c = false := by
      rcases hno with h0 | hnone
      · simp [florCellHasEntity, h0]
      · rcases getOrAddEntityDef_cases ctx _ _ _ _ hnone with
          ⟨id2, _, hr⟩ | ⟨_, hmk, _⟩ | ⟨_, e, _, hr⟩
        · cases hr
        · simp [florCellHasEntity, Context.builds, hmk]
        · cases hr
    refine ⟨hinvv, fun i e hi => by rw [← hed] at hi; exact hi, [], ?_, ?_⟩
    · simp [LevelDefinition.setVoxel, hld]
    · simp [List.filter, hq]
  · rcases getOrAddEntityDef_cases ctx _ _ _ _ he with
      ⟨id2, hl, hr⟩ | ⟨_, _, hr⟩ | ⟨hl, e, hmk, hr⟩
    · -- the code is in the entity cache
      simp only [Option.some.injEq, Prod.mk.injEq] at hr
      obtain ⟨rfl, rfl⟩ := hr
      obtain ⟨e, hmk, hg⟩ := hinvv.2 _ _ (by simpa [hec] using hl)
      have hq : florCellHasEntity ctx flor c = true := by
        simp [florCellHasEntity, Context.builds, hmk, hb]
      refine ⟨hinvv, fun i e hi => by rw [← hed] at hi; exact hi,
        [(eid, entityPos c.2 c.1)], ?_, ?_⟩
      · simp [LevelDefinition.addEntity, LevelDefinition.setVoxel, hld]
      · simp only [List.filter, hq]
        exact List.Forall₂.cons ⟨rfl, e, hmk, hg⟩ List.Forall₂.nil
    · cases hr
    · -- a new entity definition is added
      simp only [Option.some.injEq, Prod.mk.injEq] at hr
      obtain ⟨rfl, rfl⟩ := hr
      have hq : florCellHasEntity ctx flor c = true := by
        simp [florCellHasEntity, Context.builds, hmk, hb]
      refine ⟨⟨?_, ?_⟩, ?_, [(sv.levelInfoDef.entityDefs.length, entityPos c.2 c.1)], ?_, ?_⟩
      · intro k2 id2 hk2
        exact hinvv.1 k2 id2 hk2
      · intro k2 id2 hk2
        rcases MappingCache.lookup_insert_cases _ _ _ _ _ hk2 with ⟨rfl, rfl, _⟩ | hold
        · exact ⟨e, hmk, getElem?_append_length _ _⟩
        · obtain ⟨e2, he2, hg⟩ := hinvv.2 k2 id2 hold
          exact ⟨e2, he2, getElem?_append_of_some _ _ _ _ hg⟩
      · intro i e2 hi
        rw [← hed] at hi
        exact getElem?_append_of_some _ _ _ _ hi
      · simp [LevelDefinition.addEntity, LevelDefinition.setVoxel, hld]
      · simp only [List.filter, hq]
        exact List.Forall₂.cons ⟨rfl, e, hmk, getElem?_append_length _ _⟩ List.Forall₂.nil

theorem readArenaFLOR_catalog {E : Type} (ctx : Context E) (flor : BufferView2D)
    (s0 s1 : Out E) (hinv : FlorCatalogInv ctx s0)
    (h : readArenaFLOR ctx flor s0 = .ok s1) :
    FlorCatalogInv ctx s1 ∧
    ∃ new, s1.levelDef.entityPlacements = new ++ s0.levelDef.entityPlacements ∧
      List.Forall₂ (FlorEntityPlaced ctx flor s1.levelInfoDef.entityDefs) new.reverse
        (flor.cells.filter (florCellHasEntity ctx flor)) := by
  have key := forCells_invariant (readArenaFLORCell ctx flor)
    (fun done s => FlorCatalogInv ctx s ∧
      ∃ new, s.levelDef.entityPlacements = new ++ s0.levelDef.entityPlacements ∧
        List.Forall₂ (FlorEntityPlaced ctx flor s.levelInfoDef.entityDefs) new.reverse
          (done.filter (florCellHasEntity ctx flor))) flor.cells
    (fun done c s s2 _ hP hb => by
      obtain ⟨hi, new, hnew, hall⟩ := hP
      obtain ⟨hi2, hmono, added, hadd, hrel⟩ := readArenaFLORCell_catalog ctx flor s c s2 hi hb
      refine ⟨hi2, added ++ new, by rw [hadd, hnew, List.append_assoc], ?_⟩
      rw [List.reverse_append, List.filter_append]
      refine List.rel_append (hall.imp (fun _ _ hr => florEntityPlaced_mono hmono hr)) ?_
      -- `added` has at most one element, so it is its own reverse
      have hlen : added.length ≤ 1 := by
        rw [hrel.length_eq]
        exact (List.length_filter_le _ _).trans (by simp)
      have hrev : added.reverse = added := by
        match added, hlen with
        | [], _ => rfl
        | [_], _ => rfl
        | _ :: _ :: _, hl => simp at hl
      rw [hrev]
      exact hrel)
    [] s0 s1 ⟨hinv, [], rfl, by simp⟩ h
  simpa using key

/-- C6: `readArenaFLOR` with empty caches, on a layer whose flats the entity builder
handles without a fatal diagnostic and whose cells `(fz, 0, fx)` all lie in the voxel grid
of the level, runs to its end, and every `setVoxel` call of the run is at a cell of the
grid (so none is an index out of bounds); afterwards the voxel at
`(fz, 0, fx)` is the definition decoded from the code of the cell in column `fx` of row
`fz`, for every cell; and the entity placements it added are, in reading order, one for
each cell whose bottom byte `b` is non-zero and whose flat `b - 1` can be built, standing
at `(fz + 0.5, 1.0, fx + 0.5)` with a definition built from flat index `b - 1`. A cell
with bottom byte zero is not among these cells and adds none. -/
theorem readArenaFLOR_voxels_and_entities {E : Type} (ctx : Context E)
    (flor : BufferView2D) (levelDef : LevelDefinition) (levelInfoDef : LevelInfoDefinition E)
    (transitionCache : MappingCache)
    (hbuild : ∀ x z, x < flor.width → z < flor.height → flor.get x z &&& 0x00FF ≠ 0 →
      ∃ r, ctx.tryMakeEntityDefFromArenaFlat ((flor.get x z &&& 0x00FF) - 1) = .ok r)
    (hfit : ∀ x z, x < flor.width → z < flor.height → levelDef.coordIsValid z 0 x = true) :
    ∃ out, readArenaFLOR ctx flor ⟨levelDef, levelInfoDef, [], [], transitionCache⟩ = .ok out ∧
      (∃ written, out.levelDef.voxels = written ++ levelDef.voxels ∧
        ∀ x y z id, ((x, y, z), id) ∈ written → levelDef.coordIsValid x y z = true) ∧
      (∀ x z, x < flor.width → z < flor.height →
        ∃ d, makeVoxelDefFromFLOR ctx.mif (flor.get x z) ctx.inf = .ok d ∧
          out.levelInfoDef.voxelDefs[out.levelDef.getVoxel z 0 x]? = some d) ∧
      ∃ new, out.levelDef.entityPlacements = new ++ levelDef.entityPlacements ∧
        List.Forall₂
          (fun (pl : Nat × LevelDouble3) (c : Nat × Nat) =>
            pl.2 = ⟨(c.2 : ℚ) + 1 / 2, 1, (c.1 : ℚ) + 1 / 2⟩ ∧
            ∃ e, ctx.tryMakeEntityDefFromArenaFlat ((flor.get c.1 c.2 &&& 0x00FF) - 1)
                = .ok (some e) ∧
              out.levelInfoDef.entityDefs[pl.1]? = some e)
          new.reverse
          (flor.cells.filter fun c =>
            decide (flor.get c.1 c.2 &&& 0x00FF ≠ 0) &&
              ctx.builds ((flor.get c.1 c.2 &&& 0x00FF) - 1)) := by
  obtain ⟨out, hout⟩ := forCells_ok (readArenaFLORCell ctx flor) flor.cells
    (fun c hc s => readArenaFLORCell_ok ctx flor s c (fun hb =>
      hbuild c.1 c.2 ((mem_cells flor c.1 c.2).1 hc).1 ((mem_cells flor c.1 c.2).1 hc).2 hb))
    ⟨levelDef, levelInfoDef, [], [], transitionCache⟩
  have hinv0 : FlorCatalogInv ctx ⟨levelDef, levelInfoDef, [], [], transitionCache⟩ :=
    ⟨fun _ _ hl => by simp at hl, fun _ _ hl => by simp at hl⟩
  obtain ⟨hinv, new, hnew, hrel⟩ := readArenaFLOR_catalog ctx flor _ out hinv0 hout
  obtain ⟨-, newV, hvox, hfrom, hset⟩ :=
    layerEffect_of_cellEffect _ flor _ _ flor.cells (readArenaFLORCell_cellEffect ctx flor)
      _ _ hout
  obtain ⟨written, hwritten, hat⟩ :=
    layer_writes_at_cells _ flor _ _ flor.cells (readArenaFLORCell_cellEffect ctx flor)
      _ _ hout
  refine ⟨out, hout, ⟨written, hwritten, ?_⟩, ?_, new, hnew, ?_⟩
  · intro x y z id hm
    obtain ⟨hy, hc⟩ := hat x y z id hm
    have hy0 : y = 0 := hy
    subst hy0
    exact hfit z x ((mem_cells flor z x).1 hc).1 ((mem_cells flor z x).1 hc).2
  · intro x z hx hz
    obtain ⟨id, hmem, hget⟩ := getVoxel_of_new out.levelDef newV _ hvox z 0 x
      (hset (x, z) ((mem_cells flor x z).2 ⟨hx, hz⟩) 0 rfl)
    rw [hget]
    exact hinv.1 _ _ (hfrom z 0 x id hmem).2
  · exact hrel

/-- C6, on a two-cell layer: the first cell holds floor texture 3 with flat 4 (code
0x0305), the second a bare floor. -/
theorem readArenaFLOR_voxels_and_entities_witness :
    (∀ x z, x < (bufferOf 2 1 [[0x0305, 0x0200]]).width →
      z < (bufferOf 2 1 [[0x0305, 0x0200]]).height →
      (bufferOf 2 1 [[0x0305, 0x0200]]).get x z &&& 0x00FF ≠ 0 →
      ∃ r, (sampleContext WorldType.Interior sampleInf).tryMakeEntityDefFromArenaFlat
        (((bufferOf 2 1 [[0x0305, 0x0200]]).get x z &&& 0x00FF) - 1) = .ok r) ∧
    (∀ x z, x < (bufferOf 2 1 [[0x0305, 0x0200]]).width →
      z < (bufferOf 2 1 [[0x0305, 0x0200]]).height →
      (LevelDefinition.init 1 3 2).coordIsValid z 0 x = true) ∧
    ∃ out, readArenaFLOR (sampleContext WorldType.Interior sampleInf)
        (bufferOf 2 1 [[0x0305, 0x0200]])
        ⟨LevelDefinition.init 1 3 2, airInfo, [], [], []⟩ = .ok out ∧
      (∀ x y z id, ((x, y, z), id) ∈ out.levelDef.voxels →
        (LevelDefinition.init 1 3 2).coordIsValid x y z = true) ∧
      out.levelInfoDef.voxelDefs[out.levelDef.getVoxel 0 0 0]? = some (VoxelDefinition.Floor 3) := by
  have hf : ∀ x z, x < (bufferOf 2 1 [[0x0305, 0x0200]]).width →
      z < (bufferOf 2 1 [[0x0305, 0x0200]]).height →
      (LevelDefinition.init 1 3 2).coordIsValid z 0 x = true := by
    intro x z hx hz
    have hx2 : x < 2 := hx
    have hz1 : z < 1 := hz
    simp [LevelDefinition.coordIsValid, LevelDefinition.init, hx2, hz1]
  have hb : ∀ x z, x < (bufferOf 2 1 [[0x0305, 0x0200]]).width →
      z < (bufferOf 2 1 [[0x0305, 0x0200]]).height →
      (bufferOf 2 1 [[0x0305, 0x0200]]).get x z &&& 0x00FF ≠ 0 →
      ∃ r, (sampleContext WorldType.Interior sampleInf).tryMakeEntityDefFromArenaFlat
        (((bufferOf 2 1 [[0x0305, 0x0200]]).get x z &&& 0x00FF) - 1) = .ok r :=
    fun _ _ _ _ _ => ⟨_, rfl⟩
  obtain ⟨out, hout, ⟨written, hwritten, hvalid⟩, hvox, _⟩ := readArenaFLOR_voxels_and_entities
    (sampleContext WorldType.Interior sampleInf) (bufferOf 2 1 [[0x0305, 0x0200]])
    (LevelDefinition.init 1 3 2) airInfo [] hb hf
  have hall : ∀ x y z id, ((x, y, z), id) ∈ out.levelDef.voxels →
      (LevelDefinition.init 1 3 2).coordIsValid x y z = true := by
    intro x y z id hm
    rw [hwritten] at hm
    exact hvalid x y z id (by simpa [LevelDefinition.init] using hm)
  obtain ⟨d, hd, hg⟩ := hvox 0 0 (by decide) (by decide)
  have hd2 : d = VoxelDefinition.Floor 3 := by
    have : makeVoxelDefFromFLOR (sampleContext WorldType.Interior sampleInf).mif
        ((bufferOf 2 1 [[0x0305, 0x0200]]).get 0 0)
        (sampleContext WorldType.Interior sampleInf).inf
        = .ok (VoxelDefinition.Floor 3) := rfl
    rw [this] at hd
    exact (Except.ok.inj hd).symm
  exact ⟨hb, hf, out, hout, hall, by rw [← hd2]; exact hg⟩

/-- C7 (the code at the failing input): a level whose FLOR cell and MAP1 cell both hold
0x8005. The FLOR reader builds flat 4 (bottom byte 5 minus 1) and caches it under the
code; the MAP1 reader, whose code has entity nibble 0x8 and low byte 5, finds the code in
the shared entity cache and places definition ID 0, the one built from flat 4. The catalog
holds no definition built from flat 5, which is what `readArenaMAP1` builds for the same
cell when the entity cache is empty. -/
theorem shared_entity_cache_gives_map1_the_flor_flat :
    ((0x8005 : Nat) &&& 0xF000) >>> 12 = 0x8 ∧ (0x8005 : Nat) &&& 0x00FF = 5 ∧
    (∃ defs p, readMifVoxels (sampleContext WorldType.Interior sampleInf)
        [{ flor := bufferOf 1 1 [[0x8005]], map1 := bufferOf 1 1 [[0x8005]], map2 := none }]
        [LevelDefinition.init 1 3 1] airInfo = .ok (defs, p) ∧
      p.levelInfoDef.entityDefs = [4] ∧
      defs.map (fun ld => ld.entityPlacements.map (fun pl => pl.1)) = [[0, 0]]) ∧
    (∃ s, readArenaMAP1 (sampleContext WorldType.Interior sampleInf)
        (bufferOf 1 1 [[0x8005]]) ⟨LevelDefinition.init 1 3 1, airInfo, [], [], []⟩ = .ok s ∧
      s.levelInfoDef.entityDefs = [5] ∧
      s.levelDef.entityPlacements.map (fun pl => pl.1) = [0]) := by
  refine ⟨by decide, by decide, ⟨_, _, rfl, rfl, rfl⟩, ⟨_, rfl, rfl, rfl⟩⟩

/-- C8 (the code at the failing input): for the type 0xA code 0xA000, whose texture field
is zero, `readArenaMAP1` adds an Edge definition with texture index -1 to the catalog and
sets the cell to its ID, 1; the cell does not stay air. -/
theorem map1_typeA_negative_texture_defines_edge :
    ((0xA000 : Nat) &&& 0xF000) >>> 12 = 0xA ∧ (0xA000 : Nat) &&& 0x003F = 0 ∧
    ∃ s, readArenaMAP1 (sampleContext WorldType.Interior sampleInf) (bufferOf 1 1 [[0xA000]])
        ⟨LevelDefinition.init 1 3 1, airInfo, [], [], []⟩ = .ok s ∧
      s.levelInfoDef.voxelDefs = [VoxelDefinition.None,
        VoxelDefinition.Edge (-1) 0 false false VoxelFacing2D.NegativeX] ∧
      s.levelDef.getVoxel 0 1 0 = 1 := by
  refine ⟨by decide, by decide, _, rfl, rfl, rfl⟩

/-- C10 (the code at the failing input): for the type 0xC code 0xC000 `readArenaMAP1`
does not skip the cell; it adds a definition to the catalog (a second air definition) and
changes the voxel ID of the cell from 0 to 1. -/
theorem map1_typeC_adds_definition_and_sets_cell :
    ((0xC000 : Nat) &&& 0xF000) >>> 12 = 0xC ∧
    (LevelDefinition.init 1 3 1).getVoxel 0 1 0 = 0 ∧
    ∃ s, readArenaMAP1 (sampleContext WorldType.Interior sampleInf) (bufferOf 1 1 [[0xC000]])
        ⟨LevelDefinition.init 1 3 1, airInfo, [], [], []⟩ = .ok s ∧
      s.levelInfoDef.voxelDefs = [VoxelDefinition.None, VoxelDefinition.None] ∧
      s.levelDef.getVoxel 0 1 0 = 1 := by
  refine ⟨by decide, rfl, _, rfl, rfl, rfl⟩

theorem makeVoxelDefFromMAP1_typeC (c : Nat) (worldType : WorldType) (inf : INFFile)
    (exeData : ExeData) (hn : (c &&& 0xF000) >>> 12 = 0xC) :
    c ≠ 0 ∧ makeVoxelDefFromMAP1 c ((c &&& 0xF000) >>> 12) worldType inf exeData
      = .ok VoxelDefinition.None := by
  have h0 : c ≠ 0 := by
    intro h
    rw [h] at hn
    revert hn
    decide
  have h15 : c &&& 0x8000 ≠ 0 := by
    rw [Ne, highBit_clear_iff]
    rw [mostSigNibble_eq] at hn
    omega
  refine ⟨h0, ?_⟩
  rw [hn]
  simp [makeVoxelDefFromMAP1, h0, h15]

theorem tryMakeVoxelTransitionDefGenInfo_of_ne (c : Nat) (worldType : WorldType)
    (inf : INFFile) (hb : getVoxelMostSigByte c ≠ getVoxelLeastSigByte c) :
    tryMakeVoxelTransitionDefGenInfo c worldType inf = .ok none := by
  unfold tryMakeVoxelTransitionDefGenInfo
  simp only [ne_eq, hb, not_false_eq_true, if_true]

/-- The loop body of `readArenaMAP1` on a code with high nibble 0xC that is not yet in the
voxel cache: it adds one default (air) definition to the catalog, caches its index under
the code and sets the voxel of the cell, `(z, 1, x)`, to that index; it then goes on to
the transition lookup, which for a code whose masked bytes differ adds nothing. -/
theorem map1_typeC_cell_adds_air_definition {E : Type} (ctx : Context E)
    (map1 : BufferView2D) (s : Out E) (x z : Nat)
    (hn : (map1.get x z &&& 0xF000) >>> 12 = 0xC)
    (hmiss : s.voxelCache.lookup (map1.get x z) = none) :
    ∃ s2 : Out E,
      s2.levelInfoDef.voxelDefs = s.levelInfoDef.voxelDefs ++ [VoxelDefinition.None] ∧
      s2.voxelCache.lookup (map1.get x z) = some s.levelInfoDef.voxelDefs.length ∧
      s2.levelDef.getVoxel z 1 x = s.levelInfoDef.voxelDefs.length ∧
      readArenaMAP1Cell ctx map1 s (x, z)
        = readArenaMAP1Transition ctx s2 (map1.get x z) z x ∧
      (getVoxelMostSigByte (map1.get x z) ≠ getVoxelLeastSigByte (map1.get x z) →
        readArenaMAP1Cell ctx map1 s (x, z) = .ok s2) := by
  obtain ⟨h0, hmk⟩ := makeVoxelDefFromMAP1_typeC (map1.get x z) ctx.worldType ctx.inf
    ctx.exeData hn
  have h8 : (map1.get x z &&& 0xF000) >>> 12 ≠ 0x8 := by rw [hn]; decide
  have hcell : readArenaMAP1Cell ctx map1 s (x, z)
      = readArenaMAP1Transition ctx
          { s with
            levelInfoDef :=
              { s.levelInfoDef with
                voxelDefs := s.levelInfoDef.voxelDefs ++ [VoxelDefinition.None] }
            voxelCache := s.voxelCache.insert (map1.get x z) s.levelInfoDef.voxelDefs.length
            levelDef := s.levelDef.setVoxel z 1 x s.levelInfoDef.voxelDefs.length }
          (map1.get x z) z x := by
    simp only [readArenaMAP1Cell, if_neg h0, if_pos h8, getOrAddVoxelDef, hmiss, hmk,
      LevelInfoDefinition.addVoxelDef]
  refine ⟨_, rfl, MappingCache.lookup_insert_of_none _ _ _ hmiss, ?_, hcell, ?_⟩
  · simp [LevelDefinition.getVoxel, LevelDefinition.setVoxel, List.lookup_cons]
  · intro hb
    rw [hcell]
    simp only [readArenaMAP1Transition, tryMakeVoxelTransitionDefGenInfo_of_ne _ _ _ hb]

/-! ## Raised platforms and the object codes of MAP1 -/

theorem and_shiftLeft_eq (c k m : Nat) : c &&& (m <<< k) = ((c >>> k) &&& m) <<< k := by
  apply Nat.eq_of_testBit_eq
  intro i
  simp only [Nat.testBit_and, Nat.testBit_shiftLeft, Nat.testBit_shiftRight]
  by_cases hik : k ≤ i
  · have e : k + (i - k) = i := by omega
    simp [hik, e]
  · simp [hik]

/-- The two-bit field in bits 6..7, as the source reads it: `(c & 0x00C0) >> 4` is four
times the field. -/
theorem bits67_shift4 (c : Nat) :
    (c &&& 0x00C0) >>> 4 = ((c >>> 6) &&& 3) * 4 ∧ (c >>> 6) &&& 3 < 4 := by
  have h := and_shiftLeft_eq c 6 3
  have e : (3 <<< 6 : Nat) = 0x00C0 := by decide
  rw [e] at h
  have hlt : (c >>> 6) &&& 3 < 4 := by
    have := Nat.and_pow_two_sub_one_eq_mod (c >>> 6) 2
    simp at this
    rw [this]
    omega
  refine ⟨?_, hlt⟩
  rw [h, Nat.shiftLeft_eq, Nat.shiftRight_eq_div_pow]
  omega

theorem mostSigByte_eq (c : Nat) : getVoxelMostSigByte c = (c >>> 8) &&& 0x7F := by
  have h := and_shiftLeft_shiftRight c 8 0x7F
  have e : (0x7F <<< 8 : Nat) = 0x7F00 := by decide
  rw [e] at h
  exact h

theorem thickness_eq (m : Nat) : (m &&& 0x78) >>> 3 = (m >>> 3) &&& 15 := by
  have h := and_shiftLeft_shiftRight m 3 15
  have e : (15 <<< 3 : Nat) = 0x78 := by decide
  rw [e] at h
  exact h

theorem highBit_set_of_nibble (c n : Nat) (hn : (c &&& 0xF000) >>> 12 = n) (h8 : 8 ≤ n) :
    c ≠ 0 ∧ c &&& 0x8000 ≠ 0 := by
  have h15 : c &&& 0x8000 ≠ 0 := by
    rw [Ne, highBit_clear_iff]
    rw [mostSigNibble_eq] at hn
    omega
  refine ⟨?_, h15⟩
  intro h
  rw [h] at h15
  exact h15 (by decide)

/-- C11: for a raised-platform MAP1 code (non-zero, bit 0x8000 clear, masked bytes
unequal) with `m` = bits 8..14 of the code, `makeVoxelDefFromMAP1` returns a Raised
definition whose base offset and base size are read with height index `m & 7` and
thickness index `(m >> 3) & 15`: in an interior `box1a[height]` and
`box2a[thickness] * boxScale / 256` (truncating division) when the table has a box scale,
else `box2a[thickness]`; in a city `box1b[height]` and `box2b[thickness]`; in the
wilderness `box1c[height]` and `(32 * s) / 256` with `s` the box scale or 192. The side,
floor and cap textures come from `*BOXSIDE`, `*CEILING` and `*BOXCAP`, 0 when absent. -/
theorem map1_raised_offset_and_size_by_world_type (c : Nat) (worldType : WorldType)
    (inf : INFFile) (exeData : ExeData) (h0 : c ≠ 0) (h15 : c &&& 0x8000 = 0)
    (hb : getVoxelMostSigByte c ≠ getVoxelLeastSigByte c) :
    makeVoxelDefFromMAP1 c ((c &&& 0xF000) >>> 12) worldType inf exeData
      = .ok (VoxelDefinition.Raised ((inf.getBoxSide (c &&& 0x000F)).getD 0)
          (inf.getCeiling.textureIndex.getD 0) ((inf.getBoxCap ((c &&& 0x00F0) >>> 4)).getD 0)
          (match worldType with
            | .Interior => exeData.wallHeightTables.box1a (((c >>> 8) &&& 0x7F) &&& 7)
            | .City => exeData.wallHeightTables.box1b (((c >>> 8) &&& 0x7F) &&& 7)
            | .Wilderness => exeData.wallHeightTables.box1c (((c >>> 8) &&& 0x7F) &&& 7))
          (match worldType with
            | .Interior =>
              match inf.getCeiling.boxScale with
              | some boxScale =>
                (exeData.wallHeightTables.box2a ((((c >>> 8) &&& 0x7F) >>> 3) &&& 15)
                  * boxScale).tdiv 256
              | none => exeData.wallHeightTables.box2a ((((c >>> 8) &&& 0x7F) >>> 3) &&& 15)
            | .City => exeData.wallHeightTables.box2b ((((c >>> 8) &&& 0x7F) >>> 3) &&& 15)
            | .Wilderness =>
              match inf.getCeiling.boxScale with
              | some boxScale => ((32 : Int) * boxScale).tdiv 256
              | none => ((32 : Int) * 192).tdiv 256)
          inf.getCeiling.height) := by
  rw [makeVoxelDefFromMAP1_raised c worldType inf exeData h0 h15 hb]
  rw [← mostSigByte_eq, ← thickness_eq]
  cases worldType with
  | Interior => rfl
  | City => rfl
  | Wilderness =>
    cases hs : inf.getCeiling.boxScale with
    | none => simp [makeRaised, hs]
    | some v => simp [makeRaised, hs]

/-- C11, at code 0x0A03 (height index 2, thickness index 1) with a box scale of 192: the
three world types give three different offset and size pairs. -/
theorem map1_raised_offset_and_size_by_world_type_witness :
    ((0x0A03 : Nat) ≠ 0 ∧ (0x0A03 : Nat) &&& 0x8000 = 0 ∧
      getVoxelMostSigByte 0x0A03 ≠ getVoxelLeastSigByte 0x0A03) ∧
    makeVoxelDefFromMAP1 0x0A03 ((0x0A03 &&& 0xF000) >>> 12) WorldType.Interior
      sampleInteriorInf sampleHeightExeData = .ok (VoxelDefinition.Raised 0 3 0 12 30 100) ∧
    makeVoxelDefFromMAP1 0x0A03 ((0x0A03 &&& 0xF000) >>> 12) WorldType.City
      sampleInteriorInf sampleHeightExeData = .ok (VoxelDefinition.Raised 0 3 0 22 51 100) ∧
    makeVoxelDefFromMAP1 0x0A03 ((0x0A03 &&& 0xF000) >>> 12) WorldType.Wilderness
      sampleInteriorInf sampleHeightExeData = .ok (VoxelDefinition.Raised 0 3 0 32 24 100) :=
  ⟨⟨by decide, by decide, by decide⟩,
    map1_raised_offset_and_size_by_world_type 0x0A03 WorldType.Interior sampleInteriorInf
      sampleHeightExeData (by decide) (by decide) (by decide),
    map1_raised_offset_and_size_by_world_type 0x0A03 WorldType.City sampleInteriorInf
      sampleHeightExeData (by decide) (by decide) (by decide),
    map1_raised_offset_and_size_by_world_type 0x0A03 WorldType.Wilderness sampleInteriorInf
      sampleHeightExeData (by decide) (by decide) (by decide)⟩

/-- The type 0xA branch of `makeVoxelDefFromMAP1`, with the facing read from the two-bit
field in bits 6..7. -/
theorem makeVoxelDefFromMAP1_typeA (c : Nat) (worldType : WorldType) (inf : INFFile)
    (exeData : ExeData) (hn : (c &&& 0xF000) >>> 12 = 0xA) :
    makeVoxelDefFromMAP1 c ((c &&& 0xF000) >>> 12) worldType inf exeData
      = .ok (VoxelDefinition.Edge (((c &&& 0x003F : Nat) : Int) - 1)
          (if worldType = WorldType.Interior then (((c &&& 0x0E00) >>> 9 : Nat) : Int) * 8
            else (((c &&& 0x0E00) >>> 9 : Nat) : Int) * 32 - 8)
          (decide (c &&& 0x0100 ≠ 0)) (decide (c &&& 0x0100 ≠ 0))
          (facingOfField ((c >>> 6) &&& 3))) := by
  obtain ⟨h0, h15⟩ := highBit_set_of_nibble c 0xA hn (by decide)
  obtain ⟨hf, hlt⟩ := bits67_shift4 c
  rw [hn]
  simp only [makeVoxelDefFromMAP1, if_neg h0, if_neg h15, hf]
  generalize (c >>> 6) &&& 3 = field at hlt
  have hcases : field = 0 ∨ field = 1 ∨ field = 2 ∨ field = 3 := by omega
  rcases hcases with h | h | h | h <;> subst h <;> simp [facingOfField]

/-- C12: for every MAP1 code with high nibble 0xA, `makeVoxelDefFromMAP1` returns an Edge
definition whose flipped flag equals its collider flag, both true exactly when bit 0x0100
is set, and whose facing is given by the two-bit field in bits 6..7: 0 is NegativeX, 1 is
PositiveZ, 2 is PositiveX and 3 is NegativeZ, four different facings. -/
theorem map1_typeA_edge_flags_and_facing (c : Nat) (worldType : WorldType) (inf : INFFile)
    (exeData : ExeData) (hn : (c &&& 0xF000) >>> 12 = 0xA) :
    (∃ id offset, makeVoxelDefFromMAP1 c ((c &&& 0xF000) >>> 12) worldType inf exeData
      = .ok (VoxelDefinition.Edge id offset
          (decide (c &&& 0x0100 ≠ 0)) (decide (c &&& 0x0100 ≠ 0))
          (facingOfField ((c >>> 6) &&& 3)))) ∧
    (c >>> 6) &&& 3 < 4 ∧
    [facingOfField 0, facingOfField 1, facingOfField 2, facingOfField 3]
      = [VoxelFacing2D.NegativeX, VoxelFacing2D.PositiveZ, VoxelFacing2D.PositiveX,
          VoxelFacing2D.NegativeZ] ∧
    [facingOfField 0, facingOfField 1, facingOfField 2, facingOfField 3].Nodup :=
  ⟨⟨_, _, makeVoxelDefFromMAP1_typeA c worldType inf exeData hn⟩, (bits67_shift4 c).2, rfl,
    by decide⟩

/-- C12, at the collider code 0xA1C5 (orientation field 3, texture field 5). -/
theorem map1_typeA_edge_flags_and_facing_witness :
    ((0xA1C5 : Nat) &&& 0xF000) >>> 12 = 0xA ∧
    ∃ id offset, makeVoxelDefFromMAP1 0xA1C5 ((0xA1C5 &&& 0xF000) >>> 12) WorldType.City
        sampleInf sampleExeData
      = .ok (VoxelDefinition.Edge id offset true true VoxelFacing2D.NegativeZ) :=
  ⟨by decide,
    (map1_typeA_edge_flags_and_facing 0xA1C5 WorldType.City sampleInf sampleExeData
      (by decide)).1⟩

/-- C13: for every MAP1 code with high nibble 0xB, `makeVoxelDefFromMAP1` returns a Door
definition with texture index `(code & 0x3F) - 1` whose kind is given by the two-bit field
in bits 6..7: 0 is Swinging, 1 is Sliding, 2 is Raising and 3 is Splitting. -/
theorem map1_typeB_door_kind (c : Nat) (worldType : WorldType) (inf : INFFile)
    (exeData : ExeData) (hn : (c &&& 0xF000) >>> 12 = 0xB) :
    makeVoxelDefFromMAP1 c ((c &&& 0xF000) >>> 12) worldType inf exeData
      = .ok (VoxelDefinition.Door (((c &&& 0x003F : Nat) : Int) - 1)
          (doorTypeOfField ((c >>> 6) &&& 3))) ∧
    (c >>> 6) &&& 3 < 4 ∧
    [doorTypeOfField 0, doorTypeOfField 1, doorTypeOfField 2, doorTypeOfField 3]
      = [DoorType.Swinging, DoorType.Sliding, DoorType.Raising, DoorType.Splitting] := by
  obtain ⟨h0, h15⟩ := highBit_set_of_nibble c 0xB hn (by decide)
  obtain ⟨hf, hlt⟩ := bits67_shift4 c
  refine ⟨?_, hlt, rfl⟩
  rw [hn]
  simp only [makeVoxelDefFromMAP1, if_neg h0, if_neg h15, hf]
  generalize (c >>> 6) &&& 3 = field at hlt
  have hcases : field = 0 ∨ field = 1 ∨ field = 2 ∨ field = 3 := by omega
  rcases hcases with h | h | h | h <;> subst h <;> simp [doorTypeOfField]

/-- C13, at code 0xB087 (type field 2, texture field 7). -/
theorem map1_typeB_door_kind_witness :
    ((0xB087 : Nat) &&& 0xF000) >>> 12 = 0xB ∧
    makeVoxelDefFromMAP1 0xB087 ((0xB087 &&& 0xF000) >>> 12) WorldType.Interior
        sampleInf sampleExeData
      = .ok (VoxelDefinition.Door 6 DoorType.Raising) :=
  ⟨by decide,
    (map1_typeB_door_kind 0xB087 WorldType.Interior sampleInf sampleExeData (by decide)).1⟩

/-- C14: for every MAP1 code with high nibble 0x9, `makeVoxelDefFromMAP1` returns a
TransparentWall definition with texture index `(code & 0xFF) - 1` whose collider flag is
true exactly when bit 0x0100 of the code is clear; for a type 0xA code the collider flag
of the Edge is true exactly when that bit is set, the opposite polarity. -/
theorem map1_type9_transparent_wall (c : Nat) (worldType : WorldType) (inf : INFFile)
    (exeData : ExeData) (hn : (c &&& 0xF000) >>> 12 = 0x9) :
    makeVoxelDefFromMAP1 c ((c &&& 0xF000) >>> 12) worldType inf exeData
      = .ok (VoxelDefinition.TransparentWall (((c &&& 0x00FF : Nat) : Int) - 1)
          (decide (c &&& 0x0100 = 0))) ∧
    ∀ a, (a &&& 0xF000) >>> 12 = 0xA →
      ∃ id offset flipped facing,
        makeVoxelDefFromMAP1 a ((a &&& 0xF000) >>> 12) worldType inf exeData
          = .ok (VoxelDefinition.Edge id offset (decide (a &&& 0x0100 ≠ 0)) flipped facing) := by
  obtain ⟨h0, h15⟩ := highBit_set_of_nibble c 0x9 hn (by decide)
  refine ⟨?_, ?_⟩
  · rw [hn]
    simp only [makeVoxelDefFromMAP1, if_neg h0, if_neg h15]
    simp
  · intro a ha
    exact ⟨_, _, _, _, makeVoxelDefFromMAP1_typeA a worldType inf exeData ha⟩

/-- C14, at code 0x9107 (bit 0x0100 set, texture field 7): no collider. -/
theorem map1_type9_transparent_wall_witness :
    ((0x9107 : Nat) &&& 0xF000) >>> 12 = 0x9 ∧
    makeVoxelDefFromMAP1 0x9107 ((0x9107 &&& 0xF000) >>> 12) WorldType.Interior
        sampleInf sampleExeData
      = .ok (VoxelDefinition.TransparentWall 6 false) :=
  ⟨by decide,
    (map1_type9_transparent_wall 0x9107 WorldType.Interior sampleInf sampleExeData
      (by decide)).1⟩

/-! ## `readArenaMAP2` -/

theorem readArenaMAP2Cell_ok {E : Type} (ctx : Context E) (map2 : BufferView2D) (s : Out E)
    (c : Nat × Nat) : ∃ s1, readArenaMAP2Cell ctx map2 s c = .ok s1 := by
  unfold readArenaMAP2Cell
  by_cases h0 : map2.get c.1 c.2 = 0
  · simp only [h0, if_true]
    exact ⟨_, rfl⟩
  · simp only [if_neg h0]
    obtain ⟨r, hr⟩ := getOrAddVoxelDef_ok s (map2.get c.1 c.2)
      (makeVoxelDefFromMAP2 (map2.get c.1 c.2))
    simp only [hr]
    exact ⟨_, rfl⟩

theorem readArenaMAP2_columns {E : Type} (ctx : Context E) (map2 : BufferView2D)
    (s0 s1 : Out E)
    (hcat : ∀ code id, s0.voxelCache.lookup code = some id →
      s0.levelInfoDef.voxelDefs[id]? = some (makeVoxelDefFromMAP2 code))
    (h : readArenaMAP2 ctx map2 s0 = .ok s1) :
    (∀ code id, s1.voxelCache.lookup code = some id →
      s1.levelInfoDef.voxelDefs[id]? = some (makeVoxelDefFromMAP2 code)) ∧
    ∃ new, s1.levelDef.voxels = new ++ s0.levelDef.voxels ∧
      (∀ x y z id, ((x, y, z), id) ∈ new →
        z < map2.width ∧ x < map2.height ∧ map2.get z x ≠ 0 ∧ 2 ≤ y ∧
        y < 2 + (ctx.getMap2VoxelHeight (map2.get z x)).toNat ∧
        s1.voxelCache.lookup (map2.get z x) = some id) ∧
      (∀ c ∈ map2.cells, map2.get c.1 c.2 ≠ 0 → ∀ y, 2 ≤ y →
        y < 2 + (ctx.getMap2VoxelHeight (map2.get c.1 c.2)).toNat →
        ∃ id, ((c.2, y, c.1), id) ∈ new) := by
  have key := forCells_invariant (readArenaMAP2Cell ctx map2)
    (fun done s =>
      (∀ code id, s.voxelCache.lookup code = some id →
        s.levelInfoDef.voxelDefs[id]? = some (makeVoxelDefFromMAP2 code)) ∧
      ∃ new, s.levelDef.voxels = new ++ s0.levelDef.voxels ∧
        (∀ x y z id, ((x, y, z), id) ∈ new →
          z < map2.width ∧ x < map2.height ∧ map2.get z x ≠ 0 ∧ 2 ≤ y ∧
          y < 2 + (ctx.getMap2VoxelHeight (map2.get z x)).toNat ∧
          s.voxelCache.lookup (map2.get z x) = some id) ∧
        (∀ c ∈ done, map2.get c.1 c.2 ≠ 0 → ∀ y, 2 ≤ y →
          y < 2 + (ctx.getMap2VoxelHeight (map2.get c.1 c.2)).toNat →
          ∃ id, ((c.2, y, c.1), id) ∈ new)) map2.cells
    (fun done c s s2 hc hP hb => by
      obtain ⟨hcatS, new, hnew, hprop, hset⟩ := hP
      have hrange := (mem_cells map2 c.1 c.2).1 hc
      rcases readArenaMAP2Cell_cases ctx map2 s c s2 hb with ⟨h0, rfl⟩ | ⟨h0, id, sv, hv, rfl⟩
      · refine ⟨hcatS, new, hnew, hprop, ?_⟩
        intro c2 hc2 hne y h2 hy
        rcases List.mem_append.1 hc2 with hc2 | hc2
        · exact hset c2 hc2 hne y h2 hy
        · have : c2 = c := by simpa using hc2
          subst this
          exact absurd h0 hne
      · obtain ⟨hext, hlook, hld, -, -, -, -⟩ := getOrAddVoxelDef_cache _ _ _ _ _ hv
        obtain ⟨-, -, added, hadd, haprop, haset⟩ := setVoxelColumn_spec c.2 c.1 id
          (ctx.getMap2VoxelHeight (map2.get c.1 c.2)).toNat 2 sv.levelDef
        have hcatV : ∀ code id2, sv.voxelCache.lookup code = some id2 →
            sv.levelInfoDef.voxelDefs[id2]? = some (makeVoxelDefFromMAP2 code) := by
          rcases getOrAddVoxelDef_cases s _ _ id sv hv with ⟨_, rfl⟩ | ⟨hl, d, hd, hid, rfl⟩
          · exact hcatS
          · intro k2 id2 hk2
            rcases MappingCache.lookup_insert_cases _ _ _ _ _ hk2 with ⟨rfl, rfl, _⟩ | hold
            · rw [← Except.ok.inj hd]
              exact getElem?_append_length _ _
            · exact getElem?_append_of_some _ _ _ _ (hcatS k2 id2 hold)
        refine ⟨hcatV, added ++ new, ?_, ?_, ?_⟩
        · simp only []
          rw [hadd, hld, hnew, List.append_assoc]
        · intro x y z id2 hm
          rcases List.mem_append.1 hm with hm | hm
          · obtain ⟨rfl, rfl, rfl, h4, h5⟩ := haprop x y z id2 hm
            exact ⟨hrange.1, hrange.2, h0, h4, h5, hlook⟩
          · obtain ⟨a1, a2, a3, a4, a5, a6⟩ := hprop x y z id2 hm
            exact ⟨a1, a2, a3, a4, a5, hext _ _ a6⟩
        · intro c2 hc2 hne y h2 hy
          rcases List.mem_append.1 hc2 with hc2 | hc2
          · obtain ⟨id2, hid2⟩ := hset c2 hc2 hne y h2 hy
            exact ⟨id2, List.mem_append_right _ hid2⟩
          · have : c2 = c := by simpa using hc2
            subst this
            exact ⟨id, List.mem_append_left _ (haset y h2 hy)⟩)
    [] s0 s1 ⟨hcat, [], rfl, fun _ _ _ _ hm => by simp at hm, fun _ hc => by simp at hc⟩ h
  simpa using key

theorem getVoxel_of_not_new (ld : LevelDefinition) (new old : List (LevelInt3 × Nat))
    (hv : ld.voxels = new ++ old) (x y z : Nat)
    (hnone : ∀ id, ((x, y, z), id) ∉ new) :
    ld.getVoxel x y z = (old.lookup (x, y, z)).getD 0 := by
  unfold LevelDefinition.getVoxel
  rw [hv, List.lookup_append]
  cases hl : new.lookup (x, y, z) with
  | none => rfl
  | some id =>
    exfalso
    have hmem : ((x, y, z), id) ∈ new := by
      clear hnone hv
      induction new with
      | nil => simp at hl
      | cons a t ih =>
        obtain ⟨a1, a2⟩ := a
        rw [List.lookup_cons] at hl
        by_cases hk : (x, y, z) = a1
        · subst hk
          simp only [beq_self_eq_true, Option.some.injEq] at hl
          subst hl
          exact List.mem_cons_self _ _
        · have hf : ((x, y, z) == a1) = false := by simpa using hk
          rw [hf] at hl
          exact List.mem_cons_of_mem _ (ih hl)
    exact hnone id hmem

/-- C15: `makeVoxelDefFromMAP2` returns for every code a Solid Wall with no menu ID whose
three texture IDs are `(c & 0x7F) - 1`. `readArenaMAP2`, started with a voxel cache whose
IDs name the definitions decoded from their codes (the empty cache of the first level, or
the cache left by the levels before) on a layer whose columns `(mz, y, mx)` with
`2 <= y < 2 + getMap2VoxelHeight(c)` over the non-zero codes all lie in the voxel grid of
the level, runs to its end, and every `setVoxel` call of the run is at a cell of the grid
(so none is an index out of bounds); afterwards, for the cell in
column `mx` of row `mz` with code `c`: if `c` is not zero, every grid cell `(mz, y, mx)`
with `2 <= y < 2 + getMap2VoxelHeight(c)` holds the one ID cached for `c`, which names the
definition decoded from `c`; every other grid cell, among them the whole column of a cell
with a zero code, holds what it held before. -/
theorem readArenaMAP2_sets_column {E : Type} (ctx : Context E) (map2 : BufferView2D)
    (levelDef : LevelDefinition) (levelInfoDef : LevelInfoDefinition E)
    (voxelCache entityCache transitionCache : MappingCache)
    (hcache : ∀ code id, voxelCache.lookup code = some id →
      levelInfoDef.voxelDefs[id]? = some (makeVoxelDefFromMAP2 code))
    (hfit : ∀ mx mz y : Nat, mx < map2.width → mz < map2.height → map2.get mx mz ≠ 0 →
      2 ≤ y → (y : Int) < 2 + ctx.getMap2VoxelHeight (map2.get mx mz) →
      levelDef.coordIsValid mz y mx = true) :
    (∀ c, makeVoxelDefFromMAP2 c
      = VoxelDefinition.Wall (((c &&& 0x007F : Nat) : Int) - 1) (((c &&& 0x007F : Nat) : Int) - 1)
          (((c &&& 0x007F : Nat) : Int) - 1) none WallType.Solid) ∧
    ∃ out, readArenaMAP2 ctx map2
        ⟨levelDef, levelInfoDef, voxelCache, entityCache, transitionCache⟩ = .ok out ∧
      (∃ written, out.levelDef.voxels = written ++ levelDef.voxels ∧
        ∀ x y z id, ((x, y, z), id) ∈ written → levelDef.coordIsValid x y z = true) ∧
      (∀ mx mz y : Nat, mx < map2.width → mz < map2.height → map2.get mx mz ≠ 0 →
        2 ≤ y → (y : Int) < 2 + ctx.getMap2VoxelHeight (map2.get mx mz) →
        out.voxelCache.lookup (map2.get mx mz) = some (out.levelDef.getVoxel mz y mx) ∧
        out.levelInfoDef.voxelDefs[out.levelDef.getVoxel mz y mx]?
          = some (makeVoxelDefFromMAP2 (map2.get mx mz))) ∧
      (∀ x y z : Nat,
        ¬ (z < map2.width ∧ x < map2.height ∧ map2.get z x ≠ 0 ∧ 2 ≤ y ∧
            (y : Int) < 2 + ctx.getMap2VoxelHeight (map2.get z x)) →
        out.levelDef.getVoxel x y z = levelDef.getVoxel x y z) := by
  refine ⟨fun c => rfl, ?_⟩
  obtain ⟨out, hout⟩ := forCells_ok (readArenaMAP2Cell ctx map2) map2.cells
    (fun c _ s => readArenaMAP2Cell_ok ctx map2 s c)
    ⟨levelDef, levelInfoDef, voxelCache, entityCache, transitionCache⟩
  obtain ⟨hcat, new, hnew, hprop, hset⟩ := readArenaMAP2_columns ctx map2 _ out
    hcache hout
  refine ⟨out, hout, ⟨new, hnew, ?_⟩, ?_, ?_⟩
  · intro x y z id hm
    obtain ⟨a1, a2, a3, a4, a5, _⟩ := hprop x y z id hm
    exact hfit z x y a1 a2 a3 a4 (by omega)
  · intro mx mz y hx hz h0 h2 hy
    have hs := hset (mx, mz) ((mem_cells map2 mx mz).2 ⟨hx, hz⟩) h0 y h2
    simp only at hs
    obtain ⟨id, hmem, hget⟩ := getVoxel_of_new out.levelDef new _ hnew mz y mx
      (hs (by omega))
    have hc := (hprop mz y mx id hmem).2.2.2.2.2
    rw [hget]
    exact ⟨hc, hcat _ _ hc⟩
  · intro x y z hnot
    rw [getVoxel_of_not_new out.levelDef new _ hnew x y z (fun id hm => by
      obtain ⟨a1, a2, a3, a4, a5, _⟩ := hprop x y z id hm
      exact hnot ⟨a1, a2, a3, a4, by omega⟩)]
    rfl

/-- C15, for a row of two cells, the codes 0x0102 and 0, read after a level that left the
code 0x0102 cached under ID 1: the cell at height 2 of the first column holds the ID
cached for 0x0102, which names the definition decoded from it. -/
theorem readArenaMAP2_sets_column_witness :
    (∀ code id, ([(0x0102, 1)] : MappingCache).lookup code = some id →
      (LevelInfoDefinition.mk [VoxelDefinition.None, makeVoxelDefFromMAP2 0x0102] ([] : List Nat)
        [] [] [] [] []).voxelDefs[id]? = some (makeVoxelDefFromMAP2 code)) ∧
    ∃ out, readArenaMAP2 (sampleContext WorldType.City sampleInf) (bufferOf 2 1 [[0x0102, 0]])
        ⟨LevelDefinition.init 1 3 2,
          LevelInfoDefinition.mk [VoxelDefinition.None, makeVoxelDefFromMAP2 0x0102] [] [] [] []
            [] [],
          [(0x0102, 1)], [], []⟩ = .ok out ∧
      (∀ x y z id, ((x, y, z), id) ∈ out.levelDef.voxels →
        (LevelDefinition.init 1 3 2).coordIsValid x y z = true) ∧
      out.voxelCache.lookup 0x0102 = some (out.levelDef.getVoxel 0 2 0) ∧
      out.levelInfoDef.voxelDefs[out.levelDef.getVoxel 0 2 0]?
        = some (makeVoxelDefFromMAP2 0x0102) := by
  have hcache : ∀ code id, ([(0x0102, 1)] : MappingCache).lookup code = some id →
      (LevelInfoDefinition.mk [VoxelDefinition.None, makeVoxelDefFromMAP2 0x0102] ([] : List Nat)
        [] [] [] [] []).voxelDefs[id]? = some (makeVoxelDefFromMAP2 code) := by
    intro code id hl
    simp only [List.lookup_cons, List.lookup_nil] at hl
    split at hl
    · rename_i hc
      simp only [Option.some.injEq] at hl
      subst hl
      have : code = 0x0102 := by simpa using hc
      subst this
      rfl
    · cases hl
  have hfit : ∀ mx mz y : Nat, mx < (bufferOf 2 1 [[0x0102, 0]]).width →
      mz < (bufferOf 2 1 [[0x0102, 0]]).height → (bufferOf 2 1 [[0x0102, 0]]).get mx mz ≠ 0 →
      2 ≤ y →
      (y : Int) < 2 + (sampleContext WorldType.City sampleInf).getMap2VoxelHeight
        ((bufferOf 2 1 [[0x0102, 0]]).get mx mz) →
      (LevelDefinition.init 1 3 2).coordIsValid mz y mx = true := by
    intro mx mz y hx hz _ _ hy
    have hx2 : mx < 2 := hx
    have hz1 : mz < 1 := hz
    have hy3 : (y : Int) < 2 + 1 := hy
    have hy4 : y < 3 := by omega
    simp [LevelDefinition.coordIsValid, LevelDefinition.init, hx2, hz1, hy4]
  obtain ⟨out, hout, ⟨written, hwritten, hvalid⟩, hcells, _⟩ :=
    (readArenaMAP2_sets_column (sampleContext WorldType.City sampleInf)
      (bufferOf 2 1 [[0x0102, 0]]) (LevelDefinition.init 1 3 2)
      (LevelInfoDefinition.mk [VoxelDefinition.None, makeVoxelDefFromMAP2 0x0102] [] [] [] []
        [] [])
      [(0x0102, 1)] [] [] hcache hfit).2
  have hall : ∀ x y z id, ((x, y, z), id) ∈ out.levelDef.voxels →
      (LevelDefinition.init 1 3 2).coordIsValid x y z = true := by
    intro x y z id hm
    rw [hwritten] at hm
    exact hvalid x y z id (by simpa [LevelDefinition.init] using hm)
  exact ⟨hcache, out, hout, hall,
    hcells 0 0 2 (by decide) (by decide) (by decide) (by decide) (by decide)⟩
/-! ## Wilderness building names -/

theorem lookup_setMenuTypeID (menuType : MenuType) (id : Nat) (ids : List (MenuType × Nat)) :
    (setMenuTypeID menuType id ids).lookup menuType = some id := by
  induction ids with
  | nil => simp [setMenuTypeID, List.lookup_cons]
  | cons a t ih =>
    obtain ⟨m, i⟩ := a
    by_cases hm : m = menuType
    · subst hm
      simp [setMenuTypeID, List.lookup_cons]
    · have hf : (menuType == m) = false := by
        simpa using fun h : menuType = m => hm h.symm
      simp only [setMenuTypeID, if_neg hm, List.lookup_cons, hf]
      exact ih

theorem setMenuTypeID_idem (menuType : MenuType) (id : Nat) (ids : List (MenuType × Nat)) :
    setMenuTypeID menuType id (setMenuTypeID menuType id ids) = setMenuTypeID menuType id ids := by
  induction ids with
  | nil => simp [setMenuTypeID]
  | cons a t ih =>
    obtain ⟨m, i⟩ := a
    by_cases hm : m = menuType
    · subst hm
      simp [setMenuTypeID]
    · simp only [setMenuTypeID, if_neg hm]
      rw [ih]

theorem recordWildName_voxelDefs {E : Type} (name : String) (menuType : MenuType)
    (s : WildNamesOut E) :
    (recordWildName name menuType s).levelInfoDef.voxelDefs = s.levelInfoDef.voxelDefs := by
  unfold recordWildName
  cases s.buildingNameMappings.lookup name with
  | some id => rfl
  | none => rfl

theorem recordWildName_idem {E : Type} (name : String) (menuType : MenuType)
    (s : WildNamesOut E) :
    recordWildName name menuType (recordWildName name menuType s)
      = recordWildName name menuType s := by
  unfold recordWildName
  cases hl : s.buildingNameMappings.lookup name with
  | some id =>
    simp only [hl, WildChunkBuildingNameInfo.setBuildingNameID, setMenuTypeID_idem]
  | none =>
    simp only [List.lookup_cons, beq_self_eq_true, WildChunkBuildingNameInfo.setBuildingNameID,
      setMenuTypeID_idem]

theorem applyWildName_idem {E : Type} (nc : NameContext) (seed : Nat) (menuType : MenuType)
    (s s1 : WildNamesOut E) (h : applyWildName nc seed menuType s = .ok s1) :
    applyWildName nc seed menuType s1 = .ok s1 ∧
    s1.levelInfoDef.voxelDefs = s.levelInfoDef.voxelDefs := by
  unfold applyWildName at h ⊢
  cases hn : wildBlockName nc seed menuType with
  | error e => rw [hn] at h; cases h
  | ok name =>
    rw [hn] at h
    simp only [Except.ok.injEq] at h
    subst h
    exact ⟨by simp only [recordWildName_idem], recordWildName_voxelDefs _ _ _⟩

theorem matchesTargetType_congr {E : Type} (nc : NameContext) (worldType : WorldType)
    (levelDef : LevelDefinition) (i1 i2 : LevelInfoDefinition E) (menuType : MenuType)
    (x z : Nat) (h : i1.voxelDefs = i2.voxelDefs) :
    matchesTargetType nc worldType levelDef i1 menuType x z
      = matchesTargetType nc worldType levelDef i2 menuType x z := by
  simp only [matchesTargetType, LevelInfoDefinition.getVoxelDef, h]

theorem wildTryGenerateBlockName_eq {E : Type} (nc : NameContext) (seed : Nat)
    (levelDef : LevelDefinition) (menuType : MenuType) (x z : Nat) (info : LevelInfoDefinition E)
    (s : WildNamesOut E) (hs : s.levelInfoDef.voxelDefs = info.voxelDefs)
    (hvalid : ∃ d, info.getVoxelDef (levelDef.getVoxel x 1 z) = .ok d) :
    wildTryGenerateBlockName nc seed levelDef menuType x z s
      = if wildMatches nc levelDef info menuType x z then
          (match applyWildName nc seed menuType s with
            | .error e => .error e
            | .ok s1 => .ok (true, s1))
        else .ok (false, s) := by
  obtain ⟨d, hd⟩ := hvalid
  have hm : matchesTargetType nc WorldType.Wilderness levelDef s.levelInfoDef menuType x z
      = .ok (wildMatches nc levelDef info menuType x z) := by
    rw [matchesTargetType_congr nc _ levelDef s.levelInfoDef info menuType x z hs]
    unfold wildMatches
    simp only [matchesTargetType, hd]
    cases d <;> rfl
  unfold wildTryGenerateBlockName
  rw [hm]
  cases hb : wildMatches nc levelDef info menuType x z with
  | false => simp
  | true =>
    simp only [if_true, applyWildName]
    cases wildBlockName nc seed menuType with
    | error e => rfl
    | ok name => rfl

theorem wildScanRow_eq {E : Type} (nc : NameContext) (seed : Nat) (levelDef : LevelDefinition)
    (menuType : MenuType) (x : Nat) (info : LevelInfoDefinition E) :
    ∀ (zs : List Nat) (s : WildNamesOut E),
      s.levelInfoDef.voxelDefs = info.voxelDefs →
      (∀ z ∈ zs, ∃ d, info.getVoxelDef (levelDef.getVoxel x 1 z) = .ok d) →
      wildScanRow nc seed levelDef menuType x zs s
        = if zs.any (wildMatches nc levelDef info menuType x) then
            applyWildName nc seed menuType s
          else .ok s := by
  intro zs
  induction zs with
  | nil => intro s _ _; rfl
  | cons z zs ih =>
    intro s hs hv
    unfold wildScanRow
    rw [wildTryGenerateBlockName_eq nc seed levelDef menuType x z info s hs
      (hv z (List.mem_cons_self _ _))]
    cases hb : wildMatches nc levelDef info menuType x z with
    | true =>
      simp only [if_true, List.any_cons, hb, Bool.true_or]
      cases applyWildName nc seed menuType s with
      | error e => rfl
      | ok s1 => rfl
    | false =>
      simp only [List.any_cons, hb, Bool.false_or, Bool.false_eq_true, if_false]
      exact ih s hs fun z1 hz1 => hv z1 (List.mem_cons_of_mem _ hz1)

theorem wildScanUntilFirst_eq {E : Type} (nc : NameContext) (seed : Nat)
    (levelDef : LevelDefinition) (menuType : MenuType) (info : LevelInfoDefinition E) :
    ∀ (cells : List (Nat × Nat)) (s : WildNamesOut E),
      s.levelInfoDef.voxelDefs = info.voxelDefs →
      (∀ c ∈ cells, ∃ d, info.getVoxelDef (levelDef.getVoxel c.1 1 c.2) = .ok d) →
      wildScanUntilFirst nc seed levelDef menuType cells s
        = if cells.any (fun c => wildMatches nc levelDef info menuType c.1 c.2) then
            applyWildName nc seed menuType s
          else .ok s := by
  intro cells
  induction cells with
  | nil => intro s _ _; rfl
  | cons c cells ih =>
    intro s hs hv
    obtain ⟨x, z⟩ := c
    unfold wildScanUntilFirst
    rw [wildTryGenerateBlockName_eq nc seed levelDef menuType x z info s hs
      (hv (x, z) (List.mem_cons_self _ _))]
    cases hb : wildMatches nc levelDef info menuType x z with
    | true =>
      simp only [if_true, List.any_cons, hb, Bool.true_or]
      cases applyWildName nc seed menuType s with
      | error e => rfl
      | ok s1 => rfl
    | false =>
      simp only [List.any_cons, hb, Bool.false_or, Bool.false_eq_true, if_false]
      exact ih s hs fun c1 hc1 => hv c1 (List.mem_cons_of_mem _ hc1)

theorem wildScanRows_eq {E : Type} (nc : NameContext) (seed : Nat) (levelDef : LevelDefinition)
    (menuType : MenuType) (info : LevelInfoDefinition E) :
    ∀ (xs : List Nat) (s : WildNamesOut E),
      s.levelInfoDef.voxelDefs = info.voxelDefs →
      (∀ x ∈ xs, ∀ z ∈ List.range nc.rmd.WIDTH,
        ∃ d, info.getVoxelDef (levelDef.getVoxel x 1 z) = .ok d) →
      wildScanRows nc seed levelDef menuType xs s
        = if xs.any (fun x =>
              (List.range nc.rmd.WIDTH).any (wildMatches nc levelDef info menuType x)) then
            applyWildName nc seed menuType s
          else .ok s := by
  intro xs
  induction xs with
  | nil => intro s _ _; rfl
  | cons x xs ih =>
    intro s hs hv
    unfold wildScanRows
    rw [wildScanRow_eq nc seed levelDef menuType x info _ s hs (hv x (List.mem_cons_self _ _))]
    have hv1 : ∀ x1 ∈ xs, ∀ z ∈ List.range nc.rmd.WIDTH,
        ∃ d, info.getVoxelDef (levelDef.getVoxel x1 1 z) = .ok d :=
      fun x1 hx1 => hv x1 (List.mem_cons_of_mem _ hx1)
    cases hb : (List.range nc.rmd.WIDTH).any (wildMatches nc levelDef info menuType x) with
    | true =>
      simp only [if_true, List.any_cons, hb, Bool.true_or]
      cases ha : applyWildName nc seed menuType s with
      | error e => rfl
      | ok s1 =>
        obtain ⟨hidem, hdefs⟩ := applyWildName_idem nc seed menuType s s1 ha
        simp only []
        rw [ih s1 (hdefs.trans hs) hv1, hidem]
        split <;> rfl
    | false =>
      simp only [List.any_cons, hb, Bool.false_or, Bool.false_eq_true, if_false]
      exact ih s hs hv1

theorem wildCells_any (rmd : RMDFile) (m : Nat → Nat → Bool) :
    (wildCells rmd).any (fun c => m c.1 c.2)
      = (List.range rmd.DEPTH).any (fun x => (List.range rmd.WIDTH).any (m x)) := by
  rw [Bool.eq_iff_iff]
  simp only [wildCells, List.any_eq_true, List.mem_flatMap, List.mem_map, List.mem_range]
  constructor
  · rintro ⟨c, ⟨x, hx, z, hz, rfl⟩, hm⟩
    exact ⟨x, hx, z, hz, hm⟩
  · rintro ⟨x, hx, z, hz, hm⟩
    exact ⟨(x, z), ⟨x, hx, z, hz, rfl⟩, hm⟩

theorem mem_wildCells (rmd : RMDFile) (c : Nat × Nat) (h : c ∈ wildCells rmd) :
    c.1 < rmd.DEPTH ∧ c.2 < rmd.WIDTH := by
  simp only [wildCells, List.mem_flatMap, List.mem_map, List.mem_range] at h
  obtain ⟨x, hx, z, hz, rfl⟩ := h
  exact ⟨hx, hz⟩

/-- The chunk scan of the code and the scan that stops at the first qualifying voxel have
the same closed form on a state whose catalog has the voxel definitions of `info`: if
some voxel of the chunk qualifies the name is recorded once, else nothing changes. -/
theorem tryGenerateChunkBuildingName_eq {E : Type} (nc : NameContext) (seed : Nat)
    (levelDef : LevelDefinition) (menuType : MenuType) (info : LevelInfoDefinition E)
    (s : WildNamesOut E) (hs : s.levelInfoDef.voxelDefs = info.voxelDefs)
    (hvalid : ∀ x z, x < nc.rmd.DEPTH → z < nc.rmd.WIDTH →
      ∃ d, info.getVoxelDef (levelDef.getVoxel x 1 z) = .ok d) :
    tryGenerateChunkBuildingName nc seed levelDef menuType s
      = (if (wildCells nc.rmd).any (fun c => wildMatches nc levelDef info menuType c.1 c.2) then
          applyWildName nc seed menuType s
        else .ok s) ∧
    wildScanUntilFirst nc seed levelDef menuType (wildCells nc.rmd) s
      = (if (wildCells nc.rmd).any (fun c => wildMatches nc levelDef info menuType c.1 c.2) then
          applyWildName nc seed menuType s
        else .ok s) := by
  constructor
  · unfold tryGenerateChunkBuildingName
    rw [wildScanRows_eq nc seed levelDef menuType info _ s hs
      (fun x hx z hz => hvalid x z (List.mem_range.mp hx) (List.mem_range.mp hz)),
      wildCells_any nc.rmd (wildMatches nc levelDef info menuType)]
  · exact wildScanUntilFirst_eq nc seed levelDef menuType info _ s hs
      (fun c hc => hvalid c.1 c.2 (mem_wildCells nc.rmd c hc).1 (mem_wildCells nc.rmd c hc).2)

theorem tryGenerateChunkBuildingName_voxelDefs {E : Type} (nc : NameContext) (seed : Nat)
    (levelDef : LevelDefinition) (menuType : MenuType) (info : LevelInfoDefinition E)
    (s s1 : WildNamesOut E) (hs : s.levelInfoDef.voxelDefs = info.voxelDefs)
    (hvalid : ∀ x z, x < nc.rmd.DEPTH → z < nc.rmd.WIDTH →
      ∃ d, info.getVoxelDef (levelDef.getVoxel x 1 z) = .ok d)
    (h : tryGenerateChunkBuildingName nc seed levelDef menuType s = .ok s1) :
    s1.levelInfoDef.voxelDefs = info.voxelDefs := by
  rw [(tryGenerateChunkBuildingName_eq nc seed levelDef menuType info s hs hvalid).1] at h
  split at h
  · exact (applyWildName_idem nc seed menuType s s1 h).2.trans hs
  · simp only [Except.ok.injEq] at h
    subst h
    exact hs

/-- C20: on a chunk whose main-floor voxel IDs are all in the catalog,
`generateArenaWildChunkBuildingNames`, whose `break` leaves only the inner loop so that
every row is scanned, returns exactly what the generator that stops at the first
qualifying voxel returns. For each menu type the scan either leaves the state as it was
or records the one name made from the chunk seed; recording a name adds at most one
entry to the catalog, and a name already in the mapping is reused with the ID stored
there and adds nothing. -/
theorem wild_chunk_names_equal_first_match_scan {E : Type} (nc : NameContext) (seed : Nat)
    (levelDef : LevelDefinition) (s : WildNamesOut E)
    (hvalid : ∀ x z, x < nc.rmd.DEPTH → z < nc.rmd.WIDTH →
      ∃ d, s.levelInfoDef.getVoxelDef (levelDef.getVoxel x 1 z) = .ok d) :
    generateArenaWildChunkBuildingNames nc seed levelDef s
      = generateWildChunkBuildingNamesFirst nc seed levelDef s ∧
    (∀ (menuType : MenuType) (s0 s1 : WildNamesOut E),
      s0.levelInfoDef.voxelDefs = s.levelInfoDef.voxelDefs →
      tryGenerateChunkBuildingName nc seed levelDef menuType s0 = .ok s1 →
      s1 = s0 ∨
      ∃ name, wildBlockName nc seed menuType = .ok name ∧
        s1 = recordWildName name menuType s0) ∧
    (∀ (name : String) (menuType : MenuType) (s0 : WildNamesOut E),
      (s0.buildingNameMappings.lookup name = none ∧
        (recordWildName name menuType s0).levelInfoDef.buildingNames
          = s0.levelInfoDef.buildingNames ++ [name] ∧
        (recordWildName name menuType s0).buildingNameInfo.tryGetBuildingNameID menuType
          = some s0.levelInfoDef.buildingNames.length) ∨
      (∃ id, s0.buildingNameMappings.lookup name = some id ∧
        (recordWildName name menuType s0).levelInfoDef = s0.levelInfoDef ∧
        (recordWildName name menuType s0).buildingNameMappings = s0.buildingNameMappings ∧
        (recordWildName name menuType s0).buildingNameInfo.tryGetBuildingNameID menuType
          = some id)) := by
  refine ⟨?_, ?_, ?_⟩
  · unfold generateArenaWildChunkBuildingNames generateWildChunkBuildingNamesFirst
    obtain ⟨h1, h2⟩ :=
      tryGenerateChunkBuildingName_eq nc seed levelDef MenuType.Tavern s.levelInfoDef s rfl hvalid
    rw [h2, ← h1]
    cases ht : tryGenerateChunkBuildingName nc seed levelDef MenuType.Tavern s with
    | error e => rfl
    | ok s1 =>
      have hs1 := tryGenerateChunkBuildingName_voxelDefs nc seed levelDef MenuType.Tavern
        s.levelInfoDef s s1 rfl hvalid ht
      obtain ⟨h3, h4⟩ :=
        tryGenerateChunkBuildingName_eq nc seed levelDef MenuType.Temple s.levelInfoDef s1 hs1
          hvalid
      simp only []
      rw [h3, h4]
  · intro menuType s0 s1 hs0 h
    rw [(tryGenerateChunkBuildingName_eq nc seed levelDef menuType s.levelInfoDef s0 hs0
      hvalid).1] at h
    split at h
    · right
      unfold applyWildName at h
      cases hn : wildBlockName nc seed menuType with
      | error e => rw [hn] at h; cases h
      | ok name =>
        rw [hn] at h
        simp only [Except.ok.injEq] at h
        exact ⟨name, rfl, h.symm⟩
    · left
      simp only [Except.ok.injEq] at h
      exact h.symm
  · intro name menuType s0
    cases hl : s0.buildingNameMappings.lookup name with
    | none =>
      left
      refine ⟨rfl, ?_, ?_⟩
      · simp only [recordWildName, hl, LevelInfoDefinition.addBuildingName]
      · simp only [recordWildName, hl, LevelInfoDefinition.addBuildingName,
          WildChunkBuildingNameInfo.tryGetBuildingNameID,
          WildChunkBuildingNameInfo.setBuildingNameID, lookup_setMenuTypeID]
    | some id =>
      right
      refine ⟨id, rfl, ?_, ?_, ?_⟩
      · simp only [recordWildName, hl]
      · simp only [recordWildName, hl]
      · simp only [recordWildName, hl, WildChunkBuildingNameInfo.tryGetBuildingNameID,
          WildChunkBuildingNameInfo.setBuildingNameID, lookup_setMenuTypeID]

theorem wild_chunk_names_equal_first_match_scan_witness :
    (∀ x z, x < sampleNameContext.rmd.DEPTH → z < sampleNameContext.rmd.WIDTH →
      ∃ d, sampleWildNames.levelInfoDef.getVoxelDef (sampleWildChunk.getVoxel x 1 z) = .ok d) ∧
    (generateArenaWildChunkBuildingNames sampleNameContext 7 sampleWildChunk sampleWildNames
      = generateWildChunkBuildingNamesFirst sampleNameContext 7 sampleWildChunk
          sampleWildNames) :=
  have hvalid : ∀ x z, x < sampleNameContext.rmd.DEPTH → z < sampleNameContext.rmd.WIDTH →
      ∃ d, sampleWildNames.levelInfoDef.getVoxelDef (sampleWildChunk.getVoxel x 1 z)
        = .ok d := by
    intro x z hx hz
    have hx2 : x < 2 := hx
    have hz2 : z < 2 := hz
    interval_cases x <;> interval_cases z <;> exact ⟨_, rfl⟩
  ⟨hvalid,
    (wild_chunk_names_equal_first_match_scan sampleNameContext 7 sampleWildChunk
      sampleWildNames hvalid).1⟩

/-! ## City building names -/

theorem cityDraw_lt (nc : NameContext) (menuType : MenuType) (state : Nat) :
    (cityDraw nc menuType state).1 < 23 ∧ (cityDraw nc menuType state).2.1 < 23 := by
  unfold cityDraw
  simp only []
  split
  · exact ⟨Nat.mod_lt _ (by decide), Nat.mod_lt _ (by decide)⟩
  · split
    · exact ⟨by have := Nat.mod_lt (nc.next state).1 (show 20 > 0 by decide); simp only []; omega,
        by have := Nat.mod_lt (nc.next (nc.next state).2).1 (show 10 > 0 by decide)
           simp only []; omega⟩
    · refine ⟨by have := Nat.mod_lt (nc.next state).1 (show 3 > 0 by decide); simp only []; omega,
        ?_⟩
      simp only []
      split
      · have := Nat.mod_lt (nc.next (nc.next state).2).1 (show 5 > 0 by decide); omega
      · split
        · have := Nat.mod_lt (nc.next (nc.next state).2).1 (show 9 > 0 by decide); omega
        · have := Nat.mod_lt (nc.next (nc.next state).2).1 (show 10 > 0 by decide); omega

theorem cityDrawFresh_spec (nc : NameContext) (menuType : MenuType) (seen : List Nat) :
    ∀ (fuel state : Nat) (d : Nat × Nat × Nat),
      cityDrawFresh nc menuType seen fuel state = some d →
      nameHash d.1 d.2.1 ∉ seen ∧ d.1 < 23 ∧ d.2.1 < 23 := by
  intro fuel
  induction fuel with
  | zero => intro state d h; simp [cityDrawFresh] at h
  | succ fuel ih =>
    intro state d h
    unfold cityDrawFresh at h
    simp only [] at h
    split at h
    · exact ih _ d h
    · rename_i hn
      simp only [Option.some.injEq] at h
      subst h
      exact ⟨hn, cityDraw_lt nc menuType state⟩

theorem nameHash_inj (a b a1 b1 : Nat) (hb : b < 256) (hb1 : b1 < 256) :
    nameHash a b = nameHash a1 b1 ↔ a = a1 ∧ b = b1 := by
  simp only [nameHash, Nat.shiftLeft_eq]
  constructor
  · intro h
    omega
  · rintro ⟨rfl, rfl⟩
    rfl

theorem cityTryGenerateBlockName_inv {E : Type} (fuel : Nat) (nc : NameContext)
    (coastal : Bool) (menuType : MenuType) (x z count : Nat)
    (acc acc1 : List Nat × CityNamesOut E) (hinv : SeenInv count acc)
    (h : cityTryGenerateBlockName fuel nc coastal menuType x z acc = some (.ok acc1)) :
    SeenInv count acc1 := by
  unfold cityTryGenerateBlockName at h
  split at h
  · simp at h
  · simp only [Option.some.injEq, Except.ok.injEq] at h
    subst h
    exact hinv
  · split at h
    · simp at h
    · rename_i a b state hd
      split at h
      · simp at h
      · rename_i name hname
        simp only [Option.some.injEq, Except.ok.injEq] at h
        subst h
        obtain ⟨hfresh, ha, hb⟩ := cityDrawFresh_spec nc menuType acc.1 fuel _ _ hd
        obtain ⟨hnd, hall, hlen⟩ := hinv
        refine ⟨?_, ?_, ?_⟩
        · simp only []
          rw [List.nodup_append]
          refine ⟨hnd, List.nodup_singleton _, ?_⟩
          intro y hy hy1
          rw [List.mem_singleton] at hy1
          subst hy1
          exact hfresh hy
        · intro y hy
          simp only [List.mem_append, List.mem_singleton] at hy
          rcases hy with hy | hy
          · exact hall y hy
          · exact ⟨a, b, ha, hb, hy⟩
        · simp only [LevelInfoDefinition.addBuildingName, List.length_append,
            List.length_singleton]
          omega

theorem cityScan_inv {E : Type} (fuel : Nat) (nc : NameContext) (coastal : Bool)
    (menuType : MenuType) (count : Nat) :
    ∀ (cells : List (Nat × Nat)) (acc acc1 : List Nat × CityNamesOut E),
      SeenInv count acc →
      cityScan fuel nc coastal menuType cells acc = some (.ok acc1) →
      SeenInv count acc1 := by
  intro cells
  induction cells with
  | nil =>
    intro acc acc1 hinv h
    simp only [cityScan, Option.some.injEq, Except.ok.injEq] at h
    subst h
    exact hinv
  | cons c cells ih =>
    intro acc acc1 hinv h
    obtain ⟨x, z⟩ := c
    unfold cityScan at h
    split at h
    · simp at h
    · simp at h
    · rename_i acc2 h2
      exact ih acc2 acc1 (cityTryGenerateBlockName_inv fuel nc coastal menuType x z count
        acc acc2 hinv h2) h

theorem cityDrawFresh_mono (nc : NameContext) (menuType : MenuType) (seen : List Nat) :
    ∀ (fuel state : Nat) (d : Nat × Nat × Nat),
      cityDrawFresh nc menuType seen fuel state = some d →
      ∀ fuel1, fuel ≤ fuel1 → cityDrawFresh nc menuType seen fuel1 state = some d := by
  intro fuel
  induction fuel with
  | zero => intro state d h; simp [cityDrawFresh] at h
  | succ fuel ih =>
    intro state d h fuel1 hle
    obtain ⟨k, rfl⟩ : ∃ k, fuel1 = k + 1 := ⟨fuel1 - 1, by omega⟩
    unfold cityDrawFresh at h ⊢
    simp only [] at h ⊢
    split
    · rename_i hin
      rw [if_pos hin] at h
      exact ih _ d h k (by omega)
    · rename_i hnin
      rw [if_neg hnin] at h
      exact h

theorem cityTryGenerateBlockName_mono {E : Type} (fuel fuel1 : Nat) (hle : fuel ≤ fuel1)
    (nc : NameContext) (coastal : Bool) (menuType : MenuType) (x z : Nat)
    (acc : List Nat × CityNamesOut E) (r : Except Fatal (List Nat × CityNamesOut E))
    (h : cityTryGenerateBlockName fuel nc coastal menuType x z acc = some r) :
    cityTryGenerateBlockName fuel1 nc coastal menuType x z acc = some r := by
  unfold cityTryGenerateBlockName at h ⊢
  split
  · rename_i e hm
    rw [hm] at h
    exact h
  · rename_i hm
    rw [hm] at h
    exact h
  · rename_i hm
    rw [hm] at h
    simp only [] at h ⊢
    split at h
    · simp at h
    · rename_i a b state hd
      rw [cityDrawFresh_mono nc menuType acc.1 fuel _ _ hd fuel1 hle]
      exact h

theorem cityScan_mono {E : Type} (fuel fuel1 : Nat) (hle : fuel ≤ fuel1) (nc : NameContext)
    (coastal : Bool) (menuType : MenuType) :
    ∀ (cells : List (Nat × Nat)) (acc : List Nat × CityNamesOut E)
      (r : Except Fatal (List Nat × CityNamesOut E)),
      cityScan fuel nc coastal menuType cells acc = some r →
      cityScan fuel1 nc coastal menuType cells acc = some r := by
  intro cells
  induction cells with
  | nil => intro acc r h; exact h
  | cons c cells ih =>
    intro acc r h
    obtain ⟨x, z⟩ := c
    unfold cityScan at h ⊢
    split at h
    · simp at h
    · rename_i e h1
      rw [cityTryGenerateBlockName_mono fuel fuel1 hle nc coastal menuType x z acc _ h1]
      exact h
    · rename_i acc1 h1
      rw [cityTryGenerateBlockName_mono fuel fuel1 hle nc coastal menuType x z acc _ h1]
      exact ih acc1 r h

theorem generateNames_mono {E : Type} (fuel fuel1 : Nat) (hle : fuel ≤ fuel1)
    (nc : NameContext) (localCityPoint : Int2) (coastal : Bool)
    (mainQuestTempleOverride : Option MainQuestTempleOverride) (menuType : MenuType)
    (s : CityNamesOut E) (r : Except Fatal (List Nat × CityNamesOut E))
    (h : generateNames fuel nc localCityPoint coastal mainQuestTempleOverride menuType s
      = some r) :
    generateNames fuel1 nc localCityPoint coastal mainQuestTempleOverride menuType s
      = some r := by
  unfold generateNames at h ⊢
  simp only [] at h ⊢
  split at h
  · simp at h
  · rename_i e h1
    rw [cityScan_mono fuel fuel1 hle nc coastal menuType _ _ _ h1]
    exact h
  · rename_i seen s1 h1
    rw [cityScan_mono fuel fuel1 hle nc coastal menuType _ _ _ h1]
    exact h

/-- C19: when `generateNames` returns for a menu type, the hashes it kept in `seen` (one
for each name it added to the catalog, in the order of the voxels) are pairwise distinct;
each is `(prefixIndex << 8) + suffixIndex` for indices below 23, and on indices below 256
two hashes are equal exactly when the pairs are, so distinct hashes come from different
pairs (and different pairs give distinct hashes). The name of the main quest temple
override is set without a hash and is not in `seen`. The bound `fuel` on the passes of
a draw loop does not shape the result: every larger bound gives the same output. -/
theorem city_name_hashes_pairwise_distinct {E : Type} (fuel : Nat) (nc : NameContext)
    (localCityPoint : Int2) (coastal : Bool)
    (mainQuestTempleOverride : Option MainQuestTempleOverride) (menuType : MenuType)
    (s s1 : CityNamesOut E) (seen : List Nat)
    (h : generateNames fuel nc localCityPoint coastal mainQuestTempleOverride menuType s
      = some (.ok (seen, s1))) :
    seen.Nodup ∧
    (∀ hash ∈ seen, ∃ a b, a < 23 ∧ b < 23 ∧ hash = nameHash a b) ∧
    s1.levelInfoDef.buildingNames.length
      = s.levelInfoDef.buildingNames.length + seen.length ∧
    (∀ a b a1 b1 : Nat, b < 256 → b1 < 256 →
      (nameHash a b = nameHash a1 b1 ↔ a = a1 ∧ b = b1)) ∧
    (∀ fuel1, fuel ≤ fuel1 →
      generateNames fuel1 nc localCityPoint coastal mainQuestTempleOverride menuType s
        = some (.ok (seen, s1))) := by
  have key : ∀ (s0 : CityNamesOut E) (acc : List Nat × CityNamesOut E),
      s0.levelInfoDef.buildingNames = s.levelInfoDef.buildingNames →
      cityScan fuel nc coastal menuType (cityCells s0.levelDef) ([], s0) = some (.ok acc) →
      SeenInv s.levelInfoDef.buildingNames.length acc := by
    intro s0 acc hs0 hscan
    refine cityScan_inv fuel nc coastal menuType _ _ ([], s0) acc ?_ hscan
    exact ⟨List.nodup_nil, fun _ hm => absurd hm (List.not_mem_nil _), by simp [hs0]⟩
  refine ⟨?_, ?_, ?_, fun a b a1 b1 hb hb1 => nameHash_inj a b a1 b1 hb hb1,
    fun fuel1 hle => generateNames_mono fuel fuel1 hle nc localCityPoint coastal
      mainQuestTempleOverride menuType s _ h⟩
  all_goals
    unfold generateNames at h
    simp only [] at h
    split at h
    · simp at h
    · simp at h
    · rename_i seen1 s2 hscan
      have hinv := key _ (seen1, s2) (by split <;> rfl) hscan
      split at h
      · simp only [Option.some.injEq, Except.ok.injEq, Prod.mk.injEq] at h
        obtain ⟨rfl, rfl⟩ := h
        first | exact hinv.1 | exact hinv.2.1 | exact hinv.2.2
      · split at h
        · simp at h
        · simp only [Option.some.injEq, Except.ok.injEq, Prod.mk.injEq] at h
          obtain ⟨rfl, rfl⟩ := h
          first | exact hinv.1 | exact hinv.2.1 | exact hinv.2.2

theorem city_name_hashes_pairwise_distinct_witness :
    generateNames 5 sampleCityNameContext ⟨0, 0⟩ false none MenuType.Tavern sampleCity
      = some (.ok ([258, 1029],
          { random := 6
            levelDef := (sampleWildChunk.addBuildingName 0 (0, 1, 1)).addBuildingName 1 (1, 1, 0)
            levelInfoDef := { sampleMenuInfo with buildingNames := ["P1 S2", "P4 S5"] } })) ∧
    [258, 1029].Nodup :=
  have h : generateNames 5 sampleCityNameContext ⟨0, 0⟩ false none MenuType.Tavern sampleCity
      = some (.ok ([258, 1029],
          { random := 6
            levelDef := (sampleWildChunk.addBuildingName 0 (0, 1, 1)).addBuildingName 1 (1, 1, 0)
            levelInfoDef := { sampleMenuInfo with buildingNames := ["P1 S2", "P4 S5"] } })) := by
    rfl
  ⟨h, (city_name_hashes_pairwise_distinct 5 sampleCityNameContext ⟨0, 0⟩ false none
    MenuType.Tavern sampleCity _ _ h).1⟩

/-! ## Dungeon generation -/

theorem nextDistinctTransBlock_ne (dc : DungeonContext) (widthChunks depthChunks back : Nat) :
    ∀ (fuel random : Nat) (r : Nat × Nat),
      nextDistinctTransBlock dc widthChunks depthChunks back fuel random = some r →
      r.1 ≠ back := by
  intro fuel
  induction fuel with
  | zero => intro random r h; simp [nextDistinctTransBlock] at h
  | succ fuel ih =>
    intro random r h
    unfold nextDistinctTransBlock at h
    simp only [] at h
    split at h
    · exact ih _ r h
    · rename_i hne
      simp only [Option.some.injEq] at h
      subst h
      exact hne

theorem addTransitions_spec (fuel : Nat) (dc : DungeonContext) (widthChunks depthChunks : Nat) :
    ∀ (count back random : Nat) (rest : List Nat) (random1 : Nat),
      addTransitions fuel dc widthChunks depthChunks count back random = some (rest, random1) →
      rest.length = count ∧
      ∀ (i : Nat) (a b : Nat), (back :: rest)[i]? = some a → (back :: rest)[i + 1]? = some b →
        a ≠ b := by
  intro count
  induction count with
  | zero =>
    intro back random rest random1 h
    simp only [addTransitions, Option.some.injEq, Prod.mk.injEq] at h
    obtain ⟨rfl, _⟩ := h
    refine ⟨rfl, ?_⟩
    intro i a b _ hb
    simp at hb
  | succ count ih =>
    intro back random rest random1 h
    unfold addTransitions at h
    split at h
    · simp at h
    · rename_i transBlock random2 hn
      split at h
      · simp at h
      · rename_i rest1 random3 hrest
        simp only [Option.some.injEq, Prod.mk.injEq] at h
        obtain ⟨rfl, _⟩ := h
        obtain ⟨hlen, hchain⟩ := ih transBlock random2 rest1 random3 hrest
        refine ⟨by simp [hlen], ?_⟩
        intro i a b ha hb
        cases i with
        | zero =>
          simp only [List.getElem?_cons_zero, Option.some.injEq] at ha
          simp only [zero_add, List.getElem?_cons_succ, List.getElem?_cons_zero,
            Option.some.injEq] at hb
          subst ha; subst hb
          exact (nextDistinctTransBlock_ne dc widthChunks depthChunks _ fuel random _ hn).symm
        | succ k =>
          rw [List.getElem?_cons_succ] at ha hb
          exact hchain k a b ha hb

theorem chooseTransitions_spec (fuel : Nat) (dc : DungeonContext)
    (widthChunks depthChunks levelCount random : Nat) (transitions : List Nat) (random1 : Nat)
    (h : chooseTransitions fuel dc widthChunks depthChunks levelCount random
      = some (transitions, random1)) :
    transitions.length = (levelCount - 1) + 1 ∧
    ∀ (i : Nat) (a b : Nat), transitions[i]? = some a → transitions[i + 1]? = some b →
      a ≠ b := by
  unfold chooseTransitions at h
  simp only [] at h
  split at h
  · simp at h
  · rename_i rest random2 hrest
    simp only [Option.some.injEq, Prod.mk.injEq] at h
    obtain ⟨rfl, _⟩ := h
    obtain ⟨hlen, hchain⟩ := addTransitions_spec fuel dc widthChunks depthChunks _ _ _ _ _ hrest
    exact ⟨by simp [hlen], hchain⟩

theorem nextDistinctTransBlock_mono (dc : DungeonContext) (widthChunks depthChunks back : Nat) :
    ∀ (fuel random : Nat) (r : Nat × Nat),
      nextDistinctTransBlock dc widthChunks depthChunks back fuel random = some r →
      ∀ fuel1, fuel ≤ fuel1 →
        nextDistinctTransBlock dc widthChunks depthChunks back fuel1 random = some r := by
  intro fuel
  induction fuel with
  | zero => intro random r h; simp [nextDistinctTransBlock] at h
  | succ fuel ih =>
    intro random r h fuel1 hle
    obtain ⟨k, rfl⟩ : ∃ k, fuel1 = k + 1 := ⟨fuel1 - 1, by omega⟩
    unfold nextDistinctTransBlock at h ⊢
    simp only [] at h ⊢
    split
    · rename_i heq
      rw [if_pos heq] at h
      exact ih _ r h k (by omega)
    · rename_i hne
      rw [if_neg hne] at h
      exact h

theorem addTransitions_mono (fuel fuel1 : Nat) (hle : fuel ≤ fuel1) (dc : DungeonContext)
    (widthChunks depthChunks : Nat) :
    ∀ (count back random : Nat) (res : List Nat × Nat),
      addTransitions fuel dc widthChunks depthChunks count back random = some res →
      addTransitions fuel1 dc widthChunks depthChunks count back random = some res := by
  intro count
  induction count with
  | zero =>
    intro back random res h
    simpa [addTransitions] using h
  | succ count ih =>
    intro back random res h
    unfold addTransitions at h ⊢
    split at h
    · simp at h
    · rename_i transBlock random1 hn
      rw [nextDistinctTransBlock_mono dc widthChunks depthChunks back fuel random _ hn fuel1 hle]
      simp only []
      split at h
      · simp at h
      · rename_i rest random2 hrest
        rw [ih transBlock random1 _ hrest]
        exact h

theorem chooseTransitions_mono (fuel fuel1 : Nat) (hle : fuel ≤ fuel1) (dc : DungeonContext)
    (widthChunks depthChunks levelCount random : Nat) (res : List Nat × Nat)
    (h : chooseTransitions fuel dc widthChunks depthChunks levelCount random = some res) :
    chooseTransitions fuel1 dc widthChunks depthChunks levelCount random = some res := by
  unfold chooseTransitions at h ⊢
  simp only [] at h ⊢
  split at h
  · simp at h
  · rename_i rest random1 hrest
    rw [addTransitions_mono fuel fuel1 hle dc widthChunks depthChunks _ _ _ _ hrest]
    exact h

theorem levelChangeCell_injective (dc : DungeonContext)
    (hunpack : Function.Injective dc.unpackLevelChangeVoxel)
    (hoffset : Function.Injective dc.offsetLevelChangeVoxel) :
    Function.Injective (levelChangeCell dc) := by
  intro a b hab
  simp only [levelChangeCell, Prod.mk.injEq] at hab
  exact hunpack (Prod.ext (hoffset hab.1) (hoffset hab.2))

theorem levelBlocks_of_chooseTransitions (fuel : Nat) (dc : DungeonContext)
    (widthChunks depthChunks levelCount random : Nat) (transitions : List Nat) (random1 : Nat)
    (h : chooseTransitions fuel dc widthChunks depthChunks levelCount random
      = some (transitions, random1)) (i : Nat) (hi : i < levelCount) :
    ∃ up, transitions[i]? = some up ∧
      ((i + 1 = levelCount ∧ levelDownBlockOf transitions levelCount i = .ok none) ∨
        (i + 1 < levelCount ∧ ∃ down, transitions[i + 1]? = some down ∧
          levelDownBlockOf transitions levelCount i = .ok (some down) ∧ up ≠ down)) := by
  obtain ⟨hlen, hchain⟩ := chooseTransitions_spec fuel dc widthChunks depthChunks levelCount
    random transitions random1 h
  have hlt : i < transitions.length := by omega
  refine ⟨transitions[i], List.getElem?_eq_getElem hlt, ?_⟩
  by_cases hlast : i + 1 < levelCount
  · right
    have hlt1 : i + 1 < transitions.length := by omega
    refine ⟨hlast, transitions[i + 1], List.getElem?_eq_getElem hlt1, ?_, ?_⟩
    · simp only [levelDownBlockOf, if_pos hlast, List.getElem?_eq_getElem hlt1]
    · exact hchain i _ _ (List.getElem?_eq_getElem hlt) (List.getElem?_eq_getElem hlt1)
  · left
    exact ⟨by omega, by simp only [levelDownBlockOf, if_neg hlast]⟩

/-- C16: when the loops of `generateMifDungeon` that choose the transition blocks run to
their end, the vector `transitions` has one block for each level (one block when the
level count is zero) and the block of level `i` differs from the block of level `i + 1`.
For every level `i` with `i + 1 < levelCount` the `*LEVELUP` block `transitions[i]` and
the `*LEVELDOWN` block that the level loop makes for it are therefore different, and, as
the cell of a block is got by `unpackLevelChangeVoxel` and `offsetLevelChangeVoxel`,
they fall on two different cells when those two functions are injective. The bound
`fuel` on the passes of the draw loop does not shape the result: every larger bound gives
the same blocks. -/
theorem dungeon_consecutive_transition_blocks_differ (fuel : Nat) (dc : DungeonContext)
    (widthChunks depthChunks levelCount random : Nat) (transitions : List Nat) (random1 : Nat)
    (h : chooseTransitions fuel dc widthChunks depthChunks levelCount random
      = some (transitions, random1)) :
    (∀ fuel1, fuel ≤ fuel1 →
      chooseTransitions fuel1 dc widthChunks depthChunks levelCount random
        = some (transitions, random1)) ∧
    transitions.length = (levelCount - 1) + 1 ∧
    (∀ (i : Nat) (a b : Nat), transitions[i]? = some a → transitions[i + 1]? = some b →
      a ≠ b) ∧
    (∀ i, i + 1 < levelCount →
      ∃ up down, transitions[i]? = some up ∧
        levelDownBlockOf transitions levelCount i = .ok (some down) ∧ up ≠ down ∧
        (Function.Injective dc.unpackLevelChangeVoxel →
          Function.Injective dc.offsetLevelChangeVoxel →
          levelChangeCell dc up ≠ levelChangeCell dc down)) := by
  obtain ⟨hlen, hchain⟩ := chooseTransitions_spec fuel dc widthChunks depthChunks levelCount
    random transitions random1 h
  refine ⟨fun fuel1 hle => chooseTransitions_mono fuel fuel1 hle dc widthChunks depthChunks
    levelCount random _ h, hlen, hchain, ?_⟩
  intro i hi
  obtain ⟨up, hup, hcase⟩ := levelBlocks_of_chooseTransitions fuel dc widthChunks depthChunks
    levelCount random transitions random1 h i (by omega)
  rcases hcase with ⟨hlast, _⟩ | ⟨_, down, _, hdown, hne⟩
  · omega
  · exact ⟨up, down, hup, hdown, hne, fun hunpack hoffset hcell =>
      hne (levelChangeCell_injective dc hunpack hoffset hcell)⟩

theorem dungeon_consecutive_transition_blocks_differ_witness :
    chooseTransitions 2 sampleDungeonContext 2 1 3 0 = some ([0, 1, 0], 10) ∧
    (∀ (i : Nat) (a b : Nat), [0, 1, 0][i]? = some a → [0, 1, 0][i + 1]? = some b → a ≠ b) :=
  have h : chooseTransitions 2 sampleDungeonContext 2 1 3 0 = some ([0, 1, 0], 10) := by rfl
  ⟨h, (dungeon_consecutive_transition_blocks_differ 2 sampleDungeonContext 2 1 3 0 _ _ h).2.2.1⟩

theorem Buffer2D.set_ok (b b1 : Buffer2D) (x z value : Nat) (h : b.set x z value = .ok b1) :
    x < b.width ∧ z < b.height ∧ b1 = { b with cells := ((x, z), value) :: b.cells } := by
  unfold Buffer2D.set at h
  split at h
  · rename_i hb
    simp only [Except.ok.injEq] at h
    exact ⟨hb.1, hb.2, h.symm⟩
  · cases h

theorem stampTransitions_spec (dc : DungeonContext) (inf : INFFile) (levelUpBlock : Nat)
    (levelDownBlock : Option Nat) (b b1 : Buffer2D)
    (h : stampTransitions dc inf levelUpBlock levelDownBlock b = .ok b1) :
    ∃ levelUpIndex, inf.getLevelUpIndex = some levelUpIndex ∧
      (levelChangeCell dc levelUpBlock).1 < b.width ∧
      (levelChangeCell dc levelUpBlock).2 < b.height ∧
      b1.width = b.width ∧ b1.height = b.height ∧
      ((levelDownBlock = none ∧
          b1.cells = (levelChangeCell dc levelUpBlock, levelChangeCode dc levelUpIndex)
            :: b.cells) ∨
        (∃ block levelDownIndex, levelDownBlock = some block ∧
          inf.getLevelDownIndex = some levelDownIndex ∧
          b1.cells = (levelChangeCell dc block, levelChangeCode dc levelDownIndex)
            :: (levelChangeCell dc levelUpBlock, levelChangeCode dc levelUpIndex)
            :: b.cells)) := by
  unfold stampTransitions at h
  cases hup : inf.getLevelUpIndex with
  | none => simp only [hup] at h; cases h
  | some levelUpIndex =>
    simp only [hup] at h
    cases hset : b.set (levelChangeCell dc levelUpBlock).1 (levelChangeCell dc levelUpBlock).2
        (levelChangeCode dc levelUpIndex) with
    | error e => simp only [hset] at h; cases h
    | ok b2 =>
      simp only [hset] at h
      obtain ⟨hx, hz, rfl⟩ := Buffer2D.set_ok _ _ _ _ _ hset
      refine ⟨levelUpIndex, rfl, hx, hz, ?_⟩
      cases levelDownBlock with
      | none =>
        simp only [Except.ok.injEq] at h
        subst h
        exact ⟨rfl, rfl, Or.inl ⟨rfl, rfl⟩⟩
      | some block =>
        simp only [] at h
        cases hdown : inf.getLevelDownIndex with
        | none => simp only [hdown] at h; cases h
        | some levelDownIndex =>
          simp only [hdown] at h
          obtain ⟨_, _, rfl⟩ := Buffer2D.set_ok _ _ _ _ _ h
          exact ⟨rfl, rfl, Or.inr ⟨block, levelDownIndex, rfl, rfl, rfl⟩⟩

theorem stampTransitions_get (dc : DungeonContext) (inf : INFFile) (levelUpBlock : Nat)
    (levelDownBlock : Option Nat) (b b1 : Buffer2D)
    (hne : ∀ block, levelDownBlock = some block →
      levelChangeCell dc levelUpBlock ≠ levelChangeCell dc block)
    (h : stampTransitions dc inf levelUpBlock levelDownBlock b = .ok b1) :
    ∃ levelUpIndex, inf.getLevelUpIndex = some levelUpIndex ∧
      b1.get (levelChangeCell dc levelUpBlock).1 (levelChangeCell dc levelUpBlock).2
        = levelChangeCode dc levelUpIndex := by
  obtain ⟨levelUpIndex, hup, _, _, _, _, hcells⟩ :=
    stampTransitions_spec dc inf levelUpBlock levelDownBlock b b1 h
  refine ⟨levelUpIndex, hup, ?_⟩
  rcases hcells with ⟨_, hc⟩ | ⟨block, levelDownIndex, hb, _, hc⟩
  · simp only [Buffer2D.get, hc, List.lookup_cons, beq_self_eq_true, Option.getD_some]
  · have hf : ((levelChangeCell dc levelUpBlock) == levelChangeCell dc block) = false := by
      simpa using hne block hb
    simp only [Buffer2D.get, hc, List.lookup_cons, hf, beq_self_eq_true, Option.getD_some]

theorem assembleDungeonLevel_stamped {E : Type} (dc : DungeonContext) (ctx : Context E)
    (mif : MIFFile) (widthChunks depthChunks levelUpBlock : Nat) (levelDownBlock : Option Nat)
    (levelDef : LevelDefinition) (st : DungeonState E) (r : LevelBuffers E)
    (h : assembleDungeonLevel dc ctx mif widthChunks depthChunks levelUpBlock levelDownBlock
      levelDef st = .ok r) :
    ∃ chunks perimeter,
      forCells (placeChunk dc mif ((dc.next st.random).1 % 4))
        ((List.range depthChunks).flatMap fun row =>
          (List.range widthChunks).map fun column => (column, row))
        ⟨(dc.next st.random).2,
          Buffer2D.filled (mif.width * widthChunks) (mif.depth * depthChunks),
          Buffer2D.filled (mif.width * widthChunks) (mif.depth * depthChunks),
          levelDef, st.levelInfoDef, st.lockMappings, st.triggerMappings⟩ = .ok chunks ∧
      drawPerimeter chunks.levelMAP1 = .ok perimeter ∧
      stampTransitions dc ctx.inf levelUpBlock levelDownBlock perimeter = .ok r.levelMAP1 ∧
      r = { chunks with levelMAP1 := r.levelMAP1 } := by
  unfold assembleDungeonLevel at h
  simp only [Buffer2D.filled] at h ⊢
  split at h
  · cases h
  · rename_i chunks hchunks
    split at h
    · cases h
    · rename_i perimeter hper
      split at h
      · cases h
      · rename_i stamped hst
        simp only [Except.ok.injEq] at h
        subst h
        exact ⟨chunks, perimeter, hchunks, hper, hst, rfl⟩

/-- C17: when the loops of `generateMifDungeon` that choose the transition blocks run to
their end, and the two functions that turn a block into its cell are injective, then for
every level `i` below the level count the level loop hands `generateArenaDungeonLevel`
the `*LEVELUP` block `transitions[i]` and a `*LEVELDOWN` block exactly when the level is
not the last. When the level is assembled, the MAP1 buffer handed to the readers is the
buffer after the chunks and the perimeter with the stamps written last: one write of the
`*LEVELUP` code on the cell of the `*LEVELUP` block, then, on a level that is not the
last, one write of the `*LEVELDOWN` code on the cell of the `*LEVELDOWN` block, and no
more; both cells lie in the buffer, and the `*LEVELUP` cell holds the `*LEVELUP` code. -/
theorem dungeon_level_stamps {E : Type} (fuel : Nat) (dc : DungeonContext) (ctx : Context E)
    (mif : MIFFile) (widthChunks depthChunks levelCount random : Nat) (transitions : List Nat)
    (random1 : Nat)
    (hunpack : Function.Injective dc.unpackLevelChangeVoxel)
    (hoffset : Function.Injective dc.offsetLevelChangeVoxel)
    (h : chooseTransitions fuel dc widthChunks depthChunks levelCount random
      = some (transitions, random1)) :
    ∀ i, i < levelCount →
      ∃ up down, transitions[i]? = some up ∧
        levelDownBlockOf transitions levelCount i = .ok down ∧
        (down = none ↔ i + 1 = levelCount) ∧
        ∀ (levelDef : LevelDefinition) (st : DungeonState E) (r : LevelBuffers E),
          assembleDungeonLevel dc ctx mif widthChunks depthChunks up down levelDef st = .ok r →
          ∃ (perimeter : Buffer2D) (levelUpIndex : Int), ctx.inf.getLevelUpIndex = some levelUpIndex ∧
            (levelChangeCell dc up).1 < r.levelMAP1.width ∧
            (levelChangeCell dc up).2 < r.levelMAP1.height ∧
            ((down = none ∧
                r.levelMAP1.cells = (levelChangeCell dc up, levelChangeCode dc levelUpIndex)
                  :: perimeter.cells) ∨
              (∃ block levelDownIndex, down = some block ∧
                ctx.inf.getLevelDownIndex = some levelDownIndex ∧
                levelChangeCell dc block ≠ levelChangeCell dc up ∧
                r.levelMAP1.cells = (levelChangeCell dc block, levelChangeCode dc levelDownIndex)
                  :: (levelChangeCell dc up, levelChangeCode dc levelUpIndex)
                  :: perimeter.cells)) ∧
            r.levelMAP1.get (levelChangeCell dc up).1 (levelChangeCell dc up).2
              = levelChangeCode dc levelUpIndex := by
  intro i hi
  obtain ⟨up, hup, hcase⟩ := levelBlocks_of_chooseTransitions fuel dc widthChunks depthChunks
    levelCount random transitions random1 h i hi
  have hdown : ∃ down, levelDownBlockOf transitions levelCount i = .ok down ∧
      (down = none ↔ i + 1 = levelCount) ∧
      ∀ block, down = some block → levelChangeCell dc up ≠ levelChangeCell dc block := by
    rcases hcase with ⟨hlast, hd⟩ | ⟨hlt, down, _, hd, hne⟩
    · exact ⟨none, hd, by simp [hlast], fun block hb => by cases hb⟩
    · refine ⟨some down, hd, ⟨fun hn => (by cases hn), fun he => (by omega)⟩, ?_⟩
      intro block hb hcell
      simp only [Option.some.injEq] at hb
      subst hb
      exact hne (levelChangeCell_injective dc hunpack hoffset hcell)
  obtain ⟨down, hd, hiff, hne⟩ := hdown
  refine ⟨up, down, hup, hd, hiff, ?_⟩
  intro levelDef st r hr
  obtain ⟨chunks, perimeter, _, _, hst, _⟩ :=
    assembleDungeonLevel_stamped dc ctx mif widthChunks depthChunks up down levelDef st r hr
  obtain ⟨levelUpIndex, hupi, hx, hz, hw, hh, hcells⟩ :=
    stampTransitions_spec dc ctx.inf up down perimeter r.levelMAP1 hst
  obtain ⟨levelUpIndex2, hupi2, hget⟩ :=
    stampTransitions_get dc ctx.inf up down perimeter r.levelMAP1 hne hst
  rw [hupi] at hupi2
  simp only [Option.some.injEq] at hupi2
  subst hupi2
  refine ⟨perimeter, levelUpIndex, hupi, by rw [hw]; exact hx, by rw [hh]; exact hz, ?_, hget⟩
  rcases hcells with ⟨hn, hc⟩ | ⟨block, levelDownIndex, hb, hdi, hc⟩
  · exact Or.inl ⟨hn, hc⟩
  · exact Or.inr ⟨block, levelDownIndex, hb, hdi, (hne block hb).symm, hc⟩

theorem dungeon_level_stamps_witness :
    chooseTransitions 2 sampleDungeonContext 2 1 3 0 = some ([0, 1, 0], 10) ∧
    ∃ up down, [0, 1, 0][2]? = some up ∧ levelDownBlockOf [0, 1, 0] 3 2 = .ok down ∧
      (down = none ↔ 2 + 1 = 3) := by
  have h : chooseTransitions 2 sampleDungeonContext 2 1 3 0 = some ([0, 1, 0], 10) := by rfl
  have hu : Function.Injective sampleDungeonContext.unpackLevelChangeVoxel := by
    intro a b hab
    simp only [sampleDungeonContext, Prod.mk.injEq] at hab
    omega
  have ho : Function.Injective sampleDungeonContext.offsetLevelChangeVoxel := by
    intro a b hab
    simp only [sampleDungeonContext] at hab
    omega
  obtain ⟨up, down, h1, h2, h3, _⟩ :=
    dungeon_level_stamps 2 sampleDungeonContext
      (sampleContext WorldType.Interior sampleInteriorInf) sampleDungeonMif 2 1 3 0 [0, 1, 0] 10
      hu ho h 2 (by decide)
  exact ⟨h, up, down, h1, h2, h3⟩

theorem keepsDefs_refl (defs : List VoxelDefinition) : KeepsDefs defs defs :=
  fun _ _ h => h

theorem keepsDefs_trans {d1 d2 d3 : List VoxelDefinition} (h12 : KeepsDefs d1 d2)
    (h23 : KeepsDefs d2 d3) : KeepsDefs d1 d3 :=
  fun i d h => h23 i d (h12 i d h)

theorem keepsDefs_append (defs : List VoxelDefinition) (d : VoxelDefinition) :
    KeepsDefs defs (defs ++ [d]) :=
  fun i d1 h => getElem?_append_of_some defs d i d1 h

theorem forEach_invariant {α σ : Type} (body : σ → α → Except Fatal σ) (P : σ → Prop)
    (l : List α) (hstep : ∀ s a s1, a ∈ l → P s → body s a = .ok s1 → P s1) :
    ∀ s s1, P s → forEach body l s = .ok s1 → P s1 := by
  induction l with
  | nil =>
    intro s s1 hP h
    simp only [forEach, Except.ok.injEq] at h
    subst h
    exact hP
  | cons a rest ih =>
    intro s s1 hP h
    simp only [forEach] at h
    cases hb : body s a with
    | error e => rw [hb] at h; cases h
    | ok s2 =>
      rw [hb] at h
      exact ih (fun s a s1 ha => hstep s a s1 (List.mem_cons_of_mem _ ha)) s2 s1
        (hstep s a s2 (List.mem_cons_self _ _) hP hb) h

theorem forCells_preserves {σ : Type} (body : σ → Nat × Nat → Except Fatal σ) (P : σ → Prop)
    (cells : List (Nat × Nat)) (hstep : ∀ s c s1, P s → body s c = .ok s1 → P s1)
    (s s1 : σ) (hP : P s) (h : forCells body cells s = .ok s1) : P s1 := by
  have key := forCells_invariant body (fun _ t => P t) cells
    (fun _ c t t1 _ hPt hb => hstep t c t1 hPt hb) [] s s1 hP h
  exact key

theorem getOrAddVoxelDef_keepsDefs {E : Type} (s : Out E) (code : Nat)
    (make : Except Fatal VoxelDefinition) (id : Nat) (s1 : Out E)
    (h : getOrAddVoxelDef s code make = .ok (id, s1)) :
    KeepsDefs s.levelInfoDef.voxelDefs s1.levelInfoDef.voxelDefs := by
  rcases getOrAddVoxelDef_cases s code make id s1 h with ⟨_, rfl⟩ | ⟨_, d, _, _, rfl⟩
  · exact keepsDefs_refl _
  · exact keepsDefs_append _ _

theorem getOrAddVoxelDef_map1Catalog {E : Type} (ctx : Context E) (s : Out E) (code : Nat)
    (id : Nat) (sv : Out E) (hinv : Map1CatalogInv ctx s.voxelCache s.levelInfoDef.voxelDefs)
    (h : getOrAddVoxelDef s code
      (makeVoxelDefFromMAP1 code ((code &&& 0xF000) >>> 12) ctx.worldType ctx.inf ctx.exeData)
      = .ok (id, sv)) :
    Map1CatalogInv ctx sv.voxelCache sv.levelInfoDef.voxelDefs := by
  rcases getOrAddVoxelDef_cases s code _ id sv h with ⟨_, rfl⟩ | ⟨hl, d, hd, hid, rfl⟩
  · exact hinv
  · intro k2 id2 hk2
    rcases MappingCache.lookup_insert_cases _ _ _ _ _ hk2 with ⟨rfl, rfl, _⟩ | hold
    · exact ⟨d, hd, getElem?_append_length _ _⟩
    · obtain ⟨d2, hd2, hg⟩ := hinv k2 id2 hold
      exact ⟨d2, hd2, getElem?_append_of_some _ _ _ _ hg⟩

theorem readArenaMAP1Cell_map1Catalog {E : Type} (ctx : Context E) (map1 : BufferView2D)
    (s : Out E) (c : Nat × Nat) (s1 : Out E)
    (hinv : Map1CatalogInv ctx s.voxelCache s.levelInfoDef.voxelDefs)
    (h : readArenaMAP1Cell ctx map1 s c = .ok s1) :
    Map1CatalogInv ctx s1.voxelCache s1.levelInfoDef.voxelDefs ∧
    KeepsDefs s.levelInfoDef.voxelDefs s1.levelInfoDef.voxelDefs := by
  unfold readArenaMAP1Cell at h
  by_cases h0 : map1.get c.1 c.2 = 0
  · simp only [h0, if_true, Except.ok.injEq] at h
    subst h
    exact ⟨hinv, keepsDefs_refl _⟩
  · simp only [if_neg h0] at h
    by_cases h8 : (map1.get c.1 c.2 &&& 0xF000) >>> 12 = 0x8
    · have h8n : ¬ ((map1.get c.1 c.2 &&& 0xF000) >>> 12 ≠ 0x8) := by simpa using h8
      rw [if_neg h8n] at h
      have hframe : s1.voxelCache = s.voxelCache ∧
          s1.levelInfoDef.voxelDefs = s.levelInfoDef.voxelDefs := by
        cases he : getOrAddEntityDef ctx s (map1.get c.1 c.2) (map1.get c.1 c.2 &&& 0x00FF) with
        | error e => simp only [he] at h; cases h
        | ok o =>
          cases o with
          | none =>
            simp only [he, Except.ok.injEq] at h
            subst h
            exact ⟨rfl, rfl⟩
          | some p =>
            obtain ⟨eid, se⟩ := p
            simp only [he, Except.ok.injEq] at h
            subst h
            obtain ⟨hvc, -, -, hvd, -⟩ := getOrAddEntityDef_frame _ _ _ _ _ _ he
            exact ⟨hvc, hvd⟩
      rw [hframe.1, hframe.2]
      exact ⟨hinv, keepsDefs_refl _⟩
    · have h8n : (map1.get c.1 c.2 &&& 0xF000) >>> 12 ≠ 0x8 := h8
      rw [if_pos h8n] at h
      cases hv : getOrAddVoxelDef s (map1.get c.1 c.2)
          (makeVoxelDefFromMAP1 (map1.get c.1 c.2) ((map1.get c.1 c.2 &&& 0xF000) >>> 12)
            ctx.worldType ctx.inf ctx.exeData) with
      | error e => simp only [hv] at h; cases h
      | ok r =>
        obtain ⟨id, sv⟩ := r
        simp only [hv] at h
        have hinv1 := getOrAddVoxelDef_map1Catalog ctx s _ id sv hinv hv
        have hkeep := getOrAddVoxelDef_keepsDefs s _ _ id sv hv
        obtain ⟨hvc, -, -, -, hvd, -⟩ := readArenaMAP1Transition_frame _ _ _ _ _ _ h
        simp only at hvc hvd
        rw [hvc, hvd]
        exact ⟨hinv1, hkeep⟩

theorem readArenaMAP1_map1Catalog {E : Type} (ctx : Context E) (map1 : BufferView2D)
    (s s1 : Out E) (hinv : Map1CatalogInv ctx s.voxelCache s.levelInfoDef.voxelDefs)
    (h : readArenaMAP1 ctx map1 s = .ok s1) :
    Map1CatalogInv ctx s1.voxelCache s1.levelInfoDef.voxelDefs ∧
    KeepsDefs s.levelInfoDef.voxelDefs s1.levelInfoDef.voxelDefs := by
  exact forCells_preserves (readArenaMAP1Cell ctx map1)
    (fun t => Map1CatalogInv ctx t.voxelCache t.levelInfoDef.voxelDefs ∧
      KeepsDefs s.levelInfoDef.voxelDefs t.levelInfoDef.voxelDefs) map1.cells
    (fun t c t1 hP hb =>
      ⟨(readArenaMAP1Cell_map1Catalog ctx map1 t c t1 hP.1 hb).1,
        keepsDefs_trans hP.2 (readArenaMAP1Cell_map1Catalog ctx map1 t c t1 hP.1 hb).2⟩)
    s s1 ⟨hinv, keepsDefs_refl _⟩ h

theorem readArenaMAP1_keepsDefs {E : Type} (ctx : Context E) (map1 : BufferView2D)
    (s s1 : Out E) (h : readArenaMAP1 ctx map1 s = .ok s1) :
    KeepsDefs s.levelInfoDef.voxelDefs s1.levelInfoDef.voxelDefs := by
  refine forCells_preserves (readArenaMAP1Cell ctx map1)
    (fun t => KeepsDefs s.levelInfoDef.voxelDefs t.levelInfoDef.voxelDefs) map1.cells
    (fun t c t1 hP hb => keepsDefs_trans hP ?_) s s1 (keepsDefs_refl _) h
  unfold readArenaMAP1Cell at hb
  by_cases h0 : map1.get c.1 c.2 = 0
  · simp only [h0, if_true, Except.ok.injEq] at hb
    subst hb
    exact keepsDefs_refl _
  · simp only [if_neg h0] at hb
    by_cases h8 : (map1.get c.1 c.2 &&& 0xF000) >>> 12 = 0x8
    · have h8n : ¬ ((map1.get c.1 c.2 &&& 0xF000) >>> 12 ≠ 0x8) := by simpa using h8
      rw [if_neg h8n] at hb
      cases he : getOrAddEntityDef ctx t (map1.get c.1 c.2) (map1.get c.1 c.2 &&& 0x00FF) with
      | error e => simp only [he] at hb; cases hb
      | ok o =>
        cases o with
        | none =>
          simp only [he, Except.ok.injEq] at hb
          subst hb
          exact keepsDefs_refl _
        | some p =>
          obtain ⟨eid, se⟩ := p
          simp only [he, Except.ok.injEq] at hb
          subst hb
          obtain ⟨-, -, -, hvd, -⟩ := getOrAddEntityDef_frame _ _ _ _ _ _ he
          simp only [hvd]
          exact keepsDefs_refl _
    · have h8n : (map1.get c.1 c.2 &&& 0xF000) >>> 12 ≠ 0x8 := h8
      rw [if_pos h8n] at hb
      cases hv : getOrAddVoxelDef t (map1.get c.1 c.2)
          (makeVoxelDefFromMAP1 (map1.get c.1 c.2) ((map1.get c.1 c.2 &&& 0xF000) >>> 12)
            ctx.worldType ctx.inf ctx.exeData) with
      | error e => simp only [hv] at hb; cases hb
      | ok r =>
        obtain ⟨id, sv⟩ := r
        simp only [hv] at hb
        have hkeep := getOrAddVoxelDef_keepsDefs t _ _ id sv hv
        obtain ⟨-, -, -, -, hvd, -⟩ := readArenaMAP1Transition_frame _ _ _ _ _ _ hb
        simp only at hvd
        rw [hvd]
        exact hkeep

theorem readArenaFLOR_keepsDefs {E : Type} (ctx : Context E) (flor : BufferView2D)
    (s s1 : Out E) (h : readArenaFLOR ctx flor s = .ok s1) :
    KeepsDefs s.levelInfoDef.voxelDefs s1.levelInfoDef.voxelDefs := by
  refine forCells_preserves (readArenaFLORCell ctx flor)
    (fun t => KeepsDefs s.levelInfoDef.voxelDefs t.levelInfoDef.voxelDefs) flor.cells
    (fun t c t1 hP hb => keepsDefs_trans hP ?_) s s1 (keepsDefs_refl _) h
  obtain ⟨id, sv, hv, hrest⟩ := readArenaFLORCell_cases ctx flor t c t1 hb
  have hkeep := getOrAddVoxelDef_keepsDefs t _ _ id sv hv
  rcases hrest with ⟨rfl, _⟩ | ⟨_, eid, se, he, rfl⟩
  · exact hkeep
  · obtain ⟨-, -, -, hvd, -⟩ := getOrAddEntityDef_frame _ _ _ _ _ _ he
    simp only at hvd ⊢
    rw [hvd]
    exact hkeep

theorem readArenaCeiling_keepsDefs {E : Type} (inf : INFFile) (ld : LevelDefinition)
    (info : LevelInfoDefinition E) :
    KeepsDefs info.voxelDefs (readArenaCeiling inf ld info).2.voxelDefs := by
  simp only [readArenaCeiling, LevelInfoDefinition.addVoxelDef]
  exact keepsDefs_append _ _

theorem readArenaLock_frame {E : Type} (lock : MIFLock) (s s1 : LevelBuffers E)
    (h : readArenaLock lock s = .ok s1) :
    s1.levelDef.voxels = s.levelDef.voxels ∧
    s1.levelDef.transitionPlacements = s.levelDef.transitionPlacements ∧
    s1.levelInfoDef.voxelDefs = s.levelInfoDef.voxelDefs := by
  unfold readArenaLock at h
  simp only [] at h
  split at h
  · cases h
  · simp only [Except.ok.injEq] at h
    subst h
    refine ⟨rfl, rfl, ?_⟩
    simp only []
    split <;> rfl

theorem readArenaTrigger_frame {E : Type} (dc : DungeonContext) (trigger : MIFTrigger)
    (s s1 : LevelBuffers E) (h : readArenaTrigger dc trigger s = .ok s1) :
    s1.levelDef.voxels = s.levelDef.voxels ∧
    s1.levelDef.transitionPlacements = s.levelDef.transitionPlacements ∧
    s1.levelInfoDef.voxelDefs = s.levelInfoDef.voxelDefs := by
  unfold readArenaTrigger at h
  simp only [] at h
  split at h
  · cases h
  · simp only [Except.ok.injEq] at h
    subst h
    refine ⟨rfl, rfl, ?_⟩
    simp only []
    split <;> rfl

theorem copyBlockCell_frame {E : Type} (blockFLOR blockMAP1 : BufferView2D)
    (xOffset zOffset : Nat) (s : LevelBuffers E) (cell : Nat × Nat) (s1 : LevelBuffers E)
    (h : copyBlockCell blockFLOR blockMAP1 xOffset zOffset s cell = .ok s1) :
    s1.levelDef = s.levelDef ∧ s1.levelInfoDef = s.levelInfoDef := by
  unfold copyBlockCell at h
  simp only [] at h
  split at h
  · cases h
  · split at h
    · cases h
    · simp only [Except.ok.injEq] at h
      subst h
      exact ⟨rfl, rfl⟩

theorem placeChunk_frame {E : Type} (dc : DungeonContext) (mif : MIFFile) (tileSet : Nat)
    (s : LevelBuffers E) (cell : Nat × Nat) (s1 : LevelBuffers E)
    (h : placeChunk dc mif tileSet s cell = .ok s1) :
    s1.levelDef.voxels = s.levelDef.voxels ∧
    s1.levelDef.transitionPlacements = s.levelDef.transitionPlacements ∧
    s1.levelInfoDef.voxelDefs = s.levelInfoDef.voxelDefs := by
  unfold placeChunk at h
  simp only [] at h
  split at h
  · cases h
  · rename_i blockLevel _
    split at h
    · cases h
    · rename_i t1 hcopy
      have h1 : t1.levelDef.voxels = s.levelDef.voxels ∧
          t1.levelDef.transitionPlacements = s.levelDef.transitionPlacements ∧
          t1.levelInfoDef.voxelDefs = s.levelInfoDef.voxelDefs := by
        refine forCells_preserves _
          (fun t : LevelBuffers E => t.levelDef.voxels = s.levelDef.voxels ∧
            t.levelDef.transitionPlacements = s.levelDef.transitionPlacements ∧
            t.levelInfoDef.voxelDefs = s.levelInfoDef.voxelDefs) _
          (fun t c t2 hP hb => ?_) _ _ ?_ hcopy
        · obtain ⟨hl, hi⟩ := copyBlockCell_frame _ _ _ _ t c t2 hb
          rw [hl, hi]
          exact hP
        · exact ⟨rfl, rfl, rfl⟩
      split at h
      · cases h
      · rename_i t2 hlock
        have h2 : t2.levelDef.voxels = s.levelDef.voxels ∧
            t2.levelDef.transitionPlacements = s.levelDef.transitionPlacements ∧
            t2.levelInfoDef.voxelDefs = s.levelInfoDef.voxelDefs :=
          forEach_invariant _
            (fun t : LevelBuffers E => t.levelDef.voxels = s.levelDef.voxels ∧
              t.levelDef.transitionPlacements = s.levelDef.transitionPlacements ∧
              t.levelInfoDef.voxelDefs = s.levelInfoDef.voxelDefs) _
            (fun t a t3 _ hP hb => by
              obtain ⟨ha, hb1, hc⟩ := readArenaLock_frame _ t t3 hb
              exact ⟨ha.trans hP.1, hb1.trans hP.2.1, hc.trans hP.2.2⟩)
            _ _ h1 hlock
        exact forEach_invariant _
          (fun t : LevelBuffers E => t.levelDef.voxels = s.levelDef.voxels ∧
            t.levelDef.transitionPlacements = s.levelDef.transitionPlacements ∧
            t.levelInfoDef.voxelDefs = s.levelInfoDef.voxelDefs) _
          (fun t a t3 _ hP hb => by
            obtain ⟨ha, hb1, hc⟩ := readArenaTrigger_frame dc _ t t3 hb
            exact ⟨ha.trans hP.1, hb1.trans hP.2.1, hc.trans hP.2.2⟩)
          _ _ h2 h

theorem assembleDungeonLevel_frame {E : Type} (dc : DungeonContext) (ctx : Context E)
    (mif : MIFFile) (widthChunks depthChunks levelUpBlock : Nat) (levelDownBlock : Option Nat)
    (levelDef : LevelDefinition) (st : DungeonState E) (r : LevelBuffers E)
    (h : assembleDungeonLevel dc ctx mif widthChunks depthChunks levelUpBlock levelDownBlock
      levelDef st = .ok r) :
    r.levelDef.voxels = levelDef.voxels ∧
    r.levelDef.transitionPlacements = levelDef.transitionPlacements ∧
    r.levelInfoDef.voxelDefs = st.levelInfoDef.voxelDefs := by
  obtain ⟨chunks, perimeter, hchunks, _, _, hr⟩ :=
    assembleDungeonLevel_stamped dc ctx mif widthChunks depthChunks levelUpBlock levelDownBlock
      levelDef st r h
  have hc : chunks.levelDef.voxels = levelDef.voxels ∧
      chunks.levelDef.transitionPlacements = levelDef.transitionPlacements ∧
      chunks.levelInfoDef.voxelDefs = st.levelInfoDef.voxelDefs := by
    refine forCells_preserves _
      (fun t : LevelBuffers E => t.levelDef.voxels = levelDef.voxels ∧
        t.levelDef.transitionPlacements = levelDef.transitionPlacements ∧
        t.levelInfoDef.voxelDefs = st.levelInfoDef.voxelDefs) _
      (fun t c t2 hP hb => ?_) _ _ ?_ hchunks
    · obtain ⟨ha, hb1, hc⟩ := placeChunk_frame dc mif _ t c t2 hb
      exact ⟨ha.trans hP.1, hb1.trans hP.2.1, hc.trans hP.2.2⟩
    · exact ⟨rfl, rfl, rfl⟩
  rw [hr]
  exact hc

theorem generateArenaDungeonLevel_keepsDefs {E : Type} (dc : DungeonContext) (ctx : Context E)
    (mif : MIFFile) (widthChunks depthChunks levelUpBlock : Nat) (levelDownBlock : Option Nat)
    (levelDef : LevelDefinition) (st : DungeonState E) (levelDef1 : LevelDefinition)
    (st1 : DungeonState E)
    (h : generateArenaDungeonLevel dc ctx mif widthChunks depthChunks levelUpBlock
      levelDownBlock levelDef st = .ok (levelDef1, st1)) :
    KeepsDefs st.levelInfoDef.voxelDefs st1.levelInfoDef.voxelDefs := by
  unfold generateArenaDungeonLevel at h
  split at h
  · cases h
  · rename_i s hs
    split at h
    · cases h
    · rename_i f hf
      split at h
      · cases h
      · rename_i m hm
        simp only [Except.ok.injEq, Prod.mk.injEq] at h
        obtain ⟨_, rfl⟩ := h
        have h1 := (assembleDungeonLevel_frame dc ctx mif widthChunks depthChunks levelUpBlock
          levelDownBlock levelDef st s hs).2.2
        have h2 := readArenaFLOR_keepsDefs ctx _ _ f hf
        have h3 := readArenaMAP1_keepsDefs ctx _ _ m hm
        simp only at h2 h3
        rw [h1] at h2
        refine keepsDefs_trans h2 (keepsDefs_trans h3 ?_)
        simp only []
        cases ctx.inf.getCeiling.outdoorDungeon with
        | true => exact keepsDefs_refl _
        | false => exact readArenaCeiling_keepsDefs _ _ _

theorem generateArenaDungeonLevel_levelUp {E : Type} (dc : DungeonContext) (ctx : Context E)
    (mif : MIFFile) (widthChunks depthChunks levelUpBlock : Nat) (levelDownBlock : Option Nat)
    (levelDef : LevelDefinition) (st : DungeonState E) (levelDef1 : LevelDefinition)
    (st1 : DungeonState E)
    (hv : levelDef.voxels = []) (ht : levelDef.transitionPlacements = [])
    (hcache : st.map1Mappings = [])
    (hne : ∀ block, levelDownBlock = some block →
      levelChangeCell dc levelUpBlock ≠ levelChangeCell dc block)
    (hcode : ∀ levelUpIndex, ctx.inf.getLevelUpIndex = some levelUpIndex →
      levelChangeCode dc levelUpIndex ≠ 0 ∧
      (levelChangeCode dc levelUpIndex &&& 0xF000) >>> 12 ≠ 0x8)
    (h : generateArenaDungeonLevel dc ctx mif widthChunks depthChunks levelUpBlock
      levelDownBlock levelDef st = .ok (levelDef1, st1)) :
    ∃ levelUpIndex d, ctx.inf.getLevelUpIndex = some levelUpIndex ∧
      makeVoxelDefFromMAP1 (levelChangeCode dc levelUpIndex)
        ((levelChangeCode dc levelUpIndex &&& 0xF000) >>> 12) ctx.worldType ctx.inf ctx.exeData
        = .ok d ∧
      st1.levelInfoDef.voxelDefs[levelDef1.getVoxel (levelChangeCell dc levelUpBlock).2 1
        (levelChangeCell dc levelUpBlock).1]? = some d := by
  unfold generateArenaDungeonLevel at h
  split at h
  · cases h
  · rename_i s hs
    split at h
    · cases h
    · rename_i f hf
      split at h
      · cases h
      · rename_i m hm
        simp only [Except.ok.injEq, Prod.mk.injEq] at h
        obtain ⟨rfl, rfl⟩ := h
        -- the MAP1 buffer holds the code on the cell of the block
        obtain ⟨chunks, perimeter, _, _, hst, _⟩ :=
          assembleDungeonLevel_stamped dc ctx mif widthChunks depthChunks levelUpBlock
            levelDownBlock levelDef st s hs
        obtain ⟨levelUpIndex, hupi, hx, hz, hw, hh, _⟩ :=
          stampTransitions_spec dc ctx.inf levelUpBlock levelDownBlock perimeter s.levelMAP1 hst
        obtain ⟨levelUpIndex2, hupi2, hget⟩ :=
          stampTransitions_get dc ctx.inf levelUpBlock levelDownBlock perimeter s.levelMAP1
            hne hst
        rw [hupi] at hupi2
        simp only [Option.some.injEq] at hupi2
        subst hupi2
        obtain ⟨hc0, hc8⟩ := hcode levelUpIndex hupi
        obtain ⟨hsv, hstp, _⟩ := assembleDungeonLevel_frame dc ctx mif widthChunks depthChunks
          levelUpBlock levelDownBlock levelDef st s hs
        -- the readers of the buffers are those of a level without MAP2 data
        have hread : readMifLevel ctx
            { flor := s.levelFLOR.view, map1 := s.levelMAP1.view, map2 := none } s.levelDef
            ⟨s.levelInfoDef, st.florMappings, st.map1Mappings, [], st.entityMappings,
              st.transitionMappings⟩
            = .ok ((if !ctx.inf.getCeiling.outdoorDungeon then
                  readArenaCeiling ctx.inf m.levelDef m.levelInfoDef
                else (m.levelDef, m.levelInfoDef)).1,
                ⟨(if !ctx.inf.getCeiling.outdoorDungeon then
                    readArenaCeiling ctx.inf m.levelDef m.levelInfoDef
                  else (m.levelDef, m.levelInfoDef)).2,
                  f.voxelCache, m.voxelCache, [], m.entityCache, m.transitionCache⟩) := by
          unfold readMifLevel
          simp only [hf, hm]
          cases ctx.inf.getCeiling.outdoorDungeon <;> rfl
        obtain ⟨hok, _⟩ := readMifLevel_levelOK ctx _ s.levelDef _ _ _ (hsv.trans hv)
          (hstp.trans ht) hread
        have hxw : (levelChangeCell dc levelUpBlock).1 < s.levelMAP1.view.width := by
          simp only [Buffer2D.view, hw]; exact hx
        have hzh : (levelChangeCell dc levelUpBlock).2 < s.levelMAP1.view.height := by
          simp only [Buffer2D.view, hh]; exact hz
        have hgetv : s.levelMAP1.view.get (levelChangeCell dc levelUpBlock).1
            (levelChangeCell dc levelUpBlock).2 = levelChangeCode dc levelUpIndex := hget
        obtain ⟨id, hid⟩ := hok.cached_map1 (levelChangeCell dc levelUpBlock).1
          (levelChangeCell dc levelUpBlock).2 hxw hzh (by simp only []; rw [hgetv]; exact hc0)
          (by simp only []; rw [hgetv]; exact hc8)
        have hvox := hok.getVoxel_map1 (levelChangeCell dc levelUpBlock).1
          (levelChangeCell dc levelUpBlock).2 id hxw hzh
          (by simp only []; rw [hgetv]; exact hc0) (by simp only []; rw [hgetv]; exact hc8) hid
        simp only [] at hid
        rw [hgetv] at hid
        -- the cached ID names the decoded definition
        have hinv0 : Map1CatalogInv ctx st.map1Mappings f.levelInfoDef.voxelDefs := by
          intro code id2 hl
          rw [hcache] at hl
          cases hl
        obtain ⟨hinv, _⟩ := readArenaMAP1_map1Catalog ctx s.levelMAP1.view
          ⟨f.levelDef, f.levelInfoDef, st.map1Mappings, f.entityCache, f.transitionCache⟩ m
          hinv0 hm
        obtain ⟨d, hd, hdef⟩ := hinv _ id hid
        refine ⟨levelUpIndex, d, hupi, hd, ?_⟩
        rw [hvox]
        simp only []
        cases ctx.inf.getCeiling.outdoorDungeon with
        | true => exact hdef
        | false => exact readArenaCeiling_keepsDefs _ _ _ id d hdef

theorem generateDungeonLevel_later {E : Type} (dc : DungeonContext) (ctx : Context E)
    (mif : MIFFile) (levelCount widthChunks depthChunks seed2 : Nat) (transitions : List Nat)
    (s s1 : List LevelDefinition × DungeonState E) (k : Nat)
    (h : generateDungeonLevel dc ctx mif levelCount widthChunks depthChunks seed2 transitions
      s (k + 1) = .ok s1) :
    s1.1[0]? = s.1[0]? ∧
    KeepsDefs s.2.levelInfoDef.voxelDefs s1.2.levelInfoDef.voxelDefs := by
  unfold generateDungeonLevel at h
  simp only [] at h
  split at h
  · cases h
  · split at h
    · cases h
    · split at h
      · cases h
      · split at h
        · cases h
        · rename_i levelDef1 st1 hgen
          simp only [Except.ok.injEq] at h
          subst h
          refine ⟨?_, ?_⟩
          · simp only []
            rw [List.getElem?_set_ne (by omega)]
          · exact generateArenaDungeonLevel_keepsDefs dc ctx mif widthChunks depthChunks _ _ _
              { s.2 with random := (seed2 + (k + 1)) % 4294967296 } levelDef1 st1 hgen

/-- C18: when `generateMifDungeon` returns for at least one level, with fresh level
definitions, the start point is the cell of the first transition block with its two
coordinates swapped into the new convention, `(offset(z), offset(x))`; that cell is the
one on which the `*LEVELUP` code of the first level was stamped, and the voxel of level 0
at `(start.x, 1, start.y)` names, in the catalog, the definition decoded from the
`*LEVELUP` code. The two functions that turn a block into its cell are taken to be
injective (so that the `*LEVELDOWN` stamp of the first level falls elsewhere) and the
`*LEVELUP` code to be a voxel code: not zero, and not one with the entity nibble 0x8.
The bound `fuel` on the passes of the draw loop does not shape the result: every larger
bound gives the same output. -/
theorem dungeon_start_point_is_first_levelup_voxel {E : Type} (fuel : Nat)
    (dc : DungeonContext) (ctx : Context E) (mif : MIFFile)
    (levelCount widthChunks depthChunks : Nat) (outLevelDefs : List LevelDefinition)
    (outLevelInfoDef : LevelInfoDefinition E) (random : Nat) (out : DungeonOut E)
    (hlevels : 0 < levelCount)
    (hfresh : ∀ ld, outLevelDefs[0]? = some ld → ld.voxels = [] ∧ ld.transitionPlacements = [])
    (hunpack : Function.Injective dc.unpackLevelChangeVoxel)
    (hoffset : Function.Injective dc.offsetLevelChangeVoxel)
    (hcode : ∀ levelUpIndex, ctx.inf.getLevelUpIndex = some levelUpIndex →
      levelChangeCode dc levelUpIndex ≠ 0 ∧
      (levelChangeCode dc levelUpIndex &&& 0xF000) >>> 12 ≠ 0x8)
    (h : generateMifDungeon fuel dc ctx mif levelCount widthChunks depthChunks outLevelDefs
      outLevelInfoDef random = some (.ok out)) :
    ∃ (transitions : List Nat) (random1 first : Nat) (levelUpIndex : Int)
      (levelDef0 : LevelDefinition) (d : VoxelDefinition),
      chooseTransitions fuel dc widthChunks depthChunks levelCount random
        = some (transitions, random1) ∧
      transitions[0]? = some first ∧
      out.startPoint
        = ⟨((levelChangeCell dc first).2 : Nat), ((levelChangeCell dc first).1 : Nat)⟩ ∧
      ctx.inf.getLevelUpIndex = some levelUpIndex ∧
      out.levelDefs[0]? = some levelDef0 ∧
      makeVoxelDefFromMAP1 (levelChangeCode dc levelUpIndex)
        ((levelChangeCode dc levelUpIndex &&& 0xF000) >>> 12) ctx.worldType ctx.inf ctx.exeData
        = .ok d ∧
      out.levelInfoDef.voxelDefs[levelDef0.getVoxel out.startPoint.x.toNat 1
        out.startPoint.y.toNat]? = some d ∧
      ∀ fuel1, fuel ≤ fuel1 →
        generateMifDungeon fuel1 dc ctx mif levelCount widthChunks depthChunks outLevelDefs
          outLevelInfoDef random = some (.ok out) := by
  have hmono : ∀ fuel1, fuel ≤ fuel1 →
      generateMifDungeon fuel1 dc ctx mif levelCount widthChunks depthChunks outLevelDefs
        outLevelInfoDef random = some (.ok out) := by
    intro fuel1 hle
    unfold generateMifDungeon at h ⊢
    simp only [] at h ⊢
    split at h
    · cases h
    · rename_i transitions random1 hchoose
      rw [chooseTransitions_mono fuel fuel1 hle dc widthChunks depthChunks levelCount random _
        hchoose]
      exact h
  unfold generateMifDungeon at h
  simp only [] at h
  split at h
  · cases h
  · rename_i transitions random1 hchoose
    split at h
    · simp at h
    · rename_i levelDefs st hloop
      split at h
      · simp at h
      · rename_i first hfirst
        simp only [Option.some.injEq, Except.ok.injEq] at h
        subst h
        obtain ⟨n, rfl⟩ : ∃ n, levelCount = n + 1 := ⟨levelCount - 1, by omega⟩
        rw [List.range_succ_eq_map] at hloop
        simp only [forEach] at hloop
        -- level 0
        cases h0 : generateDungeonLevel dc ctx mif (n + 1) widthChunks depthChunks random
            transitions (outLevelDefs, ⟨random1, outLevelInfoDef, [], [], [], [], [], []⟩) 0 with
        | error e => rw [h0] at hloop; cases hloop
        | ok s1 =>
          rw [h0] at hloop
          simp only [] at hloop
          obtain ⟨up, hup, hcase⟩ := levelBlocks_of_chooseTransitions fuel dc widthChunks
            depthChunks (n + 1) random transitions random1 hchoose 0 (by omega)
          rw [hfirst] at hup
          simp only [Option.some.injEq] at hup
          subst hup
          have hfact : ∃ (levelUpIndex : Int) (levelDef0 : LevelDefinition)
              (d : VoxelDefinition), ctx.inf.getLevelUpIndex = some levelUpIndex ∧
              makeVoxelDefFromMAP1 (levelChangeCode dc levelUpIndex)
                ((levelChangeCode dc levelUpIndex &&& 0xF000) >>> 12) ctx.worldType ctx.inf
                ctx.exeData = .ok d ∧
              s1.1[0]? = some levelDef0 ∧
              s1.2.levelInfoDef.voxelDefs[levelDef0.getVoxel (levelChangeCell dc first).2 1
                (levelChangeCell dc first).1]? = some d := by
            unfold generateDungeonLevel at h0
            simp only [hfirst] at h0
            split at h0
            · cases h0
            · rename_i down hdown
              split at h0
              · cases h0
              · rename_i levelDef hld
                split at h0
                · cases h0
                · rename_i levelDef1 st1 hgen
                  simp only [Except.ok.injEq] at h0
                  subst h0
                  have hne : ∀ block, down = some block →
                      levelChangeCell dc first ≠ levelChangeCell dc block := by
                    intro block hb hcell
                    rcases hcase with ⟨_, hd⟩ | ⟨_, down1, _, hd, hne1⟩
                    · rw [hd] at hdown
                      simp only [Except.ok.injEq] at hdown
                      rw [← hdown] at hb
                      cases hb
                    · rw [hd] at hdown
                      simp only [Except.ok.injEq] at hdown
                      rw [← hdown] at hb
                      simp only [Option.some.injEq] at hb
                      subst hb
                      exact hne1 (levelChangeCell_injective dc hunpack hoffset hcell)
                  obtain ⟨hv, ht⟩ := hfresh levelDef hld
                  obtain ⟨levelUpIndex, d, hupi, hd, hdef⟩ :=
                    generateArenaDungeonLevel_levelUp dc ctx mif widthChunks depthChunks first
                      down levelDef _ levelDef1 st1 hv ht rfl hne hcode hgen
                  refine ⟨levelUpIndex, levelDef1, d, hupi, hd, ?_, hdef⟩
                  simp only []
                  have hlt : 0 < outLevelDefs.length := by
                    rcases Nat.eq_zero_or_pos outLevelDefs.length with hz | hp
                    · rw [List.length_eq_zero] at hz
                      subst hz
                      simp at hld
                    · exact hp
                  rw [List.getElem?_set_self hlt]
          obtain ⟨levelUpIndex, levelDef0, d, hupi, hd, hl0, hdef⟩ := hfact
          -- the later levels
          have hrest := forEach_invariant
            (generateDungeonLevel dc ctx mif (n + 1) widthChunks depthChunks random transitions)
            (fun t => t.1[0]? = some levelDef0 ∧
              KeepsDefs s1.2.levelInfoDef.voxelDefs t.2.levelInfoDef.voxelDefs)
            ((List.range n).map Nat.succ)
            (fun t a t1 ha hP hb => by
              obtain ⟨k, _, rfl⟩ := List.mem_map.1 ha
              obtain ⟨hl, hk⟩ := generateDungeonLevel_later dc ctx mif (n + 1) widthChunks
                depthChunks random transitions t t1 k hb
              exact ⟨hl.trans hP.1, keepsDefs_trans hP.2 hk⟩)
            s1 (levelDefs, st) ⟨hl0, keepsDefs_refl _⟩ hloop
          refine ⟨transitions, random1, first, levelUpIndex, levelDef0, d, hchoose, hfirst, ?_,
            hupi, hrest.1, hd, ?_, hmono⟩
          · simp only [VoxelUtils.originalVoxelToNewVoxel, levelChangeCell]
          · simp only [VoxelUtils.originalVoxelToNewVoxel, Int.toNat_ofNat]
            exact hrest.2 _ d hdef

theorem sampleDungeonContext_injective :
    Function.Injective sampleDungeonContext.unpackLevelChangeVoxel ∧
    Function.Injective sampleDungeonContext.offsetLevelChangeVoxel := by
  constructor
  · intro a b hab
    simp only [sampleDungeonContext, Prod.mk.injEq] at hab
    omega
  · intro a b hab
    simp only [sampleDungeonContext] at hab
    omega

theorem sampleDungeon_levelUp_code :
    ∀ levelUpIndex,
      (sampleContext WorldType.Interior sampleInteriorInf).inf.getLevelUpIndex
        = some levelUpIndex →
      levelChangeCode sampleDungeonContext levelUpIndex ≠ 0 ∧
      (levelChangeCode sampleDungeonContext levelUpIndex &&& 0xF000) >>> 12 ≠ 0x8 := by
  intro levelUpIndex hi
  simp only [sampleContext, sampleInteriorInf, Option.some.injEq] at hi
  subst hi
  decide

theorem dungeon_start_point_is_first_levelup_voxel_witness :
    ∃ out, generateMifDungeon 2 sampleDungeonContext
        (sampleContext WorldType.Interior sampleInteriorInf) sampleDungeonMif 2 2 1
        [LevelDefinition.init 3 3 6, LevelDefinition.init 3 3 6] emptyInfo 0 = some (.ok out) ∧
      ∃ (first : Nat) (levelDef0 : LevelDefinition) (d : VoxelDefinition),
        out.startPoint = ⟨((levelChangeCell sampleDungeonContext first).2 : Nat),
          ((levelChangeCell sampleDungeonContext first).1 : Nat)⟩ ∧
        out.levelDefs[0]? = some levelDef0 ∧
        out.levelInfoDef.voxelDefs[levelDef0.getVoxel out.startPoint.x.toNat 1
          out.startPoint.y.toNat]? = some d := by
  have hgen : ∃ out, generateMifDungeon 2 sampleDungeonContext
      (sampleContext WorldType.Interior sampleInteriorInf) sampleDungeonMif 2 2 1
      [LevelDefinition.init 3 3 6, LevelDefinition.init 3 3 6] emptyInfo 0 = some (.ok out) :=
    ⟨_, rfl⟩
  obtain ⟨out, hout⟩ := hgen
  obtain ⟨_, _, first, _, levelDef0, d, _, _, hstart, _, hl0, _, hdef, _⟩ :=
    dungeon_start_point_is_first_levelup_voxel 2 sampleDungeonContext
      (sampleContext WorldType.Interior sampleInteriorInf) sampleDungeonMif 2 2 1
      [LevelDefinition.init 3 3 6, LevelDefinition.init 3 3 6] emptyInfo 0 out (by decide)
      (fun ld hld => by
        simp only [List.getElem?_cons_zero, Option.some.injEq] at hld
        subst hld
        exact ⟨rfl, rfl⟩)
      sampleDungeonContext_injective.1 sampleDungeonContext_injective.2
      sampleDungeon_levelUp_code hout
  exact ⟨out, hout, first, levelDef0, d, hstart, hl0, hdef⟩

/-! ## Transitions -/

theorem matchesIndex_iff (textureIndex : Int) (index : Option Int) :
    matchesIndex textureIndex index = true ↔ index = some textureIndex := by
  cases index with
  | none => simp [matchesIndex]
  | some i => simp [matchesIndex]

theorem cityGate_has_no_interior_type (m : Int) (worldType : WorldType)
    (h : isCityGateMenuIndex m worldType = true) :
    tryGetInteriorTypeFromMenuIndex m worldType = .ok none := by
  cases worldType with
  | Interior => simp [isCityGateMenuIndex] at h
  | City =>
    simp only [isCityGateMenuIndex, Bool.or_eq_true, beq_iff_eq] at h
    rcases h with rfl | rfl <;> rfl
  | Wilderness =>
    simp only [isCityGateMenuIndex, Bool.or_eq_true, beq_iff_eq] at h
    rcases h with rfl | rfl <;> rfl

theorem isCityGateIndexSpec_eq (m : Int) (worldType : WorldType) :
    isCityGateIndexSpec m worldType = isCityGateMenuIndex m worldType := by
  rw [Bool.eq_iff_iff]
  cases worldType <;> simp [isCityGateIndexSpec, isCityGateMenuIndex]

theorem tryMakeVoxelTransitionDefGenInfo_outside {worldType : WorldType}
    (hw : worldType ≠ WorldType.Interior) (map1Voxel : Nat) (inf : INFFile)
    (hb : getVoxelMostSigByte map1Voxel = getVoxelLeastSigByte map1Voxel) :
    tryMakeVoxelTransitionDefGenInfo map1Voxel worldType inf
      = .ok (match inf.getMenuIndex ((getVoxelMostSigByte map1Voxel : Int) - 1) with
          | none => none
          | some m =>
            if isCityGateIndexSpec m worldType then some ⟨TransitionType.CityGate, none, none⟩
            else
              match interiorTypeOfMenuIndex m worldType with
              | some interiorType =>
                some ⟨TransitionType.EnterInterior, some interiorType, none⟩
              | none => none) := by
  have hnot : ¬ (getVoxelMostSigByte map1Voxel ≠ getVoxelLeastSigByte map1Voxel) :=
    fun h => h hb
  cases worldType with
  | Interior => exact absurd rfl hw
  | City =>
    simp only [tryMakeVoxelTransitionDefGenInfo, if_neg hnot]
    cases hm : inf.getMenuIndex ((getVoxelMostSigByte map1Voxel : Int) - 1) with
    | none => rfl
    | some m =>
      simp only [isCityGateIndexSpec_eq]
      cases hg : isCityGateMenuIndex m WorldType.City with
      | true =>
        simp only [cityGate_has_no_interior_type m _ hg, if_true]
      | false =>
        simp only [tryGetInteriorTypeFromMenuIndex, interiorTypeOfMenuIndex, Bool.false_eq_true,
          if_false]
        cases ([ (0, InteriorType.Equipment), (1, .Tavern), (2, .MagesGuild), (3, .Temple),
            (4, .House), (5, .House), (6, .House), (9, .Noble), (11, .Palace),
            (12, .Palace), (13, .Palace) ] : List (Int × InteriorType)).lookup m with
        | none => rfl
        | some it => rfl
  | Wilderness =>
    simp only [tryMakeVoxelTransitionDefGenInfo, if_neg hnot]
    cases hm : inf.getMenuIndex ((getVoxelMostSigByte map1Voxel : Int) - 1) with
    | none => rfl
    | some m =>
      simp only [isCityGateIndexSpec_eq]
      cases hg : isCityGateMenuIndex m WorldType.Wilderness with
      | true =>
        simp only [cityGate_has_no_interior_type m _ hg, if_true]
      | false =>
        simp only [tryGetInteriorTypeFromMenuIndex, interiorTypeOfMenuIndex, Bool.false_eq_true,
          if_false]
        cases ([ (1, InteriorType.Crypt), (2, .House), (3, .Tavern), (4, .Temple),
            (5, .Tower), (8, .Dungeon), (9, .Dungeon) ] : List (Int × InteriorType)).lookup
              m with
        | none => rfl
        | some it => rfl

/-- C29: for every code, world type and parameter table `tryMakeVoxelTransitionDefGenInfo`
returns, and what it returns is the classification of the specification: none for a code
whose two masked bytes differ; in an interior a level change (up when `*LEVELUP` is the
texture index, else down when `*LEVELDOWN` is), else an interior exit for a texture index
with a `*MENU` index, else none; in a city or the wilderness a city gate for the city-gate
indices (7, 8 and 6, 7), else an interior entrance with the mapped interior type, else
none. A level change is produced in interiors only, and a city gate or an interior
entrance outside them only. -/
theorem transition_gen_info_is_the_classification (map1Voxel : Nat) (worldType : WorldType)
    (inf : INFFile) :
    tryMakeVoxelTransitionDefGenInfo map1Voxel worldType inf
      = .ok (classifyTransitionSpec map1Voxel worldType inf) ∧
    (∀ g, classifyTransitionSpec map1Voxel worldType inf = some g →
      (g.transitionType = TransitionType.LevelChange ∨
          g.transitionType = TransitionType.ExitInterior →
        worldType = WorldType.Interior) ∧
      (g.transitionType = TransitionType.CityGate ∨
          g.transitionType = TransitionType.EnterInterior →
        worldType ≠ WorldType.Interior)) := by
  constructor
  · by_cases hb : getVoxelMostSigByte map1Voxel = getVoxelLeastSigByte map1Voxel
    · have hnot : ¬ (getVoxelMostSigByte map1Voxel ≠ getVoxelLeastSigByte map1Voxel) :=
        fun h => h hb
      cases worldType with
      | Interior =>
        simp only [tryMakeVoxelTransitionDefGenInfo, classifyTransitionSpec, if_neg hnot,
          ← matchesIndex_iff]
        generalize matchesIndex ((getVoxelMostSigByte map1Voxel : Int) - 1)
          inf.getLevelUpIndex = a
        generalize matchesIndex ((getVoxelMostSigByte map1Voxel : Int) - 1)
          inf.getLevelDownIndex = b
        generalize (inf.getMenuIndex ((getVoxelMostSigByte map1Voxel : Int) - 1)).isSome = c
        cases a <;> cases b <;> cases c <;> rfl
      | City =>
        rw [tryMakeVoxelTransitionDefGenInfo_outside (by decide) map1Voxel inf hb]
        simp only [classifyTransitionSpec, if_neg hnot]
      | Wilderness =>
        rw [tryMakeVoxelTransitionDefGenInfo_outside (by decide) map1Voxel inf hb]
        simp only [classifyTransitionSpec, if_neg hnot]
    · simp only [tryMakeVoxelTransitionDefGenInfo, classifyTransitionSpec]
      rw [if_pos hb, if_pos hb]
  · intro g hg
    unfold classifyTransitionSpec at hg
    split at hg
    · cases hg
    · cases worldType with
      | Interior =>
        refine ⟨fun _ => rfl, ?_⟩
        simp only [] at hg
        split at hg
        · cases hg; rintro (h | h) <;> cases h
        · split at hg
          · cases hg; rintro (h | h) <;> cases h
          · split at hg
            · cases hg; rintro (h | h) <;> cases h
            · cases hg
      | City =>
        refine ⟨?_, fun _ => by decide⟩
        simp only [] at hg
        split at hg
        · cases hg
        · split at hg
          · cases hg; rintro (h | h) <;> cases h
          · split at hg
            · cases hg; rintro (h | h) <;> cases h
            · cases hg
      | Wilderness =>
        refine ⟨?_, fun _ => by decide⟩
        simp only [] at hg
        split at hg
        · cases hg
        · split at hg
          · cases hg; rintro (h | h) <;> cases h
          · split at hg
            · cases hg; rintro (h | h) <;> cases h
            · cases hg

/-! ## The ceiling of a level -/

theorem foldl_setVoxel_getVoxel (id : Nat) :
    ∀ (cells : List (Nat × Nat)) (ld : LevelDefinition) (x y z : Nat),
      (cells.foldl (fun ld c => ld.setVoxel c.1 2 c.2 id) ld).getVoxel x y z
        = if y = 2 ∧ (x, z) ∈ cells then id else ld.getVoxel x y z := by
  intro cells
  induction cells with
  | nil => intro ld x y z; simp
  | cons c rest ih =>
    intro ld x y z
    simp only [List.foldl_cons]
    rw [ih]
    by_cases hin : y = 2 ∧ (x, z) ∈ rest
    · rw [if_pos hin, if_pos ⟨hin.1, List.mem_cons_of_mem _ hin.2⟩]
    · rw [if_neg hin]
      simp only [LevelDefinition.getVoxel, LevelDefinition.setVoxel, List.lookup_cons]
      by_cases hc : (x, y, z) = (c.1, 2, c.2)
      · have hy : y = 2 := by simpa using (Prod.mk.inj (Prod.mk.inj hc).2).1
        have hxz : (x, z) = c := by
          obtain ⟨h1, h2⟩ := Prod.mk.inj hc
          obtain ⟨_, h3⟩ := Prod.mk.inj h2
          exact Prod.ext h1 h3
        rw [if_pos ⟨hy, by rw [hxz]; exact List.mem_cons_self _ _⟩]
        simp [hc]
      · have hf : ((x, y, z) == (c.1, 2, c.2)) = false := by simpa using hc
        rw [hf]
        have hnot : ¬ (y = 2 ∧ (x, z) ∈ c :: rest) := by
          rintro ⟨hy, hm⟩
          rcases List.mem_cons.1 hm with hm | hm
          · apply hc
            rw [hy, ← hm]
          · exact hin ⟨hy, hm⟩
        rw [if_neg hnot]

theorem foldl_setVoxel_dims (id : Nat) :
    ∀ (cells : List (Nat × Nat)) (ld : LevelDefinition),
      (cells.foldl (fun ld c => ld.setVoxel c.1 2 c.2 id) ld).width = ld.width ∧
      (cells.foldl (fun ld c => ld.setVoxel c.1 2 c.2 id) ld).depth = ld.depth := by
  intro cells
  induction cells with
  | nil => intro ld; exact ⟨rfl, rfl⟩
  | cons c rest ih =>
    intro ld
    simp only [List.foldl_cons]
    exact ih _

theorem readArenaCeiling_cells {E : Type} (inf : INFFile) (ld : LevelDefinition)
    (info : LevelInfoDefinition E) :
    (readArenaCeiling inf ld info).2.voxelDefs
      = info.voxelDefs ++ [VoxelDefinition.Ceiling (inf.getCeiling.textureIndex.getD 1)] ∧
    (readArenaCeiling inf ld info).1.width = ld.width ∧
    (readArenaCeiling inf ld info).1.depth = ld.depth ∧
    ∀ x y z : Nat,
      (readArenaCeiling inf ld info).1.getVoxel x y z
        = if y = 2 ∧ x < ld.width ∧ z < ld.depth then info.voxelDefs.length
          else ld.getVoxel x y z := by
  refine ⟨rfl, ?_, ?_, ?_⟩
  · exact (foldl_setVoxel_dims _ _ ld).1
  · exact (foldl_setVoxel_dims _ _ ld).2
  · intro x y z
    simp only [readArenaCeiling, LevelInfoDefinition.addVoxelDef]
    rw [foldl_setVoxel_getVoxel]
    have hmem : (x, z) ∈ ((List.range ld.width).flatMap fun levelX =>
        (List.range ld.depth).map fun levelZ => (levelX, levelZ)) ↔ x < ld.width ∧ z < ld.depth := by
      simp only [List.mem_flatMap, List.mem_map, List.mem_range, Prod.mk.injEq]
      constructor
      · rintro ⟨a, ha, b, hb, rfl, rfl⟩
        exact ⟨ha, hb⟩
      · rintro ⟨hx, hz⟩
        exact ⟨x, hx, z, hz, rfl, rfl⟩
    simp only [hmem]

theorem readArenaMAP1Transition_dims {E : Type} (ctx : Context E) (s : Out E)
    (code levelX levelZ : Nat) (s1 : Out E)
    (h : readArenaMAP1Transition ctx s code levelX levelZ = .ok s1) :
    s1.levelDef.width = s.levelDef.width ∧ s1.levelDef.depth = s.levelDef.depth := by
  unfold readArenaMAP1Transition at h
  cases ht : tryMakeVoxelTransitionDefGenInfo code ctx.worldType ctx.inf with
  | error e => simp only [ht] at h; cases h
  | ok o =>
    cases o with
    | none =>
      simp only [ht, Except.ok.injEq] at h
      subst h
      exact ⟨rfl, rfl⟩
    | some g =>
      simp only [ht] at h
      cases hl : s.transitionCache.lookup code with
      | some tid =>
        simp only [hl, Except.ok.injEq] at h
        subst h
        exact ⟨rfl, rfl⟩
      | none =>
        simp only [hl] at h
        cases hm : makeTransitionDef g ctx.rulerIsMale with
        | error e => simp only [hm] at h; cases h
        | ok d =>
          simp only [hm, Except.ok.injEq] at h
          subst h
          exact ⟨rfl, rfl⟩

theorem readArenaMAP1_dims {E : Type} (ctx : Context E) (map1 : BufferView2D)
    (s s1 : Out E) (h : readArenaMAP1 ctx map1 s = .ok s1) :
    s1.levelDef.width = s.levelDef.width ∧ s1.levelDef.depth = s.levelDef.depth := by
  refine forCells_preserves (readArenaMAP1Cell ctx map1)
    (fun t => t.levelDef.width = s.levelDef.width ∧ t.levelDef.depth = s.levelDef.depth)
    map1.cells (fun t c t1 hP hb => ?_) s s1 ⟨rfl, rfl⟩ h
  have key : t1.levelDef.width = t.levelDef.width ∧ t1.levelDef.depth = t.levelDef.depth := by
    unfold readArenaMAP1Cell at hb
    by_cases h0 : map1.get c.1 c.2 = 0
    · simp only [h0, if_true, Except.ok.injEq] at hb
      subst hb
      exact ⟨rfl, rfl⟩
    · simp only [if_neg h0] at hb
      by_cases h8 : (map1.get c.1 c.2 &&& 0xF000) >>> 12 = 0x8
      · have h8n : ¬ ((map1.get c.1 c.2 &&& 0xF000) >>> 12 ≠ 0x8) := by simpa using h8
        rw [if_neg h8n] at hb
        cases he : getOrAddEntityDef ctx t (map1.get c.1 c.2)
            (map1.get c.1 c.2 &&& 0x00FF) with
        | error e => simp only [he] at hb; cases hb
        | ok o =>
          cases o with
          | none =>
            simp only [he, Except.ok.injEq] at hb
            subst hb
            exact ⟨rfl, rfl⟩
          | some q =>
            obtain ⟨eid, se⟩ := q
            simp only [he, Except.ok.injEq] at hb
            subst hb
            obtain ⟨-, hl, -, -, -⟩ := getOrAddEntityDef_frame _ _ _ _ _ _ he
            simp only [LevelDefinition.addEntity, hl, and_self]
      · have h8n : (map1.get c.1 c.2 &&& 0xF000) >>> 12 ≠ 0x8 := h8
        rw [if_pos h8n] at hb
        cases hv : getOrAddVoxelDef t (map1.get c.1 c.2)
            (makeVoxelDefFromMAP1 (map1.get c.1 c.2) ((map1.get c.1 c.2 &&& 0xF000) >>> 12)
              ctx.worldType ctx.inf ctx.exeData) with
        | error e => simp only [hv] at hb; cases hb
        | ok r =>
          obtain ⟨id, sv⟩ := r
          simp only [hv] at hb
          obtain ⟨-, -, hld, -, -, -, -⟩ := getOrAddVoxelDef_cache _ _ _ _ _ hv
          obtain ⟨hw, hd⟩ := readArenaMAP1Transition_dims _ _ _ _ _ _ hb
          simp only [LevelDefinition.setVoxel, hld] at hw hd
          exact ⟨hw, hd⟩
  exact ⟨key.1.trans hP.1, key.2.trans hP.2⟩

theorem readArenaFLOR_dims {E : Type} (ctx : Context E) (flor : BufferView2D)
    (s s1 : Out E) (h : readArenaFLOR ctx flor s = .ok s1) :
    s1.levelDef.width = s.levelDef.width ∧ s1.levelDef.depth = s.levelDef.depth := by
  refine forCells_preserves (readArenaFLORCell ctx flor)
    (fun t => t.levelDef.width = s.levelDef.width ∧ t.levelDef.depth = s.levelDef.depth)
    flor.cells (fun t c t1 hP hb => ?_) s s1 ⟨rfl, rfl⟩ h
  obtain ⟨id, sv, hv, hrest⟩ := readArenaFLORCell_cases ctx flor t c t1 hb
  obtain ⟨-, -, hld, -, -, -, -⟩ := getOrAddVoxelDef_cache _ _ _ _ _ hv
  rcases hrest with ⟨rfl, _⟩ | ⟨_, eid, se, he, rfl⟩
  · simp only [LevelDefinition.setVoxel, hld]
    exact hP
  · obtain ⟨-, hl, -, -, -⟩ := getOrAddEntityDef_frame _ _ _ _ _ _ he
    simp only [LevelDefinition.addEntity, hl, LevelDefinition.setVoxel, hld]
    exact hP

theorem readMifLevels_each {E : Type} (ctx : Context E) :
    ∀ (levels : List MIFLevel) (outLevelDefs : List LevelDefinition) (p : PassState E)
      (defs : List LevelDefinition) (p1 : PassState E),
      readMifLevels ctx levels outLevelDefs p = .ok (defs, p1) →
      ∀ (i : Nat) level, levels[i]? = some level →
        ∃ ld pi ldi pi1, outLevelDefs[i]? = some ld ∧ defs[i]? = some ldi ∧
          readMifLevel ctx level ld pi = .ok (ldi, pi1) := by
  intro levels
  induction levels with
  | nil =>
    intro outs p defs p1 _ i level hl
    simp at hl
  | cons level0 rest ih =>
    intro outs p defs p1 h i level hlv
    cases outs with
    | nil => simp only [readMifLevels] at h; cases h
    | cons ld0 outs1 =>
      simp only [readMifLevels] at h
      cases hl : readMifLevel ctx level0 ld0 p with
      | error e => simp only [hl] at h; cases h
      | ok r =>
        obtain ⟨ldA, pA⟩ := r
        simp only [hl] at h
        cases hr : readMifLevels ctx rest outs1 pA with
        | error e => simp only [hr] at h; cases h
        | ok r2 =>
          obtain ⟨restDefs, pB⟩ := r2
          simp only [hr, Except.ok.injEq, Prod.mk.injEq] at h
          obtain ⟨rfl, rfl⟩ := h
          cases i with
          | zero =>
            simp only [List.getElem?_cons_zero, Option.some.injEq] at hlv
            subst hlv
            exact ⟨ld0, p, ldA, pA, List.getElem?_cons_zero, List.getElem?_cons_zero, hl⟩
          | succ k =>
            simp only [List.getElem?_cons_succ] at hlv ⊢
            exact ih outs1 pA restDefs pB hr k level hlv

theorem readMifLevel_ceiling {E : Type} (ctx : Context E) (level : MIFLevel)
    (ld : LevelDefinition) (p : PassState E) (ld1 : LevelDefinition) (p1 : PassState E)
    (h : readMifLevel ctx level ld p = .ok (ld1, p1)) :
    ∃ f m new,
      readArenaFLOR ctx level.flor
        ⟨ld, p.levelInfoDef, p.florMappings, p.entityMappings, p.transitionMappings⟩ = .ok f ∧
      readArenaMAP1 ctx level.map1
        ⟨f.levelDef, f.levelInfoDef, p.map1Mappings, f.entityCache, f.transitionCache⟩
        = .ok m ∧
      m.levelDef.voxels = new ++ ld.voxels ∧
      (∀ x y z id, ((x, y, z), id) ∈ new → y < 2) ∧
      (∀ map2, level.map2 = some map2 →
        ∃ c, readArenaMAP2 ctx map2
            ⟨m.levelDef, m.levelInfoDef, p.map2Mappings, m.entityCache, m.transitionCache⟩
            = .ok c ∧
          ld1 = c.levelDef ∧ p1.levelInfoDef = c.levelInfoDef) ∧
      (level.map2 = none → ctx.inf.getCeiling.outdoorDungeon = false →
        p1.levelInfoDef.voxelDefs = m.levelInfoDef.voxelDefs
          ++ [VoxelDefinition.Ceiling (ctx.inf.getCeiling.textureIndex.getD 1)] ∧
        ∀ x y z : Nat, ld1.getVoxel x y z
          = if y = 2 ∧ x < ld.width ∧ z < ld.depth then m.levelInfoDef.voxelDefs.length
            else m.levelDef.getVoxel x y z) ∧
      (level.map2 = none → ctx.inf.getCeiling.outdoorDungeon = true →
        ld1 = m.levelDef ∧ p1.levelInfoDef = m.levelInfoDef) := by
  unfold readMifLevel at h
  cases hf : readArenaFLOR ctx level.flor
      ⟨ld, p.levelInfoDef, p.florMappings, p.entityMappings, p.transitionMappings⟩ with
  | error e => simp only [hf] at h; cases h
  | ok f =>
    simp only [hf] at h
    cases hm : readArenaMAP1 ctx level.map1
        ⟨f.levelDef, f.levelInfoDef, p.map1Mappings, f.entityCache, f.transitionCache⟩ with
    | error e => simp only [hm] at h; cases h
    | ok m =>
      simp only [hm] at h
      obtain ⟨_, newF, hFvox, hFfrom, _⟩ :=
        layerEffect_of_cellEffect _ level.flor _ _ level.flor.cells
          (readArenaFLORCell_cellEffect ctx level.flor) _ _ hf
      obtain ⟨_, newM, hMvox, hMfrom, _⟩ :=
        layerEffect_of_cellEffect _ level.map1 _ _ level.map1.cells
          (readArenaMAP1Cell_cellEffect ctx level.map1) _ _ hm
      simp only at hFvox hMvox
      refine ⟨f, m, newM ++ newF, rfl, hm, by rw [hMvox, hFvox, List.append_assoc], ?_, ?_, ?_,
        ?_⟩
      · intro x y z id hmem
        rcases List.mem_append.1 hmem with hmem | hmem
        · have := (hMfrom x y z id hmem).1
          omega
        · have := (hFfrom x y z id hmem).1
          omega
      · intro map2 hmap2
        simp only [hmap2] at h
        cases hc : readArenaMAP2 ctx map2
            ⟨m.levelDef, m.levelInfoDef, p.map2Mappings, m.entityCache, m.transitionCache⟩ with
        | error e => simp only [hc] at h; cases h
        | ok c =>
          simp only [hc, Except.ok.injEq, Prod.mk.injEq] at h
          obtain ⟨rfl, rfl⟩ := h
          exact ⟨c, rfl, rfl, rfl⟩
      · intro hnone hout
        simp only [hnone, hout, Bool.not_false, if_true, Except.ok.injEq, Prod.mk.injEq] at h
        obtain ⟨rfl, rfl⟩ := h
        obtain ⟨hdefs, _, _, hget⟩ := readArenaCeiling_cells ctx.inf m.levelDef m.levelInfoDef
        obtain ⟨hwF, hdF⟩ := readArenaFLOR_dims ctx _ _ f hf
        obtain ⟨hwM, hdM⟩ := readArenaMAP1_dims ctx _ _ m hm
        simp only at hwF hdF hwM hdM
        refine ⟨hdefs, ?_⟩
        intro x y z
        rw [hget, hwM, hdM, hwF, hdF]
      · intro hnone hout
        simp only [hnone, hout, Bool.not_true, Bool.false_eq_true, if_false, Except.ok.injEq,
          Prod.mk.injEq] at h
        obtain ⟨rfl, rfl⟩ := h
        exact ⟨rfl, rfl⟩

/-- C27: in a pass of `readMifVoxels` that runs to its end, every level `i` is read by the
FLOR reader and the MAP1 reader, which set cells at heights 0 and 1 only, and then: if the
level has MAP2 data, `readArenaMAP2` is run on it and the level and the catalog are what
it leaves, with no ceiling definition added; if it has none and the parameter table is not
an outdoor dungeon, one `Ceiling` definition, with the ceiling texture index of the table
or 1 when it has none, is appended to the catalog and every cell `(x, 2, z)` of the
footprint of the level (its width and depth) holds its ID, all other cells being as the
MAP1 reader left them; if it has none and the table is an outdoor dungeon, the level and
the catalog are as the MAP1 reader left them, so no cell at height 2 is written. -/
theorem readMifVoxels_ceiling_rule {E : Type} (ctx : Context E) (levels : List MIFLevel)
    (outLevelDefs : List LevelDefinition) (outLevelInfoDef : LevelInfoDefinition E)
    (defs : List LevelDefinition) (p1 : PassState E)
    (h : readMifVoxels ctx levels outLevelDefs outLevelInfoDef = .ok (defs, p1)) :
    ∀ (i : Nat) level, levels[i]? = some level →
      ∃ ld p ldi pi, ∃ (f m : Out E), ∃ new,
        outLevelDefs[i]? = some ld ∧ defs[i]? = some ldi ∧
        readMifLevel ctx level ld p = .ok (ldi, pi) ∧
        readArenaFLOR ctx level.flor
          ⟨ld, p.levelInfoDef, p.florMappings, p.entityMappings, p.transitionMappings⟩
          = .ok f ∧
        readArenaMAP1 ctx level.map1
          ⟨f.levelDef, f.levelInfoDef, p.map1Mappings, f.entityCache, f.transitionCache⟩
          = .ok m ∧
        m.levelDef.voxels = new ++ ld.voxels ∧
        (∀ x y z id, ((x, y, z), id) ∈ new → y < 2) ∧
        (∀ map2, level.map2 = some map2 →
          ∃ c, readArenaMAP2 ctx map2
              ⟨m.levelDef, m.levelInfoDef, p.map2Mappings, m.entityCache, m.transitionCache⟩
              = .ok c ∧
            ldi = c.levelDef ∧ pi.levelInfoDef = c.levelInfoDef) ∧
        (level.map2 = none → ctx.inf.getCeiling.outdoorDungeon = false →
          pi.levelInfoDef.voxelDefs = m.levelInfoDef.voxelDefs
            ++ [VoxelDefinition.Ceiling (ctx.inf.getCeiling.textureIndex.getD 1)] ∧
          ∀ x y z : Nat, ldi.getVoxel x y z
            = if y = 2 ∧ x < ld.width ∧ z < ld.depth then m.levelInfoDef.voxelDefs.length
              else m.levelDef.getVoxel x y z) ∧
        (level.map2 = none → ctx.inf.getCeiling.outdoorDungeon = true →
          ldi = m.levelDef ∧ pi.levelInfoDef = m.levelInfoDef) := by
  intro i level hlv
  obtain ⟨ld, p, ldi, pi, hld, hldi, hread⟩ :=
    readMifLevels_each ctx levels outLevelDefs _ defs p1 h i level hlv
  obtain ⟨f, m, new, hf, hm, hvox, hlow, ha, hb, hc⟩ :=
    readMifLevel_ceiling ctx level ld p ldi pi hread
  exact ⟨ld, p, ldi, pi, f, m, new, hld, hldi, hread, hf, hm, hvox, hlow, ha, hb, hc⟩

/-- C27, for the two levels of `sampleLevels` (no MAP2 data, a table with ceiling texture
3 that is not an outdoor dungeon): the cell `(0, 2, 1)` of the first level names a
`Ceiling 3` definition in the catalog left by that level. -/
theorem readMifVoxels_ceiling_rule_witness :
    ∃ defs p1, readMifVoxels (sampleContext WorldType.Interior sampleInteriorInf) sampleLevels
        sampleLevelDefs airInfo = .ok (defs, p1) ∧
      ∃ (ldi : LevelDefinition) (pi : PassState Nat), defs[0]? = some ldi ∧
        pi.levelInfoDef.voxelDefs[ldi.getVoxel 0 2 1]? = some (VoxelDefinition.Ceiling 3) := by
  have hrun : ∃ r, readMifVoxels (sampleContext WorldType.Interior sampleInteriorInf)
      sampleLevels sampleLevelDefs airInfo = .ok r := ⟨_, rfl⟩
  obtain ⟨⟨defs, p1⟩, hrun⟩ := hrun
  obtain ⟨ld, p, ldi, pi, f, m, new, hld, hldi, _, _, _, _, _, _, hb, _⟩ :=
    readMifVoxels_ceiling_rule (sampleContext WorldType.Interior sampleInteriorInf)
      sampleLevels sampleLevelDefs airInfo defs p1 hrun 0
      { flor := bufferOf 2 1 [[0x0100, 0x0200]], map1 := bufferOf 2 1 [[0x0505, 0x0101]],
        map2 := none } rfl
  obtain ⟨hdefs, hget⟩ := hb rfl rfl
  have hld0 : ld = LevelDefinition.init 1 3 2 := by
    simp only [sampleLevelDefs, List.getElem?_cons_zero, Option.some.injEq] at hld
    exact hld.symm
  refine ⟨defs, p1, hrun, ldi, pi, hldi, ?_⟩
  rw [hget 0 2 1, hld0, if_pos ⟨rfl, by decide, by decide⟩, hdefs]
  exact getElem?_append_length _ _
/-! ## The catalog is not minimal -/

theorem keepsDefs_length {d1 d2 : List VoxelDefinition} (h : KeepsDefs d1 d2) :
    d1.length ≤ d2.length := by
  by_contra hlt
  have hlt2 : d2.length < d1.length := by omega
  have := h d2.length (d1.get ⟨d2.length, hlt2⟩) (List.getElem?_eq_getElem hlt2)
  rw [List.getElem?_eq_none (le_refl _)] at this
  cases this

theorem readArenaMAP2_keepsDefs {E : Type} (ctx : Context E) (map2 : BufferView2D)
    (s s1 : Out E) (h : readArenaMAP2 ctx map2 s = .ok s1) :
    KeepsDefs s.levelInfoDef.voxelDefs s1.levelInfoDef.voxelDefs := by
  refine forCells_preserves (readArenaMAP2Cell ctx map2)
    (fun t => KeepsDefs s.levelInfoDef.voxelDefs t.levelInfoDef.voxelDefs) map2.cells
    (fun t c t1 hP hb => keepsDefs_trans hP ?_) s s1 (keepsDefs_refl _) h
  rcases readArenaMAP2Cell_cases ctx map2 t c t1 hb with ⟨_, rfl⟩ | ⟨_, id, sv, hv, rfl⟩
  · exact keepsDefs_refl _
  · exact getOrAddVoxelDef_keepsDefs t _ _ id sv hv

theorem readMifLevel_keepsDefs {E : Type} (ctx : Context E) (level : MIFLevel)
    (ld : LevelDefinition) (p : PassState E) (ld1 : LevelDefinition) (p1 : PassState E)
    (h : readMifLevel ctx level ld p = .ok (ld1, p1)) :
    KeepsDefs p.levelInfoDef.voxelDefs p1.levelInfoDef.voxelDefs ∧
    (level.map2 = none → ctx.inf.getCeiling.outdoorDungeon = false →
      ∃ a, p.levelInfoDef.voxelDefs.length ≤ a ∧ a < p1.levelInfoDef.voxelDefs.length ∧
        p1.levelInfoDef.voxelDefs[a]?
          = some (VoxelDefinition.Ceiling (ctx.inf.getCeiling.textureIndex.getD 1))) := by
  obtain ⟨f, m, new, hf, hm, _, _, ha, hb, hc⟩ := readMifLevel_ceiling ctx level ld p ld1 p1 h
  have hkF := readArenaFLOR_keepsDefs ctx _ _ f hf
  have hkM := readArenaMAP1_keepsDefs ctx _ _ m hm
  simp only at hkF hkM
  have hkm : KeepsDefs p.levelInfoDef.voxelDefs m.levelInfoDef.voxelDefs :=
    keepsDefs_trans hkF hkM
  constructor
  · cases hmap2 : level.map2 with
    | some map2 =>
      obtain ⟨c, hc2, _, hinfo⟩ := ha map2 hmap2
      rw [hinfo]
      exact keepsDefs_trans hkm (readArenaMAP2_keepsDefs ctx map2
        ⟨m.levelDef, m.levelInfoDef, p.map2Mappings, m.entityCache, m.transitionCache⟩ c hc2)
    | none =>
      cases hout : ctx.inf.getCeiling.outdoorDungeon with
      | false =>
        rw [(hb hmap2 hout).1]
        exact keepsDefs_trans hkm (keepsDefs_append _ _)
      | true =>
        rw [(hc hmap2 hout).2]
        exact hkm
  · intro hmap2 hout
    refine ⟨m.levelInfoDef.voxelDefs.length, keepsDefs_length hkm, ?_, ?_⟩
    · rw [(hb hmap2 hout).1]
      simp
    · rw [(hb hmap2 hout).1]
      exact getElem?_append_length _ _

theorem readMifLevels_ceilings {E : Type} (ctx : Context E)
    (hout : ctx.inf.getCeiling.outdoorDungeon = false) :
    ∀ (levels : List MIFLevel) (outLevelDefs : List LevelDefinition) (p : PassState E)
      (defs : List LevelDefinition) (p1 : PassState E),
      readMifLevels ctx levels outLevelDefs p = .ok (defs, p1) →
      KeepsDefs p.levelInfoDef.voxelDefs p1.levelInfoDef.voxelDefs ∧
      ∀ (i : Nat) li, levels[i]? = some li → li.map2 = none →
        ∃ a, p.levelInfoDef.voxelDefs.length ≤ a ∧
          p1.levelInfoDef.voxelDefs[a]?
            = some (VoxelDefinition.Ceiling (ctx.inf.getCeiling.textureIndex.getD 1)) ∧
          ∀ (j : Nat) lj, i < j → levels[j]? = some lj → lj.map2 = none →
            ∃ b, a < b ∧
              p1.levelInfoDef.voxelDefs[b]?
                = some (VoxelDefinition.Ceiling (ctx.inf.getCeiling.textureIndex.getD 1)) := by
  intro levels
  induction levels with
  | nil =>
    intro outs p defs p1 h
    simp only [readMifLevels, Except.ok.injEq, Prod.mk.injEq] at h
    obtain ⟨_, rfl⟩ := h
    exact ⟨keepsDefs_refl _, fun i li hl => by simp at hl⟩
  | cons level0 rest ih =>
    intro outs p defs p1 h
    cases outs with
    | nil => simp only [readMifLevels] at h; cases h
    | cons ld0 outs1 =>
      simp only [readMifLevels] at h
      cases hl : readMifLevel ctx level0 ld0 p with
      | error e => simp only [hl] at h; cases h
      | ok r =>
        obtain ⟨ldA, pA⟩ := r
        simp only [hl] at h
        cases hr : readMifLevels ctx rest outs1 pA with
        | error e => simp only [hr] at h; cases h
        | ok r2 =>
          obtain ⟨restDefs, pB⟩ := r2
          simp only [hr, Except.ok.injEq, Prod.mk.injEq] at h
          obtain ⟨_, rfl⟩ := h
          obtain ⟨hkA, hceil⟩ := readMifLevel_keepsDefs ctx level0 ld0 p ldA pA hl
          obtain ⟨hkB, hrest⟩ := ih outs1 pA restDefs pB hr
          refine ⟨keepsDefs_trans hkA hkB, ?_⟩
          intro i li hli hmap2
          cases i with
          | zero =>
            simp only [List.getElem?_cons_zero, Option.some.injEq] at hli
            subst hli
            obtain ⟨a, hle, hlt, hget⟩ := hceil hmap2 hout
            refine ⟨a, hle, hkB a _ hget, ?_⟩
            intro j lj hj hlj hmap2j
            obtain ⟨k, rfl⟩ : ∃ k, j = k + 1 := ⟨j - 1, by omega⟩
            rw [List.getElem?_cons_succ] at hlj
            obtain ⟨b, hb, hgetb, _⟩ := hrest k lj hlj hmap2j
            exact ⟨b, by omega, hgetb⟩
          | succ k =>
            rw [List.getElem?_cons_succ] at hli
            obtain ⟨a, hle, hget, hlater⟩ := hrest k li hli hmap2
            refine ⟨a, le_trans (keepsDefs_length hkA) hle, hget, ?_⟩
            intro j lj hj hlj hmap2j
            obtain ⟨j1, rfl⟩ : ∃ j1, j = j1 + 1 := ⟨j - 1, by omega⟩
            rw [List.getElem?_cons_succ] at hlj
            exact hlater j1 lj (by omega) hlj hmap2j

/-- C28 (what the code does instead): in a pass of `readMifVoxels` that runs to its end
over a parameter table that is not an outdoor dungeon, any two levels without MAP2 data
leave two different voxel definition IDs, both created during the pass, that denote the
same `Ceiling` definition: `readArenaCeiling` adds a definition for every such level and
consults no cache. -/
theorem readMifVoxels_repeats_the_ceiling_definition {E : Type} (ctx : Context E)
    (levels : List MIFLevel) (outLevelDefs : List LevelDefinition)
    (outLevelInfoDef : LevelInfoDefinition E) (defs : List LevelDefinition) (p1 : PassState E)
    (i j : Nat) (li lj : MIFLevel)
    (hout : ctx.inf.getCeiling.outdoorDungeon = false)
    (hij : i < j) (hi : levels[i]? = some li) (hj : levels[j]? = some lj)
    (hi2 : li.map2 = none) (hj2 : lj.map2 = none)
    (h : readMifVoxels ctx levels outLevelDefs outLevelInfoDef = .ok (defs, p1)) :
    ∃ a b, outLevelInfoDef.voxelDefs.length ≤ a ∧ a < b ∧
      p1.levelInfoDef.voxelDefs[a]?
        = some (VoxelDefinition.Ceiling (ctx.inf.getCeiling.textureIndex.getD 1)) ∧
      p1.levelInfoDef.voxelDefs[b]?
        = some (VoxelDefinition.Ceiling (ctx.inf.getCeiling.textureIndex.getD 1)) := by
  obtain ⟨_, hall⟩ := readMifLevels_ceilings ctx hout levels outLevelDefs _ defs p1 h
  obtain ⟨a, hle, hget, hlater⟩ := hall i li hi hi2
  obtain ⟨b, hab, hgetb⟩ := hlater j lj hij hj hj2
  exact ⟨a, b, hle, hab, hget, hgetb⟩

/-- C28, at the two levels of `sampleLevels` read over a catalog that holds the air
definition: the pass creates the IDs 1 to 6, and the IDs 5 and 6 both denote the
definition `Ceiling 3`. -/
theorem readMifVoxels_repeats_the_ceiling_definition_witness :
    ∃ defs p1, readMifVoxels (sampleContext WorldType.Interior sampleInteriorInf) sampleLevels
        sampleLevelDefs airInfo = .ok (defs, p1) ∧
      p1.levelInfoDef.voxelDefs.length = 7 ∧
      p1.levelInfoDef.voxelDefs[5]? = some (VoxelDefinition.Ceiling 3) ∧
      p1.levelInfoDef.voxelDefs[6]? = some (VoxelDefinition.Ceiling 3) ∧
      ∃ a b, airInfo.voxelDefs.length ≤ a ∧ a < b ∧
        p1.levelInfoDef.voxelDefs[a]? = some (VoxelDefinition.Ceiling 3) ∧
        p1.levelInfoDef.voxelDefs[b]? = some (VoxelDefinition.Ceiling 3) := by
  have hrun : ∃ r, readMifVoxels (sampleContext WorldType.Interior sampleInteriorInf)
      sampleLevels sampleLevelDefs airInfo = .ok r := ⟨_, rfl⟩
  obtain ⟨⟨defs, p1⟩, hrun⟩ := hrun
  have hlen : ∀ r, readMifVoxels (sampleContext WorldType.Interior sampleInteriorInf)
      sampleLevels sampleLevelDefs airInfo = .ok r →
      r.2.levelInfoDef.voxelDefs.length = 7 ∧
      r.2.levelInfoDef.voxelDefs[5]? = some (VoxelDefinition.Ceiling 3) ∧
      r.2.levelInfoDef.voxelDefs[6]? = some (VoxelDefinition.Ceiling 3) := by
    intro r hr
    have h2 : readMifVoxels (sampleContext WorldType.Interior sampleInteriorInf)
      sampleLevels sampleLevelDefs airInfo = .ok _ := rfl
    rw [h2] at hr
    simp only [Except.ok.injEq] at hr
    subst hr
    exact ⟨rfl, rfl, rfl⟩
  obtain ⟨h7, h5, h6⟩ := hlen _ hrun
  exact ⟨defs, p1, hrun, h7, h5, h6,
    readMifVoxels_repeats_the_ceiling_definition
      (sampleContext WorldType.Interior sampleInteriorInf) sampleLevels sampleLevelDefs airInfo
      defs p1 0 1 _ _ rfl (by decide) rfl rfl rfl rfl hrun⟩

/-! ## The perimeter of a dungeon level -/

theorem lookup_none_of_no_key {α β : Type} [BEq α] [LawfulBEq α] (l : List (α × β)) (k : α)
    (h : ∀ v, (k, v) ∉ l) : l.lookup k = none := by
  induction l with
  | nil => rfl
  | cons a t ih =>
    obtain ⟨a1, a2⟩ := a
    rw [List.lookup_cons]
    have hne : (k == a1) = false := by
      rw [beq_eq_false_iff_ne]
      intro hk
      subst hk
      exact h a2 (List.mem_cons_self _ _)
    rw [hne]
    exact ih fun v hv => h v (List.mem_cons_of_mem _ hv)

theorem lookup_of_all_values {α β : Type} [BEq α] [LawfulBEq α] (l : List (α × β)) (k : α)
    (v0 : β) (hex : ∃ v, (k, v) ∈ l) (hall : ∀ v, (k, v) ∈ l → v = v0) :
    l.lookup k = some v0 := by
  obtain ⟨v, hv⟩ := hex
  obtain ⟨w, hw, hwm⟩ := lookup_isSome_of_mem l k v hv
  rw [hw, hall w hwm]

theorem forCells_invariant_prefix {σ : Type} (body : σ → Nat × Nat → Except Fatal σ)
    (P : List (Nat × Nat) → σ → Prop) :
    ∀ (cells done : List (Nat × Nat)) (s s1 : σ),
      (∀ d c rest t t1, done ++ cells = d ++ c :: rest → P d t → body t c = .ok t1 →
        P (d ++ [c]) t1) →
      P done s → forCells body cells s = .ok s1 → P (done ++ cells) s1 := by
  intro cells
  induction cells with
  | nil =>
    intro done s s1 _ hP h
    simp only [forCells, Except.ok.injEq] at h
    subst h
    simpa using hP
  | cons c rest ih =>
    intro done s s1 hstep hP h
    simp only [forCells] at h
    cases hb : body s c with
    | error e => rw [hb] at h; cases h
    | ok s2 =>
      rw [hb] at h
      have h2 := hstep done c rest s s2 rfl hP hb
      have h3 := ih (done ++ [c]) s2 s1
        (fun d c1 rest1 t t1 heq => hstep d c1 rest1 t t1 (by simpa using heq)) h2 h
      simpa using h3

theorem forEach_invariant_done {α σ : Type} (body : σ → α → Except Fatal σ)
    (P : List α → σ → Prop) (l : List α)
    (hstep : ∀ done a s s1, a ∈ l → P done s → body s a = .ok s1 → P (done ++ [a]) s1) :
    ∀ done s s1, P done s → forEach body l s = .ok s1 → P (done ++ l) s1 := by
  induction l with
  | nil =>
    intro done s s1 hP h
    simp only [forEach, Except.ok.injEq] at h
    subst h
    simpa using hP
  | cons a rest ih =>
    intro done s s1 hP h
    simp only [forEach] at h
    cases hb : body s a with
    | error e => rw [hb] at h; cases h
    | ok s2 =>
      rw [hb] at h
      have h2 := hstep done a s s2 (List.mem_cons_self _ _) hP hb
      have h3 := ih (fun d a1 t t1 ha => hstep d a1 t t1 (List.mem_cons_of_mem _ ha))
        (done ++ [a]) s2 s1 h2 h
      simpa using h3

/-- The perimeter pass keeps the size of the buffer and puts writes in front of its cells:
each write has the code 0x7800 and lies on the outer ring, and every cell of the ring
that lies in the buffer is written. -/
theorem drawPerimeter_spec (b0 b1 : Buffer2D) (h : drawPerimeter b0 = .ok b1) :
    b1.width = b0.width ∧ b1.height = b0.height ∧
    ∃ writes, b1.cells = writes ++ b0.cells ∧
      (∀ x z v, ((x, z), v) ∈ writes →
        v = 0x7800 ∧ (x = 0 ∨ x + 1 = b0.width ∨ z = 0 ∨ z + 1 = b0.height)) ∧
      (∀ x z, x < b0.width → z < b0.height →
        (x = 0 ∨ x + 1 = b0.width ∨ z = 0 ∨ z + 1 = b0.height) →
        ∃ v, ((x, z), v) ∈ writes) := by
  unfold drawPerimeter at h
  simp only [] at h
  split at h
  · cases h
  · rename_i bA hA
    have key1 := forEach_invariant_done
      (fun (b : Buffer2D) (x : Nat) =>
        match b.set x 0 0x7800 with
        | .error e => .error e
        | .ok b1 => b1.set x (b1.height - 1) 0x7800)
      (fun done b => b.width = b0.width ∧ b.height = b0.height ∧
        ∃ writes, b.cells = writes ++ b0.cells ∧
          (∀ x z v, ((x, z), v) ∈ writes → v = 0x7800 ∧ (z = 0 ∨ z + 1 = b0.height)) ∧
          (∀ x ∈ done, 0 < b0.height ∧ (∃ v, ((x, 0), v) ∈ writes) ∧
            ∃ v, ((x, b0.height - 1), v) ∈ writes))
      (List.range b0.width)
      (fun done x b b2 _ hP hb => by
        obtain ⟨hw, hh, writes, hcells, hval, hcov⟩ := hP
        simp only [] at hb
        split at hb
        · cases hb
        · rename_i b3 h3
          obtain ⟨_, hz0, rfl⟩ := Buffer2D.set_ok _ _ _ _ _ h3
          obtain ⟨_, _, rfl⟩ := Buffer2D.set_ok _ _ _ _ _ hb
          simp only [] at hcells hw hh ⊢
          refine ⟨hw, hh, ((x, b.height - 1), 0x7800) :: ((x, 0), 0x7800) :: writes,
            by simp [hcells], ?_, ?_⟩
          · intro x1 z1 v hm
            simp only [List.mem_cons, Prod.mk.injEq] at hm
            rcases hm with ⟨⟨_, rfl⟩, rfl⟩ | ⟨⟨_, rfl⟩, rfl⟩ | hm
            · exact ⟨rfl, Or.inr (by omega)⟩
            · exact ⟨rfl, Or.inl rfl⟩
            · exact hval x1 z1 v hm
          · intro x1 hx1
            rcases List.mem_append.1 hx1 with hx1 | hx1
            · obtain ⟨hpos, ⟨v1, h1⟩, ⟨v2, h2⟩⟩ := hcov x1 hx1
              exact ⟨hpos, ⟨v1, List.mem_cons_of_mem _ (List.mem_cons_of_mem _ h1)⟩,
                ⟨v2, List.mem_cons_of_mem _ (List.mem_cons_of_mem _ h2)⟩⟩
            · have : x1 = x := by simpa using hx1
              subst this
              refine ⟨by omega, ⟨0x7800, by simp⟩, ⟨0x7800, ?_⟩⟩
              rw [← hh]
              simp)
      [] b0 bA ⟨rfl, rfl, [], rfl, fun _ _ _ hm => by simp at hm,
        fun _ hm => by simp at hm⟩ hA
    simp only [List.nil_append] at key1
    obtain ⟨hwA, hhA, writesA, hcellsA, hvalA, hcovA⟩ := key1
    have key2 := forEach_invariant_done
      (fun (b : Buffer2D) (z : Nat) =>
        match b.set 0 z 0x7800 with
        | .error e => .error e
        | .ok b1 => b1.set (b1.width - 1) z 0x7800)
      (fun done b => b.width = b0.width ∧ b.height = b0.height ∧
        ∃ writes, b.cells = writes ++ bA.cells ∧
          (∀ x z v, ((x, z), v) ∈ writes → v = 0x7800 ∧ (x = 0 ∨ x + 1 = b0.width)) ∧
          (∀ z ∈ done, 0 < b0.width ∧ (∃ v, ((0, z), v) ∈ writes) ∧
            ∃ v, ((b0.width - 1, z), v) ∈ writes))
      (List.range' 1 (bA.height - 2))
      (fun done z b b2 _ hP hb => by
        obtain ⟨hw, hh, writes, hcells, hval, hcov⟩ := hP
        simp only [] at hb
        split at hb
        · cases hb
        · rename_i b3 h3
          obtain ⟨hx0, _, rfl⟩ := Buffer2D.set_ok _ _ _ _ _ h3
          obtain ⟨_, _, rfl⟩ := Buffer2D.set_ok _ _ _ _ _ hb
          simp only [] at hcells hw hh ⊢
          refine ⟨hw, hh, ((b.width - 1, z), 0x7800) :: ((0, z), 0x7800) :: writes,
            by simp [hcells], ?_, ?_⟩
          · intro x1 z1 v hm
            simp only [List.mem_cons, Prod.mk.injEq] at hm
            rcases hm with ⟨⟨rfl, _⟩, rfl⟩ | ⟨⟨rfl, _⟩, rfl⟩ | hm
            · exact ⟨rfl, Or.inr (by omega)⟩
            · exact ⟨rfl, Or.inl rfl⟩
            · exact hval x1 z1 v hm
          · intro z1 hz1
            rcases List.mem_append.1 hz1 with hz1 | hz1
            · obtain ⟨hpos, ⟨v1, h1⟩, ⟨v2, h2⟩⟩ := hcov z1 hz1
              exact ⟨hpos, ⟨v1, List.mem_cons_of_mem _ (List.mem_cons_of_mem _ h1)⟩,
                ⟨v2, List.mem_cons_of_mem _ (List.mem_cons_of_mem _ h2)⟩⟩
            · have : z1 = z := by simpa using hz1
              subst this
              refine ⟨by omega, ⟨0x7800, by simp⟩, ⟨0x7800, ?_⟩⟩
              rw [← hw]
              simp)
      [] bA b1 ⟨hwA, hhA, [], rfl, fun _ _ _ hm => by simp at hm,
        fun _ hm => by simp at hm⟩ h
    simp only [List.nil_append] at key2
    obtain ⟨hwB, hhB, writesB, hcellsB, hvalB, hcovB⟩ := key2
    refine ⟨hwB, hhB, writesB ++ writesA, by rw [hcellsB, hcellsA, List.append_assoc], ?_, ?_⟩
    · intro x z v hm
      rcases List.mem_append.1 hm with hm | hm
      · obtain ⟨hv, hx⟩ := hvalB x z v hm
        exact ⟨hv, by tauto⟩
      · obtain ⟨hv, hz⟩ := hvalA x z v hm
        exact ⟨hv, by tauto⟩
    · intro x z hx hz hring
      by_cases hz0 : z = 0 ∨ z + 1 = b0.height
      · obtain ⟨_, ⟨v1, h1⟩, ⟨v2, h2⟩⟩ := hcovA x (List.mem_range.2 hx)
        rcases hz0 with rfl | hz1
        · exact ⟨v1, List.mem_append_right _ h1⟩
        · have : b0.height - 1 = z := by omega
          rw [this] at h2
          exact ⟨v2, List.mem_append_right _ h2⟩
      · have hzin : z ∈ List.range' 1 (bA.height - 2) := by
          rw [List.mem_range']
          refine ⟨z - 1, ?_, ?_⟩ <;> omega
        obtain ⟨_, ⟨v1, h1⟩, ⟨v2, h2⟩⟩ := hcovB z hzin
        rcases hring with rfl | hx1 | hz1 | hz1
        · exact ⟨v1, List.mem_append_left _ h1⟩
        · have : b0.width - 1 = x := by omega
          rw [this] at h2
          exact ⟨v2, List.mem_append_left _ h2⟩
        · exact absurd (Or.inl hz1) hz0
        · exact absurd (Or.inr hz1) hz0

theorem copyBlock_map1 {E : Type} (blockFLOR blockMAP1 : BufferView2D) (xOffset zOffset : Nat)
    (cells : List (Nat × Nat)) (s s1 : LevelBuffers E)
    (h : forCells (copyBlockCell blockFLOR blockMAP1 xOffset zOffset) cells s = .ok s1) :
    s1.levelMAP1.width = s.levelMAP1.width ∧ s1.levelMAP1.height = s.levelMAP1.height ∧
    ∃ new, s1.levelMAP1.cells = new ++ s.levelMAP1.cells ∧
      (∀ x z v, ((x, z), v) ∈ new →
        ∃ c ∈ cells, x = xOffset + c.1 ∧ z = zOffset + c.2 ∧ v = blockMAP1.get c.1 c.2) ∧
      (∀ c ∈ cells, ∃ v, ((xOffset + c.1, zOffset + c.2), v) ∈ new) := by
  have key := forCells_invariant (copyBlockCell blockFLOR blockMAP1 xOffset zOffset)
    (fun done t => t.levelMAP1.width = s.levelMAP1.width ∧
      t.levelMAP1.height = s.levelMAP1.height ∧
      ∃ new, t.levelMAP1.cells = new ++ s.levelMAP1.cells ∧
        (∀ x z v, ((x, z), v) ∈ new →
          ∃ c ∈ done, x = xOffset + c.1 ∧ z = zOffset + c.2 ∧ v = blockMAP1.get c.1 c.2) ∧
        (∀ c ∈ done, ∃ v, ((xOffset + c.1, zOffset + c.2), v) ∈ new)) cells
    (fun done c t t1 _ hP hb => by
      obtain ⟨hw, hh, new, hcells, hval, hcov⟩ := hP
      unfold copyBlockCell at hb
      simp only [] at hb
      split at hb
      · cases hb
      · split at hb
        · cases hb
        · rename_i bF _ bM hM
          simp only [Except.ok.injEq] at hb
          subst hb
          obtain ⟨_, _, rfl⟩ := Buffer2D.set_ok _ _ _ _ _ hM
          simp only [] at hcells hw hh ⊢
          refine ⟨hw, hh, ((xOffset + c.1, zOffset + c.2), blockMAP1.get c.1 c.2) :: new,
            by simp [hcells], ?_, ?_⟩
          · intro x z v hm
            rcases List.mem_cons.1 hm with hm | hm
            · simp only [Prod.mk.injEq] at hm
              obtain ⟨⟨rfl, rfl⟩, rfl⟩ := hm
              exact ⟨c, by simp, rfl, rfl, rfl⟩
            · obtain ⟨c1, hc1, h1, h2, h3⟩ := hval x z v hm
              exact ⟨c1, List.mem_append_left _ hc1, h1, h2, h3⟩
          · intro c1 hc1
            rcases List.mem_append.1 hc1 with hc1 | hc1
            · obtain ⟨v, hv⟩ := hcov c1 hc1
              exact ⟨v, List.mem_cons_of_mem _ hv⟩
            · have : c1 = c := by simpa using hc1
              subst this
              exact ⟨_, List.mem_cons_self _ _⟩)
    [] s s1 ⟨rfl, rfl, [], rfl, fun _ _ _ hm => by simp at hm, fun _ hm => by simp at hm⟩ h
  simpa using key

theorem readArenaLock_buffers {E : Type} (lock : MIFLock) (s s1 : LevelBuffers E)
    (h : readArenaLock lock s = .ok s1) : s1.levelMAP1 = s.levelMAP1 := by
  unfold readArenaLock at h
  simp only [] at h
  split at h
  · cases h
  · simp only [Except.ok.injEq] at h
    subst h
    rfl

theorem readArenaTrigger_buffers {E : Type} (dc : DungeonContext) (trigger : MIFTrigger)
    (s s1 : LevelBuffers E) (h : readArenaTrigger dc trigger s = .ok s1) :
    s1.levelMAP1 = s.levelMAP1 := by
  unfold readArenaTrigger at h
  simp only [] at h
  split at h
  · cases h
  · simp only [Except.ok.injEq] at h
    subst h
    rfl

theorem mem_blockCells (dim i j : Nat) :
    (i, j) ∈ ((List.range dim).flatMap fun z => (List.range dim).map fun x => (x, z))
      ↔ i < dim ∧ j < dim := by
  simp only [List.mem_flatMap, List.mem_map, List.mem_range, Prod.mk.injEq]
  constructor
  · rintro ⟨a, ha, b, hb, rfl, rfl⟩
    exact ⟨hb, ha⟩
  · rintro ⟨hi, hj⟩
    exact ⟨j, hj, i, hi, rfl, rfl⟩

theorem placeChunk_map1 {E : Type} (dc : DungeonContext) (mif : MIFFile) (tileSet : Nat)
    (s : LevelBuffers E) (cell : Nat × Nat) (s1 : LevelBuffers E)
    (h : placeChunk dc mif tileSet s cell = .ok s1) :
    s1.levelMAP1.width = s.levelMAP1.width ∧ s1.levelMAP1.height = s.levelMAP1.height ∧
    ∃ k block new, k < 8 ∧ mif.levels[tileSet * 8 + k]? = some block ∧
      s1.levelMAP1.cells = new ++ s.levelMAP1.cells ∧
      (∀ x z v, ((x, z), v) ∈ new →
        ∃ i j, i < dc.DUNGEON_CHUNK_DIM ∧ j < dc.DUNGEON_CHUNK_DIM ∧
          x = cell.1 * dc.DUNGEON_CHUNK_DIM + i ∧ z = cell.2 * dc.DUNGEON_CHUNK_DIM + j ∧
          v = block.map1.get i j) ∧
      (∀ i j, i < dc.DUNGEON_CHUNK_DIM → j < dc.DUNGEON_CHUNK_DIM →
        ∃ v, ((cell.1 * dc.DUNGEON_CHUNK_DIM + i, cell.2 * dc.DUNGEON_CHUNK_DIM + j), v)
          ∈ new) := by
  unfold placeChunk at h
  simp only [] at h
  split at h
  · cases h
  · rename_i blockLevel hblock
    split at h
    · cases h
    · rename_i t1 hcopy
      obtain ⟨hw, hh, new, hcells, hval, hcov⟩ := copyBlock_map1 _ _ _ _ _ _ t1 hcopy
      simp only [] at hw hh hcells
      split at h
      · cases h
      · rename_i t2 hlock
        have h2 : t2.levelMAP1 = t1.levelMAP1 :=
          forEach_invariant _ (fun t : LevelBuffers E => t.levelMAP1 = t1.levelMAP1) _
            (fun t a t3 _ hP hb => (readArenaLock_buffers _ t t3 hb).trans hP) _ _ rfl hlock
        have h3 : s1.levelMAP1 = t1.levelMAP1 :=
          forEach_invariant _ (fun t : LevelBuffers E => t.levelMAP1 = t1.levelMAP1) _
            (fun t a t3 _ hP hb => (readArenaTrigger_buffers dc _ t t3 hb).trans hP) _ _ h2 h
        rw [h3]
        refine ⟨hw, hh, (dc.next s.random).1 % 8, blockLevel, new,
          Nat.mod_lt _ (by decide), hblock, hcells, ?_, ?_⟩
        · intro x z v hm
          obtain ⟨c, hc, hx, hz, hv⟩ := hval x z v hm
          obtain ⟨hi, hj⟩ := (mem_blockCells dc.DUNGEON_CHUNK_DIM c.1 c.2).1 hc
          exact ⟨c.1, c.2, hi, hj, hx, hz, hv⟩
        · intro i j hi hj
          exact hcov (i, j) ((mem_blockCells dc.DUNGEON_CHUNK_DIM i j).2 ⟨hi, hj⟩)

theorem mem_gridCells (w d x z : Nat) :
    (x, z) ∈ ((List.range d).flatMap fun row => (List.range w).map fun column => (column, row))
      ↔ x < w ∧ z < d := by
  simp only [List.mem_flatMap, List.mem_map, List.mem_range, Prod.mk.injEq]
  constructor
  · rintro ⟨a, ha, b, hb, rfl, rfl⟩
    exact ⟨hb, ha⟩
  · rintro ⟨hi, hj⟩
    exact ⟨z, hj, x, hi, rfl, rfl⟩

theorem nodup_gridCells (w d : Nat) :
    ((List.range d).flatMap fun row =>
      (List.range w).map fun column => (column, row)).Nodup := by
  rw [List.nodup_flatMap]
  refine ⟨fun row _ => ?_, ?_⟩
  · refine List.Nodup.map ?_ (List.nodup_range w)
    intro a b hab
    simp only [Prod.mk.injEq] at hab
    exact hab.1
  · refine List.Pairwise.imp ?_ (List.nodup_range d)
    intro a b hne
    simp only [Function.onFun]
    intro c h1 h2
    simp only [List.mem_map, List.mem_range] at h1 h2
    obtain ⟨x1, _, rfl⟩ := h1
    obtain ⟨x2, _, h2⟩ := h2
    simp only [Prod.mk.injEq] at h2
    exact hne h2.2.symm

/-- The chunk loop: every write to the MAP1 buffer lies in the square of a placed chunk
and is the cell of the block drawn for that chunk, and every cell of such a square is
written. -/
theorem placeChunks_map1 {E : Type} (dc : DungeonContext) (mif : MIFFile) (tileSet : Nat)
    (widthChunks depthChunks : Nat) (s s1 : LevelBuffers E) (hs : s.levelMAP1.cells = [])
    (h : forCells (placeChunk dc mif tileSet)
      ((List.range depthChunks).flatMap fun row =>
        (List.range widthChunks).map fun column => (column, row)) s = .ok s1) :
    s1.levelMAP1.width = s.levelMAP1.width ∧ s1.levelMAP1.height = s.levelMAP1.height ∧
    ∃ blockOf : Nat × Nat → MIFLevel,
      (∀ c, c.1 < widthChunks → c.2 < depthChunks →
        ∃ k, k < 8 ∧ mif.levels[tileSet * 8 + k]? = some (blockOf c)) ∧
      ∀ x z, x < dc.DUNGEON_CHUNK_DIM * widthChunks → z < dc.DUNGEON_CHUNK_DIM * depthChunks →
        s1.levelMAP1.get x z =
          (blockOf (x / dc.DUNGEON_CHUNK_DIM, z / dc.DUNGEON_CHUNK_DIM)).map1.get
            (x % dc.DUNGEON_CHUNK_DIM) (z % dc.DUNGEON_CHUNK_DIM) := by
  have hnodup := nodup_gridCells widthChunks depthChunks
  have key := forCells_invariant_prefix (placeChunk dc mif tileSet)
    (fun done (t : LevelBuffers E) =>
      t.levelMAP1.width = s.levelMAP1.width ∧ t.levelMAP1.height = s.levelMAP1.height ∧
      ∃ blockOf : Nat × Nat → MIFLevel,
        (∀ c ∈ done, ∃ k, k < 8 ∧ mif.levels[tileSet * 8 + k]? = some (blockOf c)) ∧
        (∀ x z v, ((x, z), v) ∈ t.levelMAP1.cells →
          ∃ c ∈ done, ∃ i j, i < dc.DUNGEON_CHUNK_DIM ∧ j < dc.DUNGEON_CHUNK_DIM ∧
            x = c.1 * dc.DUNGEON_CHUNK_DIM + i ∧ z = c.2 * dc.DUNGEON_CHUNK_DIM + j ∧
            v = (blockOf c).map1.get i j) ∧
        (∀ c ∈ done, ∀ i j, i < dc.DUNGEON_CHUNK_DIM → j < dc.DUNGEON_CHUNK_DIM →
          ∃ v, ((c.1 * dc.DUNGEON_CHUNK_DIM + i, c.2 * dc.DUNGEON_CHUNK_DIM + j), v)
            ∈ t.levelMAP1.cells))
    ((List.range depthChunks).flatMap fun row =>
        (List.range widthChunks).map fun column => (column, row)) [] s s1
    (fun d c rest t t1 heq hP hb => by
      obtain ⟨hw, hh, blockOf, hblocks, hval, hcov⟩ := hP
      obtain ⟨hw1, hh1, k, block, new, hk, hblock, hcells, hnew, hnewcov⟩ :=
        placeChunk_map1 dc mif tileSet t c t1 hb
      have hnot : c ∉ d := by
        simp only [List.nil_append] at heq
        rw [heq] at hnodup
        intro hc
        have := (List.nodup_append.1 hnodup).2.2
        exact this hc (List.mem_cons_self _ _)
      refine ⟨hw1.trans hw, hh1.trans hh, fun c1 => if c1 = c then block else blockOf c1,
        ?_, ?_, ?_⟩
      · intro c1 hc1
        rcases List.mem_append.1 hc1 with hc1 | hc1
        · have hne : c1 ≠ c := fun he => hnot (he ▸ hc1)
          simp only [hne, if_false]
          exact hblocks c1 hc1
        · have : c1 = c := by simpa using hc1
          subst this
          simp only [if_true]
          exact ⟨k, hk, hblock⟩
      · intro x z v hm
        rw [hcells] at hm
        rcases List.mem_append.1 hm with hm | hm
        · obtain ⟨i, j, hi, hj, hx, hz, hv⟩ := hnew x z v hm
          exact ⟨c, by simp, i, j, hi, hj, hx, hz, by simp only [if_true]; exact hv⟩
        · obtain ⟨c1, hc1, i, j, hi, hj, hx, hz, hv⟩ := hval x z v hm
          have hne : c1 ≠ c := fun he => hnot (he ▸ hc1)
          exact ⟨c1, List.mem_append_left _ hc1, i, j, hi, hj, hx, hz,
            by simp only [hne, if_false]; exact hv⟩
      · intro c1 hc1 i j hi hj
        rw [hcells]
        rcases List.mem_append.1 hc1 with hc1 | hc1
        · obtain ⟨v, hv⟩ := hcov c1 hc1 i j hi hj
          exact ⟨v, List.mem_append_right _ hv⟩
        · have : c1 = c := by simpa using hc1
          subst this
          obtain ⟨v, hv⟩ := hnewcov i j hi hj
          exact ⟨v, List.mem_append_left _ hv⟩)
    ⟨rfl, rfl, fun _ => ⟨⟨0, 0, fun _ _ => 0⟩, ⟨0, 0, fun _ _ => 0⟩, none, [], []⟩,
      fun _ hm => by simp at hm, fun _ _ _ hm => by simp [hs] at hm,
      fun _ hm => by simp at hm⟩ h
  simp only [List.nil_append] at key
  obtain ⟨hw, hh, blockOf, hblocks, hval, hcov⟩ := key
  refine ⟨hw, hh, blockOf, ?_, ?_⟩
  · intro c hc1 hc2
    exact hblocks c ((mem_gridCells widthChunks depthChunks c.1 c.2).2 ⟨hc1, hc2⟩)
  · intro x z hx hz
    have hpos : 0 < dc.DUNGEON_CHUNK_DIM := by
      rcases Nat.eq_zero_or_pos dc.DUNGEON_CHUNK_DIM with h0 | h0
      · rw [h0] at hx
        omega
      · exact h0
    have hcx : x / dc.DUNGEON_CHUNK_DIM < widthChunks :=
      Nat.div_lt_of_lt_mul hx
    have hcz : z / dc.DUNGEON_CHUNK_DIM < depthChunks :=
      Nat.div_lt_of_lt_mul hz
    have hmem := (mem_gridCells widthChunks depthChunks _ _).2 ⟨hcx, hcz⟩
    have hex := hcov _ hmem (x % dc.DUNGEON_CHUNK_DIM) (z % dc.DUNGEON_CHUNK_DIM)
      (Nat.mod_lt _ hpos) (Nat.mod_lt _ hpos)
    simp only [] at hex
    rw [Nat.mul_comm, Nat.div_add_mod, Nat.mul_comm (z / _), Nat.div_add_mod] at hex
    have hall : ∀ v, ((x, z), v) ∈ s1.levelMAP1.cells →
        v = (blockOf (x / dc.DUNGEON_CHUNK_DIM, z / dc.DUNGEON_CHUNK_DIM)).map1.get
          (x % dc.DUNGEON_CHUNK_DIM) (z % dc.DUNGEON_CHUNK_DIM) := by
      intro v hv
      obtain ⟨c1, _, i, j, hi, hj, hx1, hz1, hv1⟩ := hval x z v hv
      have e1 : x / dc.DUNGEON_CHUNK_DIM = c1.1 := by
        rw [hx1, Nat.mul_comm, Nat.mul_add_div hpos, Nat.div_eq_of_lt hi, Nat.add_zero]
      have e2 : z / dc.DUNGEON_CHUNK_DIM = c1.2 := by
        rw [hz1, Nat.mul_comm, Nat.mul_add_div hpos, Nat.div_eq_of_lt hj, Nat.add_zero]
      have e3 : x % dc.DUNGEON_CHUNK_DIM = i := by
        rw [hx1, Nat.mul_comm, Nat.mul_add_mod, Nat.mod_eq_of_lt hi]
      have e4 : z % dc.DUNGEON_CHUNK_DIM = j := by
        rw [hz1, Nat.mul_comm, Nat.mul_add_mod, Nat.mod_eq_of_lt hj]
      rw [e1, e2, e3, e4]
      exact hv1
    unfold Buffer2D.get
    rw [lookup_of_all_values _ _ _ hex hall]
    rfl

/-- C30: when `generateArenaDungeonLevel` returns, the MAP1 buffer that it has assembled
and handed to `readArenaMAP1` has the width `mif.width * widthChunks` and the depth
`mif.depth * depthChunks`; every cell of its outer ring (`x = 0`, `x = W - 1`, `z = 0`
or `z = D - 1`) that is not the cell of a `*LEVELUP` or `*LEVELDOWN` stamp holds the code
0x7800; and every cell inside the ring that lies in the square of a chunk and is not the
cell of a stamp holds the voxel of the block drawn for that chunk, one of the eight
blocks of the tile set of the level. The cells of the stamps come from
`ArenaInteriorUtils`, which is not among the sources, so they are kept apart by name. -/
theorem dungeon_level_perimeter_and_chunks {E : Type} (dc : DungeonContext) (ctx : Context E)
    (mif : MIFFile) (widthChunks depthChunks levelUpBlock : Nat) (levelDownBlock : Option Nat)
    (levelDef : LevelDefinition) (st : DungeonState E) (out : LevelDefinition × DungeonState E)
    (h : generateArenaDungeonLevel dc ctx mif widthChunks depthChunks levelUpBlock
      levelDownBlock levelDef st = .ok out) :
    ∃ (r : LevelBuffers E) (f m : Out E),
      assembleDungeonLevel dc ctx mif widthChunks depthChunks levelUpBlock levelDownBlock
        levelDef st = .ok r ∧
      readArenaFLOR ctx r.levelFLOR.view
        ⟨r.levelDef, r.levelInfoDef, st.florMappings, st.entityMappings,
          st.transitionMappings⟩ = .ok f ∧
      readArenaMAP1 ctx r.levelMAP1.view
        ⟨f.levelDef, f.levelInfoDef, st.map1Mappings, f.entityCache, f.transitionCache⟩
        = .ok m ∧
      r.levelMAP1.width = mif.width * widthChunks ∧
      r.levelMAP1.height = mif.depth * depthChunks ∧
      (∀ x z, x < r.levelMAP1.width → z < r.levelMAP1.height →
        (x = 0 ∨ x + 1 = r.levelMAP1.width ∨ z = 0 ∨ z + 1 = r.levelMAP1.height) →
        (x, z) ≠ levelChangeCell dc levelUpBlock →
        (∀ block, levelDownBlock = some block → (x, z) ≠ levelChangeCell dc block) →
        r.levelMAP1.view.get x z = 0x7800) ∧
      ∃ blockOf : Nat × Nat → MIFLevel,
        (∀ c, c.1 < widthChunks → c.2 < depthChunks →
          ∃ k, k < 8 ∧ mif.levels[(dc.next st.random).1 % 4 * 8 + k]? = some (blockOf c)) ∧
        ∀ x z, x < dc.DUNGEON_CHUNK_DIM * widthChunks →
          z < dc.DUNGEON_CHUNK_DIM * depthChunks →
          ¬ (x = 0 ∨ x + 1 = r.levelMAP1.width ∨ z = 0 ∨ z + 1 = r.levelMAP1.height) →
          (x, z) ≠ levelChangeCell dc levelUpBlock →
          (∀ block, levelDownBlock = some block → (x, z) ≠ levelChangeCell dc block) →
          r.levelMAP1.view.get x z =
            (blockOf (x / dc.DUNGEON_CHUNK_DIM, z / dc.DUNGEON_CHUNK_DIM)).map1.get
              (x % dc.DUNGEON_CHUNK_DIM) (z % dc.DUNGEON_CHUNK_DIM) := by
  unfold generateArenaDungeonLevel at h
  split at h
  · cases h
  · rename_i r hr
    split at h
    · cases h
    · rename_i f hf
      split at h
      · cases h
      · rename_i m hm
        refine ⟨r, f, m, hr, hf, hm, ?_⟩
        obtain ⟨chunks, perimeter, hchunks, hper, hst, _⟩ :=
          assembleDungeonLevel_stamped dc ctx mif widthChunks depthChunks levelUpBlock
            levelDownBlock levelDef st r hr
        obtain ⟨hcw, hch, blockOf, hblocks, hget⟩ :=
          placeChunks_map1 dc mif _ widthChunks depthChunks _ chunks rfl hchunks
        simp only [Buffer2D.filled] at hcw hch
        obtain ⟨hpw, hph, writes, hpcells, hpval, hpcov⟩ :=
          drawPerimeter_spec chunks.levelMAP1 perimeter hper
        obtain ⟨levelUpIndex, _, _, _, hsw, hsh, hscells⟩ :=
          stampTransitions_spec dc ctx.inf levelUpBlock levelDownBlock perimeter r.levelMAP1 hst
        have hW : r.levelMAP1.width = mif.width * widthChunks := by rw [hsw, hpw, hcw]
        have hH : r.levelMAP1.height = mif.depth * depthChunks := by rw [hsh, hph, hch]
        have hstamp : ∀ x z, (x, z) ≠ levelChangeCell dc levelUpBlock →
            (∀ block, levelDownBlock = some block → (x, z) ≠ levelChangeCell dc block) →
            r.levelMAP1.get x z = perimeter.get x z := by
          intro x z hup hdown
          have hupf : ((x, z) == levelChangeCell dc levelUpBlock) = false := by
            simpa using hup
          rcases hscells with ⟨_, hc⟩ | ⟨block, levelDownIndex, hb, _, hc⟩
          · simp only [Buffer2D.get, hc, List.lookup_cons, hupf]
          · have hdf : ((x, z) == levelChangeCell dc block) = false := by
              simpa using hdown block hb
            simp only [Buffer2D.get, hc, List.lookup_cons, hupf, hdf]
        refine ⟨hW, hH, ?_, blockOf, hblocks, ?_⟩
        · intro x z hx hz hring hup hdown
          show r.levelMAP1.get x z = 0x7800
          rw [hstamp x z hup hdown]
          have hx1 : x < chunks.levelMAP1.width := by rw [← hpw, ← hsw]; exact hx
          have hz1 : z < chunks.levelMAP1.height := by rw [← hph, ← hsh]; exact hz
          have hring1 : x = 0 ∨ x + 1 = chunks.levelMAP1.width ∨ z = 0 ∨
              z + 1 = chunks.levelMAP1.height := by
            rw [← hpw, ← hsw, ← hph, ← hsh]; exact hring
          have hex := hpcov x z hx1 hz1 hring1
          have hlook : writes.lookup (x, z) = some 0x7800 :=
            lookup_of_all_values writes (x, z) 0x7800 hex
              (fun v hv => (hpval x z v hv).1)
          simp only [Buffer2D.get, hpcells, List.lookup_append, hlook, Option.or_some,
            Option.getD_some]
        · intro x z hx hz hring hup hdown
          show r.levelMAP1.get x z = _
          rw [hstamp x z hup hdown, ← hget x z hx hz]
          have hnone : writes.lookup (x, z) = none := by
            apply lookup_none_of_no_key
            intro v hv
            apply hring
            have := (hpval x z v hv).2
            rw [← hpw, ← hsw, ← hph, ← hsh] at this
            exact this
          simp only [Buffer2D.get, hpcells, List.lookup_append, hnone, Option.none_or]

theorem dungeon_level_perimeter_and_chunks_witness :
    ∃ (r : LevelBuffers Nat),
      assembleDungeonLevel sampleDungeonContext
        (sampleContext WorldType.Interior sampleInteriorInf) sampleDungeonMif 2 1 0 (some 1)
        (LevelDefinition.init 3 3 6) ⟨0, emptyInfo, [], [], [], [], [], []⟩ = .ok r ∧
      r.levelMAP1.width = 6 ∧ r.levelMAP1.height = 3 ∧
      r.levelMAP1.view.get 1 0 = 0x7800 ∧ r.levelMAP1.view.get 2 1 = 0 := by
  have hrun : ∃ out, generateArenaDungeonLevel sampleDungeonContext
      (sampleContext WorldType.Interior sampleInteriorInf) sampleDungeonMif 2 1 0 (some 1)
      (LevelDefinition.init 3 3 6) ⟨0, emptyInfo, [], [], [], [], [], []⟩ = .ok out :=
    ⟨_, rfl⟩
  obtain ⟨out, hout⟩ := hrun
  obtain ⟨r, _, _, hr, _, _, hw, hh, hring, blockOf, hblocks, hin⟩ :=
    dungeon_level_perimeter_and_chunks sampleDungeonContext
      (sampleContext WorldType.Interior sampleInteriorInf) sampleDungeonMif 2 1 0 (some 1)
      (LevelDefinition.init 3 3 6) ⟨0, emptyInfo, [], [], [], [], [], []⟩ out hout
  have hup : levelChangeCell sampleDungeonContext 0 = (1, 1) := rfl
  have hdown : levelChangeCell sampleDungeonContext 1 = (4, 1) := rfl
  have hw6 : r.levelMAP1.width = 6 := hw
  have hh3 : r.levelMAP1.height = 3 := hh
  refine ⟨r, hr, hw6, hh3, ?_, ?_⟩
  · refine hring 1 0 (by omega) (by omega) (Or.inr (Or.inr (Or.inl rfl))) ?_ ?_
    · rw [hup]; decide
    · intro block hb
      simp only [Option.some.injEq] at hb
      subst hb
      rw [hdown]; decide
  · have h21 := hin 2 1 (by decide) (by decide) (by omega) (by rw [hup]; decide)
      (fun block hb => by
        simp only [Option.some.injEq] at hb
        subst hb
        rw [hdown]; decide)
    rw [h21]
    obtain ⟨k, hk, hblock⟩ := hblocks (2 / sampleDungeonContext.DUNGEON_CHUNK_DIM,
      1 / sampleDungeonContext.DUNGEON_CHUNK_DIM) (by decide) (by decide)
    have hmem := List.getElem?_mem hblock
    simp only [sampleDungeonMif, List.mem_replicate] at hmem
    rw [hmem.2]
    rfl

/-! ## The rounding to `double` -/

theorem log2Fuel_spec : ∀ (fuel n : Nat), 0 < n → n ≤ fuel →
    2 ^ Dbl.log2Fuel fuel n ≤ n ∧ n < 2 ^ (Dbl.log2Fuel fuel n + 1) := by
  intro fuel
  induction fuel with
  | zero => intro n hn hf; omega
  | succ fuel ih =>
    intro n hn hf
    unfold Dbl.log2Fuel
    by_cases h2 : n < 2
    · rw [if_pos h2]
      constructor
      · simpa using hn
      · simpa using h2
    · rw [if_neg h2]
      obtain ⟨h1, h3⟩ := ih (n / 2) (by omega) (by omega)
      constructor
      · rw [pow_succ]
        omega
      · rw [pow_succ]
        omega

theorem pow2_eq (e : Int) : Dbl.pow2 e = (2 : ℚ) ^ e := by
  unfold Dbl.pow2
  by_cases he : 0 ≤ e
  · rw [if_pos he]
    obtain ⟨n, rfl⟩ := Int.eq_ofNat_of_zero_le he
    simp
  · rw [if_neg he]
    obtain ⟨n, hn⟩ := Int.eq_ofNat_of_zero_le (by omega : 0 ≤ -e)
    have : e = -(n : Int) := by omega
    subst this
    simp

theorem two_zpow_pos (e : Int) : (0 : ℚ) < (2 : ℚ) ^ e := by
  positivity

theorem two_zpow_le (a b : Int) (h : a ≤ b) : (2 : ℚ) ^ a ≤ (2 : ℚ) ^ b :=
  zpow_le_zpow_right₀ (by norm_num) h

theorem two_zpow_lt (a b : Int) (h : a < b) : (2 : ℚ) ^ a < (2 : ℚ) ^ b :=
  zpow_lt_zpow_right₀ (by norm_num) h

theorem two_zpow_add (a b : Int) : (2 : ℚ) ^ (a + b) = (2 : ℚ) ^ a * (2 : ℚ) ^ b :=
  zpow_add₀ (by norm_num) a b

theorem two_zpow_lt_iff (a b : Int) (h : (2 : ℚ) ^ a < (2 : ℚ) ^ b) : a < b := by
  by_contra hc
  exact absurd (two_zpow_le b a (by omega)) (not_le.2 h)

theorem floorLog2_spec (q : ℚ) (hq : 0 < q) :
    (2 : ℚ) ^ Dbl.floorLog2 q ≤ q ∧ q < (2 : ℚ) ^ (Dbl.floorLog2 q + 1) := by
  have hn0 : 0 < q.num := Rat.num_pos.2 hq
  have hd0 : 0 < q.den := q.den_pos
  have hnat : (q.num.natAbs : Int) = q.num := Int.natAbs_of_nonneg (le_of_lt hn0)
  have hnpos : 0 < q.num.natAbs := by omega
  obtain ⟨hn1, hn2⟩ := log2Fuel_spec _ _ hnpos le_rfl
  obtain ⟨hd1, hd2⟩ := log2Fuel_spec _ _ hd0 le_rfl
  have hqe : q = (q.num.natAbs : ℚ) / (q.den : ℚ) := by
    have h1 : ((q.num.natAbs : Nat) : ℚ) = (q.num : ℚ) := by
      rw [← Int.cast_natCast, hnat]
    rw [h1]
    exact (Rat.num_div_den q).symm
  have hnq1 : (2 : ℚ) ^ (Dbl.log2Fuel q.num.natAbs q.num.natAbs : Int)
      ≤ (q.num.natAbs : ℚ) := by
    rw [zpow_natCast]
    exact_mod_cast hn1
  have hnq2 : (q.num.natAbs : ℚ)
      < (2 : ℚ) ^ ((Dbl.log2Fuel q.num.natAbs q.num.natAbs : Int) + 1) := by
    have : ((Dbl.log2Fuel q.num.natAbs q.num.natAbs : Int) + 1)
        = ((Dbl.log2Fuel q.num.natAbs q.num.natAbs + 1 : Nat) : Int) := by push_cast; rfl
    rw [this, zpow_natCast]
    exact_mod_cast hn2
  have hdq1 : (2 : ℚ) ^ (Dbl.log2Fuel q.den q.den : Int) ≤ (q.den : ℚ) := by
    rw [zpow_natCast]
    exact_mod_cast hd1
  have hdq2 : (q.den : ℚ) < (2 : ℚ) ^ ((Dbl.log2Fuel q.den q.den : Int) + 1) := by
    have : ((Dbl.log2Fuel q.den q.den : Int) + 1)
        = ((Dbl.log2Fuel q.den q.den + 1 : Nat) : Int) := by push_cast; rfl
    rw [this, zpow_natCast]
    exact_mod_cast hd2
  have hdq0 : (0 : ℚ) < (q.den : ℚ) := by exact_mod_cast hd0
  have hlow : (2 : ℚ) ^ ((Dbl.log2Fuel q.num.natAbs q.num.natAbs : Int)
      - (Dbl.log2Fuel q.den q.den : Int) - 1) ≤ q := by
    have : ((Dbl.log2Fuel q.num.natAbs q.num.natAbs : Int)
        - (Dbl.log2Fuel q.den q.den : Int) - 1)
        = (Dbl.log2Fuel q.num.natAbs q.num.natAbs : Int)
          - ((Dbl.log2Fuel q.den q.den : Int) + 1) := by ring
    rw [this, zpow_sub₀ (by norm_num : (2 : ℚ) ≠ 0)]
    refine le_trans ?_ (le_of_eq hqe.symm)
    exact div_le_div₀ (Nat.cast_nonneg _) hnq1 hdq0 (le_of_lt hdq2)
  have hup : q < (2 : ℚ) ^ ((Dbl.log2Fuel q.num.natAbs q.num.natAbs : Int)
      - (Dbl.log2Fuel q.den q.den : Int) + 1) := by
    have : ((Dbl.log2Fuel q.num.natAbs q.num.natAbs : Int)
        - (Dbl.log2Fuel q.den q.den : Int) + 1)
        = ((Dbl.log2Fuel q.num.natAbs q.num.natAbs : Int) + 1)
          - (Dbl.log2Fuel q.den q.den : Int) := by ring
    rw [this, zpow_sub₀ (by norm_num : (2 : ℚ) ≠ 0)]
    refine lt_of_eq_of_lt hqe ?_
    exact div_lt_div₀ hnq2 hdq1 (le_of_lt (two_zpow_pos _)) (two_zpow_pos _)
  unfold Dbl.floorLog2
  simp only [pow2_eq]
  split
  · rename_i h
    exact ⟨h, hup⟩
  · rename_i h
    refine ⟨hlow, ?_⟩
    rw [sub_add_cancel]
    exact not_le.1 h

theorem floorLog2_mono (x y : ℚ) (hx : 0 < x) (hxy : x ≤ y) :
    Dbl.floorLog2 x ≤ Dbl.floorLog2 y := by
  obtain ⟨h1, _⟩ := floorLog2_spec x hx
  obtain ⟨_, h2⟩ := floorLog2_spec y (lt_of_lt_of_le hx hxy)
  have := two_zpow_lt_iff _ _ (lt_of_le_of_lt (le_trans h1 hxy) h2)
  omega

theorem roundHalfEven_cases (x : ℚ) :
    Dbl.roundHalfEven x = Int.floor x ∧ x - (Int.floor x : ℚ) ≤ 1 / 2 ∨
    Dbl.roundHalfEven x = Int.floor x + 1 ∧ 1 / 2 ≤ x - (Int.floor x : ℚ) := by
  unfold Dbl.roundHalfEven
  split
  · rename_i h
    exact Or.inl ⟨rfl, le_of_lt h⟩
  · rename_i h
    split
    · rename_i h2
      exact Or.inr ⟨rfl, le_of_lt h2⟩
    · rename_i h2
      have heq : x - (Int.floor x : ℚ) = 1 / 2 := le_antisymm (not_lt.1 h2) (not_lt.1 h)
      split
      · exact Or.inl ⟨rfl, le_of_eq heq⟩
      · exact Or.inr ⟨rfl, le_of_eq heq.symm⟩

theorem roundHalfEven_near (x : ℚ) : |(Dbl.roundHalfEven x : ℚ) - x| ≤ 1 / 2 := by
  have h1 := Int.floor_le x
  have h2 := Int.lt_floor_add_one x
  rw [abs_le]
  rcases roundHalfEven_cases x with ⟨h, hf⟩ | ⟨h, hf⟩
  · rw [h]
    constructor <;> linarith
  · rw [h]
    push_cast
    constructor <;> linarith

theorem roundHalfEven_int (n : Int) : Dbl.roundHalfEven (n : ℚ) = n := by
  unfold Dbl.roundHalfEven
  simp

theorem roundHalfEven_mono (x y : ℚ) (h : x ≤ y) :
    Dbl.roundHalfEven x ≤ Dbl.roundHalfEven y := by
  have hfl : Int.floor x ≤ Int.floor y := Int.floor_le_floor h
  rcases lt_or_eq_of_le hfl with hlt | heq
  · rcases roundHalfEven_cases x with ⟨hx, _⟩ | ⟨hx, _⟩ <;>
      rcases roundHalfEven_cases y with ⟨hy, _⟩ | ⟨hy, _⟩ <;> omega
  · have hxy : x - (Int.floor x : ℚ) ≤ y - (Int.floor y : ℚ) := by
      rw [← heq]
      linarith
    by_cases hx1 : x - (Int.floor x : ℚ) < 1 / 2
    · have rx : Dbl.roundHalfEven x = Int.floor x := by
        unfold Dbl.roundHalfEven
        rw [if_pos hx1]
      rcases roundHalfEven_cases y with ⟨hy, _⟩ | ⟨hy, _⟩ <;> omega
    · by_cases hy2 : 1 / 2 < y - (Int.floor y : ℚ)
      · have hy1 : ¬ (y - (Int.floor y : ℚ) < 1 / 2) := by linarith
        have ry : Dbl.roundHalfEven y = Int.floor y + 1 := by
          unfold Dbl.roundHalfEven
          rw [if_neg hy1, if_pos hy2]
        rcases roundHalfEven_cases x with ⟨hx, _⟩ | ⟨hx, _⟩ <;> omega
      · have hy1 : ¬ (y - (Int.floor y : ℚ) < 1 / 2) := by linarith
        have hx2 : ¬ (1 / 2 < x - (Int.floor x : ℚ)) := by linarith
        unfold Dbl.roundHalfEven
        rw [if_neg hx1, if_neg hx2, if_neg hy1, if_neg hy2, heq]

theorem ulpExp_ge (x : ℚ) : -1074 ≤ Dbl.ulpExp x := by
  unfold Dbl.ulpExp
  have := le_max_right (Dbl.floorLog2 x) (-1022)
  omega

theorem ulpExp_floorLog2 (x : ℚ) : Dbl.floorLog2 x ≤ Dbl.ulpExp x + 52 := by
  unfold Dbl.ulpExp
  have := le_max_left (Dbl.floorLog2 x) (-1022)
  omega

theorem ulpExp_mono (x y : ℚ) (hx : 0 < x) (hxy : x ≤ y) : Dbl.ulpExp x ≤ Dbl.ulpExp y := by
  unfold Dbl.ulpExp
  have := floorLog2_mono x y hx hxy
  have := max_le_max this (le_refl (-1022 : Int))
  omega

theorem ulpExp_normal (x : ℚ) (h : -1074 < Dbl.ulpExp x) :
    Dbl.ulpExp x = Dbl.floorLog2 x - 52 := by
  unfold Dbl.ulpExp at h ⊢
  rcases max_cases (Dbl.floorLog2 x) (-1022) with ⟨h1, _⟩ | ⟨h1, _⟩
  · rw [h1]
  · rw [h1] at h
    omega

theorem significand_eq (x : ℚ) :
    Dbl.significand x = Dbl.roundHalfEven (x / (2 : ℚ) ^ Dbl.ulpExp x) := by
  unfold Dbl.significand
  rw [pow2_eq]

theorem significand_nonneg (x : ℚ) (hx : 0 < x) : 0 ≤ Dbl.significand x := by
  rw [significand_eq]
  have h0 : (0 : ℚ) ≤ x / (2 : ℚ) ^ Dbl.ulpExp x :=
    div_nonneg (le_of_lt hx) (le_of_lt (two_zpow_pos _))
  have := roundHalfEven_mono _ _ h0
  rw [show (0 : ℚ) = ((0 : Int) : ℚ) by simp, roundHalfEven_int] at this
  exact this

theorem significand_le (x : ℚ) (hx : 0 < x) : Dbl.significand x ≤ 2 ^ 53 := by
  rw [significand_eq]
  obtain ⟨_, h2⟩ := floorLog2_spec x hx
  have hlt : x < (2 : ℚ) ^ (Dbl.ulpExp x + 53) :=
    lt_of_lt_of_le h2 (two_zpow_le _ _ (by have := ulpExp_floorLog2 x; omega))
  have h3 : x / (2 : ℚ) ^ Dbl.ulpExp x ≤ (((2 : Int) ^ 53 : Int) : ℚ) := by
    rw [div_le_iff₀ (two_zpow_pos _)]
    rw [two_zpow_add, mul_comm] at hlt
    have : (((2 : Int) ^ 53 : Int) : ℚ) = (2 : ℚ) ^ (53 : Int) := by norm_num
    rw [this]
    exact le_of_lt hlt
  have := roundHalfEven_mono _ _ h3
  rw [roundHalfEven_int] at this
  exact this

theorem significand_ge (x : ℚ) (hx : 0 < x) (h : -1074 < Dbl.ulpExp x) :
    2 ^ 52 ≤ Dbl.significand x := by
  rw [significand_eq]
  obtain ⟨h1, _⟩ := floorLog2_spec x hx
  have he := ulpExp_normal x h
  have hk : Dbl.floorLog2 x = Dbl.ulpExp x + 52 := by omega
  rw [hk, two_zpow_add] at h1
  have h3 : (((2 : Int) ^ 52 : Int) : ℚ) ≤ x / (2 : ℚ) ^ Dbl.ulpExp x := by
    rw [le_div_iff₀ (two_zpow_pos _)]
    have : (((2 : Int) ^ 52 : Int) : ℚ) = (2 : ℚ) ^ (52 : Int) := by norm_num
    rw [this, mul_comm]
    exact h1
  have := roundHalfEven_mono _ _ h3
  rw [roundHalfEven_int] at this
  exact this

theorem magnitude_mono (x y : ℚ) (hx : 0 < x) (hxy : x ≤ y) :
    (Dbl.significand x : ℚ) * (2 : ℚ) ^ Dbl.ulpExp x
      ≤ (Dbl.significand y : ℚ) * (2 : ℚ) ^ Dbl.ulpExp y := by
  have hy : 0 < y := lt_of_lt_of_le hx hxy
  rcases lt_or_eq_of_le (ulpExp_mono x y hx hxy) with hlt | heq
  · have h1 : (Dbl.significand x : ℚ) ≤ (2 : ℚ) ^ (53 : Int) := by
      have := significand_le x hx
      have h2 : (Dbl.significand x : ℚ) ≤ (((2 : Int) ^ 53 : Int) : ℚ) := by exact_mod_cast this
      have : (((2 : Int) ^ 53 : Int) : ℚ) = (2 : ℚ) ^ (53 : Int) := by norm_num
      rwa [this] at h2
    have h2 : (2 : ℚ) ^ (52 : Int) ≤ (Dbl.significand y : ℚ) := by
      have := significand_ge y hy (by have := ulpExp_ge x; omega)
      have h2 : (((2 : Int) ^ 52 : Int) : ℚ) ≤ (Dbl.significand y : ℚ) := by exact_mod_cast this
      have : (((2 : Int) ^ 52 : Int) : ℚ) = (2 : ℚ) ^ (52 : Int) := by norm_num
      rwa [this] at h2
    calc (Dbl.significand x : ℚ) * (2 : ℚ) ^ Dbl.ulpExp x
        ≤ (2 : ℚ) ^ (53 : Int) * (2 : ℚ) ^ Dbl.ulpExp x :=
          mul_le_mul_of_nonneg_right h1 (le_of_lt (two_zpow_pos _))
      _ = (2 : ℚ) ^ (53 + Dbl.ulpExp x) := (two_zpow_add _ _).symm
      _ ≤ (2 : ℚ) ^ (52 + Dbl.ulpExp y) := two_zpow_le _ _ (by omega)
      _ = (2 : ℚ) ^ (52 : Int) * (2 : ℚ) ^ Dbl.ulpExp y := two_zpow_add _ _
      _ ≤ (Dbl.significand y : ℚ) * (2 : ℚ) ^ Dbl.ulpExp y :=
          mul_le_mul_of_nonneg_right h2 (le_of_lt (two_zpow_pos _))
  · have hm : Dbl.significand x ≤ Dbl.significand y := by
      rw [significand_eq, significand_eq, ← heq]
      exact roundHalfEven_mono _ _
        (div_le_div_of_nonneg_right hxy (le_of_lt (two_zpow_pos _)))
    rw [← heq]
    exact mul_le_mul_of_nonneg_right (by exact_mod_cast hm) (le_of_lt (two_zpow_pos _))

theorem overflows_mono (x y : ℚ) (hx : 0 < x) (hxy : x ≤ y) (h : Dbl.overflows x = true) :
    Dbl.overflows y = true := by
  unfold Dbl.overflows at h ⊢
  simp only [Bool.or_eq_true, Bool.and_eq_true, decide_eq_true_eq] at h ⊢
  have he := ulpExp_mono x y hx hxy
  rcases h with h | ⟨h1, h2⟩
  · exact Or.inl (by omega)
  · rcases lt_or_eq_of_le he with hlt | heq
    · exact Or.inl (by omega)
    · refine Or.inr ⟨by omega, ?_⟩
      have hm : Dbl.significand x ≤ Dbl.significand y := by
        rw [significand_eq, significand_eq, ← heq]
        exact roundHalfEven_mono _ _
          (div_le_div_of_nonneg_right hxy (le_of_lt (two_zpow_pos _)))
      omega

theorem magnitude_nonneg (x : ℚ) (hx : 0 < x) :
    0 ≤ (Dbl.significand x : ℚ) * (2 : ℚ) ^ Dbl.ulpExp x :=
  mul_nonneg (by exact_mod_cast significand_nonneg x hx) (le_of_lt (two_zpow_pos _))

theorem binary64_pos (q : ℚ) (hq : 0 < q) :
    Dbl.binary64 q = if Dbl.overflows q then Dbl.posInf
      else Dbl.fin ((Dbl.significand q : ℚ) * (2 : ℚ) ^ Dbl.ulpExp q) := by
  unfold Dbl.binary64
  rw [if_neg (ne_of_gt hq), if_pos hq, pow2_eq]

theorem binary64_neg (q : ℚ) (hq : q < 0) :
    Dbl.binary64 q = if Dbl.overflows (-q) then Dbl.negInf
      else Dbl.fin (-((Dbl.significand (-q) : ℚ) * (2 : ℚ) ^ Dbl.ulpExp (-q))) := by
  unfold Dbl.binary64
  rw [if_neg (ne_of_lt hq), if_neg (not_lt.2 (le_of_lt hq)), pow2_eq]

theorem binary64_zero : Dbl.binary64 0 = Dbl.fin 0 := by
  unfold Dbl.binary64
  rw [if_pos rfl]

theorem binary64_notNan (q : ℚ) : Dbl.binary64 q ≠ Dbl.nan := by
  rcases lt_trichotomy q 0 with h | h | h
  · rw [binary64_neg q h]
    split <;> exact fun hc => Dbl.noConfusion hc
  · rw [h, binary64_zero]
    exact fun hc => Dbl.noConfusion hc
  · rw [binary64_pos q h]
    split <;> exact fun hc => Dbl.noConfusion hc

theorem binary64_mono (q1 q2 : ℚ) (h : q1 ≤ q2) :
    (Dbl.binary64 q2).lt (Dbl.binary64 q1) = false := by
  rcases lt_trichotomy q1 0 with h1 | h1 | h1
  · rw [binary64_neg q1 h1]
    rcases lt_trichotomy q2 0 with h2 | h2 | h2
    · rw [binary64_neg q2 h2]
      have hx : 0 < -q2 := by linarith
      have hxy : -q2 ≤ -q1 := by linarith
      by_cases ho : Dbl.overflows (-q1) = true
      · rw [if_pos ho]
        split <;> rfl
      · rw [if_neg ho]
        have ho2 : ¬ Dbl.overflows (-q2) = true := fun hc => ho (overflows_mono _ _ hx hxy hc)
        rw [if_neg ho2]
        have := magnitude_mono _ _ hx hxy
        simp only [Dbl.lt, decide_eq_false_iff_not, not_lt]
        linarith
    · rw [h2, binary64_zero]
      have := magnitude_nonneg (-q1) (by linarith)
      split
      · rfl
      · simp only [Dbl.lt, decide_eq_false_iff_not, not_lt]
        linarith
    · rw [binary64_pos q2 h2]
      have := magnitude_nonneg (-q1) (by linarith)
      have := magnitude_nonneg q2 h2
      split <;> split <;> try rfl
      simp only [Dbl.lt, decide_eq_false_iff_not, not_lt]
      linarith
  · have h2 : 0 ≤ q2 := by linarith
    rw [h1, binary64_zero]
    rcases lt_or_eq_of_le h2 with h2 | h2
    · rw [binary64_pos q2 h2]
      have := magnitude_nonneg q2 h2
      split
      · rfl
      · simp only [Dbl.lt, decide_eq_false_iff_not, not_lt]
        linarith
    · rw [← h2, binary64_zero]
      simp [Dbl.lt]
  · have h2 : 0 < q2 := by linarith
    rw [binary64_pos q1 h1, binary64_pos q2 h2]
    by_cases ho : Dbl.overflows q1 = true
    · rw [if_pos ho, if_pos (overflows_mono _ _ h1 h ho)]
      rfl
    · rw [if_neg ho]
      split
      · rfl
      · have := magnitude_mono _ _ h1 h
        simp only [Dbl.lt, decide_eq_false_iff_not, not_lt]
        linarith

theorem magnitude_near (x : ℚ) :
    |(Dbl.significand x : ℚ) * (2 : ℚ) ^ Dbl.ulpExp x - x| ≤ (2 : ℚ) ^ Dbl.ulpExp x / 2 := by
  have hp := two_zpow_pos (Dbl.ulpExp x)
  have h := roundHalfEven_near (x / (2 : ℚ) ^ Dbl.ulpExp x)
  rw [← significand_eq] at h
  have he : (Dbl.significand x : ℚ) * (2 : ℚ) ^ Dbl.ulpExp x - x
      = ((Dbl.significand x : ℚ) - x / (2 : ℚ) ^ Dbl.ulpExp x) * (2 : ℚ) ^ Dbl.ulpExp x := by
    field_simp
  rw [he, abs_mul, abs_of_pos hp]
  calc |(Dbl.significand x : ℚ) - x / (2 : ℚ) ^ Dbl.ulpExp x| * (2 : ℚ) ^ Dbl.ulpExp x
      ≤ 1 / 2 * (2 : ℚ) ^ Dbl.ulpExp x := mul_le_mul_of_nonneg_right h (le_of_lt hp)
    _ = (2 : ℚ) ^ Dbl.ulpExp x / 2 := by ring

theorem floorLog2_ge (x : ℚ) (k : Int) (hk : (2 : ℚ) ^ k ≤ x) : k ≤ Dbl.floorLog2 x := by
  have hx : 0 < x := lt_of_lt_of_le (two_zpow_pos k) hk
  obtain ⟨_, h2⟩ := floorLog2_spec x hx
  have := two_zpow_lt_iff _ _ (lt_of_le_of_lt hk h2)
  omega

theorem floorLog2_lt (x : ℚ) (k : Int) (hx : 0 < x) (hk : x < (2 : ℚ) ^ k) :
    Dbl.floorLog2 x < k := by
  obtain ⟨h1, _⟩ := floorLog2_spec x hx
  exact two_zpow_lt_iff _ _ (lt_of_le_of_lt h1 hk)

theorem magnitude_error (x : ℚ) (h1 : (2 : ℚ) ^ (-1022 : Int) ≤ x)
    (h2 : x < (2 : ℚ) ^ (1023 : Int)) :
    Dbl.overflows x = false ∧
    |(Dbl.significand x : ℚ) * (2 : ℚ) ^ Dbl.ulpExp x - x| ≤ x / 2 ^ 53 := by
  have hx : 0 < x := lt_of_lt_of_le (two_zpow_pos _) h1
  have hk1 := floorLog2_ge x _ h1
  have hk2 := floorLog2_lt x _ hx h2
  have he : Dbl.ulpExp x = Dbl.floorLog2 x - 52 := by
    unfold Dbl.ulpExp
    rw [max_eq_left hk1]
  constructor
  · unfold Dbl.overflows
    simp only [Bool.or_eq_false_iff, Bool.and_eq_false_iff, decide_eq_false_iff_not]
    exact ⟨by omega, Or.inl (by omega)⟩
  · refine le_trans (magnitude_near x) ?_
    obtain ⟨h3, _⟩ := floorLog2_spec x hx
    have hk : Dbl.floorLog2 x = Dbl.ulpExp x + 52 := by omega
    rw [hk, two_zpow_add] at h3
    have h52 : (2 : ℚ) ^ (52 : Int) = 2 ^ 52 := by norm_num
    rw [h52] at h3
    have hp := two_zpow_pos (Dbl.ulpExp x)
    rw [div_le_div_iff₀ (by norm_num) (by positivity)]
    nlinarith

theorem binary64_error (q : ℚ) (h1 : (2 : ℚ) ^ (-1022 : Int) ≤ |q|)
    (h2 : |q| < (2 : ℚ) ^ (1023 : Int)) :
    ∃ v, Dbl.binary64 q = Dbl.fin v ∧ |v - q| ≤ |q| / 2 ^ 53 := by
  rcases lt_trichotomy q 0 with h | h | h
  · rw [abs_of_neg h] at h1 h2 ⊢
    obtain ⟨ho, herr⟩ := magnitude_error (-q) h1 h2
    rw [binary64_neg q h, ho]
    refine ⟨_, rfl, ?_⟩
    have hneg : -(-((Dbl.significand (-q) : ℚ) * (2 : ℚ) ^ Dbl.ulpExp (-q)) - q)
        = (Dbl.significand (-q) : ℚ) * (2 : ℚ) ^ Dbl.ulpExp (-q) - -q := by ring
    rw [← abs_neg, hneg]
    exact herr
  · rw [h, abs_zero] at h1
    exact absurd h1 (not_le.2 (two_zpow_pos _))
  · rw [abs_of_pos h] at h1 h2 ⊢
    obtain ⟨ho, herr⟩ := magnitude_error q h1 h2
    rw [binary64_pos q h, ho]
    exact ⟨_, rfl, herr⟩

theorem magnitude_isDouble (x : ℚ) (hx : 0 < x) (ho : Dbl.overflows x = false) :
    ∃ m e : Int, 0 ≤ m ∧ m < 2 ^ 53 ∧ -1074 ≤ e ∧ e ≤ 971 ∧
      (Dbl.significand x : ℚ) * (2 : ℚ) ^ Dbl.ulpExp x = (m : ℚ) * (2 : ℚ) ^ e := by
  unfold Dbl.overflows at ho
  simp only [Bool.or_eq_false_iff, Bool.and_eq_false_iff, decide_eq_false_iff_not] at ho
  obtain ⟨ho1, ho2⟩ := ho
  have h0 := significand_nonneg x hx
  have h1 := significand_le x hx
  have h2 := ulpExp_ge x
  by_cases hm : Dbl.significand x < 2 ^ 53
  · exact ⟨_, _, h0, hm, h2, by omega, rfl⟩
  · have hm53 : Dbl.significand x = 2 ^ 53 := by omega
    refine ⟨2 ^ 52, Dbl.ulpExp x + 1, by norm_num, by norm_num, by omega, ?_, ?_⟩
    · rcases ho2 with h | h
      · omega
      · omega
    · rw [hm53, two_zpow_add]
      norm_num
      ring

theorem magnitude_exact (x : ℚ) (m e : Int) (hm : 0 < m) (hm2 : m < 2 ^ 53)
    (he : -1074 ≤ e) (he2 : e ≤ 971) (hxe : x = (m : ℚ) * (2 : ℚ) ^ e) :
    Dbl.overflows x = false ∧ (Dbl.significand x : ℚ) * (2 : ℚ) ^ Dbl.ulpExp x = x := by
  have hmq : (0 : ℚ) < (m : ℚ) := by exact_mod_cast hm
  have hx : 0 < x := by
    rw [hxe]
    exact mul_pos hmq (two_zpow_pos e)
  have hlt : x < (2 : ℚ) ^ (53 + e) := by
    rw [hxe, two_zpow_add]
    have : (m : ℚ) < (2 : ℚ) ^ (53 : Int) := by
      have h1 : (m : ℚ) < (((2 : Int) ^ 53 : Int) : ℚ) := by exact_mod_cast hm2
      have : (((2 : Int) ^ 53 : Int) : ℚ) = (2 : ℚ) ^ (53 : Int) := by norm_num
      rwa [this] at h1
    exact mul_lt_mul_of_pos_right this (two_zpow_pos e)
  have hk := floorLog2_lt x _ hx hlt
  have hu : Dbl.ulpExp x ≤ e := by
    unfold Dbl.ulpExp
    rcases max_cases (Dbl.floorLog2 x) (-1022) with ⟨h1, _⟩ | ⟨h1, _⟩ <;> rw [h1] <;> omega
  obtain ⟨n, hn⟩ := Int.eq_ofNat_of_zero_le (by omega : 0 ≤ e - Dbl.ulpExp x)
  have hen : e = Dbl.ulpExp x + (n : Int) := by omega
  have hpow : (2 : ℚ) ^ e = (2 : ℚ) ^ Dbl.ulpExp x * (2 : ℚ) ^ n := by
    have : (2 : ℚ) ^ e = (2 : ℚ) ^ (Dbl.ulpExp x + (n : Int)) := by rw [← hen]
    rw [this, two_zpow_add, zpow_natCast]
  have hmag : ((m * 2 ^ n : Int) : ℚ) * (2 : ℚ) ^ Dbl.ulpExp x = x := by
    calc ((m * 2 ^ n : Int) : ℚ) * (2 : ℚ) ^ Dbl.ulpExp x
        = (m : ℚ) * ((2 : ℚ) ^ Dbl.ulpExp x * (2 : ℚ) ^ n) := by
          push_cast
          ring
      _ = (m : ℚ) * (2 : ℚ) ^ e := by rw [hpow]
      _ = x := hxe.symm
  have hdiv : x / (2 : ℚ) ^ Dbl.ulpExp x = ((m * 2 ^ n : Int) : ℚ) := by
    rw [div_eq_iff (ne_of_gt (two_zpow_pos _))]
    exact hmag.symm
  have hsig : Dbl.significand x = m * 2 ^ n := by
    rw [significand_eq, hdiv, roundHalfEven_int]
  constructor
  · unfold Dbl.overflows
    simp only [Bool.or_eq_false_iff, Bool.and_eq_false_iff, decide_eq_false_iff_not]
    refine ⟨by omega, ?_⟩
    by_cases h971 : Dbl.ulpExp x = 971
    · right
      have hn0 : n = 0 := by omega
      rw [hsig, hn0]
      simp only [pow_zero, mul_one]
      omega
    · exact Or.inl h971
  · rw [hsig]
    exact hmag

theorem binary64_isDouble (q v : ℚ) (h : Dbl.binary64 q = Dbl.fin v) : Dbl.IsDouble v := by
  rcases lt_trichotomy q 0 with hq | hq | hq
  · rw [binary64_neg q hq] at h
    by_cases ho : Dbl.overflows (-q) = true
    · rw [if_pos ho] at h
      cases h
    · rw [if_neg ho] at h
      obtain ⟨m, e, hm0, hm1, he1, he2, heq⟩ :=
        magnitude_isDouble (-q) (by linarith) (by simpa using ho)
      refine ⟨-m, e, ?_, he1, he2, ?_⟩
      · rw [abs_neg, abs_of_nonneg hm0]
        exact hm1
      · have := Dbl.fin.inj h
        rw [← this, heq]
        push_cast
        ring
  · rw [hq, binary64_zero] at h
    refine ⟨0, 0, by norm_num, by norm_num, by norm_num, ?_⟩
    rw [← Dbl.fin.inj h]
    simp
  · rw [binary64_pos q hq] at h
    by_cases ho : Dbl.overflows q = true
    · rw [if_pos ho] at h
      cases h
    · rw [if_neg ho] at h
      obtain ⟨m, e, hm0, hm1, he1, he2, heq⟩ :=
        magnitude_isDouble q hq (by simpa using ho)
      refine ⟨m, e, ?_, he1, he2, ?_⟩
      · rw [abs_of_nonneg hm0]
        exact hm1
      · rw [← Dbl.fin.inj h, heq]

theorem binary64_exact (q : ℚ) (h : Dbl.IsDouble q) : Dbl.binary64 q = Dbl.fin q := by
  obtain ⟨m, e, hm, he1, he2, hq⟩ := h
  rw [abs_lt] at hm
  rcases lt_trichotomy m 0 with hm0 | hm0 | hm0
  · have hneg : -q = ((-m : Int) : ℚ) * (2 : ℚ) ^ e := by
      rw [hq]
      push_cast
      ring
    have hq0 : q < 0 := by
      rw [hq]
      exact mul_neg_of_neg_of_pos (by exact_mod_cast hm0) (two_zpow_pos e)
    obtain ⟨ho, hmag⟩ := magnitude_exact (-q) (-m) e (by omega) (by omega) he1 he2 hneg
    rw [binary64_neg q hq0, ho, hmag]
    simp
  · rw [hq, hm0]
    simp [binary64_zero]
  · have hq0 : 0 < q := by
      rw [hq]
      exact mul_pos (by exact_mod_cast hm0) (two_zpow_pos e)
    obtain ⟨ho, hmag⟩ := magnitude_exact q m e hm0 (by omega) he1 he2 hq
    rw [binary64_pos q hq0, ho, hmag]
    simp

/-- The rounding of IEEE 754 binary64 has the properties that the statements ask of a
rounding. -/
theorem binary64_isRounding : Dbl.IsRounding Dbl.binary64 :=
  ⟨binary64_mono, binary64_notNan, binary64_exact, binary64_isDouble, binary64_error⟩

/-! ## The software renderer -/

open SoftwareRenderer

theorem Dbl.mul_nan (a : Dbl) : a * Dbl.nan = Dbl.nan := by
  show Dbl.mul a Dbl.nan = Dbl.nan
  cases a <;> rfl

theorem Dbl.lt_nan (a : Dbl) : a.lt Dbl.nan = false := by
  cases a <;> rfl

theorem Dbl.nan_lt (a : Dbl) : Dbl.nan.lt a = false := by
  cases a <;> rfl

theorem Dbl.fin_mul_fin (a b : ℚ) : Dbl.fin a * Dbl.fin b = Dbl.fin (a * b) := rfl

theorem Dbl.lt_zero_sq : (Dbl.fin 0).lt (Dbl.fin 0 * Dbl.fin 0) = false := by
  rw [Dbl.fin_mul_fin]
  simp [Dbl.lt]

theorem ddaLoop_view_distance_zero (r : SoftwareRenderer) (voxelGrid : VoxelGrid)
    (c : RaySetup) (fuel : Nat) (s : RayState)
    (hv : r.viewDistSquared = Dbl.fin 0 * Dbl.fin 0) (hs : s.cellDistSquared = Dbl.fin 0) :
    ddaLoop r voxelGrid c fuel s = some (.ok s) := by
  cases fuel <;> simp [ddaLoop, hv, hs, Dbl.lt_zero_sq]

/-- C21: after `setViewDistance(0)`, `castRay` returns the fog colour (0.45, 0.75, 1.0)
for every grid, every state of the renderer (eye, start cell, textures), every
direction and every bound on the passes of the loop, none of which is run: the ray
reports no hit (`hitID` stays 0), also when the start voxel is solid. -/
theorem castRay_view_distance_zero_is_fog (fuel : Nat) (ctx : RenderContext)
    (r : SoftwareRenderer) (direction : Double3) (voxelGrid : VoxelGrid) :
    (∃ t, traceRay fuel ctx (r.setViewDistance (Dbl.fin 0)) direction voxelGrid
        = some (.ok t) ∧ t.hitID = 0) ∧
    castRay fuel ctx (r.setViewDistance (Dbl.fin 0)) direction voxelGrid
      = some (.ok ⟨Dbl.fin (45 / 100), Dbl.fin (75 / 100), Dbl.fin 1⟩) := by
  have hloop := ddaLoop_view_distance_zero (r.setViewDistance (Dbl.fin 0)) voxelGrid
    (raySetup ctx (r.setViewDistance (Dbl.fin 0)) direction voxelGrid) fuel
    (rayStart (r.setViewDistance (Dbl.fin 0)) voxelGrid
      (raySetup ctx (r.setViewDistance (Dbl.fin 0)) direction voxelGrid)) rfl rfl
  have htrace : traceRay fuel ctx (r.setViewDistance (Dbl.fin 0)) direction voxelGrid
      = some (.ok (rayDistance (r.setViewDistance (Dbl.fin 0)) direction
          (raySetup ctx (r.setViewDistance (Dbl.fin 0)) direction voxelGrid)
          (rayStart (r.setViewDistance (Dbl.fin 0)) voxelGrid
            (raySetup ctx (r.setViewDistance (Dbl.fin 0)) direction voxelGrid)))) := by
    unfold traceRay
    simp only [hloop]
  have hhit : (rayDistance (r.setViewDistance (Dbl.fin 0)) direction
      (raySetup ctx (r.setViewDistance (Dbl.fin 0)) direction voxelGrid)
      (rayStart (r.setViewDistance (Dbl.fin 0)) voxelGrid
        (raySetup ctx (r.setViewDistance (Dbl.fin 0)) direction voxelGrid))).hitID = 0 := by
    unfold rayDistance
    simp only []
    split
    · split
      · rfl
      · split <;> rfl
    · split <;> rfl
  refine ⟨⟨_, htrace, hhit⟩, ?_⟩
  unfold castRay
  rw [htrace]
  simp only [shadeRay, hhit]
  rfl

theorem ddaLoop_mono (r : SoftwareRenderer) (voxelGrid : VoxelGrid) (c : RaySetup) :
    ∀ (fuel : Nat) (s : RayState) (x : Except Fatal RayState),
      ddaLoop r voxelGrid c fuel s = some x → ddaLoop r voxelGrid c (fuel + 1) s = some x := by
  intro fuel
  induction fuel with
  | zero =>
    intro s x h
    simp only [ddaLoop] at h ⊢
    split at h
    · cases h
    · rename_i hc
      simp only [hc]
      exact h
  | succ n ih =>
    intro s x h
    rw [ddaLoop] at h ⊢
    split
    · rename_i hc
      simp only [hc, if_true] at h
      cases hv : voxelGrid.voxelAt (s.cell.x + s.cell.y * voxelGrid.width +
          s.cell.z * voxelGrid.width * voxelGrid.height) with
      | error e => simp only [hv] at h ⊢; exact h
      | ok voxelID =>
        simp only [hv] at h ⊢
        split
        · rename_i hpos
          simp only [hpos, if_true] at h
          exact h
        · rename_i hpos
          simp only [hpos, if_false] at h
          exact ih _ _ h
    · rename_i hc
      simp only [hc] at h
      exact h

theorem ddaLoop_mono_add (r : SoftwareRenderer) (voxelGrid : VoxelGrid) (c : RaySetup)
    (fuel : Nat) (s : RayState) (x : Except Fatal RayState)
    (h : ddaLoop r voxelGrid c fuel s = some x) :
    ∀ k, ddaLoop r voxelGrid c (fuel + k) s = some x := by
  intro k
  induction k with
  | zero => exact h
  | succ k ih => exact ddaLoop_mono r voxelGrid c (fuel + k) s x ih

theorem traceRay_mono_add (fuel : Nat) (ctx : RenderContext) (r : SoftwareRenderer)
    (direction : Double3) (voxelGrid : VoxelGrid) (x : Except Fatal RayTrace)
    (h : traceRay fuel ctx r direction voxelGrid = some x) :
    ∀ k, traceRay (fuel + k) ctx r direction voxelGrid = some x := by
  intro k
  unfold traceRay at h ⊢
  simp only [] at h ⊢
  cases hl : ddaLoop r voxelGrid (raySetup ctx r direction voxelGrid) fuel
      (rayStart r voxelGrid (raySetup ctx r direction voxelGrid)) with
  | none => rw [hl] at h; cases h
  | some y =>
    rw [ddaLoop_mono_add r voxelGrid _ fuel _ y hl k]
    rw [hl] at h
    exact h

theorem castRay_mono_add (fuel : Nat) (ctx : RenderContext) (r : SoftwareRenderer)
    (direction : Double3) (voxelGrid : VoxelGrid) (x : Except Fatal Double3)
    (h : castRay fuel ctx r direction voxelGrid = some x) :
    ∀ k, castRay (fuel + k) ctx r direction voxelGrid = some x := by
  intro k
  unfold castRay at h ⊢
  cases ht : traceRay fuel ctx r direction voxelGrid with
  | none => rw [ht] at h; cases h
  | some y =>
    rw [traceRay_mono_add fuel ctx r direction voxelGrid y ht k]
    rw [ht] at h
    exact h

theorem deltaDist_along_x (ctx : RenderContext) (a : ℚ) (ha : a ≠ 0) :
    (deltaDistOf ctx ⟨Dbl.fin a, Dbl.fin 0, Dbl.fin 0⟩).y = Dbl.nan ∧
    (deltaDistOf ctx ⟨Dbl.fin a, Dbl.fin 0, Dbl.fin 0⟩).z = Dbl.nan := by
  have h1 : (Dbl.fin a * Dbl.fin a) / (Dbl.fin 0 * Dbl.fin 0) = Dbl.posInf := by
    show Dbl.div (Dbl.fin (a * a)) (Dbl.fin (0 * 0)) = Dbl.posInf
    have : 0 < a * a := mul_self_pos.2 ha
    simp [Dbl.div, ha, this]
  have h2 : (Dbl.fin 0 * Dbl.fin 0) / (Dbl.fin 0 * Dbl.fin 0) = Dbl.nan := by
    show Dbl.div (Dbl.fin (0 * 0)) (Dbl.fin (0 * 0)) = Dbl.nan
    simp [Dbl.div]
  constructor
  · show Dbl.sqrt ctx.sqrt (Dbl.fin 1 + (Dbl.fin a * Dbl.fin a) / (Dbl.fin 0 * Dbl.fin 0)
      + (Dbl.fin 0 * Dbl.fin 0) / (Dbl.fin 0 * Dbl.fin 0)) = Dbl.nan
    rw [h1, h2]
    rfl
  · show Dbl.sqrt ctx.sqrt (Dbl.fin 1 + (Dbl.fin a * Dbl.fin a) / (Dbl.fin 0 * Dbl.fin 0)
      + (Dbl.fin 0 * Dbl.fin 0) / (Dbl.fin 0 * Dbl.fin 0)) = Dbl.nan
    rw [h1, h2]
    rfl

/-- C22: for every direction along the X axis, `(a, 0, 0)` with `a` non-zero, the delta
distances of the two zero components are not numbers (`1 + a² / 0 + 0 / 0`), and so are
their initial side distances, whatever the state of the renderer and the grid; the
comparisons of the axis choice are then all false, and the first step of the loop goes
along Z, an axis whose direction component is zero. -/
theorem two_zero_components_give_nan_and_step_along_z (ctx : RenderContext)
    (r : SoftwareRenderer) (voxelGrid : VoxelGrid) (a : ℚ) (ha : a ≠ 0) :
    (raySetup ctx r ⟨Dbl.fin a, Dbl.fin 0, Dbl.fin 0⟩ voxelGrid).deltaDist.y = Dbl.nan ∧
    (raySetup ctx r ⟨Dbl.fin a, Dbl.fin 0, Dbl.fin 0⟩ voxelGrid).deltaDist.z = Dbl.nan ∧
    (raySetup ctx r ⟨Dbl.fin a, Dbl.fin 0, Dbl.fin 0⟩ voxelGrid).initialSideDist.y
      = Dbl.nan ∧
    (raySetup ctx r ⟨Dbl.fin a, Dbl.fin 0, Dbl.fin 0⟩ voxelGrid).initialSideDist.z
      = Dbl.nan ∧
    (advance voxelGrid (raySetup ctx r ⟨Dbl.fin a, Dbl.fin 0, Dbl.fin 0⟩ voxelGrid)
      (rayStart r voxelGrid
        (raySetup ctx r ⟨Dbl.fin a, Dbl.fin 0, Dbl.fin 0⟩ voxelGrid))).axis = Axis.Z ∧
    (advance voxelGrid (raySetup ctx r ⟨Dbl.fin a, Dbl.fin 0, Dbl.fin 0⟩ voxelGrid)
      (rayStart r voxelGrid
        (raySetup ctx r ⟨Dbl.fin a, Dbl.fin 0, Dbl.fin 0⟩ voxelGrid))).cell
      = { r.startCell with z := r.startCell.z + 1 } := by
  obtain ⟨hy, hz⟩ := deltaDist_along_x ctx a ha
  have hdy : (raySetup ctx r ⟨Dbl.fin a, Dbl.fin 0, Dbl.fin 0⟩ voxelGrid).deltaDist.y
      = Dbl.nan := hy
  have hdz : (raySetup ctx r ⟨Dbl.fin a, Dbl.fin 0, Dbl.fin 0⟩ voxelGrid).deltaDist.z
      = Dbl.nan := hz
  have hsy : (raySetup ctx r ⟨Dbl.fin a, Dbl.fin 0, Dbl.fin 0⟩ voxelGrid).initialSideDist.y
      = Dbl.nan := by
    simp only [raySetup, hy]
    split <;> exact Dbl.mul_nan _
  have hsz : (raySetup ctx r ⟨Dbl.fin a, Dbl.fin 0, Dbl.fin 0⟩ voxelGrid).initialSideDist.z
      = Dbl.nan := by
    simp only [raySetup, hz]
    split <;> exact Dbl.mul_nan _
  have hstep : (raySetup ctx r ⟨Dbl.fin a, Dbl.fin 0, Dbl.fin 0⟩ voxelGrid).step.z = 1 := by
    simp [raySetup, Dbl.ge]
  refine ⟨hdy, hdz, hsy, hsz, ?_, ?_⟩
  · simp only [advance, rayStart, hsy, hsz, Dbl.lt_nan, Dbl.nan_lt, Bool.and_false]
    rfl
  · simp only [advance, rayStart, hsy, hsz, Dbl.lt_nan, Dbl.nan_lt, Bool.and_false, hstep]
    rfl

theorem two_zero_components_give_nan_and_step_along_z_witness :
    (raySetup sampleRenderContext (sampleRenderer sampleEye (Dbl.fin 10) [sampleTexture])
      ⟨Dbl.fin 1, Dbl.fin 0, Dbl.fin 0⟩ sampleRayGrid).deltaDist.y = Dbl.nan ∧
    (advance sampleRayGrid
      (raySetup sampleRenderContext (sampleRenderer sampleEye (Dbl.fin 10) [sampleTexture])
        ⟨Dbl.fin 1, Dbl.fin 0, Dbl.fin 0⟩ sampleRayGrid)
      (rayStart (sampleRenderer sampleEye (Dbl.fin 10) [sampleTexture]) sampleRayGrid
        (raySetup sampleRenderContext
          (sampleRenderer sampleEye (Dbl.fin 10) [sampleTexture])
          ⟨Dbl.fin 1, Dbl.fin 0, Dbl.fin 0⟩ sampleRayGrid))).axis = Axis.Z := by
  obtain ⟨h1, _, _, _, h5, _⟩ :=
    two_zero_components_give_nan_and_step_along_z sampleRenderContext
      (sampleRenderer sampleEye (Dbl.fin 10) [sampleTexture]) sampleRayGrid 1 (by decide)
  exact ⟨h1, h5⟩

/-- What holds of the claim C22: with exactly one zero component, here `(a, b, 0)` with
`a` and `b` non-zero, the delta distance of the zero component is `+infinity` and the
other two are finite. -/
theorem deltaDist_one_zero_component (ctx : RenderContext) (a b : ℚ) (ha : a ≠ 0)
    (hb : b ≠ 0) :
    (deltaDistOf ctx ⟨Dbl.fin a, Dbl.fin b, Dbl.fin 0⟩).z = Dbl.posInf ∧
    (∃ q, (deltaDistOf ctx ⟨Dbl.fin a, Dbl.fin b, Dbl.fin 0⟩).x = Dbl.fin q) ∧
    ∃ q, (deltaDistOf ctx ⟨Dbl.fin a, Dbl.fin b, Dbl.fin 0⟩).y = Dbl.fin q := by
  have haa : 0 < a * a := mul_self_pos.2 ha
  have hbb : 0 < b * b := mul_self_pos.2 hb
  refine ⟨?_, ?_, ?_⟩
  · show Dbl.sqrt ctx.sqrt (Dbl.add (Dbl.add (Dbl.fin 1)
      (Dbl.div (Dbl.fin (a * a)) (Dbl.fin (0 * 0))))
      (Dbl.div (Dbl.fin (b * b)) (Dbl.fin (0 * 0)))) = Dbl.posInf
    simp [Dbl.div, Dbl.add, Dbl.sqrt, ha, hb, haa, hbb]
  · refine ⟨ctx.sqrt (1 + b * b / (a * a) + 0 * 0 / (a * a)), ?_⟩
    show Dbl.sqrt ctx.sqrt (Dbl.add (Dbl.add (Dbl.fin 1)
      (Dbl.div (Dbl.fin (b * b)) (Dbl.fin (a * a))))
      (Dbl.div (Dbl.fin (0 * 0)) (Dbl.fin (a * a)))) = _
    have h0 : ¬ (1 + b * b / (a * a) + 0 * 0 / (a * a) < 0) := by
      have : 0 < b * b / (a * a) := div_pos hbb haa
      simp only [mul_zero, zero_div, add_zero, not_lt]
      linarith
    simp only [Dbl.div, ne_of_gt haa, if_false, Dbl.add, Dbl.sqrt, h0]
  · refine ⟨ctx.sqrt (1 + a * a / (b * b) + 0 * 0 / (b * b)), ?_⟩
    show Dbl.sqrt ctx.sqrt (Dbl.add (Dbl.add (Dbl.fin 1)
      (Dbl.div (Dbl.fin (a * a)) (Dbl.fin (b * b))))
      (Dbl.div (Dbl.fin (0 * 0)) (Dbl.fin (b * b)))) = _
    have h0 : ¬ (1 + a * a / (b * b) + 0 * 0 / (b * b) < 0) := by
      have : 0 < a * a / (b * b) := div_pos haa hbb
      simp only [mul_zero, zero_div, add_zero, not_lt]
      linarith
    simp only [Dbl.div, ne_of_gt hbb, if_false, Dbl.add, Dbl.sqrt, h0]

/-- An axis whose side distance is `+infinity` is not chosen while the side distances of
the other two axes are finite. -/
theorem advance_skips_infinite_side (voxelGrid : VoxelGrid) (c : RaySetup) (s : RayState)
    (x y : ℚ) (hx : s.sideDist.x = Dbl.fin x) (hy : s.sideDist.y = Dbl.fin y)
    (hz : s.sideDist.z = Dbl.posInf) :
    (advance voxelGrid c s).axis ≠ Axis.Z := by
  simp only [advance, hx, hy, hz, Dbl.lt]
  by_cases h : x < y
  · simp [h]
  · simp [h]

theorem raySetup_congr (ctx1 ctx2 : RenderContext) (r : SoftwareRenderer)
    (direction : Double3) (voxelGrid : VoxelGrid)
    (h : deltaDistOf ctx1 direction = deltaDistOf ctx2 direction) :
    raySetup ctx1 r direction voxelGrid = raySetup ctx2 r direction voxelGrid := by
  simp only [raySetup, h]

theorem traceRay_congr (fuel : Nat) (ctx1 ctx2 : RenderContext) (r : SoftwareRenderer)
    (direction : Double3) (voxelGrid : VoxelGrid)
    (h : deltaDistOf ctx1 direction = deltaDistOf ctx2 direction) :
    traceRay fuel ctx1 r direction voxelGrid = traceRay fuel ctx2 r direction voxelGrid := by
  simp only [traceRay, raySetup_congr ctx1 ctx2 r direction voxelGrid h]

theorem deltaDist_unit_x (ctx : RenderContext) (hs : ctx.sqrt 1 = 1) :
    deltaDistOf ctx ⟨Dbl.fin 1, Dbl.fin 0, Dbl.fin 0⟩ = ⟨Dbl.fin 1, Dbl.nan, Dbl.nan⟩ := by
  obtain ⟨hy, hz⟩ := deltaDist_along_x ctx 1 one_ne_zero
  have hx : (deltaDistOf ctx ⟨Dbl.fin 1, Dbl.fin 0, Dbl.fin 0⟩).x = Dbl.fin 1 := by
    show Dbl.sqrt ctx.sqrt (Dbl.add (Dbl.add (Dbl.fin 1)
      (Dbl.div (Dbl.fin (0 * 0)) (Dbl.fin (1 * 1))))
      (Dbl.div (Dbl.fin (0 * 0)) (Dbl.fin (1 * 1)))) = Dbl.fin 1
    simp [Dbl.div, Dbl.add, Dbl.sqrt, hs]
  cases hd : deltaDistOf ctx ⟨Dbl.fin 1, Dbl.fin 0, Dbl.fin 0⟩ with
  | mk x y z =>
    rw [hd] at hx hy hz
    simp only [] at hx hy hz
    rw [hx, hy, hz]

theorem deltaDist_unit_y (ctx : RenderContext) (hs : ctx.sqrt 1 = 1) :
    deltaDistOf ctx ⟨Dbl.fin 0, Dbl.fin 1, Dbl.fin 0⟩ = ⟨Dbl.nan, Dbl.fin 1, Dbl.nan⟩ := by
  show (⟨Dbl.sqrt ctx.sqrt (Dbl.add (Dbl.add (Dbl.fin 1)
      (Dbl.div (Dbl.fin (1 * 1)) (Dbl.fin (0 * 0))))
      (Dbl.div (Dbl.fin (0 * 0)) (Dbl.fin (0 * 0)))),
    Dbl.sqrt ctx.sqrt (Dbl.add (Dbl.add (Dbl.fin 1)
      (Dbl.div (Dbl.fin (0 * 0)) (Dbl.fin (1 * 1))))
      (Dbl.div (Dbl.fin (0 * 0)) (Dbl.fin (1 * 1)))),
    Dbl.sqrt ctx.sqrt (Dbl.add (Dbl.add (Dbl.fin 1)
      (Dbl.div (Dbl.fin (0 * 0)) (Dbl.fin (0 * 0))))
      (Dbl.div (Dbl.fin (1 * 1)) (Dbl.fin (0 * 0))))⟩ : Double3) = _
  simp [Dbl.div, Dbl.add, Dbl.sqrt, hs]

theorem sampleRenderContext_sqrt_one : sampleRenderContext.sqrt 1 = 1 := by
  with_unfolding_all rfl

/-- C23: the renderer stands at the eye (0.5, 0.5, 0.5) with the start cell that `render`
sets for it, the view distance is 10, and the grid of 3 by 1 by 3 unit voxels is air
but for the solid voxel at `(1, 0, 0)`. For the direction (1, 0, 0), with a square root
that is right on 1, `castRay` runs three passes of its loop, all along Z, leaves the grid
at the cell `(0, 0, 3)` with no hit and an infinite distance, and returns the fog colour:
the voxel at `x = 1` is not hit, on no face and at no distance. -/
theorem axis_aligned_ray_misses_the_solid_voxel (ctx : RenderContext) (fuel : Nat)
    (hs : ctx.sqrt 1 = 1) :
    renderStartCell (sampleRenderer sampleEye (Dbl.fin 10) [sampleTexture]) sampleRayGrid
      = .ok (sampleRenderer sampleEye (Dbl.fin 10) [sampleTexture]) ∧
    sampleRayGrid.voxelAt (1 + 0 * sampleRayGrid.width
      + 0 * sampleRayGrid.width * sampleRayGrid.height) = .ok 1 ∧
    traceRay (3 + fuel) ctx (sampleRenderer sampleEye (Dbl.fin 10) [sampleTexture])
      ⟨Dbl.fin 1, Dbl.fin 0, Dbl.fin 0⟩ sampleRayGrid
      = some (.ok ⟨0, ⟨0, 0, 3⟩, Axis.Z, false, Dbl.posInf⟩) ∧
    castRay (3 + fuel) ctx (sampleRenderer sampleEye (Dbl.fin 10) [sampleTexture])
      ⟨Dbl.fin 1, Dbl.fin 0, Dbl.fin 0⟩ sampleRayGrid = some (.ok fog) := by
  have hd : deltaDistOf ctx ⟨Dbl.fin 1, Dbl.fin 0, Dbl.fin 0⟩
      = deltaDistOf sampleRenderContext ⟨Dbl.fin 1, Dbl.fin 0, Dbl.fin 0⟩ := by
    rw [deltaDist_unit_x ctx hs, deltaDist_unit_x sampleRenderContext sampleRenderContext_sqrt_one]
  have h3 : traceRay 3 sampleRenderContext
      (sampleRenderer sampleEye (Dbl.fin 10) [sampleTexture])
      ⟨Dbl.fin 1, Dbl.fin 0, Dbl.fin 0⟩ sampleRayGrid
      = some (.ok ⟨0, ⟨0, 0, 3⟩, Axis.Z, false, Dbl.posInf⟩) := by
    with_unfolding_all rfl
  have ht : traceRay (3 + fuel) ctx (sampleRenderer sampleEye (Dbl.fin 10) [sampleTexture])
      ⟨Dbl.fin 1, Dbl.fin 0, Dbl.fin 0⟩ sampleRayGrid
      = some (.ok ⟨0, ⟨0, 0, 3⟩, Axis.Z, false, Dbl.posInf⟩) := by
    rw [traceRay_congr _ ctx sampleRenderContext _ _ _ hd]
    exact traceRay_mono_add 3 _ _ _ _ _ h3 fuel
  refine ⟨by with_unfolding_all rfl, by with_unfolding_all rfl, ht, ?_⟩
  unfold castRay
  rw [ht]
  simp [shadeRay]

theorem axis_aligned_ray_misses_the_solid_voxel_witness :
    sampleRenderContext.sqrt 1 = 1 ∧
    castRay (3 + 0) sampleRenderContext (sampleRenderer sampleEye (Dbl.fin 10) [sampleTexture])
      ⟨Dbl.fin 1, Dbl.fin 0, Dbl.fin 0⟩ sampleRayGrid = some (.ok fog) :=
  ⟨sampleRenderContext_sqrt_one,
    (axis_aligned_ray_misses_the_solid_voxel sampleRenderContext 0
      sampleRenderContext_sqrt_one).2.2.2⟩

/-- A ray that is not along an axis: from the same eye, the direction (0.8, 0, 0.6) hits
the solid voxel at `(1, 0, 0)` on an X face at the distance 0.5 / 0.8. -/
theorem tilted_ray_hits_the_solid_voxel :
    traceRay 2 sampleRenderContext (sampleRenderer sampleEye (Dbl.fin 10) [sampleTexture])
      ⟨Dbl.fin (4 / 5), Dbl.fin 0, Dbl.fin (3 / 5)⟩ sampleRayGrid
      = some (.ok ⟨1, ⟨1, 0, 0⟩, Axis.X, false, Dbl.fin (5 / 8)⟩) := by
  with_unfolding_all rfl

theorem badTextureCoordinates_fin (u v : ℚ) :
    badTextureCoordinates (Dbl.fin u) (Dbl.fin v) = true
      ↔ ¬ (0 ≤ u ∧ u < 1 ∧ 0 ≤ v ∧ v < 1) := by
  simp only [badTextureCoordinates, Dbl.lt, Dbl.ge, Bool.or_eq_true, decide_eq_true_eq]
  constructor
  · rintro (((h | h) | h) | h) ⟨h1, h2, h3, h4⟩
    · exact absurd h1 (not_le.2 h)
    · exact absurd h2 (not_lt.2 h)
    · exact absurd h3 (not_le.2 h)
    · exact absurd h4 (not_lt.2 h)
  · intro h
    by_contra hc
    push_neg at hc
    exact h ⟨hc.1.1.1, hc.1.1.2, hc.1.2, hc.2⟩

theorem truncQ_of_nonneg (q : ℚ) (h : 0 ≤ q) : Dbl.truncQ q = Int.floor q := by
  simp [Dbl.truncQ, h]

/-- Texture coordinates that are finite and in [0, 1) index a texel of a texture that
is not empty: the index is at least 0 and below `width * height`. -/
theorem texelIndex_in_range (texture : TextureData) (u v : ℚ)
    (hw : 0 < texture.width) (hh : 0 < texture.height)
    (hw31 : texture.width ≤ 2147483647) (hh31 : texture.height ≤ 2147483647)
    (hu0 : 0 ≤ u) (hu1 : u < 1) (hv0 : 0 ≤ v) (hv1 : v < 1) :
    ∃ index, texelIndex texture (Dbl.fin u) (Dbl.fin v) = .ok index ∧
      0 ≤ index ∧ index < texture.width * texture.height := by
  have hwq : (0 : ℚ) < (texture.width : ℚ) := by exact_mod_cast hw
  have hhq : (0 : ℚ) < (texture.height : ℚ) := by exact_mod_cast hh
  have hx0 : 0 ≤ u * (texture.width : ℚ) := mul_nonneg hu0 (le_of_lt hwq)
  have hy0 : 0 ≤ v * (texture.height : ℚ) := mul_nonneg hv0 (le_of_lt hhq)
  have hxf0 : 0 ≤ Int.floor (u * (texture.width : ℚ)) := Int.floor_nonneg.2 hx0
  have hyf0 : 0 ≤ Int.floor (v * (texture.height : ℚ)) := Int.floor_nonneg.2 hy0
  have hxf1 : Int.floor (u * (texture.width : ℚ)) < texture.width := by
    rw [Int.floor_lt]
    calc u * (texture.width : ℚ) < 1 * (texture.width : ℚ) :=
          mul_lt_mul_of_pos_right hu1 hwq
      _ = (texture.width : ℚ) := one_mul _
  have hyf1 : Int.floor (v * (texture.height : ℚ)) < texture.height := by
    rw [Int.floor_lt]
    calc v * (texture.height : ℚ) < 1 * (texture.height : ℚ) :=
          mul_lt_mul_of_pos_right hv1 hhq
      _ = (texture.height : ℚ) := one_mul _
  have ex : (Dbl.fin u * Dbl.ofInt texture.width).toInt
      = .ok (Int.floor (u * (texture.width : ℚ))) := by
    show (Dbl.fin (u * (texture.width : ℚ))).toInt = _
    simp only [Dbl.toInt, truncQ_of_nonneg _ hx0]
    rw [if_pos ⟨by omega, by omega⟩]
  have ey : (Dbl.fin v * Dbl.ofInt texture.height).toInt
      = .ok (Int.floor (v * (texture.height : ℚ))) := by
    show (Dbl.fin (v * (texture.height : ℚ))).toInt = _
    simp only [Dbl.toInt, truncQ_of_nonneg _ hy0]
    rw [if_pos ⟨by omega, by omega⟩]
  refine ⟨Int.floor (u * (texture.width : ℚ))
    + Int.floor (v * (texture.height : ℚ)) * texture.width,
    by simp only [texelIndex, ex, ey], ?_, ?_⟩
  · positivity
  · have h1 : Int.floor (v * (texture.height : ℚ)) + 1 ≤ texture.height := hyf1
    nlinarith [mul_le_mul_of_nonneg_right h1 (le_of_lt hw)]

theorem texelIndex_in_range_witness :
    ∃ index, texelIndex sampleTexture (Dbl.fin (1 / 2)) (Dbl.fin (1 / 2)) = .ok index ∧
      0 ≤ index ∧ index < sampleTexture.width * sampleTexture.height :=
  texelIndex_in_range sampleTexture (1 / 2) (1 / 2) (by decide) (by decide) (by decide)
    (by decide) (by norm_num) (by norm_num) (by norm_num) (by norm_num)

/-- C24: the renderer stands at the eye (0.5, 0.5, 0.5) with the start cell that `render`
sets for it, the view distance is 10, and the grid of 1 by 1 by 2 unit voxels has its
solid voxel at `(0, 0, 1)`. For the direction (0, 1, 0), with a square root that is right
on 1, `castRay` hits that voxel on a Z face at an infinite distance; the texture
coordinates `u` and `v` are both not numbers, which are not in [0, 1), yet the test for
bad coordinates is false on them, so the diagnostic colour is not returned; the texture
is looked up and the conversion of `u * width` to `int`, which the language leaves
undefined, is reached: no texel index within the texture is computed. -/
theorem nan_texture_coordinates_pass_the_guard (ctx : RenderContext) (fuel : Nat)
    (hs : ctx.sqrt 1 = 1) :
    renderStartCell (sampleRenderer sampleEye (Dbl.fin 10) [sampleTexture]) sampleDeepGrid
      = .ok (sampleRenderer sampleEye (Dbl.fin 10) [sampleTexture]) ∧
    traceRay (2 + fuel) ctx (sampleRenderer sampleEye (Dbl.fin 10) [sampleTexture])
      ⟨Dbl.fin 0, Dbl.fin 1, Dbl.fin 0⟩ sampleDeepGrid
      = some (.ok ⟨1, ⟨0, 0, 1⟩, Axis.Z, false, Dbl.posInf⟩) ∧
    textureCoordinates (sampleRenderer sampleEye (Dbl.fin 10) [sampleTexture])
      ⟨Dbl.fin 0, Dbl.fin 1, Dbl.fin 0⟩
      (raySetup ctx (sampleRenderer sampleEye (Dbl.fin 10) [sampleTexture])
        ⟨Dbl.fin 0, Dbl.fin 1, Dbl.fin 0⟩ sampleDeepGrid)
      ⟨1, ⟨0, 0, 1⟩, Axis.Z, false, Dbl.posInf⟩ = (Dbl.nan, Dbl.nan) ∧
    badTextureCoordinates Dbl.nan Dbl.nan = false ∧
    texelIndex sampleTexture Dbl.nan Dbl.nan = .error Fatal.floatToInt ∧
    castRay (2 + fuel) ctx (sampleRenderer sampleEye (Dbl.fin 10) [sampleTexture])
      ⟨Dbl.fin 0, Dbl.fin 1, Dbl.fin 0⟩ sampleDeepGrid
      = some (.error Fatal.floatToInt) := by
  have hd : deltaDistOf ctx ⟨Dbl.fin 0, Dbl.fin 1, Dbl.fin 0⟩
      = deltaDistOf sampleRenderContext ⟨Dbl.fin 0, Dbl.fin 1, Dbl.fin 0⟩ := by
    rw [deltaDist_unit_y ctx hs, deltaDist_unit_y sampleRenderContext
      sampleRenderContext_sqrt_one]
  have hc := raySetup_congr ctx sampleRenderContext
    (sampleRenderer sampleEye (Dbl.fin 10) [sampleTexture])
    ⟨Dbl.fin 0, Dbl.fin 1, Dbl.fin 0⟩ sampleDeepGrid hd
  have h2 : traceRay 2 sampleRenderContext
      (sampleRenderer sampleEye (Dbl.fin 10) [sampleTexture])
      ⟨Dbl.fin 0, Dbl.fin 1, Dbl.fin 0⟩ sampleDeepGrid
      = some (.ok ⟨1, ⟨0, 0, 1⟩, Axis.Z, false, Dbl.posInf⟩) := by
    with_unfolding_all rfl
  have ht : traceRay (2 + fuel) ctx (sampleRenderer sampleEye (Dbl.fin 10) [sampleTexture])
      ⟨Dbl.fin 0, Dbl.fin 1, Dbl.fin 0⟩ sampleDeepGrid
      = some (.ok ⟨1, ⟨0, 0, 1⟩, Axis.Z, false, Dbl.posInf⟩) := by
    rw [traceRay_congr _ ctx sampleRenderContext _ _ _ hd]
    exact traceRay_mono_add 2 _ _ _ _ _ h2 fuel
  have huv : textureCoordinates (sampleRenderer sampleEye (Dbl.fin 10) [sampleTexture])
      ⟨Dbl.fin 0, Dbl.fin 1, Dbl.fin 0⟩
      (raySetup ctx (sampleRenderer sampleEye (Dbl.fin 10) [sampleTexture])
        ⟨Dbl.fin 0, Dbl.fin 1, Dbl.fin 0⟩ sampleDeepGrid)
      ⟨1, ⟨0, 0, 1⟩, Axis.Z, false, Dbl.posInf⟩ = (Dbl.nan, Dbl.nan) := by
    rw [hc]
    with_unfolding_all rfl
  have hbad : badTextureCoordinates Dbl.nan Dbl.nan = false := rfl
  have hidx : texelIndex sampleTexture Dbl.nan Dbl.nan = .error Fatal.floatToInt := rfl
  refine ⟨by with_unfolding_all rfl, ht, huv, hbad, hidx, ?_⟩
  unfold castRay
  rw [ht]
  simp only [shadeRay, huv, hbad]
  with_unfolding_all rfl

theorem nan_texture_coordinates_pass_the_guard_witness :
    sampleRenderContext.sqrt 1 = 1 ∧
    castRay (2 + 0) sampleRenderContext (sampleRenderer sampleEye (Dbl.fin 10) [sampleTexture])
      ⟨Dbl.fin 0, Dbl.fin 1, Dbl.fin 0⟩ sampleDeepGrid
      = some (.error Fatal.floatToInt) :=
  ⟨sampleRenderContext_sqrt_one,
    (nan_texture_coordinates_pass_the_guard sampleRenderContext 0
      sampleRenderContext_sqrt_one).2.2.2.2.2⟩

theorem double_normal_range (x : ℚ) (h1 : 1 / 2 ^ 32 ≤ x) (h2 : x ≤ 2 ^ 32) :
    (2 : ℚ) ^ (-1022 : Int) ≤ |x| ∧ |x| < (2 : ℚ) ^ (1023 : Int) := by
  have hx : 0 < x := lt_of_lt_of_le (by norm_num) h1
  rw [abs_of_pos hx]
  have e1 : (2 : ℚ) ^ (-32 : Int) = 1 / 2 ^ 32 := by norm_num
  have e2 : (2 : ℚ) ^ (32 : Int) = 2 ^ 32 := by norm_num
  constructor
  · exact le_trans (two_zpow_le _ _ (by norm_num)) (le_trans (le_of_eq e1) h1)
  · exact lt_of_le_of_lt (le_trans h2 (le_of_eq e2.symm)) (two_zpow_lt _ _ (by norm_num))

theorem zero_isDouble : Dbl.IsDouble 0 :=
  ⟨0, 0, by norm_num, by norm_num, by norm_num, by simp⟩

theorem floor_close (a b : ℚ) (h : |a - b| < 1) : |Int.floor a - Int.floor b| ≤ 1 := by
  rw [abs_lt] at h
  have h1 := Int.floor_le a
  have h2 := Int.lt_floor_add_one a
  have h3 := Int.floor_le b
  have h4 := Int.lt_floor_add_one b
  have h5 : ((Int.floor a : Int) : ℚ) < ((Int.floor b + 2 : Int) : ℚ) := by
    push_cast
    linarith
  have h6 : ((Int.floor b : Int) : ℚ) < ((Int.floor a + 2 : Int) : ℚ) := by
    push_cast
    linarith
  have h7 : Int.floor a < Int.floor b + 2 := by exact_mod_cast h5
  have h8 : Int.floor b < Int.floor a + 2 := by exact_mod_cast h6
  rw [abs_le]
  constructor <;> omega

theorem blockSize_spec (fl : ℚ → Dbl) (hfl : Dbl.IsRounding fl) (H N : Int) (hH : 0 ≤ H)
    (hH31 : H ≤ 2147483647) (hN : 1 ≤ N) (hN31 : N ≤ 2147483647) :
    ∃ β : ℚ, (Dbl.ofInt H / Dbl.ofInt N).rounded fl = Dbl.fin β ∧
      |β - (H : ℚ) / (N : ℚ)| ≤ (H : ℚ) / (N : ℚ) / 2 ^ 53 ∧
      (β = 0 ∨ 1 / 2 ^ 32 ≤ β) := by
  obtain ⟨-, -, hexact, -, herr⟩ := hfl
  have hNq : (0 : ℚ) < (N : ℚ) := by exact_mod_cast (by omega : (0 : Int) < N)
  have hN31q : (N : ℚ) ≤ 2147483647 := by exact_mod_cast hN31
  have hH31q : (H : ℚ) ≤ 2147483647 := by exact_mod_cast hH31
  have hdiv : Dbl.ofInt H / Dbl.ofInt N = Dbl.fin ((H : ℚ) / (N : ℚ)) := by
    show Dbl.div (Dbl.fin (H : ℚ)) (Dbl.fin (N : ℚ)) = _
    simp [Dbl.div, ne_of_gt hNq]
  rw [hdiv]
  show ∃ β : ℚ, fl ((H : ℚ) / (N : ℚ)) = Dbl.fin β ∧ _
  rcases eq_or_lt_of_le hH with h0 | hpos
  · refine ⟨0, ?_, ?_, Or.inl rfl⟩
    · rw [← h0]
      simp only [Int.cast_zero, zero_div]
      exact hexact 0 zero_isDouble
    · rw [← h0]
      simp
  · have hHq : (1 : ℚ) ≤ (H : ℚ) := by exact_mod_cast (by omega : (1 : Int) ≤ H)
    have hq1 : (1 : ℚ) / 2 ^ 31 ≤ (H : ℚ) / (N : ℚ) := by
      rw [div_le_div_iff₀ (by norm_num) hNq]
      nlinarith
    have hN1q : (1 : ℚ) ≤ (N : ℚ) := by exact_mod_cast hN
    have hq2 : (H : ℚ) / (N : ℚ) ≤ 2 ^ 31 := by
      rw [div_le_iff₀ hNq]
      have : (2 : ℚ) ^ 31 * 1 ≤ 2 ^ 31 * (N : ℚ) :=
        mul_le_mul_of_nonneg_left hN1q (by positivity)
      linarith
    have hq0 : (0 : ℚ) < (H : ℚ) / (N : ℚ) := lt_of_lt_of_le (by norm_num) hq1
    obtain ⟨hr1, hr2⟩ := double_normal_range ((H : ℚ) / (N : ℚ))
      (le_trans (by norm_num) hq1) (le_trans hq2 (by norm_num))
    obtain ⟨v, hv, hve⟩ := herr _ hr1 hr2
    rw [abs_of_pos hq0] at hve
    refine ⟨v, hv, hve, Or.inr ?_⟩
    rw [abs_le] at hve
    have h53 : (H : ℚ) / (N : ℚ) / 2 ^ 53 ≤ (H : ℚ) / (N : ℚ) / 2 := by
      rw [div_le_div_iff₀ (by norm_num) (by norm_num)]
      nlinarith
    have : (1 : ℚ) / 2 ^ 32 = 1 / 2 ^ 31 / 2 := by norm_num
    linarith [hve.1]

theorem band_product_spec (fl : ℚ → Dbl) (hfl : Dbl.IsRounding fl) (H N : Int) (hH : 0 ≤ H)
    (hH31 : H ≤ 2147483647) (hN : 1 ≤ N) (β : ℚ)
    (hβ : |β - (H : ℚ) / (N : ℚ)| ≤ (H : ℚ) / (N : ℚ) / 2 ^ 53)
    (hβ2 : β = 0 ∨ 1 / 2 ^ 32 ≤ β) (i : Int) (hi0 : 0 ≤ i) (hi : i ≤ N) :
    ∃ p : ℚ, fl ((i : ℚ) * β) = Dbl.fin p ∧ 0 ≤ p ∧
      |p - (i : ℚ) * (H : ℚ) / (N : ℚ)| ≤ 3 * (H : ℚ) / 2 ^ 53 := by
  obtain ⟨-, -, hexact, -, herr⟩ := hfl
  have hNq : (0 : ℚ) < (N : ℚ) := by exact_mod_cast (by omega : (0 : Int) < N)
  have hHq : (0 : ℚ) ≤ (H : ℚ) := by exact_mod_cast hH
  have hH31q : (H : ℚ) ≤ 2147483647 := by exact_mod_cast hH31
  have hiq : (0 : ℚ) ≤ (i : ℚ) := by exact_mod_cast hi0
  have hiN : (i : ℚ) ≤ (N : ℚ) := by exact_mod_cast hi
  have hq0 : (0 : ℚ) ≤ (H : ℚ) / (N : ℚ) := div_nonneg hHq (le_of_lt hNq)
  have hNqe : (N : ℚ) * ((H : ℚ) / (N : ℚ)) = (H : ℚ) := by
    field_simp
  have hβ0 : 0 ≤ β := by
    rcases hβ2 with h | h
    · rw [h]
    · exact le_trans (by norm_num) h
  have h3H : (0 : ℚ) ≤ 3 * (H : ℚ) / 2 ^ 53 := by positivity
  rw [abs_le] at hβ
  have hiq_le : (i : ℚ) * ((H : ℚ) / (N : ℚ)) ≤ (H : ℚ) := by
    exact le_trans (mul_le_mul_of_nonneg_right hiN hq0) (le_of_eq hNqe)
  have hiH : (i : ℚ) * (H : ℚ) / (N : ℚ) = (i : ℚ) * ((H : ℚ) / (N : ℚ)) := by ring
  by_cases hz : (i : ℚ) * β = 0
  · refine ⟨0, ?_, le_refl 0, ?_⟩
    · rw [hz]
      exact hexact 0 zero_isDouble
    · rw [zero_sub, abs_neg, hiH, abs_of_nonneg (mul_nonneg hiq hq0)]
      rcases mul_eq_zero.1 hz with h | h
      · rw [h, zero_mul]
        exact h3H
      · rw [h] at hβ
        have hqz : (H : ℚ) / (N : ℚ) ≤ 0 := by nlinarith [hβ.1]
        have : (H : ℚ) / (N : ℚ) = 0 := le_antisymm hqz hq0
        rw [this, mul_zero]
        exact h3H
  · have hi1 : (1 : ℚ) ≤ (i : ℚ) := by
      have : i ≠ 0 := by
        intro h
        apply hz
        rw [h]
        simp
      exact_mod_cast (by omega : (1 : Int) ≤ i)
    have hβ1 : 1 / 2 ^ 32 ≤ β := by
      rcases hβ2 with h | h
      · exact absurd (by rw [h, mul_zero]) hz
      · exact h
    have hlow : 1 / 2 ^ 32 ≤ (i : ℚ) * β := by nlinarith
    have hiβ : (i : ℚ) * β ≤ (i : ℚ) * ((H : ℚ) / (N : ℚ))
        + (i : ℚ) * ((H : ℚ) / (N : ℚ) / 2 ^ 53) := by
      have := mul_le_mul_of_nonneg_left hβ.2 hiq
      linarith
    have hiq53 : (i : ℚ) * ((H : ℚ) / (N : ℚ) / 2 ^ 53) ≤ (H : ℚ) / 2 ^ 53 := by
      have : (i : ℚ) * ((H : ℚ) / (N : ℚ) / 2 ^ 53)
          = (i : ℚ) * ((H : ℚ) / (N : ℚ)) / 2 ^ 53 := by ring
      rw [this]
      exact div_le_div_of_nonneg_right hiq_le (by positivity)
    have hH53 : (H : ℚ) / 2 ^ 53 ≤ (H : ℚ) := by
      rw [div_le_iff₀ (by positivity)]
      nlinarith
    have hup : (i : ℚ) * β ≤ 2 * (H : ℚ) := by linarith
    obtain ⟨hr1, hr2⟩ := double_normal_range ((i : ℚ) * β) hlow (by linarith)
    obtain ⟨p, hp, hpe⟩ := herr _ hr1 hr2
    have hpos : 0 < (i : ℚ) * β := lt_of_lt_of_le (by norm_num) hlow
    rw [abs_of_pos hpos, abs_le] at hpe
    have hpe53 : (i : ℚ) * β / 2 ^ 53 ≤ 2 * (H : ℚ) / 2 ^ 53 :=
      div_le_div_of_nonneg_right hup (by positivity)
    have hpe1 : (i : ℚ) * β / 2 ^ 53 ≤ (i : ℚ) * β := by
      rw [div_le_iff₀ (by positivity)]
      nlinarith
    refine ⟨p, hp, by linarith [hpe.1], ?_⟩
    have hlo : (i : ℚ) * ((H : ℚ) / (N : ℚ)) - (i : ℚ) * ((H : ℚ) / (N : ℚ) / 2 ^ 53)
        ≤ (i : ℚ) * β := by
      have := mul_le_mul_of_nonneg_left hβ.1 hiq
      linarith
    rw [hiH, abs_le]
    have e3 : 3 * (H : ℚ) / 2 ^ 53 = (H : ℚ) / 2 ^ 53 + 2 * (H : ℚ) / 2 ^ 53 := by ring
    constructor
    · linarith [hpe.1]
    · linarith [hpe.2]

theorem round_toInt_nonneg (p : ℚ) (hp : 0 ≤ p) (hle : Int.floor (p + 1 / 2) ≤ 2147483647) :
    (Dbl.fin p).round.toInt = .ok (Int.floor (p + 1 / 2)) := by
  have h0 : 0 ≤ Int.floor (p + 1 / 2) := Int.floor_nonneg.2 (by linarith)
  have h0q : (0 : ℚ) ≤ ((Int.floor (p + 1 / 2) : Int) : ℚ) := by exact_mod_cast h0
  simp only [Dbl.round, hp, if_true, Dbl.toInt, Dbl.truncQ, h0q, Int.floor_intCast]
  rw [if_pos ⟨by omega, hle⟩]

/-- The bounds of the bands as `render` computes them in `double`: a function `S` of the
band index with `S 0 = 0`, `S N = H`, monotone, each value within one of the exactly
rounded share `round(i * H / N)`. -/
theorem band_edges (fl : ℚ → Dbl) (hfl : Dbl.IsRounding fl) (H N : Int) (hH : 0 ≤ H)
    (hH31 : H ≤ 2147483647) (hN : 1 ≤ N) (hN31 : N ≤ 2147483647) :
    ∃ S : Int → Int, S 0 = 0 ∧ S N = H ∧
      (∀ i j : Int, 0 ≤ i → i ≤ j → j ≤ N → S i ≤ S j) ∧
      (∀ i : Int, 0 ≤ i → i ≤ N →
        bandEdge fl H N i = .ok (S i) ∧ |S i - bandStartSpec H N i| ≤ 1) := by
  obtain ⟨β, hblock, hβ, hβ2⟩ := blockSize_spec fl hfl H N hH hH31 hN hN31
  have hβ0 : 0 ≤ β := by
    rcases hβ2 with h | h
    · rw [h]
    · exact le_trans (by norm_num) h
  have hNq : (0 : ℚ) < (N : ℚ) := by exact_mod_cast (by omega : (0 : Int) < N)
  have hHq : (0 : ℚ) ≤ (H : ℚ) := by exact_mod_cast hH
  have hH31q : (H : ℚ) ≤ 2147483647 := by exact_mod_cast hH31
  have hsmall : 3 * (H : ℚ) / 2 ^ 53 < 1 / 2 := by
    rw [div_lt_iff₀ (by positivity)]
    norm_num
    linarith
  have hprod : ∀ i : Int, 0 ≤ i → i ≤ N →
      ∃ p : ℚ, fl ((i : ℚ) * β) = Dbl.fin p ∧ 0 ≤ p ∧
        |p - (i : ℚ) * (H : ℚ) / (N : ℚ)| ≤ 3 * (H : ℚ) / 2 ^ 53 :=
    band_product_spec fl hfl H N hH hH31 hN β hβ hβ2
  have hedge : ∀ i : Int, bandEdge fl H N i = (fl ((i : ℚ) * β)).round.toInt := by
    intro i
    unfold bandEdge
    rw [hblock]
    rfl
  refine ⟨fun i => match fl ((i : ℚ) * β) with
    | Dbl.fin p => Int.floor (p + 1 / 2)
    | _ => 0, ?_, ?_, ?_, ?_⟩
  · obtain ⟨p, hp, hp0, hpe⟩ := hprod 0 (le_refl 0) (by omega)
    simp only [hp]
    simp only [Int.cast_zero, zero_mul, zero_div, sub_zero] at hpe
    rw [abs_le] at hpe
    rw [Int.floor_eq_iff]
    constructor
    · push_cast
      linarith
    · push_cast
      linarith [hpe.2]
  · obtain ⟨p, hp, hp0, hpe⟩ := hprod N (by omega) (le_refl N)
    simp only [hp]
    have : (N : ℚ) * (H : ℚ) / (N : ℚ) = (H : ℚ) := by field_simp
    rw [this, abs_le] at hpe
    rw [Int.floor_eq_iff]
    constructor <;> linarith [hpe.1, hpe.2]
  · intro i j hi0 hij hjN
    obtain ⟨p, hp, hp0, -⟩ := hprod i hi0 (by omega)
    obtain ⟨q, hq, hq0, -⟩ := hprod j (by omega) hjN
    simp only [hp, hq]
    apply Int.floor_le_floor
    have hle : (i : ℚ) * β ≤ (j : ℚ) * β :=
      mul_le_mul_of_nonneg_right (by exact_mod_cast hij) hβ0
    have := hfl.1 _ _ hle
    rw [hp, hq] at this
    simp only [Dbl.lt, decide_eq_false_iff_not, not_lt] at this
    linarith
  · intro i hi0 hiN
    obtain ⟨p, hp, hp0, hpe⟩ := hprod i hi0 hiN
    obtain ⟨pN, hpN, hpN0, hpNe⟩ := hprod N (by omega) (le_refl N)
    simp only [hp]
    have hle : (i : ℚ) * β ≤ (N : ℚ) * β :=
      mul_le_mul_of_nonneg_right (by exact_mod_cast hiN) hβ0
    have hmono := hfl.1 _ _ hle
    rw [hp, hpN] at hmono
    simp only [Dbl.lt, decide_eq_false_iff_not, not_lt] at hmono
    have hNH : (N : ℚ) * (H : ℚ) / (N : ℚ) = (H : ℚ) := by field_simp
    rw [hNH, abs_le] at hpNe
    have hfloorN : Int.floor (pN + 1 / 2) = H := by
      rw [Int.floor_eq_iff]
      constructor <;> linarith [hpNe.1, hpNe.2]
    have hfl_le : Int.floor (p + 1 / 2) ≤ H := by
      rw [← hfloorN]
      exact Int.floor_le_floor (by linarith)
    constructor
    · rw [hedge, hp]
      exact round_toInt_nonneg p hp0 (by omega)
    · unfold bandStartSpec
      apply floor_close
      have : p + 1 / 2 - ((i : ℚ) * (H : ℚ) / (N : ℚ) + 1 / 2)
          = p - (i : ℚ) * (H : ℚ) / (N : ℚ) := by ring
      rw [this]
      exact lt_of_le_of_lt hpe (by linarith)

theorem renderBand_eq (fl : ℚ → Dbl) (r : SoftwareRenderer) (S : Int → Int)
    (hS0 : S 0 = 0) (hSN : S r.renderThreadCount = r.height)
    (hmono : ∀ i j : Int, 0 ≤ i → i ≤ j → j ≤ r.renderThreadCount → S i ≤ S j)
    (hS : ∀ i : Int, 0 ≤ i → i ≤ r.renderThreadCount →
      bandEdge fl r.height r.renderThreadCount i = .ok (S i))
    (i : Int) (hi0 : 0 ≤ i) (hi : i < r.renderThreadCount) :
    renderBand fl r i = .ok (S i, S (i + 1)) := by
  have h1 := hS i hi0 (by omega)
  have h2 := hS (i + 1) (by omega) (by omega)
  have ha : 0 ≤ S i := by
    rw [← hS0]
    exact hmono 0 i (le_refl 0) hi0 (by omega)
  have hb : S (i + 1) ≤ r.height := by
    rw [← hSN]
    exact hmono (i + 1) _ (by omega) (by omega) (le_refl _)
  unfold bandEdge at h1 h2
  simp only [renderBand, h1, h2]
  rw [if_neg (by simpa using ha), if_neg (by simpa using hb)]

theorem renderBands_loop (fl : ℚ → Dbl) (r : SoftwareRenderer) (S : Int → Int)
    (hband : ∀ i : Int, 0 ≤ i → i < r.renderThreadCount →
      renderBand fl r i = .ok (S i, S (i + 1))) :
    ∀ (l : List Nat) (acc : List (Int × Int)),
      (∀ i ∈ l, (i : Int) < r.renderThreadCount) →
      forEach
        (fun (bands : List (Int × Int)) (i : Nat) =>
          match renderBand fl r (i : Int) with
          | .error e => .error e
          | .ok band => .ok (bands ++ [band])) l acc
        = .ok (acc ++ l.map fun i : Nat => (S (i : Int), S ((i : Int) + 1))) := by
  intro l
  induction l with
  | nil => intro acc _; simp [forEach]
  | cons i rest ih =>
    intro acc hl
    have hi := hl i (List.mem_cons_self _ _)
    simp only [forEach, hband (i : Int) (Int.ofNat_nonneg i) hi]
    rw [ih _ (fun j hj => hl j (List.mem_cons_of_mem _ hj))]
    simp

theorem exists_band_of_row (S : Nat → Int) (y : Int) :
    ∀ n : Nat, S 0 ≤ y → y < S n → ∃ i, i < n ∧ S i ≤ y ∧ y < S (i + 1) := by
  intro n
  induction n with
  | zero => intro h0 hn; omega
  | succ n ih =>
    intro h0 hn
    by_cases hy : y < S n
    · obtain ⟨i, hi, h1, h2⟩ := ih h0 hy
      exact ⟨i, by omega, h1, h2⟩
    · exact ⟨n, by omega, by omega, hn⟩

/-- C25 as amended: for a height `H` with `0 <= H` and a thread count `N >= 1` (both
values of `int`), and every rounding `fl` of the results of `double` that is monotone,
exact on the values of `double` and within a relative error of `2 ^ -53`, the loop of
`render` that starts the threads passes both assertions and hands out `N` bands; band `i`
is the pair of `startY` and `endY` that the code computes as `round(i * blockSize)` and
`round((i + 1) * blockSize)` with `blockSize = H / N` in `double`; each bound is within
one of the exactly rounded `round(i * H / N)`; every band lies within the rows `0 .. H`,
the first band starts at row 0, the last ends at row `H`, each band starts where the band
before it ends, and every row `y` with `0 <= y < H` lies in exactly one band. -/
theorem render_bands_partition_the_rows (fl : ℚ → Dbl) (r : SoftwareRenderer)
    (hfl : Dbl.IsRounding fl) (hH : 0 ≤ r.height) (hH31 : r.height ≤ 2147483647)
    (hN : 1 ≤ r.renderThreadCount) (hN31 : r.renderThreadCount ≤ 2147483647) :
    ∃ bands, renderBands fl r = .ok bands ∧
      bands.length = r.renderThreadCount.toNat ∧
      (∀ (i : Nat) (b : Int × Int), bands[i]? = some b →
        renderBand fl r (i : Int) = .ok b ∧
        0 ≤ b.1 ∧ b.1 ≤ b.2 ∧ b.2 ≤ r.height ∧
        |b.1 - bandStartSpec r.height r.renderThreadCount (i : Int)| ≤ 1 ∧
        |b.2 - bandStartSpec r.height r.renderThreadCount ((i : Int) + 1)| ≤ 1) ∧
      (∀ b : Int × Int, bands[0]? = some b → b.1 = 0) ∧
      (∀ b : Int × Int, bands[r.renderThreadCount.toNat - 1]? = some b → b.2 = r.height) ∧
      (∀ (i : Nat) (b1 b2 : Int × Int), bands[i]? = some b1 → bands[i + 1]? = some b2 →
        b2.1 = b1.2) ∧
      (∀ y : Int, 0 ≤ y → y < r.height →
        ∃ (i : Nat) (b : Int × Int), bands[i]? = some b ∧ b.1 ≤ y ∧ y < b.2 ∧
          ∀ (j : Nat) (b1 : Int × Int), bands[j]? = some b1 → b1.1 ≤ y → y < b1.2 →
            j = i) := by
  obtain ⟨S, hS0, hSN, hmono, hS⟩ :=
    band_edges fl hfl r.height r.renderThreadCount hH hH31 hN hN31
  have hband := renderBand_eq fl r S hS0 hSN hmono (fun i h0 h1 => (hS i h0 h1).1)
  have hloop := renderBands_loop fl r S hband (List.range r.renderThreadCount.toNat) []
    (fun i hi => by
      have := List.mem_range.1 hi
      omega)
  simp only [List.nil_append] at hloop
  have hget : ∀ (i : Nat) (b : Int × Int),
      ((List.range r.renderThreadCount.toNat).map fun i : Nat =>
        (S (i : Int), S ((i : Int) + 1)))[i]? = some b →
      i < r.renderThreadCount.toNat ∧ b = (S (i : Int), S ((i : Int) + 1)) := by
    intro i b hb
    rw [List.getElem?_map] at hb
    cases hr : (List.range r.renderThreadCount.toNat)[i]? with
    | none => rw [hr] at hb; cases hb
    | some k =>
      rw [hr] at hb
      simp only [Option.map_some', Option.some.injEq] at hb
      obtain ⟨hlt, hk⟩ := List.getElem?_eq_some_iff.1 hr
      simp only [List.length_range] at hlt
      simp only [List.getElem_range] at hk
      subst hk
      exact ⟨hlt, hb.symm⟩
  have hset : ∀ i : Nat, i < r.renderThreadCount.toNat →
      ((List.range r.renderThreadCount.toNat).map fun i : Nat =>
        (S (i : Int), S ((i : Int) + 1)))[i]?
      = some (S (i : Int), S ((i : Int) + 1)) := by
    intro i hi
    rw [List.getElem?_map, List.getElem?_range hi]
    rfl
  have hNcast : ((r.renderThreadCount.toNat : Nat) : Int) = r.renderThreadCount := by omega
  refine ⟨_, hloop, by simp, ?_, ?_, ?_, ?_, ?_⟩
  · intro i b hb
    obtain ⟨hi, rfl⟩ := hget i b hb
    refine ⟨hband (i : Int) (Int.ofNat_nonneg i) (by omega), ?_, ?_, ?_,
      (hS (i : Int) (Int.ofNat_nonneg i) (by omega)).2,
      (hS ((i : Int) + 1) (by omega) (by omega)).2⟩
    · show 0 ≤ S (i : Int)
      rw [← hS0]
      exact hmono 0 _ (le_refl 0) (Int.ofNat_nonneg i) (by omega)
    · exact hmono _ _ (Int.ofNat_nonneg i) (by omega) (by omega)
    · show S ((i : Int) + 1) ≤ r.height
      rw [← hSN]
      exact hmono _ _ (by omega) (by omega) (le_refl _)
  · intro b hb
    obtain ⟨_, rfl⟩ := hget 0 b hb
    simpa using hS0
  · intro b hb
    obtain ⟨hi, rfl⟩ := hget _ b hb
    show S (((r.renderThreadCount.toNat - 1 : Nat) : Int) + 1) = r.height
    have : (((r.renderThreadCount.toNat - 1 : Nat) : Int) + 1) = r.renderThreadCount := by
      omega
    rw [this, hSN]
  · intro i b1 b2 h1 h2
    obtain ⟨_, rfl⟩ := hget i b1 h1
    obtain ⟨_, rfl⟩ := hget (i + 1) b2 h2
    simp only [Nat.cast_add, Nat.cast_one]
  · intro y hy0 hy
    obtain ⟨i, hi, h1, h2⟩ := exists_band_of_row (fun k : Nat => S (k : Int)) y
      r.renderThreadCount.toNat
      (by simp only [Nat.cast_zero, hS0]; exact hy0)
      (by simp only [hNcast, hSN]; exact hy)
    simp only [Nat.cast_add, Nat.cast_one] at h2
    refine ⟨i, _, hset i hi, h1, h2, ?_⟩
    intro j b1 hb1 hj1 hj2
    obtain ⟨hj, rfl⟩ := hget j b1 hb1
    simp only [] at hj1 hj2
    rcases Nat.lt_trichotomy j i with hlt | heq | hgt
    · have := hmono ((j : Int) + 1) (i : Int) (by omega) (by omega) (by omega)
      omega
    · exact heq
    · have := hmono ((i : Int) + 1) (j : Int) (by omega) (by omega) (by omega)
      omega

/-- C25 as amended, with the rounding of IEEE 754 binary64 on a screen of 10 rows and
three threads: the bands are the rows 0 to 2, 3 to 6 and 7 to 9. -/
theorem render_bands_partition_the_rows_witness :
    Dbl.IsRounding Dbl.binary64 ∧
    renderBands Dbl.binary64 sampleScreen = .ok [(0, 3), (3, 7), (7, 10)] ∧
    ∃ bands, renderBands Dbl.binary64 sampleScreen = .ok bands ∧ bands.length = 3 := by
  obtain ⟨bands, h1, h2, _⟩ :=
    render_bands_partition_the_rows Dbl.binary64 sampleScreen binary64_isRounding
      (by decide) (by decide) (by decide) (by decide)
  exact ⟨binary64_isRounding, by with_unfolding_all rfl, bands, h1, h2⟩

/-- C25 as stated fails: on a screen of 82 rows and 20 threads, with the rounding of
IEEE 754 binary64, `blockSize` is the `double` nearest to 4.1, the product `15 * blockSize`
is the `double` just below 61.5 and `std::round` takes it to 61, so band 15 starts at
row 61, while `round(15 * 82 / 20) = round(61.5)` is 62. -/
theorem band_bound_differs_from_the_rounded_share :
    renderBand Dbl.binary64 sampleTallScreen 15 = .ok (61, 66) ∧
    bandStartSpec sampleTallScreen.height sampleTallScreen.renderThreadCount 15 = 62 := by
  constructor
  · with_unfolding_all rfl
  · with_unfolding_all rfl

/-- C26 as amended: for every state of the renderer and every `W, H >= 0` whose product
fits an `int`, `resize(W, H)` returns; afterwards the colour buffer has exactly `W * H`
entries, every entry is 0, the stored width and height are `W` and `H`, and the eye, the
forward vector, the field of view, the view distance with its square, the render thread
count, the start cell and the texture list are unchanged. -/
theorem resize_clears_the_buffer_and_keeps_the_camera (r : SoftwareRenderer)
    (width height : Int) (hw : 0 ≤ width) (hh : 0 ≤ height)
    (hfit : width * height ≤ 2147483647) :
    ∃ r1, r.resize width height = .ok r1 ∧
      (r1.colorBuffer.length : Int) = width * height ∧
      (∀ p ∈ r1.colorBuffer, p = 0) ∧
      r1.width = width ∧ r1.height = height ∧
      r1.eye = r.eye ∧ r1.forward = r.forward ∧ r1.fovY = r.fovY ∧
      r1.viewDistance = r.viewDistance ∧ r1.viewDistSquared = r.viewDistSquared ∧
      r1.renderThreadCount = r.renderThreadCount ∧
      r1.startCellReal = r.startCellReal ∧ r1.startCell = r.startCell ∧
      r1.textures = r.textures := by
  have hpos : 0 ≤ width * height := mul_nonneg hw hh
  have hmul : mulInt32 width height = .ok (width * height) := by
    unfold mulInt32
    rw [if_pos ⟨by omega, hfit⟩]
  refine ⟨{ r with
      colorBuffer := List.replicate (width * height).toNat 0
      width := width
      height := height }, ?_, ?_, ?_, rfl, rfl, rfl, rfl, rfl, rfl, rfl, rfl, rfl, rfl, rfl⟩
  · unfold resize
    rw [hmul]
    simp only []
    rw [if_neg (by omega)]
  · simp only [List.length_replicate]
    omega
  · intro p hp
    exact (List.mem_replicate.1 hp).2

theorem resize_clears_the_buffer_and_keeps_the_camera_witness :
    (0 : Int) ≤ 3 ∧ (0 : Int) ≤ 2 ∧ (3 : Int) * 2 ≤ 2147483647 ∧
    ∃ r1, sampleScreen.resize 3 2 = .ok r1 ∧ (r1.colorBuffer.length : Int) = 3 * 2 ∧
      r1.width = 3 ∧ r1.height = 2 := by
  obtain ⟨r1, h1, h2, _, h4, h5, _⟩ :=
    resize_clears_the_buffer_and_keeps_the_camera sampleScreen 3 2 (by decide) (by decide)
      (by decide)
  exact ⟨by decide, by decide, by decide, r1, h1, h2, h4, h5⟩

theorem resize_overflows (r : SoftwareRenderer) :
    r.resize 65536 65536 = .error Fatal.signedOverflow := by
  unfold resize mulInt32
  rw [if_neg (by decide)]

/-- Counterexample to C26 as stated: for `W = H = 65536`, both at least 0, the pixel
count `W * H` does not fit an `int`, the product is undefined, and no state with `W * H`
entries is reached (the same holds from every state, by `resize_overflows`). -/
theorem resize_pixel_count_overflows :
    (0 : Int) ≤ 65536 ∧ sampleScreen.resize 65536 65536 = .error Fatal.signedOverflow :=
  ⟨by decide, resize_overflows sampleScreen⟩

/-! ## Chunk coordinates -/

/-- The chunk and the voxel of `newVoxelToChunkVoxel` always lead back to the level
voxel. -/
theorem chunkVoxel_of_newVoxel (CHUNK_DIM : Int) (v : Int2) :
    VoxelUtils.chunkVoxelToNewVoxel CHUNK_DIM
      (VoxelUtils.newVoxelToChunkVoxel CHUNK_DIM v).chunk
      (VoxelUtils.newVoxelToChunkVoxel CHUNK_DIM v).voxel = v := by
  obtain ⟨x, y⟩ := v
  simp only [VoxelUtils.chunkVoxelToNewVoxel, VoxelUtils.newVoxelToChunkVoxel,
    Int.tdiv_add_tmod']

/-- What holds of the claim C40: for a level voxel with no negative coordinate the voxel
within the chunk has its components in `[0, CHUNK_DIM)`. -/
theorem newVoxelToChunkVoxel_range (CHUNK_DIM : Int) (hpos : 0 < CHUNK_DIM) (v : Int2)
    (hx : 0 ≤ v.x) (hy : 0 ≤ v.y) :
    0 ≤ (VoxelUtils.newVoxelToChunkVoxel CHUNK_DIM v).voxel.x ∧
    (VoxelUtils.newVoxelToChunkVoxel CHUNK_DIM v).voxel.x < CHUNK_DIM ∧
    0 ≤ (VoxelUtils.newVoxelToChunkVoxel CHUNK_DIM v).voxel.y ∧
    (VoxelUtils.newVoxelToChunkVoxel CHUNK_DIM v).voxel.y < CHUNK_DIM :=
  ⟨Int.tmod_nonneg _ hx, Int.tmod_lt_of_pos _ hpos, Int.tmod_nonneg _ hy,
    Int.tmod_lt_of_pos _ hpos⟩

/-- What holds of the claim C40: for a chunk with no negative coordinate and a voxel
with components in `[0, CHUNK_DIM)`, the conversion to a level voxel and back gives the
chunk and the voxel again. -/
theorem newVoxel_of_chunkVoxel (CHUNK_DIM : Int) (c w : Int2)
    (hcx : 0 ≤ c.x) (hcy : 0 ≤ c.y) (hwx0 : 0 ≤ w.x) (hwx : w.x < CHUNK_DIM)
    (hwy0 : 0 ≤ w.y) (hwy : w.y < CHUNK_DIM) :
    VoxelUtils.newVoxelToChunkVoxel CHUNK_DIM (VoxelUtils.chunkVoxelToNewVoxel CHUNK_DIM c w)
      = ⟨c, w⟩ := by
  obtain ⟨cx, cy⟩ := c
  obtain ⟨wx, wy⟩ := w
  simp only [] at hcx hcy hwx0 hwx hwy0 hwy
  have hpos : 0 < CHUNK_DIM := by omega
  have hx0 : 0 ≤ cx * CHUNK_DIM + wx := by
    have := Int.mul_nonneg hcx (Int.le_of_lt hpos)
    omega
  have hy0 : 0 ≤ cy * CHUNK_DIM + wy := by
    have := Int.mul_nonneg hcy (Int.le_of_lt hpos)
    omega
  have hdx : (cx * CHUNK_DIM + wx) / CHUNK_DIM = cx := by
    rw [Int.add_comm, Int.add_mul_ediv_right _ _ (by omega), Int.ediv_eq_zero_of_lt hwx0 hwx]
    omega
  have hdy : (cy * CHUNK_DIM + wy) / CHUNK_DIM = cy := by
    rw [Int.add_comm, Int.add_mul_ediv_right _ _ (by omega), Int.ediv_eq_zero_of_lt hwy0 hwy]
    omega
  have hmx : (cx * CHUNK_DIM + wx) % CHUNK_DIM = wx := by
    rw [Int.add_comm, Int.add_mul_emod_self, Int.emod_eq_of_lt hwx0 hwx]
  have hmy : (cy * CHUNK_DIM + wy) % CHUNK_DIM = wy := by
    rw [Int.add_comm, Int.add_mul_emod_self, Int.emod_eq_of_lt hwy0 hwy]
  simp only [VoxelUtils.newVoxelToChunkVoxel, VoxelUtils.chunkVoxelToNewVoxel,
    Int.tdiv_eq_ediv hx0 (Int.le_of_lt hpos), Int.tdiv_eq_ediv hy0 (Int.le_of_lt hpos),
    Int.tmod_eq_emod hx0 (Int.le_of_lt hpos), Int.tmod_eq_emod hy0 (Int.le_of_lt hpos),
    hdx, hdy, hmx, hmy]

/-- C40: for every chunk dimension of at least 2, the level voxel `(-1, 0)` is given the
chunk `(0, 0)` and the voxel `(-1, 0)` within it, whose first component is not in
`[0, CHUNK_DIM)`; and the chunk `(-1, 0)` with the voxel `(1, 0)`, both as the claim asks
for, become the level voxel `(1 - CHUNK_DIM, 0)`, which is given back as the chunk
`(0, 0)` with the voxel `(1 - CHUNK_DIM, 0)`, not as the pair it came from. -/
theorem chunk_conversion_truncates_negative_coordinates (CHUNK_DIM : Int)
    (h : 2 ≤ CHUNK_DIM) :
    VoxelUtils.newVoxelToChunkVoxel CHUNK_DIM ⟨-1, 0⟩ = ⟨⟨0, 0⟩, ⟨-1, 0⟩⟩ ∧
    ¬ (0 ≤ (VoxelUtils.newVoxelToChunkVoxel CHUNK_DIM ⟨-1, 0⟩).voxel.x) ∧
    VoxelUtils.newVoxelToChunkVoxel CHUNK_DIM
        (VoxelUtils.chunkVoxelToNewVoxel CHUNK_DIM ⟨-1, 0⟩ ⟨1, 0⟩)
      = ⟨⟨0, 0⟩, ⟨1 - CHUNK_DIM, 0⟩⟩ ∧
    VoxelUtils.newVoxelToChunkVoxel CHUNK_DIM
        (VoxelUtils.chunkVoxelToNewVoxel CHUNK_DIM ⟨-1, 0⟩ ⟨1, 0⟩)
      ≠ ⟨⟨-1, 0⟩, ⟨1, 0⟩⟩ := by
  have hd1 : (-1 : Int).tdiv CHUNK_DIM = 0 := by
    rw [show (-1 : Int) = -(1 : Int) from rfl, Int.neg_tdiv,
      Int.tdiv_eq_zero_of_lt (by omega) (by omega)]
    rfl
  have hm1 : (-1 : Int).tmod CHUNK_DIM = -1 := by
    rw [Int.tmod_def, hd1]
    omega
  have hd2 : (-1 * CHUNK_DIM + 1 : Int).tdiv CHUNK_DIM = 0 := by
    rw [show (-1 * CHUNK_DIM + 1 : Int) = -(CHUNK_DIM - 1) by omega, Int.neg_tdiv,
      Int.tdiv_eq_zero_of_lt (by omega) (by omega)]
    rfl
  have hm2 : (-1 * CHUNK_DIM + 1 : Int).tmod CHUNK_DIM = 1 - CHUNK_DIM := by
    rw [Int.tmod_def, hd2]
    omega
  have h0d : (0 : Int).tdiv CHUNK_DIM = 0 := Int.tdiv_eq_zero_of_lt (by omega) (by omega)
  have h0m : (0 : Int).tmod CHUNK_DIM = 0 := Int.tmod_eq_of_lt (by omega) (by omega)
  have e1 : VoxelUtils.newVoxelToChunkVoxel CHUNK_DIM ⟨-1, 0⟩ = ⟨⟨0, 0⟩, ⟨-1, 0⟩⟩ := by
    simp only [VoxelUtils.newVoxelToChunkVoxel, hd1, hm1, h0d, h0m]
  have e2 : VoxelUtils.newVoxelToChunkVoxel CHUNK_DIM
        (VoxelUtils.chunkVoxelToNewVoxel CHUNK_DIM ⟨-1, 0⟩ ⟨1, 0⟩)
      = ⟨⟨0, 0⟩, ⟨1 - CHUNK_DIM, 0⟩⟩ := by
    simp only [VoxelUtils.newVoxelToChunkVoxel, VoxelUtils.chunkVoxelToNewVoxel, hd2, hm2,
      Int.zero_mul, Int.add_zero, h0d, h0m]
  refine ⟨e1, ?_, e2, ?_⟩
  · rw [e1]
    decide
  · rw [e2]
    intro hc
    have := congrArg (fun c : ChunkCoord => c.chunk.x) hc
    simp at this

theorem chunk_conversion_truncates_negative_coordinates_witness :
    (2 : Int) ≤ 64 ∧
    VoxelUtils.newVoxelToChunkVoxel 64 ⟨-1, 0⟩ = ⟨⟨0, 0⟩, ⟨-1, 0⟩⟩ ∧
    VoxelUtils.newVoxelToChunkVoxel 64 (VoxelUtils.chunkVoxelToNewVoxel 64 ⟨-1, 0⟩ ⟨1, 0⟩)
      = ⟨⟨0, 0⟩, ⟨1 - 64, 0⟩⟩ :=
  ⟨by decide, (chunk_conversion_truncates_negative_coordinates 64 (by decide)).1,
    (chunk_conversion_truncates_negative_coordinates 64 (by decide)).2.2.1⟩

/-! ## Transitions on codes that are not walls, and the choice of transition blocks -/

/-- C35: in an interior whose parameter table has `*LEVELUP 16`, the MAP1 code 0x9111
(high nibble 0x9, decoded as a transparent wall) has bits 8 to 14 equal to its low seven
bits, so `tryMakeVoxelTransitionDefGenInfo`, which compares the masked bytes without
looking at bit 0x8000, takes it for a wall with texture index 16 and makes a level change
upwards; `readArenaMAP1` then adds a transition at the cell of that code, from every
state of the level and the caches. -/
theorem transparent_wall_code_gets_a_transition {E : Type} (ctx : Context E)
    (map1 : BufferView2D) (s : Out E) (cell : Nat × Nat)
    (hworld : ctx.worldType = WorldType.Interior)
    (hup : ctx.inf.getLevelUpIndex = some 16)
    (hcode : map1.get cell.1 cell.2 = 0x9111) :
    (0x9111 &&& 0xF000) >>> 12 = 0x9 ∧
    makeVoxelDefFromMAP1 0x9111 0x9 ctx.worldType ctx.inf ctx.exeData
      = .ok (VoxelDefinition.TransparentWall 16 false) ∧
    tryMakeVoxelTransitionDefGenInfo 0x9111 ctx.worldType ctx.inf
      = .ok (some ⟨TransitionType.LevelChange, none, some true⟩) ∧
    ∃ (s1 : Out E) (transitionDefID : Nat),
      readArenaMAP1Cell ctx map1 s cell = .ok s1 ∧
      s1.levelDef.transitionPlacements
        = (transitionDefID, (cell.2, 1, cell.1)) :: s.levelDef.transitionPlacements := by
  have hnib : (0x9111 &&& 0xF000) >>> 12 = 0x9 := by decide
  have hdef : makeVoxelDefFromMAP1 0x9111 0x9 ctx.worldType ctx.inf ctx.exeData
      = .ok (VoxelDefinition.TransparentWall 16 false) := by
    rfl
  have hmsb : getVoxelMostSigByte 0x9111 = 17 := by decide
  have hlsb : getVoxelLeastSigByte 0x9111 = 17 := by decide
  have htr : tryMakeVoxelTransitionDefGenInfo 0x9111 ctx.worldType ctx.inf
      = .ok (some ⟨TransitionType.LevelChange, none, some true⟩) := by
    simp [tryMakeVoxelTransitionDefGenInfo, hmsb, hlsb, hworld, hup, matchesIndex]
  refine ⟨hnib, hdef, htr, ?_⟩
  unfold readArenaMAP1Cell
  simp only [hcode, hnib]
  rw [if_neg (by decide), if_pos (by decide), hdef]
  cases hc : s.voxelCache.lookup 0x9111 with
  | some voxelDefID =>
    simp only [getOrAddVoxelDef, hc, readArenaMAP1Transition, htr]
    cases ht : s.transitionCache.lookup 0x9111 with
    | some transitionDefID =>
      exact ⟨_, transitionDefID, rfl, rfl⟩
    | none =>
      simp only [makeTransitionDef]
      exact ⟨_, _, rfl, rfl⟩
  | none =>
    simp only [getOrAddVoxelDef, hc, readArenaMAP1Transition, htr]
    cases ht : s.transitionCache.lookup 0x9111 with
    | some transitionDefID =>
      exact ⟨_, transitionDefID, rfl, rfl⟩
    | none =>
      simp only [makeTransitionDef]
      exact ⟨_, _, rfl, rfl⟩

theorem transparent_wall_code_gets_a_transition_witness :
    ∃ (s1 : Out Nat) (transitionDefID : Nat),
      readArenaMAP1Cell
        (sampleContext WorldType.Interior { sampleInteriorInf with getLevelUpIndex := some 16 })
        (bufferOf 1 1 [[0x9111]])
        ⟨LevelDefinition.init 1 3 1, emptyInfo, [], [], []⟩ (0, 0) = .ok s1 ∧
      s1.levelDef.transitionPlacements = [(transitionDefID, (0, 1, 0))] :=
  (transparent_wall_code_gets_a_transition
    (sampleContext WorldType.Interior { sampleInteriorInf with getLevelUpIndex := some 16 })
    (bufferOf 1 1 [[0x9111]])
    ⟨LevelDefinition.init 1 3 1, emptyInfo, [], [], []⟩ (0, 0) rfl rfl rfl).2.2.2

theorem getNextTransBlock_single_chunk (dc : DungeonContext) (random : Nat) :
    (getNextTransBlock dc 1 1 random).1 = dc.packLevelChangeVoxel 0 0 := by
  simp [getNextTransBlock, Nat.mod_one]

theorem nextDistinctTransBlock_single_chunk (dc : DungeonContext) :
    ∀ fuel random : Nat,
      nextDistinctTransBlock dc 1 1 (dc.packLevelChangeVoxel 0 0) fuel random = none := by
  intro fuel
  induction fuel with
  | zero => intro random; rfl
  | succ fuel ih =>
    intro random
    unfold nextDistinctTransBlock
    simp only [getNextTransBlock_single_chunk, if_true]
    exact ih _

/-- C36: with one chunk in width and in depth, `getNextTransBlock` can only return the
block of chunk `(0, 0)`, whatever the generator draws, so for every level count of at
least 2 the loop `do ... while (transBlock == transitions.back())` of the second level
leaves through no number of passes: the choice of the transition blocks gives no result
for any bound, and neither does `generateMifDungeon`. For a single level the loop is not
entered and the one block is chosen. -/
theorem transition_choice_never_ends_in_a_single_chunk {E : Type} (fuel : Nat)
    (dc : DungeonContext) (ctx : Context E) (mif : MIFFile) (levelCount random : Nat)
    (outLevelDefs : List LevelDefinition) (outLevelInfoDef : LevelInfoDefinition E) :
    chooseTransitions fuel dc 1 1 (levelCount + 2) random = none ∧
    generateMifDungeon fuel dc ctx mif (levelCount + 2) 1 1 outLevelDefs outLevelInfoDef random
      = none ∧
    chooseTransitions fuel dc 1 1 1 random
      = some ([dc.packLevelChangeVoxel 0 0], (getNextTransBlock dc 1 1 random).2) := by
  have h1 : chooseTransitions fuel dc 1 1 (levelCount + 2) random = none := by
    have hcount : levelCount + 2 - 1 = levelCount + 1 := by omega
    unfold chooseTransitions
    simp only [hcount, getNextTransBlock_single_chunk, addTransitions,
      nextDistinctTransBlock_single_chunk]
  refine ⟨h1, ?_, ?_⟩
  · unfold generateMifDungeon
    simp only [h1]
  · unfold chooseTransitions
    simp only [Nat.sub_self, getNextTransBlock_single_chunk, addTransitions]

/-! ## The reseeding and the order of the city building names -/

theorem cityScan_placements {E : Type} (fuel : Nat) (nc : NameContext) (coastal : Bool)
    (menuType : MenuType) :
    ∀ (cells : List (Nat × Nat)) (acc acc1 : List Nat × CityNamesOut E),
      cityScan fuel nc coastal menuType cells acc = some (.ok acc1) →
      ∃ new : List (Nat × LevelInt3),
        acc1.2.levelDef.buildingNamePlacements
          = new ++ acc.2.levelDef.buildingNamePlacements ∧
        ((new.map fun p => p.2).reverse).Sublist (cells.map fun c => (c.1, 1, c.2)) := by
  intro cells
  induction cells with
  | nil =>
    intro acc acc1 h
    simp only [cityScan, Option.some.injEq, Except.ok.injEq] at h
    subst h
    exact ⟨[], rfl, by simp⟩
  | cons c cells ih =>
    intro acc acc1 h
    obtain ⟨x, z⟩ := c
    unfold cityScan at h
    split at h
    · simp at h
    · simp at h
    · rename_i acc2 h2
      obtain ⟨new, hnew, hsub⟩ := ih acc2 acc1 h
      unfold cityTryGenerateBlockName at h2
      split at h2
      · simp at h2
      · simp only [Option.some.injEq, Except.ok.injEq] at h2
        subst h2
        exact ⟨new, hnew, List.Sublist.cons _ hsub⟩
      · split at h2
        · simp at h2
        · split at h2
          · simp at h2
          · rename_i name _
            simp only [Option.some.injEq, Except.ok.injEq] at h2
            subst h2
            simp only [LevelDefinition.addBuildingName] at hnew
            refine ⟨new ++ [((acc.2.levelInfoDef.addBuildingName name).1, (x, 1, z))],
              by rw [hnew]; simp, ?_⟩
            simp only [List.map_append, List.map_cons, List.map_nil, List.reverse_append,
              List.reverse_cons, List.reverse_nil, List.nil_append, List.singleton_append]
            exact List.Sublist.cons₂ _ hsub

theorem cityCells_raster (levelDef : LevelDefinition) :
    (cityCells levelDef).Pairwise fun a b => a.1 < b.1 ∨ (a.1 = b.1 ∧ a.2 < b.2) := by
  unfold cityCells
  rw [List.pairwise_flatMap]
  refine ⟨fun x _ => ?_, ?_⟩
  · rw [List.pairwise_map]
    exact (List.pairwise_lt_range levelDef.depth).imp fun h => Or.inr ⟨rfl, h⟩
  · refine (List.pairwise_lt_range levelDef.width).imp ?_
    intro x1 x2 hlt a ha b hb
    simp only [List.mem_map] at ha hb
    obtain ⟨_, _, rfl⟩ := ha
    obtain ⟨_, _, rfl⟩ := hb
    exact Or.inl hlt

/-- C31 as amended: `generateNames` sets the generator to the city seed
`(localCityPoint.x << 16) + localCityPoint.y` before the equipment stores and before the
temples, so their names do not depend on the state of the generator on entry; the
taverns, which come first, are named from the state of the generator as
`generateArenaCityBuildingNames` receives it. In each category the cells are visited in
raster order, `x` outermost and `z` innermost, and the names placed by the scan lie on
cells of that order, later ones after earlier ones. -/
theorem city_names_reseed_only_before_equipment_and_temples {E : Type} (fuel : Nat)
    (nc : NameContext) (localCityPoint : Int2) (coastal : Bool)
    (mainQuestTempleOverride : Option MainQuestTempleOverride) (s : CityNamesOut E) :
    generateNames fuel nc localCityPoint coastal mainQuestTempleOverride MenuType.Tavern s
      = cityScan fuel nc coastal MenuType.Tavern (cityCells s.levelDef) ([], s) ∧
    generateNames fuel nc localCityPoint coastal mainQuestTempleOverride MenuType.Equipment s
      = cityScan fuel nc coastal MenuType.Equipment (cityCells s.levelDef)
          ([], { s with random := cityReseed localCityPoint }) ∧
    generateNames fuel nc localCityPoint coastal mainQuestTempleOverride MenuType.Temple s
      = generateNames fuel nc localCityPoint coastal mainQuestTempleOverride MenuType.Temple
          { s with random := cityReseed localCityPoint } ∧
    generateNames fuel nc localCityPoint coastal none MenuType.Temple s
      = cityScan fuel nc coastal MenuType.Temple (cityCells s.levelDef)
          ([], { s with random := cityReseed localCityPoint }) ∧
    ((cityCells s.levelDef).Pairwise fun a b => a.1 < b.1 ∨ (a.1 = b.1 ∧ a.2 < b.2)) ∧
    ∀ (menuType : MenuType) (acc acc1 : List Nat × CityNamesOut E),
      cityScan fuel nc coastal menuType (cityCells s.levelDef) acc = some (.ok acc1) →
      ∃ new : List (Nat × LevelInt3),
        acc1.2.levelDef.buildingNamePlacements
          = new ++ acc.2.levelDef.buildingNamePlacements ∧
        ((new.map fun p => p.2).reverse).Sublist
          ((cityCells s.levelDef).map fun c => (c.1, 1, c.2)) := by
  refine ⟨?_, ?_, ?_, ?_, cityCells_raster s.levelDef, ?_⟩
  · simp only [generateNames, reduceCtorEq, or_self, if_false]
    cases cityScan fuel nc coastal MenuType.Tavern (cityCells s.levelDef) ([], s) with
    | none => rfl
    | some r =>
      cases r with
      | error e => rfl
      | ok p => rfl
  · simp only [generateNames, reduceCtorEq, or_false, if_true, if_false]
    cases cityScan fuel nc coastal MenuType.Equipment (cityCells s.levelDef)
        ([], { s with random := cityReseed localCityPoint }) with
    | none => rfl
    | some r =>
      cases r with
      | error e => rfl
      | ok p => rfl
  · simp only [generateNames, reduceCtorEq, or_true, if_true]
  · simp only [generateNames, reduceCtorEq, or_true, if_true]
    cases cityScan fuel nc coastal MenuType.Temple (cityCells s.levelDef)
        ([], { s with random := cityReseed localCityPoint }) with
    | none => rfl
    | some r =>
      cases r with
      | error e => rfl
      | ok p => rfl
  · intro menuType acc acc1 h
    exact cityScan_placements fuel nc coastal menuType _ acc acc1 h

/-- Counterexample to C31 as stated: in the sample city the generator is in state 0 on
entry and the city seed of the point `(0, 7)` is 7; the taverns are named from the draws
of state 0 (hashes 258 and 772), not from those of the city seed (hashes 2057 and
2571). -/
theorem city_taverns_are_not_reseeded :
    sampleCity.random = 0 ∧ cityReseed ⟨0, 7⟩ = 7 ∧
    ∃ s1 s2 : CityNamesOut Nat,
      generateNames 5 sampleNameContext ⟨0, 7⟩ false none MenuType.Tavern sampleCity
        = some (.ok ([258, 772], s1)) ∧
      generateNames 5 sampleNameContext ⟨0, 7⟩ false none MenuType.Tavern
          { sampleCity with random := cityReseed ⟨0, 7⟩ }
        = some (.ok ([2057, 2571], s2)) :=
  ⟨rfl, by decide, _, _, rfl, rfl⟩

/-! ## The first voxel of a ray and the bounds of its reads -/

theorem raySetup_step (ctx : RenderContext) (r : SoftwareRenderer) (direction : Double3)
    (voxelGrid : VoxelGrid) :
    ((raySetup ctx r direction voxelGrid).step.x = 1 ∨
      (raySetup ctx r direction voxelGrid).step.x = -1) ∧
    ((raySetup ctx r direction voxelGrid).step.y = 1 ∨
      (raySetup ctx r direction voxelGrid).step.y = -1) ∧
    ((raySetup ctx r direction voxelGrid).step.z = 1 ∨
      (raySetup ctx r direction voxelGrid).step.z = -1) := by
  simp only [raySetup]
  refine ⟨?_, ?_, ?_⟩ <;> split <;> simp

theorem advance_cell (voxelGrid : VoxelGrid) (c : RaySetup) (s : RayState) :
    (advance voxelGrid c s).cell = ⟨s.cell.x + c.step.x, s.cell.y, s.cell.z⟩ ∨
    (advance voxelGrid c s).cell = ⟨s.cell.x, s.cell.y + c.step.y, s.cell.z⟩ ∨
    (advance voxelGrid c s).cell = ⟨s.cell.x, s.cell.y, s.cell.z + c.step.z⟩ := by
  simp only [advance]
  split
  · exact Or.inl rfl
  · split
    · exact Or.inr (Or.inl rfl)
    · exact Or.inr (Or.inr rfl)

theorem ddaLoop_cell (r : SoftwareRenderer) (voxelGrid : VoxelGrid) (c : RaySetup) :
    ∀ (fuel : Nat) (s s1 : RayState), ddaLoop r voxelGrid c fuel s = some (.ok s1) →
      ∃ a b d : Nat,
        s1.cell = ⟨s.cell.x + a * c.step.x, s.cell.y + b * c.step.y,
          s.cell.z + d * c.step.z⟩ ∧
        a + b + d = ddaSteps r voxelGrid c fuel s := by
  intro fuel
  induction fuel with
  | zero =>
    intro s s1 h
    simp only [ddaLoop] at h
    split at h
    · cases h
    · simp only [Option.some.injEq, Except.ok.injEq] at h
      subst h
      exact ⟨0, 0, 0, by simp, by simp [ddaSteps]⟩
  | succ fuel ih =>
    intro s s1 h
    rw [ddaLoop] at h
    rw [ddaSteps]
    by_cases hc : (s.voxelIsValid && s.cellDistSquared.lt r.viewDistSquared) = true
    · simp only [hc, if_true] at h ⊢
      cases hv : voxelGrid.voxelAt (s.cell.x + s.cell.y * voxelGrid.width +
          s.cell.z * voxelGrid.width * voxelGrid.height) with
      | error e => simp only [hv] at h; cases h
      | ok voxelID =>
        simp only [hv] at h ⊢
        by_cases hpos : voxelID > 0
        · simp only [hpos, if_true, Option.some.injEq, Except.ok.injEq] at h ⊢
          subst h
          exact ⟨0, 0, 0, by simp, rfl⟩
        · simp only [hpos, if_false] at h ⊢
          obtain ⟨a, b, d, hcell, hsum⟩ := ih _ _ h
          rcases advance_cell voxelGrid c s with ha | ha | ha
          · refine ⟨a + 1, b, d, ?_, by omega⟩
            rw [hcell, ha]
            simp only [Int3.mk.injEq, Nat.cast_add, Nat.cast_one]
            refine ⟨?_, trivial, trivial⟩
            rw [Int.add_mul]
            omega
          · refine ⟨a, b + 1, d, ?_, by omega⟩
            rw [hcell, ha]
            simp only [Int3.mk.injEq, Nat.cast_add, Nat.cast_one]
            refine ⟨trivial, ?_, trivial⟩
            rw [Int.add_mul]
            omega
          · refine ⟨a, b, d + 1, ?_, by omega⟩
            rw [hcell, ha]
            simp only [Int3.mk.injEq, Nat.cast_add, Nat.cast_one]
            refine ⟨trivial, trivial, ?_⟩
            rw [Int.add_mul]
            omega
    · simp only [hc] at h ⊢
      simp only [Bool.false_eq_true, if_false, Option.some.injEq, Except.ok.injEq] at h ⊢
      subst h
      exact ⟨0, 0, 0, by simp, rfl⟩

theorem dbl_lt_irrefl (x : Dbl) : x.lt x = false := by
  cases x <;> simp [Dbl.lt]

theorem dbl_lt_asymm (x y : Dbl) (h : x.lt y = true) : y.lt x = false := by
  cases x <;> cases y <;> simp [Dbl.lt] at h ⊢
  exact le_of_lt h

theorem dbl_lt_trans (x y z : Dbl) (h1 : x.lt y = true) (h2 : y.lt z = true) :
    x.lt z = true := by
  cases x <;> cases y <;> cases z <;> simp [Dbl.lt] at h1 h2 ⊢
  exact lt_trans h1 h2

theorem dbl_lt_or_lt (x y z : Dbl) (hy : y ≠ Dbl.nan) (h : x.lt z = true) :
    x.lt y = true ∨ y.lt z = true := by
  cases x <;> cases y <;> cases z <;> simp [Dbl.lt] at h hy ⊢
  rename_i a b c
  rcases lt_or_le a b with hab | hab
  · exact Or.inl hab
  · exact Or.inr (lt_of_le_of_lt hab h)

/-- The comparison chain of the first voxel picks a side distance that none of the three
is strictly below, when the side distance of Y is a number. -/
theorem dbl_first_voxel_choice_is_least (x y z : Dbl) (hy : y ≠ Dbl.nan) :
    x.lt (if x.lt y && x.lt z then x else if y.lt z then y else z) = false ∧
    y.lt (if x.lt y && x.lt z then x else if y.lt z then y else z) = false ∧
    z.lt (if x.lt y && x.lt z then x else if y.lt z then y else z) = false := by
  by_cases h1 : (x.lt y && x.lt z) = true
  · rw [if_pos h1]
    rw [Bool.and_eq_true] at h1
    exact ⟨dbl_lt_irrefl x, dbl_lt_asymm x y h1.1, dbl_lt_asymm x z h1.2⟩
  · rw [if_neg h1]
    by_cases h2 : y.lt z = true
    · rw [if_pos h2]
      refine ⟨?_, dbl_lt_irrefl y, dbl_lt_asymm y z h2⟩
      cases hxy : x.lt y with
      | false => rfl
      | true =>
        exfalso
        apply h1
        rw [Bool.and_eq_true]
        exact ⟨hxy, dbl_lt_trans x y z hxy h2⟩
    · rw [if_neg h2]
      refine ⟨?_, by simpa using h2, dbl_lt_irrefl z⟩
      cases hxz : x.lt z with
      | false => rfl
      | true =>
        exfalso
        rcases dbl_lt_or_lt x y z hy hxz with hxy | hyz
        · apply h1
          rw [Bool.and_eq_true]
          exact ⟨hxy, hxz⟩
        · exact h2 hyz

theorem rayDistance_cell (r : SoftwareRenderer) (direction : Double3) (c : RaySetup)
    (s : RayState) :
    (rayDistance r direction c s).cell = s.cell ∧
    (rayDistance r direction c s).hitID = s.hitID ∧
    (rayDistance r direction c s).stoppedInFirstVoxel = decide (s.cell = r.startCell) := by
  unfold rayDistance
  simp only []
  split
  · split
    · exact ⟨rfl, rfl, rfl⟩
    · split <;> exact ⟨rfl, rfl, rfl⟩
  · split <;> exact ⟨rfl, rfl, rfl⟩

theorem rayDistance_first (r : SoftwareRenderer) (direction : Double3) (c : RaySetup)
    (s : RayState) (h : s.cell = r.startCell) :
    (rayDistance r direction c s).axis
      = (if c.initialSideDist.x.lt c.initialSideDist.y &&
            c.initialSideDist.x.lt c.initialSideDist.z then Axis.X
          else if c.initialSideDist.y.lt c.initialSideDist.z then Axis.Y else Axis.Z) ∧
    (rayDistance r direction c s).distance
      = (if c.initialSideDist.x.lt c.initialSideDist.y &&
            c.initialSideDist.x.lt c.initialSideDist.z then c.initialSideDist.x
          else if c.initialSideDist.y.lt c.initialSideDist.z then c.initialSideDist.y
          else c.initialSideDist.z) := by
  unfold rayDistance
  simp only [h, decide_True, if_true]
  split
  · exact ⟨rfl, rfl⟩
  · split <;> exact ⟨rfl, rfl⟩

theorem dbl_ge_of_not_lt (a b : Dbl) (ha : a ≠ Dbl.nan) (hb : b ≠ Dbl.nan)
    (h : a.lt b = false) : a.ge b = true := by
  cases a <;> cases b <;> simp [Dbl.lt, Dbl.ge] at h ha hb ⊢
  exact h

/-- The comparison chain of the first voxel picks the least of the three side distances
when all three are numbers: each of them is at least the one chosen. -/
theorem dbl_first_voxel_choice_is_minimum (x y z : Dbl) (hx : x ≠ Dbl.nan)
    (hy : y ≠ Dbl.nan) (hz : z ≠ Dbl.nan) :
    x.ge (if x.lt y && x.lt z then x else if y.lt z then y else z) = true ∧
    y.ge (if x.lt y && x.lt z then x else if y.lt z then y else z) = true ∧
    z.ge (if x.lt y && x.lt z then x else if y.lt z then y else z) = true := by
  obtain ⟨h1, h2, h3⟩ := dbl_first_voxel_choice_is_least x y z hy
  have hc : (if x.lt y && x.lt z then x else if y.lt z then y else z) ≠ Dbl.nan := by
    split
    · exact hx
    · split
      · exact hy
      · exact hz
  exact ⟨dbl_ge_of_not_lt _ _ hx hc h1, dbl_ge_of_not_lt _ _ hy hc h2,
    dbl_ge_of_not_lt _ _ hz hc h3⟩

/-- What holds of the claim C32: when `castRay` gets through its loop, the final cell equals the start cell if
and only if the loop took no step, and `stoppedInFirstVoxel` is that equality. In that
case the axis is X if the initial side distance of X is strictly below those of Y and
Z, else Y if that of Y is strictly below that of Z, else Z, and the distance is the
initial side distance of that axis, whatever the side distances are after the loop; when
the three initial side distances are numbers, it is one of them and each of the three is
at least it. -/
theorem first_voxel_chain_without_steps (fuel : Nat) (ctx : RenderContext)
    (r : SoftwareRenderer) (direction : Double3) (voxelGrid : VoxelGrid) (t : RayTrace)
    (h : traceRay fuel ctx r direction voxelGrid = some (.ok t)) :
    (t.cell = r.startCell ↔
      ddaSteps r voxelGrid (raySetup ctx r direction voxelGrid) fuel
        (rayStart r voxelGrid (raySetup ctx r direction voxelGrid)) = 0) ∧
    t.stoppedInFirstVoxel = decide (t.cell = r.startCell) ∧
    (t.cell = r.startCell →
      t.axis
        = (if (raySetup ctx r direction voxelGrid).initialSideDist.x.lt
                (raySetup ctx r direction voxelGrid).initialSideDist.y &&
              (raySetup ctx r direction voxelGrid).initialSideDist.x.lt
                (raySetup ctx r direction voxelGrid).initialSideDist.z then Axis.X
            else if (raySetup ctx r direction voxelGrid).initialSideDist.y.lt
                (raySetup ctx r direction voxelGrid).initialSideDist.z then Axis.Y
            else Axis.Z) ∧
      t.distance
        = (if (raySetup ctx r direction voxelGrid).initialSideDist.x.lt
                (raySetup ctx r direction voxelGrid).initialSideDist.y &&
              (raySetup ctx r direction voxelGrid).initialSideDist.x.lt
                (raySetup ctx r direction voxelGrid).initialSideDist.z then
              (raySetup ctx r direction voxelGrid).initialSideDist.x
            else if (raySetup ctx r direction voxelGrid).initialSideDist.y.lt
                (raySetup ctx r direction voxelGrid).initialSideDist.z then
              (raySetup ctx r direction voxelGrid).initialSideDist.y
            else (raySetup ctx r direction voxelGrid).initialSideDist.z) ∧
      ((raySetup ctx r direction voxelGrid).initialSideDist.x ≠ Dbl.nan →
        (raySetup ctx r direction voxelGrid).initialSideDist.y ≠ Dbl.nan →
        (raySetup ctx r direction voxelGrid).initialSideDist.z ≠ Dbl.nan →
        (raySetup ctx r direction voxelGrid).initialSideDist.x.ge t.distance = true ∧
        (raySetup ctx r direction voxelGrid).initialSideDist.y.ge t.distance = true ∧
        (raySetup ctx r direction voxelGrid).initialSideDist.z.ge t.distance = true)) := by
  unfold traceRay at h
  simp only [] at h
  cases hl : ddaLoop r voxelGrid (raySetup ctx r direction voxelGrid) fuel
      (rayStart r voxelGrid (raySetup ctx r direction voxelGrid)) with
  | none => rw [hl] at h; cases h
  | some res =>
    rw [hl] at h
    cases res with
    | error e => cases h
    | ok s =>
      simp only [Option.some.injEq, Except.ok.injEq] at h
      subst h
      obtain ⟨hcell, _, hstop⟩ :=
        rayDistance_cell r direction (raySetup ctx r direction voxelGrid) s
      obtain ⟨a, b, d, hs, hsum⟩ := ddaLoop_cell r voxelGrid _ fuel _ s hl
      obtain ⟨hx, hy, hz⟩ := raySetup_step ctx r direction voxelGrid
      have hstart : (rayStart r voxelGrid (raySetup ctx r direction voxelGrid)).cell
          = r.startCell := rfl
      rw [hstart] at hs
      have hiff : s.cell = r.startCell ↔
          ddaSteps r voxelGrid (raySetup ctx r direction voxelGrid) fuel
            (rayStart r voxelGrid (raySetup ctx r direction voxelGrid)) = 0 := by
        rw [← hsum, hs]
        constructor
        · intro he
          have h1 := congrArg Int3.x he
          have h2 := congrArg Int3.y he
          have h3 := congrArg Int3.z he
          simp only [] at h1 h2 h3
          rcases hx with hx | hx <;> rcases hy with hy | hy <;> rcases hz with hz | hz <;>
            rw [hx] at h1 <;> rw [hy] at h2 <;> rw [hz] at h3 <;> omega
        · intro h0
          have ha : a = 0 := by omega
          have hb : b = 0 := by omega
          have hd : d = 0 := by omega
          subst ha; subst hb; subst hd
          simp
      refine ⟨by rw [hcell]; exact hiff, by rw [hstop, hcell], ?_⟩
      intro hfirst
      rw [hcell] at hfirst
      obtain ⟨hax, hdist⟩ :=
        rayDistance_first r direction (raySetup ctx r direction voxelGrid) s hfirst
      refine ⟨hax, hdist, ?_⟩
      intro hnx hny hnz
      rw [hdist]
      exact dbl_first_voxel_choice_is_minimum _ _ _ hnx hny hnz

theorem deltaDist_along_y (ctx : RenderContext) (b : ℚ) (hb : b ≠ 0) :
    (deltaDistOf ctx ⟨Dbl.fin 0, Dbl.fin b, Dbl.fin 0⟩).x = Dbl.nan ∧
    (deltaDistOf ctx ⟨Dbl.fin 0, Dbl.fin b, Dbl.fin 0⟩).y = Dbl.fin (ctx.sqrt 1) ∧
    (deltaDistOf ctx ⟨Dbl.fin 0, Dbl.fin b, Dbl.fin 0⟩).z = Dbl.nan := by
  have hbb : b * b ≠ 0 := mul_ne_zero hb hb
  have hpos : 0 < b * b := mul_self_pos.2 hb
  have h1 : (Dbl.fin b * Dbl.fin b) / (Dbl.fin 0 * Dbl.fin 0) = Dbl.posInf := by
    show Dbl.div (Dbl.fin (b * b)) (Dbl.fin (0 * 0)) = Dbl.posInf
    simp [Dbl.div, hb, hpos]
  have h2 : (Dbl.fin 0 * Dbl.fin 0) / (Dbl.fin 0 * Dbl.fin 0) = Dbl.nan := by
    show Dbl.div (Dbl.fin (0 * 0)) (Dbl.fin (0 * 0)) = Dbl.nan
    simp [Dbl.div]
  have h3 : (Dbl.fin 0 * Dbl.fin 0) / (Dbl.fin b * Dbl.fin b) = Dbl.fin 0 := by
    show Dbl.div (Dbl.fin (0 * 0)) (Dbl.fin (b * b)) = Dbl.fin 0
    simp [Dbl.div, hb]
  refine ⟨?_, ?_, ?_⟩
  · show Dbl.sqrt ctx.sqrt (Dbl.fin 1 + (Dbl.fin b * Dbl.fin b) / (Dbl.fin 0 * Dbl.fin 0)
      + (Dbl.fin 0 * Dbl.fin 0) / (Dbl.fin 0 * Dbl.fin 0)) = Dbl.nan
    rw [h1, h2]
    rfl
  · show Dbl.sqrt ctx.sqrt (Dbl.fin 1 + (Dbl.fin 0 * Dbl.fin 0) / (Dbl.fin b * Dbl.fin b)
      + (Dbl.fin 0 * Dbl.fin 0) / (Dbl.fin b * Dbl.fin b)) = Dbl.fin (ctx.sqrt 1)
    rw [h3]
    show Dbl.sqrt ctx.sqrt (Dbl.fin (1 + 0 + 0)) = Dbl.fin (ctx.sqrt 1)
    simp [Dbl.sqrt]
  · show Dbl.sqrt ctx.sqrt (Dbl.fin 1 + (Dbl.fin 0 * Dbl.fin 0) / (Dbl.fin 0 * Dbl.fin 0)
      + (Dbl.fin b * Dbl.fin b) / (Dbl.fin 0 * Dbl.fin 0)) = Dbl.nan
    rw [h1, h2]
    rfl

theorem sideDist_y_is_a_number (ctx : RenderContext) (r : SoftwareRenderer)
    (voxelGrid : VoxelGrid) (b e v : ℚ) (hb : b ≠ 0) (he : r.eye.y = Dbl.fin e)
    (hv : voxelGrid.voxelHeight = Dbl.fin v) (hv0 : v ≠ 0) :
    ∃ q, (raySetup ctx r ⟨Dbl.fin 0, Dbl.fin b, Dbl.fin 0⟩ voxelGrid).initialSideDist.y
      = Dbl.fin q := by
  obtain ⟨-, hy, -⟩ := deltaDist_along_y ctx b hb
  have hrel : r.eye.y - Dbl.fmod r.eye.y voxelGrid.voxelHeight
      = Dbl.fin (e - (e - (Dbl.truncQ (e / v) : ℚ) * v)) := by
    rw [he, hv]
    show Dbl.add (Dbl.fin e) (Dbl.neg (Dbl.fmod (Dbl.fin e) (Dbl.fin v))) = _
    simp [Dbl.fmod, hv0, Dbl.neg, Dbl.add, sub_eq_add_neg]
  simp only [raySetup, hy, hrel]
  rw [he, hv]
  split
  · exact ⟨_, rfl⟩
  · exact ⟨_, rfl⟩

/-- C32: for every direction along the Y axis, `(0, b, 0)` with `b` non-zero, the delta
distances of X and Z hold 0 / 0 (the defect of the delta distances for a direction with
two zero components), so the initial side distances of X and Z are not numbers, while
that of Y is a number when the eye height and the voxel height are numbers and the
voxel height is not zero. When the loop of `castRay` ends without a step, the final cell
is the start cell and `stoppedInFirstVoxel` is set, every comparison of the chain on the
initial side distances is false, the axis is Z and the distance is the side distance of
Z, which is not a number: it is not the smallest of the three initial side distances,
the only number among which is that of Y. -/
theorem first_voxel_distance_is_not_a_number_along_y (fuel : Nat) (ctx : RenderContext)
    (r : SoftwareRenderer) (voxelGrid : VoxelGrid) (b e v : ℚ) (t : RayTrace)
    (hb : b ≠ 0) (he : r.eye.y = Dbl.fin e) (hv : voxelGrid.voxelHeight = Dbl.fin v)
    (hv0 : v ≠ 0)
    (h : traceRay fuel ctx r ⟨Dbl.fin 0, Dbl.fin b, Dbl.fin 0⟩ voxelGrid = some (.ok t))
    (hsteps : ddaSteps r voxelGrid
      (raySetup ctx r ⟨Dbl.fin 0, Dbl.fin b, Dbl.fin 0⟩ voxelGrid) fuel
      (rayStart r voxelGrid
        (raySetup ctx r ⟨Dbl.fin 0, Dbl.fin b, Dbl.fin 0⟩ voxelGrid)) = 0) :
    t.cell = r.startCell ∧ t.stoppedInFirstVoxel = true ∧
    (raySetup ctx r ⟨Dbl.fin 0, Dbl.fin b, Dbl.fin 0⟩ voxelGrid).initialSideDist.x
      = Dbl.nan ∧
    (∃ q, (raySetup ctx r ⟨Dbl.fin 0, Dbl.fin b, Dbl.fin 0⟩ voxelGrid).initialSideDist.y
      = Dbl.fin q) ∧
    (raySetup ctx r ⟨Dbl.fin 0, Dbl.fin b, Dbl.fin 0⟩ voxelGrid).initialSideDist.z
      = Dbl.nan ∧
    t.axis = Axis.Z ∧ t.distance = Dbl.nan ∧
    t.distance
      ≠ (raySetup ctx r ⟨Dbl.fin 0, Dbl.fin b, Dbl.fin 0⟩ voxelGrid).initialSideDist.y := by
  obtain ⟨hx, -, hz⟩ := deltaDist_along_y ctx b hb
  have hsx : (raySetup ctx r ⟨Dbl.fin 0, Dbl.fin b, Dbl.fin 0⟩ voxelGrid).initialSideDist.x
      = Dbl.nan := by
    simp only [raySetup, hx]
    split <;> exact Dbl.mul_nan _
  have hsz : (raySetup ctx r ⟨Dbl.fin 0, Dbl.fin b, Dbl.fin 0⟩ voxelGrid).initialSideDist.z
      = Dbl.nan := by
    simp only [raySetup, hz]
    split <;> exact Dbl.mul_nan _
  obtain ⟨q, hq⟩ := sideDist_y_is_a_number ctx r voxelGrid b e v hb he hv hv0
  obtain ⟨hiff, hstop, hchain⟩ := first_voxel_chain_without_steps fuel ctx r
    ⟨Dbl.fin 0, Dbl.fin b, Dbl.fin 0⟩ voxelGrid t h
  have hcell : t.cell = r.startCell := hiff.2 hsteps
  obtain ⟨hax, hdist, -⟩ := hchain hcell
  rw [hsx, hsz] at hax hdist
  simp only [Dbl.nan_lt, Dbl.lt_nan, Bool.and_false, Bool.false_eq_true, if_false] at hax hdist
  refine ⟨hcell, by rw [hstop, hcell]; simp, hsx, ⟨q, hq⟩, hsz, hax, hdist, ?_⟩
  rw [hdist, hq]
  exact fun hne => Dbl.noConfusion hne

/-- C32 at the eye (0.5, 0.5, 0.5) in a grid of one solid unit voxel, for the direction
(0, 1, 0): the loop stops at its first test of the voxel, the initial side distance of Y
is 1/2 and the distance that `castRay` computes is not a number. -/
theorem first_voxel_distance_is_not_a_number_along_y_witness :
    traceRay 1 sampleRenderContext (sampleRenderer sampleEye (Dbl.fin 10) [sampleTexture])
      ⟨Dbl.fin 0, Dbl.fin 1, Dbl.fin 0⟩ sampleSolidGrid
      = some (.ok ⟨1, ⟨0, 0, 0⟩, Axis.Z, true, Dbl.nan⟩) ∧
    (raySetup sampleRenderContext (sampleRenderer sampleEye (Dbl.fin 10) [sampleTexture])
      ⟨Dbl.fin 0, Dbl.fin 1, Dbl.fin 0⟩ sampleSolidGrid).initialSideDist
      = ⟨Dbl.nan, Dbl.fin (1 / 2), Dbl.nan⟩ ∧
    (⟨1, ⟨0, 0, 0⟩, Axis.Z, true, Dbl.nan⟩ : RayTrace).distance
      ≠ (raySetup sampleRenderContext (sampleRenderer sampleEye (Dbl.fin 10) [sampleTexture])
        ⟨Dbl.fin 0, Dbl.fin 1, Dbl.fin 0⟩ sampleSolidGrid).initialSideDist.y :=
  ⟨by with_unfolding_all rfl, by with_unfolding_all rfl,
    (first_voxel_distance_is_not_a_number_along_y 1 sampleRenderContext
      (sampleRenderer sampleEye (Dbl.fin 10) [sampleTexture]) sampleSolidGrid 1 (1 / 2) 1
      ⟨1, ⟨0, 0, 0⟩, Axis.Z, true, Dbl.nan⟩ one_ne_zero (by with_unfolding_all rfl)
      (by with_unfolding_all rfl) one_ne_zero (by with_unfolding_all rfl)
      (by with_unfolding_all rfl)).2.2.2.2.2.2.2⟩

theorem rayStart_contained (r : SoftwareRenderer) (voxelGrid : VoxelGrid) (c : RaySetup) :
    (rayStart r voxelGrid c).voxelIsValid = true ↔ voxelGrid.contains r.startCell := by
  simp only [rayStart, VoxelGrid.contains, Bool.and_eq_true, decide_eq_true_eq, ge_iff_le]
  constructor
  · rintro ⟨⟨⟨⟨⟨h1, h2⟩, h3⟩, h4⟩, h5⟩, h6⟩
    exact ⟨h1, h4, h2, h5, h3, h6⟩
  · rintro ⟨h1, h4, h2, h5, h3, h6⟩
    exact ⟨⟨⟨⟨⟨h1, h2⟩, h3⟩, h4⟩, h5⟩, h6⟩

theorem advance_contained (voxelGrid : VoxelGrid) (c : RaySetup) (s : RayState)
    (h : s.voxelIsValid = true → voxelGrid.contains s.cell) :
    (advance voxelGrid c s).voxelIsValid = true →
      voxelGrid.contains (advance voxelGrid c s).cell := by
  simp only [advance]
  split
  · simp only [Bool.and_eq_true, decide_eq_true_eq, ge_iff_le, VoxelGrid.contains]
    rintro ⟨hv, h1, h2⟩
    obtain ⟨_, _, h3, h4, h5, h6⟩ := h hv
    exact ⟨h1, h2, h3, h4, h5, h6⟩
  · split
    · simp only [Bool.and_eq_true, decide_eq_true_eq, ge_iff_le, VoxelGrid.contains]
      rintro ⟨hv, h1, h2⟩
      obtain ⟨h3, h4, _, _, h5, h6⟩ := h hv
      exact ⟨h3, h4, h1, h2, h5, h6⟩
    · simp only [Bool.and_eq_true, decide_eq_true_eq, ge_iff_le, VoxelGrid.contains]
      rintro ⟨hv, h1, h2⟩
      obtain ⟨h3, h4, h5, h6, _, _⟩ := h hv
      exact ⟨h3, h4, h5, h6, h1, h2⟩

theorem advance_hitID (voxelGrid : VoxelGrid) (c : RaySetup) (s : RayState) :
    (advance voxelGrid c s).hitID = s.hitID := by
  simp only [advance]
  split
  · rfl
  · split <;> rfl

theorem gridIndex_bounds (voxelGrid : VoxelGrid) (cell : Int3)
    (h : voxelGrid.contains cell) :
    0 ≤ cell.x + (cell.y * voxelGrid.width) + (cell.z * voxelGrid.width * voxelGrid.height) ∧
    cell.x + (cell.y * voxelGrid.width) + (cell.z * voxelGrid.width * voxelGrid.height)
      < voxelGrid.width * voxelGrid.height * voxelGrid.depth := by
  obtain ⟨hx0, hx1, hy0, hy1, hz0, hz1⟩ := h
  have hw : 0 ≤ voxelGrid.width := by omega
  have hh : 0 ≤ voxelGrid.height := by omega
  have h1 : 0 ≤ cell.y * voxelGrid.width := mul_nonneg hy0 hw
  have h2 : 0 ≤ cell.z * voxelGrid.width * voxelGrid.height :=
    mul_nonneg (mul_nonneg hz0 hw) hh
  have h3 : cell.y * voxelGrid.width ≤ (voxelGrid.height - 1) * voxelGrid.width :=
    mul_le_mul_of_nonneg_right (by omega) hw
  have h4 : cell.z * (voxelGrid.width * voxelGrid.height)
      ≤ (voxelGrid.depth - 1) * (voxelGrid.width * voxelGrid.height) :=
    mul_le_mul_of_nonneg_right (by omega) (mul_nonneg hw hh)
  constructor
  · omega
  · nlinarith [h3, h4]

theorem voxelAt_inside (voxelGrid : VoxelGrid) (cell : Int3)
    (hlen : voxelGrid.voxels.length
      = (voxelGrid.width * voxelGrid.height * voxelGrid.depth).toNat)
    (h : voxelGrid.contains cell) :
    ∃ voxelID, voxelGrid.voxelAt (cell.x + (cell.y * voxelGrid.width) +
      (cell.z * voxelGrid.width * voxelGrid.height)) = .ok voxelID := by
  obtain ⟨h0, h1⟩ := gridIndex_bounds voxelGrid cell h
  have hlt : (cell.x + (cell.y * voxelGrid.width) +
      (cell.z * voxelGrid.width * voxelGrid.height)).toNat < voxelGrid.voxels.length := by
    rw [hlen]
    omega
  refine ⟨voxelGrid.voxels[(cell.x + (cell.y * voxelGrid.width) +
      (cell.z * voxelGrid.width * voxelGrid.height)).toNat], ?_⟩
  unfold VoxelGrid.voxelAt
  rw [if_neg (by omega), List.getElem?_eq_getElem hlt]

theorem ddaReads_contained (r : SoftwareRenderer) (voxelGrid : VoxelGrid) (c : RaySetup) :
    ∀ (fuel : Nat) (s : RayState), (s.voxelIsValid = true → voxelGrid.contains s.cell) →
      ∀ cell ∈ ddaReads r voxelGrid c fuel s, voxelGrid.contains cell := by
  intro fuel
  induction fuel with
  | zero =>
    intro s _ cell hmem
    simp [ddaReads] at hmem
  | succ fuel ih =>
    intro s hs cell hmem
    rw [ddaReads] at hmem
    by_cases hc : (s.voxelIsValid && s.cellDistSquared.lt r.viewDistSquared) = true
    · have hv : s.voxelIsValid = true := by
        simp only [Bool.and_eq_true] at hc
        exact hc.1
      simp only [hc, if_true] at hmem
      split at hmem
      · simp only [List.mem_singleton] at hmem
        subst hmem
        exact hs hv
      · split at hmem
        · simp only [List.mem_singleton] at hmem
          subst hmem
          exact hs hv
        · simp only [List.mem_cons] at hmem
          rcases hmem with hmem | hmem
          · subst hmem
            exact hs hv
          · exact ih _ (advance_contained voxelGrid c s hs) cell hmem
    · simp only [hc] at hmem
      simp at hmem

theorem ddaLoop_reads_succeed (r : SoftwareRenderer) (voxelGrid : VoxelGrid) (c : RaySetup)
    (hlen : voxelGrid.voxels.length
      = (voxelGrid.width * voxelGrid.height * voxelGrid.depth).toNat) :
    ∀ (fuel : Nat) (s : RayState), (s.voxelIsValid = true → voxelGrid.contains s.cell) →
      ∀ e, ddaLoop r voxelGrid c fuel s ≠ some (.error e) := by
  intro fuel
  induction fuel with
  | zero =>
    intro s _ e h
    simp only [ddaLoop] at h
    split at h <;> cases h
  | succ fuel ih =>
    intro s hs e h
    rw [ddaLoop] at h
    by_cases hc : (s.voxelIsValid && s.cellDistSquared.lt r.viewDistSquared) = true
    · have hv : s.voxelIsValid = true := by
        simp only [Bool.and_eq_true] at hc
        exact hc.1
      obtain ⟨voxelID, hread⟩ := voxelAt_inside voxelGrid s.cell hlen (hs hv)
      simp only [hc, if_true, hread] at h
      split at h
      · cases h
      · exact ih _ (advance_contained voxelGrid c s hs) e h
    · simp only [hc] at h
      cases h

theorem ddaLoop_outside_keeps_hitID (r : SoftwareRenderer) (voxelGrid : VoxelGrid)
    (c : RaySetup) :
    ∀ (fuel : Nat) (s s1 : RayState), (s.voxelIsValid = true → voxelGrid.contains s.cell) →
      ddaLoop r voxelGrid c fuel s = some (.ok s1) → ¬ voxelGrid.contains s1.cell →
      s1.hitID = s.hitID := by
  intro fuel
  induction fuel with
  | zero =>
    intro s s1 _ h _
    simp only [ddaLoop] at h
    split at h
    · cases h
    · simp only [Option.some.injEq, Except.ok.injEq] at h
      rw [h]
  | succ fuel ih =>
    intro s s1 hs h hout
    rw [ddaLoop] at h
    by_cases hc : (s.voxelIsValid && s.cellDistSquared.lt r.viewDistSquared) = true
    · have hv : s.voxelIsValid = true := by
        simp only [Bool.and_eq_true] at hc
        exact hc.1
      simp only [hc, if_true] at h
      split at h
      · cases h
      · split at h
        · simp only [Option.some.injEq, Except.ok.injEq] at h
          subst h
          exact absurd (hs hv) hout
        · rw [ih _ _ (advance_contained voxelGrid c s hs) h hout, advance_hitID]
    · simp only [hc] at h
      simp only [Bool.false_eq_true, if_false, Option.some.injEq, Except.ok.injEq] at h
      rw [h]

theorem ddaLoop_start_outside (r : SoftwareRenderer) (voxelGrid : VoxelGrid) (c : RaySetup)
    (fuel : Nat) (s : RayState) (h : s.voxelIsValid = false) :
    ddaLoop r voxelGrid c fuel s = some (.ok s) := by
  cases fuel <;> simp [ddaLoop, h]

/-- C33: `castRay` reads the voxel array only at cells of the grid. Every cell at which
the loop reads satisfies `0 <= x < width`, `0 <= y < height` and `0 <= z < depth`, and
its linear index lies in `[0, width * height * depth)`; so when the array has
`width * height * depth` elements no read fails. When the start cell is outside the
grid, the result is the fog colour after any number of passes, and so it is whenever
the loop ends on a cell outside the grid: such a cell is never a hit. -/
theorem castRay_reads_only_cells_of_the_grid (fuel : Nat) (ctx : RenderContext)
    (r : SoftwareRenderer) (direction : Double3) (voxelGrid : VoxelGrid) :
    (∀ cell ∈ ddaReads r voxelGrid (raySetup ctx r direction voxelGrid) fuel
        (rayStart r voxelGrid (raySetup ctx r direction voxelGrid)),
      (0 ≤ cell.x ∧ cell.x < voxelGrid.width ∧ 0 ≤ cell.y ∧ cell.y < voxelGrid.height ∧
        0 ≤ cell.z ∧ cell.z < voxelGrid.depth) ∧
      0 ≤ cell.x + (cell.y * voxelGrid.width) +
        (cell.z * voxelGrid.width * voxelGrid.height) ∧
      cell.x + (cell.y * voxelGrid.width) + (cell.z * voxelGrid.width * voxelGrid.height)
        < voxelGrid.width * voxelGrid.height * voxelGrid.depth) ∧
    (voxelGrid.voxels.length = (voxelGrid.width * voxelGrid.height * voxelGrid.depth).toNat →
      ∀ e, traceRay fuel ctx r direction voxelGrid ≠ some (.error e)) ∧
    (¬ voxelGrid.contains r.startCell →
      castRay fuel ctx r direction voxelGrid = some (.ok fog)) ∧
    (∀ t, traceRay fuel ctx r direction voxelGrid = some (.ok t) →
      ¬ voxelGrid.contains t.cell →
      t.hitID = 0 ∧ castRay fuel ctx r direction voxelGrid = some (.ok fog)) := by
  have hstart : (rayStart r voxelGrid (raySetup ctx r direction voxelGrid)).voxelIsValid = true →
      voxelGrid.contains (rayStart r voxelGrid (raySetup ctx r direction voxelGrid)).cell :=
    fun hv => (rayStart_contained r voxelGrid _).1 hv
  have hout : ∀ t, traceRay fuel ctx r direction voxelGrid = some (.ok t) →
      ¬ voxelGrid.contains t.cell →
      t.hitID = 0 ∧ castRay fuel ctx r direction voxelGrid = some (.ok fog) := by
    intro t ht hnot
    have hid : t.hitID = 0 := by
      unfold traceRay at ht
      simp only [] at ht
      split at ht
      · cases ht
      · cases ht
      · rename_i s hl
        simp only [Option.some.injEq, Except.ok.injEq] at ht
        subst ht
        obtain ⟨hcell, hhit, _⟩ :=
          rayDistance_cell r direction (raySetup ctx r direction voxelGrid) s
        rw [hcell] at hnot
        rw [hhit, ddaLoop_outside_keeps_hitID r voxelGrid _ fuel _ s hstart hl hnot]
        rfl
    refine ⟨hid, ?_⟩
    unfold castRay
    rw [ht]
    simp only [shadeRay, hid, gt_iff_lt, lt_self_iff_false, if_false]
  refine ⟨?_, ?_, ?_, hout⟩
  · intro cell hmem
    have hin := ddaReads_contained r voxelGrid _ fuel _ hstart cell hmem
    exact ⟨hin, gridIndex_bounds voxelGrid cell hin⟩
  · intro hlen e h
    unfold traceRay at h
    simp only [] at h
    split at h
    · cases h
    · rename_i e1 hl
      exact ddaLoop_reads_succeed r voxelGrid _ hlen fuel _ hstart e1 hl
    · cases h
  · intro hnot
    have hv : (rayStart r voxelGrid (raySetup ctx r direction voxelGrid)).voxelIsValid
        = false := by
      cases hb : (rayStart r voxelGrid (raySetup ctx r direction voxelGrid)).voxelIsValid
      · rfl
      · exact absurd ((rayStart_contained r voxelGrid _).1 hb) hnot
    have hl := ddaLoop_start_outside r voxelGrid (raySetup ctx r direction voxelGrid) fuel _ hv
    have ht : traceRay fuel ctx r direction voxelGrid
        = some (.ok (rayDistance r direction (raySetup ctx r direction voxelGrid)
            (rayStart r voxelGrid (raySetup ctx r direction voxelGrid)))) := by
      unfold traceRay
      simp only [hl]
    refine (hout _ ht ?_).2
    rw [(rayDistance_cell r direction _ _).1]
    exact hnot

/-! ## The chasm states of the old loader -/

open LevelData

theorem assignChasmState_lookup (chasmStates : List (Int2 × ChasmState)) (voxel : Int2)
    (state : ChasmState) (key : Int2) :
    (assignChasmState chasmStates voxel state).lookup key
      = if key = voxel then (chasmStates.lookup key).map (fun _ => state)
        else chasmStates.lookup key := by
  induction chasmStates with
  | nil => simp [assignChasmState]
  | cons entry rest ih =>
    obtain ⟨k, v⟩ := entry
    simp only [assignChasmState, List.map_cons] at ih ⊢
    by_cases hk : k = voxel
    · subst hk
      by_cases hkey : key = k
      · subst hkey
        simp [List.lookup_cons]
      · have hne : (key == k) = false := by simpa using hkey
        simp only [if_true, List.lookup_cons, hne, hkey, if_false] at ih ⊢
        exact ih
    · simp only [hk, if_false]
      by_cases hkey : key = k
      · subst hkey
        simp [List.lookup_cons, hk]
      · have hne : (key == k) = false := by simpa using hkey
        simp only [List.lookup_cons, hne]
        exact ih

theorem eraseChasmState_lookup (chasmStates : List (Int2 × ChasmState)) (voxel key : Int2) :
    (eraseChasmState chasmStates voxel).lookup key
      = if key = voxel then none else chasmStates.lookup key := by
  induction chasmStates with
  | nil => simp [eraseChasmState]
  | cons entry rest ih =>
    obtain ⟨k, v⟩ := entry
    simp only [eraseChasmState, List.filter_cons] at ih ⊢
    by_cases hk : k = voxel
    · subst hk
      by_cases hkey : key = k
      · subst hkey
        simpa using ih
      · have hne : (key == k) = false := by simpa using hkey
        simp only [decide_True, Bool.not_true, Bool.false_eq_true, if_false, List.lookup_cons,
          hne]
        exact ih
    · simp only [hk, decide_False, Bool.not_false, if_true]
      by_cases hkey : key = k
      · subst hkey
        simp [List.lookup_cons, hk]
      · have hne : (key == k) = false := by simpa using hkey
        simp only [List.lookup_cons, hne]
        exact ih

theorem emplaceChasmState_lookup (chasmStates : List (Int2 × ChasmState)) (voxel : Int2)
    (state : ChasmState) (key : Int2) :
    (emplaceChasmState chasmStates voxel state).lookup key
      = if key = voxel then some ((chasmStates.lookup key).getD state)
        else chasmStates.lookup key := by
  unfold emplaceChasmState
  cases h : chasmStates.lookup voxel with
  | some existing =>
    by_cases hkey : key = voxel
    · subst hkey
      simp [h]
    · simp [hkey]
  | none =>
    by_cases hkey : key = voxel
    · subst hkey
      simp [List.lookup_cons, h]
    · have hne : (key == voxel) = false := by simpa using hkey
      simp [List.lookup_cons, hne, hkey]

theorem updateChasmState_lookup (chasmStates : List (Int2 × ChasmState)) (voxel : Int3)
    (faces : ChasmFaces) (key : Int2) :
    (updateChasmState chasmStates voxel faces).lookup key
      = if key = ⟨voxel.x, voxel.z⟩ then chasmStateOf ⟨voxel.x, voxel.z⟩ faces
        else chasmStates.lookup key := by
  unfold updateChasmState chasmStateOf
  simp only []
  cases h : chasmStates.lookup ⟨voxel.x, voxel.z⟩ with
  | some existing =>
    simp only []
    split
    · rw [assignChasmState_lookup]
      by_cases hkey : key = ⟨voxel.x, voxel.z⟩
      · subst hkey
        simp [h]
      · simp [hkey]
    · rw [eraseChasmState_lookup]
  | none =>
    simp only []
    split
    · rw [emplaceChasmState_lookup]
      by_cases hkey : key = ⟨voxel.x, voxel.z⟩
      · subst hkey
        simp [h]
      · simp [hkey]
    · by_cases hkey : key = ⟨voxel.x, voxel.z⟩
      · subst hkey
        simp [h]
      · simp [hkey]

theorem emplaceChasmState_ok (chasmStates : List (Int2 × ChasmState)) (voxel : Int2)
    (state : ChasmState) (hstate : state.voxel = voxel)
    (hface : (state.north || state.east || state.south || state.west) = true)
    (h : ChasmStatesOK chasmStates) :
    ChasmStatesOK (emplaceChasmState chasmStates voxel state) := by
  unfold emplaceChasmState
  split
  · exact h
  · intro entry hmem
    simp only [List.mem_cons] at hmem
    rcases hmem with rfl | hmem
    · exact ⟨hstate, hface⟩
    · exact h entry hmem

theorem updateChasmState_ok (chasmStates : List (Int2 × ChasmState)) (voxel : Int3)
    (faces : ChasmFaces) (h : ChasmStatesOK chasmStates) :
    ChasmStatesOK (updateChasmState chasmStates voxel faces) := by
  unfold updateChasmState
  simp only []
  split
  · split
    · rename_i hface
      intro entry hmem
      simp only [assignChasmState, List.mem_map] at hmem
      obtain ⟨old, hold, rfl⟩ := hmem
      split
      · rename_i hk
        exact ⟨hk.symm, hface⟩
      · exact h old hold
    · intro entry hmem
      simp only [eraseChasmState, List.mem_filter] at hmem
      exact h entry hmem.1
  · split
    · rename_i hface
      exact emplaceChasmState_ok _ _ _ rfl hface h
    · exact h

theorem getVoxelIdOrAir_congr (ld ld1 : LevelData) (h : ld1.voxelGrid = ld.voxelGrid)
    (voxel : Int3) : ld1.getVoxelIdOrAir voxel = ld.getVoxelIdOrAir voxel := by
  simp only [getVoxelIdOrAir, h]

theorem chasmFaces_congr (ctx : LevelContext) (ld ld1 : LevelData)
    (h : ld1.voxelGrid = ld.voxelGrid) (voxel : Int3) :
    chasmFaces ctx ld1 voxel = chasmFaces ctx ld voxel := by
  simp only [chasmFaces, getAdjacentVoxelIDs, getVoxelIdOrAir_congr ld ld1 h, h]

theorem chasmFaces_spec (ctx : LevelContext) (ld : LevelData) (voxel : Int3)
    (faces : ChasmFaces) (h : chasmFaces ctx ld voxel = .ok faces) :
    ∃ northID southID eastID westID northDef southDef eastDef westDef,
      ld.getVoxelIdOrAir ⟨voxel.x - 1, voxel.y, voxel.z⟩ = .ok northID ∧
      ld.getVoxelIdOrAir ⟨voxel.x + 1, voxel.y, voxel.z⟩ = .ok southID ∧
      ld.getVoxelIdOrAir ⟨voxel.x, voxel.y, voxel.z - 1⟩ = .ok eastID ∧
      ld.getVoxelIdOrAir ⟨voxel.x, voxel.y, voxel.z + 1⟩ = .ok westID ∧
      ld.voxelGrid.getVoxelDef northID = .ok northDef ∧
      ld.voxelGrid.getVoxelDef southID = .ok southDef ∧
      ld.voxelGrid.getVoxelDef eastID = .ok eastDef ∧
      ld.voxelGrid.getVoxelDef westID = .ok westDef ∧
      faces = ⟨ctx.allowsChasmFace northDef, ctx.allowsChasmFace southDef,
        ctx.allowsChasmFace eastDef, ctx.allowsChasmFace westDef⟩ := by
  unfold chasmFaces at h
  cases hids : ld.getAdjacentVoxelIDs voxel with
  | error e => simp only [hids] at h; cases h
  | ok ids =>
    simp only [hids] at h
    unfold getAdjacentVoxelIDs at hids
    simp only [] at hids
    cases hn : ld.getVoxelIdOrAir ⟨voxel.x - 1, voxel.y, voxel.z⟩ with
    | error e => simp only [hn] at hids; cases hids
    | ok northID =>
      cases hs : ld.getVoxelIdOrAir ⟨voxel.x + 1, voxel.y, voxel.z⟩ with
      | error e => simp only [hn, hs] at hids; cases hids
      | ok southID =>
        cases he : ld.getVoxelIdOrAir ⟨voxel.x, voxel.y, voxel.z - 1⟩ with
        | error e => simp only [hn, hs, he] at hids; cases hids
        | ok eastID =>
          cases hw : ld.getVoxelIdOrAir ⟨voxel.x, voxel.y, voxel.z + 1⟩ with
          | error e => simp only [hn, hs, he, hw] at hids; cases hids
          | ok westID =>
            simp only [hn, hs, he, hw, Except.ok.injEq] at hids
            subst hids
            simp only [] at h
            cases hnd : ld.voxelGrid.getVoxelDef northID with
            | error e => simp only [hnd] at h; cases h
            | ok northDef =>
              cases hsd : ld.voxelGrid.getVoxelDef southID with
              | error e => simp only [hnd, hsd] at h; cases h
              | ok southDef =>
                cases hed : ld.voxelGrid.getVoxelDef eastID with
                | error e => simp only [hnd, hsd, hed] at h; cases h
                | ok eastDef =>
                  cases hwd : ld.voxelGrid.getVoxelDef westID with
                  | error e => simp only [hnd, hsd, hed, hwd] at h; cases h
                  | ok westDef =>
                    simp only [hnd, hsd, hed, hwd, Except.ok.injEq] at h
                    exact ⟨northID, southID, eastID, westID, northDef, southDef, eastDef,
                      westDef, rfl, rfl, rfl, rfl, hnd, hsd, hed, hwd, h.symm⟩

theorem getVoxelIdOrAir_outside (ld : LevelData) (voxel : Int3)
    (h : ld.voxelGrid.coordIsValid voxel.x voxel.y voxel.z = false) :
    ld.getVoxelIdOrAir voxel = .ok 0 := by
  simp [getVoxelIdOrAir, h]

theorem tryUpdateChasmVoxel_spec (ctx : LevelContext) (ld ld1 : LevelData) (voxel : Int3)
    (h : tryUpdateChasmVoxel ctx ld voxel = .ok ld1) :
    (ld.voxelGrid.coordIsValid voxel.x voxel.y voxel.z = false ∧ ld1 = ld) ∨
    (∃ voxelID voxelDef, ld.voxelGrid.getVoxel voxel.x voxel.y voxel.z = .ok voxelID ∧
      ld.voxelGrid.getVoxelDef voxelID = .ok voxelDef ∧ voxelDef.isChasmType = false ∧
      ld1 = ld) ∨
    ∃ voxelID textureID type faces,
      ld.voxelGrid.coordIsValid voxel.x voxel.y voxel.z = true ∧
      ld.voxelGrid.getVoxel voxel.x voxel.y voxel.z = .ok voxelID ∧
      ld.voxelGrid.getVoxelDef voxelID = .ok (VoxelDefinition.Chasm textureID type) ∧
      chasmFaces ctx ld voxel = .ok faces ∧
      ld1 = { ld with chasmStates := updateChasmState ld.chasmStates voxel faces } := by
  unfold tryUpdateChasmVoxel at h
  split at h
  · rename_i hvalid
    simp only [Except.ok.injEq] at h
    exact Or.inl ⟨by simpa using hvalid, h.symm⟩
  · rename_i hvalid
    split at h
    · cases h
    · rename_i voxelID hid
      split at h
      · cases h
      · rename_i voxelDef hdef
        split at h
        · rename_i hchasm
          simp only [Except.ok.injEq] at h
          exact Or.inr (Or.inl ⟨voxelID, voxelDef, hid, hdef, by simpa using hchasm, h.symm⟩)
        · rename_i hchasm
          split at h
          · cases h
          · rename_i faces hfaces
            simp only [Except.ok.injEq] at h
            cases voxelDef with
            | Chasm textureID type =>
              exact Or.inr (Or.inr ⟨voxelID, textureID, type, faces, by simpa using hvalid,
                hid, hdef, hfaces, h.symm⟩)
            | _ => simp [VoxelDefinition.isChasmType] at hchasm

theorem tryUpdateChasmVoxel_keeps (ctx : LevelContext) (ld ld1 : LevelData) (voxel : Int3)
    (h : tryUpdateChasmVoxel ctx ld voxel = .ok ld1) :
    ld1.voxelGrid = ld.voxelGrid ∧ ld1.fadingVoxels = ld.fadingVoxels ∧
    (ChasmStatesOK ld.chasmStates → ChasmStatesOK ld1.chasmStates) := by
  rcases tryUpdateChasmVoxel_spec ctx ld ld1 voxel h with
    ⟨_, rfl⟩ | ⟨_, _, _, _, _, rfl⟩ | ⟨_, _, _, faces, _, _, _, _, rfl⟩
  · exact ⟨rfl, rfl, id⟩
  · exact ⟨rfl, rfl, id⟩
  · exact ⟨rfl, rfl, updateChasmState_ok _ _ _⟩

theorem getChasmIdFromFadedFloorVoxel_spec (ctx : LevelContext) (ld ld1 : LevelData)
    (voxel : Int3) (id : Nat) (h : getChasmIdFromFadedFloorVoxel ctx ld voxel = .ok (id, ld1)) :
    ∃ faces, ld.voxelGrid.coordIsValid voxel.x voxel.y voxel.z = true ∧
      chasmFaces ctx ld voxel = .ok faces ∧
      ld1.chasmStates = updateChasmState ld.chasmStates voxel faces ∧
      ld1.fadingVoxels = ld.fadingVoxels ∧
      ld1.voxelGrid.width = ld.voxelGrid.width ∧
      ld1.voxelGrid.height = ld.voxelGrid.height ∧
      ld1.voxelGrid.depth = ld.voxelGrid.depth ∧
      ld1.voxelGrid.voxels = ld.voxelGrid.voxels ∧
      (∃ added, ld1.voxelGrid.voxelDefs = ld.voxelGrid.voxelDefs ++ added) ∧
      ∃ textureID type, ld1.voxelGrid.getVoxelDef id = .ok (VoxelDefinition.Chasm textureID type) := by
  unfold getChasmIdFromFadedFloorVoxel at h
  split at h
  · cases h
  · rename_i hvalid
    split at h
    · cases h
    · rename_i faces hfaces
      simp only [] at h
      split at h
      · rename_i chasmID hfind
        simp only [Except.ok.injEq, Prod.mk.injEq] at h
        obtain ⟨rfl, rfl⟩ := h
        refine ⟨faces, by simpa using hvalid, hfaces, rfl, rfl, rfl, rfl, rfl, rfl,
          ⟨[], by simp⟩, ?_⟩
        unfold LevelVoxelGrid.findVoxelDef at hfind
        have hp := List.find?_some hfind
        simp only [LevelVoxelGrid.getVoxelDef]
        cases hd : ld.voxelGrid.voxelDefs[chasmID]? with
        | none => simp [hd] at hp
        | some voxelDef =>
          simp only [hd] at hp
          cases voxelDef with
          | Chasm textureID type => exact ⟨textureID, type, rfl⟩
          | _ => simp [matchesChasm] at hp
      · simp only [Except.ok.injEq, Prod.mk.injEq] at h
        obtain ⟨rfl, rfl⟩ := h
        refine ⟨faces, by simpa using hvalid, hfaces, rfl, rfl, rfl, rfl, rfl, rfl,
          ⟨[_], rfl⟩, ?_⟩
        simp [LevelVoxelGrid.getVoxelDef, LevelVoxelGrid.addVoxelDef]

theorem levelData_setVoxel_spec (ld ld1 : LevelData) (x y z : Int) (id : Nat)
    (h : ld.setVoxel x y z id = .ok ld1) :
    ld.voxelGrid.coordIsValid x y z = true ∧
    ld1 = { ld with
            voxelGrid := { ld.voxelGrid with voxels := (⟨x, y, z⟩, id) :: ld.voxelGrid.voxels } } := by
  unfold LevelData.setVoxel LevelVoxelGrid.setVoxel at h
  split at h
  · cases h
  · rename_i g hg
    split at hg
    · rename_i hvalid
      simp only [Except.ok.injEq] at hg h
      subst hg
      exact ⟨hvalid, h.symm⟩
    · cases hg

theorem readFLORCell_chasmStates (mif : MIFUtils) (flor : BufferView2D) (inf : INFFile)
    (ld ld1 : LevelData) (cell : Nat × Nat) (h : readFLORCell mif flor inf ld cell = .ok ld1) :
    ld1.chasmStates = ld.chasmStates := by
  unfold readFLORCell at h
  simp only [] at h
  split at h
  · cases h
  · rename_i written hwritten
    have hw : written.chasmStates = ld.chasmStates := by
      split at hwritten
      · obtain ⟨_, rfl⟩ := levelData_setVoxel_spec _ _ _ _ _ _ hwritten
        simp only [getFlorDataIndex]
        split <;> rfl
      · split at hwritten
        · obtain ⟨_, rfl⟩ := levelData_setVoxel_spec _ _ _ _ _ _ hwritten
          simp only [getChasmDataIndex]
          split <;> rfl
        · split at hwritten
          · obtain ⟨_, rfl⟩ := levelData_setVoxel_spec _ _ _ _ _ _ hwritten
            simp only [getChasmDataIndex]
            split <;> rfl
          · split at hwritten
            · obtain ⟨_, rfl⟩ := levelData_setVoxel_spec _ _ _ _ _ _ hwritten
              simp only [getChasmDataIndex]
              split <;> rfl
            · cases hwritten
    split at h
    · simp only [Except.ok.injEq] at h
      subst h
      exact hw
    · simp only [Except.ok.injEq] at h
      subst h
      exact hw

theorem readFLORChasmCell_spec (ctx : LevelContext) (ld ld1 : LevelData) (cell : Nat × Nat)
    (h : readFLORChasmCell ctx ld cell = .ok ld1) :
    ld1 = ld ∨
    ∃ faces state, chasmFaces ctx ld ⟨cell.1, 0, cell.2⟩ = .ok faces ∧
      chasmStateOf ⟨cell.1, cell.2⟩ faces = some state ∧
      ld1 = { ld with chasmStates := emplaceChasmState ld.chasmStates ⟨cell.1, cell.2⟩ state } := by
  unfold readFLORChasmCell at h
  simp only [] at h
  split at h
  · cases h
  · split at h
    · cases h
    · split at h
      · simp only [Except.ok.injEq] at h
        exact Or.inl h.symm
      · split at h
        · cases h
        · rename_i faces hfaces
          split at h
          · rename_i hany
            simp only [Except.ok.injEq] at h
            exact Or.inr ⟨faces, _, hfaces, by simp only [chasmStateOf, hany, if_true], h.symm⟩
          · simp only [Except.ok.injEq] at h
            exact Or.inl h.symm

theorem chasmStateOf_some (voxel : Int2) (faces : ChasmFaces) (state : ChasmState)
    (h : chasmStateOf voxel faces = some state) :
    state.voxel = voxel ∧ (state.north || state.east || state.south || state.west) = true ∧
    state.north = faces.hasNorthFace ∧ state.east = faces.hasEastFace ∧
    state.south = faces.hasSouthFace ∧ state.west = faces.hasWestFace := by
  unfold chasmStateOf at h
  split at h
  · rename_i hany
    simp only [Option.some.injEq] at h
    subst h
    exact ⟨rfl, hany, rfl, rfl, rfl, rfl⟩
  · cases h

theorem readFLOR_chasmStates (ctx : LevelContext) (mif : MIFUtils) (flor : BufferView2D)
    (inf : INFFile) (ld ld1 : LevelData) (h : readFLOR ctx mif flor inf ld = .ok ld1) :
    (ChasmStatesOK ld.chasmStates → ChasmStatesOK ld1.chasmStates) ∧
    (ld.chasmStates = [] → ∀ entry ∈ ld1.chasmStates, ∃ faces,
      chasmFaces ctx ld1 ⟨entry.1.x, 0, entry.1.y⟩ = .ok faces ∧
      chasmStateOf entry.1 faces = some entry.2) := by
  unfold readFLOR at h
  split at h
  · cases h
  · rename_i mid hmid
    have hfirst : mid.chasmStates = ld.chasmStates := by
      have := forCells_invariant (readFLORCell mif flor inf)
        (fun _ s => s.chasmStates = ld.chasmStates) (readerCells flor)
        (fun done c s s1 _ hP hb =>
          (readFLORCell_chasmStates mif flor inf s s1 c hb).trans hP)
        [] ld mid rfl hmid
      exact this
    have hsecond := forCells_invariant (readFLORChasmCell ctx)
      (fun _ s => s.voxelGrid = mid.voxelGrid ∧
        (ChasmStatesOK mid.chasmStates → ChasmStatesOK s.chasmStates) ∧
        (mid.chasmStates = [] → ∀ entry ∈ s.chasmStates, ∃ faces,
          chasmFaces ctx mid ⟨entry.1.x, 0, entry.1.y⟩ = .ok faces ∧
          chasmStateOf entry.1 faces = some entry.2)) (readerCells flor)
      (fun done c s s1 _ hP hb => by
        obtain ⟨hgrid, hok, hentries⟩ := hP
        rcases readFLORChasmCell_spec ctx s s1 c hb with rfl | ⟨faces, state, hfaces, hstate, rfl⟩
        · exact ⟨hgrid, hok, hentries⟩
        · obtain ⟨hv, hany, _⟩ := chasmStateOf_some _ _ _ hstate
          refine ⟨hgrid, fun hinv => emplaceChasmState_ok _ _ _ hv hany (hok hinv), ?_⟩
          intro hempty entry hmem
          simp only [emplaceChasmState] at hmem
          split at hmem
          · exact hentries hempty entry hmem
          · simp only [List.mem_cons] at hmem
            rcases hmem with rfl | hmem
            · refine ⟨faces, ?_, hstate⟩
              rw [← chasmFaces_congr ctx mid s hgrid]
              exact hfaces
            · exact hentries hempty entry hmem)
      [] mid ld1 ⟨rfl, id, fun hempty entry hmem => by rw [hempty] at hmem; cases hmem⟩ h
    obtain ⟨hgrid, hok, hentries⟩ := hsecond
    refine ⟨fun hinv => hok (by rw [hfirst]; exact hinv), ?_⟩
    intro hempty entry hmem
    obtain ⟨faces, hfaces, hstate⟩ := hentries (by rw [hfirst]; exact hempty) entry hmem
    exact ⟨faces, by rw [chasmFaces_congr ctx mid ld1 hgrid]; exact hfaces, hstate⟩

/-- C37: the chasm states of `LevelData` keep their invariant. When every entry of
`chasmStates` is keyed by its own voxel `(x, z)` and has one of its four face flags set
(as in the empty map), the same is true after `readFLOR`, after `tryUpdateChasmVoxel`
and after `getChasmIdFromFadedFloorVoxel`. After `readFLOR` on a level without chasm
states, every entry holds exactly the faces computed at its voxel, one of them set.
After the other two, when they reach the update of the state, the map holds at the
voxel the state with the computed faces if one of them is set, and no entry if none
is: a chasm with no visible side face has no entry. -/
theorem chasm_states_keep_a_face_and_their_key (ctx : LevelContext) (mif : MIFUtils)
    (flor : BufferView2D) (inf : INFFile) (ld : LevelData) (voxel : Int3)
    (hinv : ChasmStatesOK ld.chasmStates) :
    (∀ ld1, readFLOR ctx mif flor inf ld = .ok ld1 →
      ChasmStatesOK ld1.chasmStates ∧
      (ld.chasmStates = [] → ∀ entry ∈ ld1.chasmStates, ∃ faces,
        chasmFaces ctx ld1 ⟨entry.1.x, 0, entry.1.y⟩ = .ok faces ∧
        chasmStateOf entry.1 faces = some entry.2)) ∧
    (∀ ld1, tryUpdateChasmVoxel ctx ld voxel = .ok ld1 →
      ChasmStatesOK ld1.chasmStates ∧
      (ld1 = ld ∨ ∃ faces, chasmFaces ctx ld voxel = .ok faces ∧
        ld1.chasmStates.lookup ⟨voxel.x, voxel.z⟩ = chasmStateOf ⟨voxel.x, voxel.z⟩ faces)) ∧
    (∀ id ld1, getChasmIdFromFadedFloorVoxel ctx ld voxel = .ok (id, ld1) →
      ChasmStatesOK ld1.chasmStates ∧
      ∃ faces, chasmFaces ctx ld voxel = .ok faces ∧
        ld1.chasmStates.lookup ⟨voxel.x, voxel.z⟩
          = chasmStateOf ⟨voxel.x, voxel.z⟩ faces) := by
  refine ⟨?_, ?_, ?_⟩
  · intro ld1 h
    obtain ⟨hok, hentries⟩ := readFLOR_chasmStates ctx mif flor inf ld ld1 h
    exact ⟨hok hinv, hentries⟩
  · intro ld1 h
    refine ⟨(tryUpdateChasmVoxel_keeps ctx ld ld1 voxel h).2.2 hinv, ?_⟩
    rcases tryUpdateChasmVoxel_spec ctx ld ld1 voxel h with
      ⟨_, rfl⟩ | ⟨_, _, _, _, _, rfl⟩ | ⟨_, _, _, faces, _, _, _, hfaces, rfl⟩
    · exact Or.inl rfl
    · exact Or.inl rfl
    · refine Or.inr ⟨faces, hfaces, ?_⟩
      simp only [updateChasmState_lookup, if_true]
  · intro id ld1 h
    obtain ⟨faces, _, hfaces, hstates, _⟩ :=
      getChasmIdFromFadedFloorVoxel_spec ctx ld ld1 voxel id h
    refine ⟨by rw [hstates]; exact updateChasmState_ok _ _ _ hinv, faces, hfaces, ?_⟩
    rw [hstates]
    simp only [updateChasmState_lookup, if_true]

theorem chasm_states_keep_a_face_and_their_key_witness :
    ∃ ld1, tryUpdateChasmVoxel sampleLevelContext sampleLevelData ⟨0, 0, 0⟩ = .ok ld1 ∧
      ld1.chasmStates = [(⟨0, 0⟩, ⟨⟨0, 0⟩, false, false, true, false⟩)] ∧
      ChasmStatesOK ld1.chasmStates := by
  have hrun : ∃ ld1, tryUpdateChasmVoxel sampleLevelContext sampleLevelData ⟨0, 0, 0⟩ = .ok ld1 ∧
      ld1.chasmStates = [(⟨0, 0⟩, ⟨⟨0, 0⟩, false, false, true, false⟩)] :=
    ⟨_, rfl, rfl⟩
  obtain ⟨ld1, h, hstates⟩ := hrun
  exact ⟨ld1, h, hstates,
    ((chasm_states_keep_a_face_and_their_key sampleLevelContext sampleMif
      (bufferOf 1 1 [[0]]) sampleInf sampleLevelData ⟨0, 0, 0⟩
      (by intro entry hmem; cases hmem)).2.1 ld1 h).1⟩

/-- C38: for the chasm state that `tryUpdateChasmVoxel` builds at a chasm voxel of the
grid (on the floor, `y = 0`, or at any height), and for every 2D facing, the normal of
the facing is a unit step of integers and `faceIsVisible` of the facing equals
`allowsChasmFace` of the definition of the voxel one such step away, whose ID is taken
as 0 (air) when the neighbour is outside the grid. -/
theorem chasm_face_is_visible_iff_the_neighbour_allows_it (ctx : LevelContext)
    (ld ld1 : LevelData) (voxel : Int3) (voxelID : Nat) (textureID : Int) (type : ChasmType)
    (state : ChasmState)
    (hvalid : ld.voxelGrid.coordIsValid voxel.x voxel.y voxel.z = true)
    (hid : ld.voxelGrid.getVoxel voxel.x voxel.y voxel.z = .ok voxelID)
    (hchasm : ld.voxelGrid.getVoxelDef voxelID = .ok (VoxelDefinition.Chasm textureID type))
    (h : tryUpdateChasmVoxel ctx ld voxel = .ok ld1)
    (hstate : ld1.chasmStates.lookup ⟨voxel.x, voxel.z⟩ = some state) :
    ∀ facing : VoxelFacing2D, ∃ dx dy dz : Int,
      VoxelUtils.getNormal facing = ⟨Dbl.ofInt dx, Dbl.ofInt dy, Dbl.ofInt dz⟩ ∧
      ∃ id voxelDef,
        ld.getVoxelIdOrAir ⟨voxel.x + dx, voxel.y + dy, voxel.z + dz⟩ = .ok id ∧
        (ld.voxelGrid.coordIsValid (voxel.x + dx) (voxel.y + dy) (voxel.z + dz) = false →
          id = 0) ∧
        ld.voxelGrid.getVoxelDef id = .ok voxelDef ∧
        (state.faceIsVisible facing = true ↔ ctx.allowsChasmFace voxelDef = true) := by
  have hair : ∀ (cell : Int3) (id : Nat), ld.getVoxelIdOrAir cell = .ok id →
      ld.voxelGrid.coordIsValid cell.x cell.y cell.z = false → id = 0 := by
    intro cell id hcell hout
    rw [getVoxelIdOrAir_outside ld cell hout] at hcell
    simp only [Except.ok.injEq] at hcell
    exact hcell.symm
  rcases tryUpdateChasmVoxel_spec ctx ld ld1 voxel h with
    ⟨hbad, _⟩ | ⟨id2, def2, hid2, hdef2, hnot, _⟩ | ⟨_, _, _, faces, _, _, _, hfaces, rfl⟩
  · rw [hvalid] at hbad
    cases hbad
  · rw [hid] at hid2
    simp only [Except.ok.injEq] at hid2
    subst hid2
    rw [hchasm] at hdef2
    simp only [Except.ok.injEq] at hdef2
    subst hdef2
    simp [VoxelDefinition.isChasmType] at hnot
  · simp only [updateChasmState_lookup, if_true] at hstate
    obtain ⟨_, _, hn, he, hs, hw⟩ := chasmStateOf_some _ _ _ hstate
    obtain ⟨northID, southID, eastID, westID, northDef, southDef, eastDef, westDef,
      hnid, hsid, heid, hwid, hnd, hsd, hed, hwd, rfl⟩ := chasmFaces_spec ctx ld voxel faces hfaces
    simp only [] at hn he hs hw
    have hx1 : voxel.x + 1 = voxel.x + 1 := rfl
    have hxm : voxel.x + -1 = voxel.x - 1 := by omega
    have hzm : voxel.z + -1 = voxel.z - 1 := by omega
    intro facing
    cases facing with
    | PositiveX =>
      refine ⟨1, 0, 0, by simp [VoxelUtils.getNormal, Dbl.ofInt], southID, southDef, ?_, ?_, hsd,
        by simp [ChasmState.faceIsVisible, hs]⟩
      · simpa using hsid
      · intro hout
        exact hair ⟨voxel.x + 1, voxel.y + 0, voxel.z + 0⟩ southID (by simpa using hsid) hout
    | NegativeX =>
      refine ⟨-1, 0, 0, by simp [VoxelUtils.getNormal, Dbl.ofInt], northID, northDef, ?_, ?_, hnd,
        by simp [ChasmState.faceIsVisible, hn]⟩
      · simpa [hxm] using hnid
      · intro hout
        exact hair ⟨voxel.x + -1, voxel.y + 0, voxel.z + 0⟩ northID (by simpa [hxm] using hnid)
          hout
    | PositiveZ =>
      refine ⟨0, 0, 1, by simp [VoxelUtils.getNormal, Dbl.ofInt], westID, westDef, ?_, ?_, hwd,
        by simp [ChasmState.faceIsVisible, hw]⟩
      · simpa using hwid
      · intro hout
        exact hair ⟨voxel.x + 0, voxel.y + 0, voxel.z + 1⟩ westID (by simpa using hwid) hout
    | NegativeZ =>
      refine ⟨0, 0, -1, by simp [VoxelUtils.getNormal, Dbl.ofInt], eastID, eastDef, ?_, ?_, hed,
        by simp [ChasmState.faceIsVisible, he]⟩
      · simpa [hzm] using heid
      · intro hout
        exact hair ⟨voxel.x + 0, voxel.y + 0, voxel.z + -1⟩ eastID (by simpa [hzm] using heid)
          hout

theorem chasm_face_is_visible_iff_the_neighbour_allows_it_witness :
    ∃ ld1 state, tryUpdateChasmVoxel sampleLevelContext sampleLevelData ⟨0, 0, 0⟩ = .ok ld1 ∧
      ld1.chasmStates.lookup ⟨0, 0⟩ = some state ∧
      state.faceIsVisible VoxelFacing2D.PositiveX = true ∧
      ∀ facing : VoxelFacing2D, ∃ dx dy dz : Int,
        VoxelUtils.getNormal facing = ⟨Dbl.ofInt dx, Dbl.ofInt dy, Dbl.ofInt dz⟩ ∧
        ∃ id voxelDef,
          sampleLevelData.getVoxelIdOrAir ⟨0 + dx, 0 + dy, 0 + dz⟩ = .ok id ∧
          (sampleLevelData.voxelGrid.coordIsValid (0 + dx) (0 + dy) (0 + dz) = false →
            id = 0) ∧
          sampleLevelData.voxelGrid.getVoxelDef id = .ok voxelDef ∧
          (state.faceIsVisible facing = true ↔
            sampleLevelContext.allowsChasmFace voxelDef = true) := by
  have hrun : ∃ ld1 state,
      tryUpdateChasmVoxel sampleLevelContext sampleLevelData ⟨0, 0, 0⟩ = .ok ld1 ∧
      ld1.chasmStates.lookup ⟨0, 0⟩ = some state ∧
      state.faceIsVisible VoxelFacing2D.PositiveX = true :=
    ⟨_, _, rfl, rfl, rfl⟩
  obtain ⟨ld1, state, h, hstate, hvisible⟩ := hrun
  exact ⟨ld1, state, h, hstate, hvisible,
    chasm_face_is_visible_iff_the_neighbour_allows_it sampleLevelContext sampleLevelData ld1
      ⟨0, 0, 0⟩ 2 0 ChasmType.Wet state rfl rfl rfl h hstate⟩

/-! ## The old and the new MAP1 decoder -/

theorem doorField_eq (c : Nat) :
    (c &&& 0x00C0) >>> 4 = (c / 64 % 4) * 4 ∧ (c &&& 0x00C0) >>> 6 = c / 64 % 4 := by
  have h := and_shiftLeft_eq c 6 3
  have e : (3 <<< 6 : Nat) = 0x00C0 := by decide
  rw [e] at h
  have hm : (c >>> 6) &&& 3 = c / 64 % 4 := by
    rw [Nat.shiftRight_eq_div_pow]
    exact Nat.and_pow_two_sub_one_eq_mod _ 2
  rw [h, hm, Nat.shiftLeft_eq, Nat.shiftRight_eq_div_pow, Nat.shiftRight_eq_div_pow]
  constructor <;> omega

theorem makeWallVoxelData_eq (inf : INFFile) (mostSigByte : Nat) :
    makeWallVoxelData inf mostSigByte
      = VoxelDefinition.Wall ((mostSigByte : Int) - 1) ((mostSigByte : Int) - 1)
          ((mostSigByte : Int) - 1) (inf.getMenuIndex ((mostSigByte : Int) - 1))
          (wallTypeOf inf ((mostSigByte : Int) - 1)
            (inf.getMenuIndex ((mostSigByte : Int) - 1)).isSome) := by
  unfold makeWallVoxelData wallTypeOf matchesIndex
  simp only []
  cases hm : inf.getMenuIndex ((mostSigByte : Int) - 1) <;>
    cases inf.getLevelUpIndex <;> cases inf.getLevelDownIndex <;> rfl

theorem makeRaisedVoxelData_eq (worldType : WorldType) (exeData : ExeData) (map1Voxel : Nat)
    (inf : INFFile) (mostSigByte : Nat) :
    makeRaisedVoxelData worldType exeData map1Voxel inf mostSigByte
      = makeRaised map1Voxel mostSigByte worldType inf exeData := by
  unfold makeRaisedVoxelData makeRaised
  cases worldType <;> simp only [reduceCtorEq, if_false, if_true] <;>
    cases inf.getBoxSide (map1Voxel &&& 0x000F) <;>
    cases inf.getBoxCap ((map1Voxel &&& 0x00F0) >>> 4) <;>
    cases inf.getCeiling.textureIndex <;> cases inf.getCeiling.boxScale <;> rfl

theorem makeVoxelDefFromMAP1_lowCode (map1Voxel : Nat) (worldType : WorldType) (inf : INFFile)
    (exeData : ExeData) (h0 : map1Voxel ≠ 0) (hbit : map1Voxel &&& 0x8000 = 0) :
    makeVoxelDefFromMAP1 map1Voxel ((map1Voxel &&& 0xF000) >>> 12) worldType inf exeData
      = .ok (if (map1Voxel &&& 0x7F00) >>> 8 = map1Voxel &&& 0x007F then
          makeWallVoxelData inf ((map1Voxel &&& 0x7F00) >>> 8)
        else makeRaisedVoxelData worldType exeData map1Voxel inf
          ((map1Voxel &&& 0x7F00) >>> 8)) := by
  have h8 := mostSigNibble_ne_eight_of_highBit_clear map1Voxel hbit
  unfold makeVoxelDefFromMAP1
  simp only [h0, h8, hbit, if_true, if_false, getVoxelMostSigByte, getVoxelLeastSigByte]
  split
  · rw [makeWallVoxelData_eq]
  · rw [makeRaisedVoxelData_eq]

theorem makeVoxelDefFromMAP1_highCode (map1Voxel : Nat) (worldType : WorldType)
    (inf : INFFile) (exeData : ExeData) (hbit : ¬ map1Voxel &&& 0x8000 = 0)
    (h8 : ¬ (map1Voxel &&& 0xF000) >>> 12 = 0x8) :
    makeVoxelDefFromMAP1 map1Voxel ((map1Voxel &&& 0xF000) >>> 12) worldType inf exeData
      = (if (map1Voxel &&& 0xF000) >>> 12 = 0x9 then .ok (makeType9VoxelData map1Voxel)
        else if (map1Voxel &&& 0xF000) >>> 12 = 0xA then
          .ok (makeTypeAVoxelData worldType map1Voxel
            (((map1Voxel &&& 0x003F : Nat) : Int) - 1))
        else if (map1Voxel &&& 0xF000) >>> 12 = 0xB then
          .ok (VoxelDefinition.Door (((map1Voxel &&& 0x003F : Nat) : Int) - 1)
            (if (map1Voxel &&& 0x00C0) >>> 4 = 0x0 then DoorType.Swinging
              else if (map1Voxel &&& 0x00C0) >>> 4 = 0x4 then DoorType.Sliding
              else if (map1Voxel &&& 0x00C0) >>> 4 = 0x8 then DoorType.Raising
              else DoorType.Splitting))
        else if (map1Voxel &&& 0xF000) >>> 12 = 0xC then .ok VoxelDefinition.None
        else if (map1Voxel &&& 0xF000) >>> 12 = 0xD then .ok (makeTypeDVoxelData map1Voxel)
        else .error (Fatal.unhandledReturn ((map1Voxel &&& 0xF000) >>> 12))) := by
  have h0 : map1Voxel ≠ 0 := by
    intro h
    rw [h] at hbit
    exact hbit (by decide)
  unfold makeVoxelDefFromMAP1
  simp only [h0, h8, hbit, if_false]
  rfl

theorem makeTypeBVoxelData_ok (map1Voxel : Nat) (d : VoxelDefinition)
    (h : makeTypeBVoxelData map1Voxel = .ok d) :
    (map1Voxel &&& 0x00C0) >>> 6 ≤ 2 ∧
    d = VoxelDefinition.Door (((map1Voxel &&& 0x003F : Nat) : Int) - 1)
      (if (map1Voxel &&& 0x00C0) >>> 4 = 0x0 then DoorType.Swinging
        else if (map1Voxel &&& 0x00C0) >>> 4 = 0x4 then DoorType.Sliding
        else if (map1Voxel &&& 0x00C0) >>> 4 = 0x8 then DoorType.Raising
        else DoorType.Splitting) := by
  obtain ⟨h4, h6⟩ := doorField_eq map1Voxel
  unfold makeTypeBVoxelData at h
  simp only [] at h
  rw [h6]
  by_cases t0 : (map1Voxel &&& 0x00C0) >>> 4 = 0x0
  · simp only [t0, if_true, Except.ok.injEq] at h ⊢
    exact ⟨by omega, h.symm⟩
  · by_cases t4 : (map1Voxel &&& 0x00C0) >>> 4 = 0x4
    · simp only [t4, if_true, Except.ok.injEq] at h ⊢
      exact ⟨by omega, by simpa using h.symm⟩
    · by_cases t8 : (map1Voxel &&& 0x00C0) >>> 4 = 0x8
      · simp only [t8, if_true, Except.ok.injEq] at h ⊢
        exact ⟨by omega, by simpa using h.symm⟩
      · simp only [t0, t4, t8, if_false] at h
        cases h

theorem makeTypeBVoxelData_of_field (map1Voxel : Nat) (h : (map1Voxel &&& 0x00C0) >>> 6 ≤ 2) :
    ∃ d, makeTypeBVoxelData map1Voxel = .ok d := by
  obtain ⟨h4, h6⟩ := doorField_eq map1Voxel
  rw [h6] at h
  unfold makeTypeBVoxelData
  simp only []
  by_cases t0 : (map1Voxel &&& 0x00C0) >>> 4 = 0x0
  · simp only [t0, if_true]
    exact ⟨_, rfl⟩
  · by_cases t4 : (map1Voxel &&& 0x00C0) >>> 4 = 0x4
    · simp only [t4]
      exact ⟨_, rfl⟩
    · by_cases t8 : (map1Voxel &&& 0x00C0) >>> 4 = 0x8
      · simp only [t8]
        exact ⟨_, rfl⟩
      · omega

/-- The definitions of the grid after a reader step that writes a voxel: those of the
state handed to `setVoxel`. -/
theorem levelData_setVoxel_defs (ld ld1 : LevelData) (x y z : Int) (id : Nat)
    (h : ld.setVoxel x y z id = .ok ld1) :
    ld1.voxelGrid.voxelDefs = ld.voxelGrid.voxelDefs := by
  obtain ⟨_, rfl⟩ := levelData_setVoxel_spec ld ld1 x y z id h
  rfl

theorem levelData_setVoxel_of_valid (ld : LevelData) (x y z : Int) (id : Nat)
    (h : ld.voxelGrid.coordIsValid x y z = true) :
    ∃ ld1, ld.setVoxel x y z id = .ok ld1 ∧
      ld1.voxelGrid.voxelDefs = ld.voxelGrid.voxelDefs := by
  refine ⟨{ ld with
    voxelGrid := { ld.voxelGrid with voxels := (⟨x, y, z⟩, id) :: ld.voxelGrid.voxels } }, ?_, rfl⟩
  unfold LevelData.setVoxel LevelVoxelGrid.setVoxel
  simp only [h, if_true]

/-- C34: the old and the new MAP1 decoder agree where the old one adds a definition.
Whenever the body of the loops of `LevelData::readMAP1` adds a voxel definition for the
code of a cell, the code has no mapping yet, it is one of the listed codes (a solid
wall, a raised platform, type 0x9, type 0xA with a non-negative texture index, type 0xB
with door field 0 to 2, type 0xD), one definition is added, and
`MapGeneration::makeVoxelDefFromMAP1` returns that definition for the code. On each listed
code without a mapping, at a cell of the grid, the old reader does add the definition
that the new decoder returns. So the two differ only on codes for which the old
decoder adds none. -/
theorem old_and_new_map1_decoders_agree (map1 : BufferView2D) (inf : INFFile)
    (worldType : WorldType) (exeData : ExeData) (ld : LevelData) (cell : Nat × Nat) :
    (∀ ld1, readMAP1Cell map1 inf worldType exeData ld cell = .ok ld1 →
      ld1.voxelGrid.voxelDefs = ld.voxelGrid.voxelDefs ∨
      ∃ d, ld1.voxelGrid.voxelDefs = ld.voxelGrid.voxelDefs ++ [d] ∧
        oldReaderAdds (map1.get cell.2 cell.1) ∧
        ld.wallDataMappings.lookup (map1.get cell.2 cell.1) = none ∧
        makeVoxelDefFromMAP1 (map1.get cell.2 cell.1)
          ((map1.get cell.2 cell.1 &&& 0xF000) >>> 12) worldType inf exeData = .ok d) ∧
    (oldReaderAdds (map1.get cell.2 cell.1) →
      ld.wallDataMappings.lookup (map1.get cell.2 cell.1) = none →
      ld.voxelGrid.coordIsValid cell.1 1 cell.2 = true →
      ∃ ld1 d, readMAP1Cell map1 inf worldType exeData ld cell = .ok ld1 ∧
        ld1.voxelGrid.voxelDefs = ld.voxelGrid.voxelDefs ++ [d] ∧
        makeVoxelDefFromMAP1 (map1.get cell.2 cell.1)
          ((map1.get cell.2 cell.1 &&& 0xF000) >>> 12) worldType inf exeData = .ok d) := by
  generalize hcode : map1.get cell.2 cell.1 = code
  constructor
  · intro ld1 h
    unfold readMAP1Cell at h
    simp only [hcode] at h
    by_cases hbit : code &&& 0x8000 = 0
    · simp only [hbit, if_true] at h
      by_cases h0 : code = 0
      · simp only [h0, decide_True, Bool.not_true, Bool.false_eq_true, if_false,
          Except.ok.injEq] at h
        subst h
        exact Or.inl rfl
      · simp only [h0, decide_False, Bool.not_false, if_true, decide_eq_true_eq] at h
        have hnew := makeVoxelDefFromMAP1_lowCode code worldType inf exeData h0 hbit
        have hadds : oldReaderAdds code := Or.inl ⟨h0, hbit⟩
        split at h
        · rename_i hsolid
          rw [if_pos hsolid] at hnew
          rw [levelData_setVoxel_defs _ _ _ _ _ _ h]
          unfold getWallDataIndex
          cases hl : ld.wallDataMappings.lookup code with
          | some index => exact Or.inl rfl
          | none => exact Or.inr ⟨_, rfl, hadds, rfl, hnew⟩
        · rename_i hsolid
          rw [if_neg hsolid] at hnew
          rw [levelData_setVoxel_defs _ _ _ _ _ _ h]
          unfold getRaisedDataIndex
          cases hl : ld.wallDataMappings.lookup code with
          | some index => exact Or.inl rfl
          | none => exact Or.inr ⟨_, rfl, hadds, rfl, hnew⟩
    · simp only [hbit, if_false] at h
      by_cases h8 : (code &&& 0xF000) >>> 12 = 0x8
      · simp only [h8, if_true, Except.ok.injEq] at h
        subst h
        exact Or.inl rfl
      · have hnew := makeVoxelDefFromMAP1_highCode code worldType inf exeData hbit h8
        simp only [h8, if_false] at h
        by_cases h9 : (code &&& 0xF000) >>> 12 = 0x9
        · simp only [h9, if_true] at h
          rw [if_pos h9] at hnew
          unfold getDataIndex at h
          cases hl : ld.wallDataMappings.lookup code with
          | some index =>
            simp only [hl] at h
            rw [levelData_setVoxel_defs _ _ _ _ _ _ h]
            exact Or.inl rfl
          | none =>
            simp only [hl] at h
            rw [levelData_setVoxel_defs _ _ _ _ _ _ h]
            exact Or.inr ⟨_, rfl, Or.inr ⟨hbit, Or.inl h9⟩, rfl, hnew⟩
        · simp only [h9, if_false] at h
          rw [if_neg h9] at hnew
          by_cases hA : (code &&& 0xF000) >>> 12 = 0xA
          · simp only [hA, if_true] at h
            rw [if_pos hA] at hnew
            split at h
            · rename_i htex
              rw [levelData_setVoxel_defs _ _ _ _ _ _ h]
              unfold getTypeADataIndex
              cases hl : ld.wallDataMappings.lookup code with
              | some index => exact Or.inl rfl
              | none =>
                exact Or.inr ⟨_, rfl, Or.inr ⟨hbit, Or.inr (Or.inl ⟨hA, htex⟩)⟩, rfl, hnew⟩
            · simp only [Except.ok.injEq] at h
              subst h
              exact Or.inl rfl
          · simp only [hA, if_false] at h
            rw [if_neg hA] at hnew
            by_cases hB : (code &&& 0xF000) >>> 12 = 0xB
            · simp only [hB, if_true] at h
              rw [if_pos hB] at hnew
              unfold getDataIndex at h
              cases hl : ld.wallDataMappings.lookup code with
              | some index =>
                simp only [hl] at h
                rw [levelData_setVoxel_defs _ _ _ _ _ _ h]
                exact Or.inl rfl
              | none =>
                simp only [hl] at h
                cases hd : makeTypeBVoxelData code with
                | error e => simp only [hd] at h; cases h
                | ok d =>
                  simp only [hd] at h
                  obtain ⟨hfield, rfl⟩ := makeTypeBVoxelData_ok code d hd
                  rw [levelData_setVoxel_defs _ _ _ _ _ _ h]
                  exact Or.inr ⟨_, rfl,
                    Or.inr ⟨hbit, Or.inr (Or.inr (Or.inl ⟨hB, hfield⟩))⟩, rfl, hnew⟩
            · simp only [hB, if_false] at h
              rw [if_neg hB] at hnew
              by_cases hC : (code &&& 0xF000) >>> 12 = 0xC
              · simp only [hC, if_true, Except.ok.injEq] at h
                subst h
                exact Or.inl rfl
              · simp only [hC, if_false] at h
                rw [if_neg hC] at hnew
                by_cases hD : (code &&& 0xF000) >>> 12 = 0xD
                · simp only [hD, if_true] at h
                  rw [if_pos hD] at hnew
                  unfold getDataIndex at h
                  cases hl : ld.wallDataMappings.lookup code with
                  | some index =>
                    simp only [hl] at h
                    rw [levelData_setVoxel_defs _ _ _ _ _ _ h]
                    exact Or.inl rfl
                  | none =>
                    simp only [hl] at h
                    rw [levelData_setVoxel_defs _ _ _ _ _ _ h]
                    exact Or.inr ⟨_, rfl,
                      Or.inr ⟨hbit, Or.inr (Or.inr (Or.inr hD))⟩, rfl, hnew⟩
                · simp only [hD, if_false, Except.ok.injEq] at h
                  subst h
                  exact Or.inl rfl
  · intro hadds hl hvalid
    unfold readMAP1Cell
    simp only [hcode]
    rcases hadds with ⟨h0, hbit⟩ | ⟨hbit, hkind⟩
    · have hnew := makeVoxelDefFromMAP1_lowCode code worldType inf exeData h0 hbit
      simp only [hbit, if_true, h0, decide_False, Bool.not_false, decide_eq_true_eq]
      split
      · rename_i hsolid
        rw [if_pos hsolid] at hnew
        obtain ⟨ld1, hset, hdefs⟩ := levelData_setVoxel_of_valid
          (getWallDataIndex ld inf code ((code &&& 0x7F00) >>> 8)).2 cell.1 1 cell.2
          (getWallDataIndex ld inf code ((code &&& 0x7F00) >>> 8)).1
          (by simpa only [getWallDataIndex, hl] using hvalid)
        refine ⟨ld1, _, hset, ?_, hnew⟩
        rw [hdefs]
        simp only [getWallDataIndex, hl, LevelVoxelGrid.addVoxelDef]
      · rename_i hsolid
        rw [if_neg hsolid] at hnew
        obtain ⟨ld1, hset, hdefs⟩ := levelData_setVoxel_of_valid
          (getRaisedDataIndex ld inf worldType exeData code ((code &&& 0x7F00) >>> 8)).2
          cell.1 1 cell.2
          (getRaisedDataIndex ld inf worldType exeData code ((code &&& 0x7F00) >>> 8)).1
          (by simpa only [getRaisedDataIndex, hl] using hvalid)
        refine ⟨ld1, _, hset, ?_, hnew⟩
        rw [hdefs]
        simp only [getRaisedDataIndex, hl, LevelVoxelGrid.addVoxelDef]
    · have h8 : ¬ (code &&& 0xF000) >>> 12 = 0x8 := by
        rcases hkind with h | ⟨h, _⟩ | ⟨h, _⟩ | h <;> rw [h] <;> decide
      have hnew := makeVoxelDefFromMAP1_highCode code worldType inf exeData hbit h8
      simp only [hbit, if_false, h8]
      rcases hkind with h9 | ⟨hA, htex⟩ | ⟨hB, hfield⟩ | hD
      · simp only [h9, if_true] at hnew ⊢
        simp only [getDataIndex, hl]
        obtain ⟨ld1, hset, hdefs⟩ := levelData_setVoxel_of_valid
          { ld with
            voxelGrid := (ld.voxelGrid.addVoxelDef (makeType9VoxelData code)).2
            wallDataMappings := ld.wallDataMappings ++
              [(code, (ld.voxelGrid.addVoxelDef (makeType9VoxelData code)).1)] }
          cell.1 1 cell.2 (ld.voxelGrid.addVoxelDef (makeType9VoxelData code)).1 hvalid
        exact ⟨ld1, _, hset, hdefs, hnew⟩
      · have hn9 : ¬ (0xA : Nat) = 0x9 := by decide
        simp only [hA, hn9, if_true, if_false] at hnew ⊢
        simp only [htex, if_true]
        obtain ⟨ld1, hset, hdefs⟩ := levelData_setVoxel_of_valid
          (getTypeADataIndex ld worldType code (((code &&& 0x003F : Nat) : Int) - 1)).2
          cell.1 1 cell.2
          (getTypeADataIndex ld worldType code (((code &&& 0x003F : Nat) : Int) - 1)).1
          (by simpa only [getTypeADataIndex, hl] using hvalid)
        refine ⟨ld1, _, hset, ?_, hnew⟩
        rw [hdefs]
        simp only [getTypeADataIndex, hl, LevelVoxelGrid.addVoxelDef]
      · have hn9 : ¬ (0xB : Nat) = 0x9 := by decide
        have hnA : ¬ (0xB : Nat) = 0xA := by decide
        simp only [hB, hn9, hnA, if_true, if_false] at hnew ⊢
        obtain ⟨d, hd⟩ := makeTypeBVoxelData_of_field code hfield
        obtain ⟨_, rfl⟩ := makeTypeBVoxelData_ok code d hd
        simp only [getDataIndex, hl, hd]
        obtain ⟨ld1, hset, hdefs⟩ := levelData_setVoxel_of_valid
          { ld with
            voxelGrid := (ld.voxelGrid.addVoxelDef
              (VoxelDefinition.Door (((code &&& 0x003F : Nat) : Int) - 1)
                (if (code &&& 0x00C0) >>> 4 = 0x0 then DoorType.Swinging
                  else if (code &&& 0x00C0) >>> 4 = 0x4 then DoorType.Sliding
                  else if (code &&& 0x00C0) >>> 4 = 0x8 then DoorType.Raising
                  else DoorType.Splitting))).2
            wallDataMappings := ld.wallDataMappings ++
              [(code, ld.voxelGrid.voxelDefs.length)] }
          cell.1 1 cell.2 ld.voxelGrid.voxelDefs.length hvalid
        exact ⟨ld1, _, hset, hdefs, hnew⟩
      · have hn9 : ¬ (0xD : Nat) = 0x9 := by decide
        have hnA : ¬ (0xD : Nat) = 0xA := by decide
        have hnB : ¬ (0xD : Nat) = 0xB := by decide
        have hnC : ¬ (0xD : Nat) = 0xC := by decide
        simp only [hD, hn9, hnA, hnB, hnC, if_true, if_false] at hnew ⊢
        simp only [getDataIndex, hl]
        obtain ⟨ld1, hset, hdefs⟩ := levelData_setVoxel_of_valid
          { ld with
            voxelGrid := (ld.voxelGrid.addVoxelDef (makeTypeDVoxelData code)).2
            wallDataMappings := ld.wallDataMappings ++
              [(code, (ld.voxelGrid.addVoxelDef (makeTypeDVoxelData code)).1)] }
          cell.1 1 cell.2 (ld.voxelGrid.addVoxelDef (makeTypeDVoxelData code)).1 hvalid
        exact ⟨ld1, _, hset, hdefs, hnew⟩

/-! ## The update of the fading voxels -/

theorem one_isDouble : Dbl.IsDouble 1 :=
  ⟨1, 0, by norm_num, by norm_num, by norm_num, by simp⟩

theorem below_one_isDouble : Dbl.IsDouble (1 - 1 / 2 ^ 53) :=
  ⟨2 ^ 53 - 1, -53, by norm_num, by norm_num, by norm_num, by norm_num⟩

theorem ratio_gap_of_integers (X T : Int) (hT : 0 < T) (hlt : X < T)
    (hor : T < 9007199254740992 ∨ X < 9007199254740992) :
    (X : ℚ) / (T : ℚ) ≤ 1 - 1 / 2 ^ 53 := by
  have hTq : (0 : ℚ) < (T : ℚ) := by exact_mod_cast hT
  have hint : T ≤ (T - X) * 9007199254740992 := by
    rcases hor with h | h <;> omega
  have hq : (T : ℚ) ≤ ((T : ℚ) - (X : ℚ)) * 9007199254740992 := by exact_mod_cast hint
  rw [div_le_iff₀ hTq]
  have h53 : (2 : ℚ) ^ 53 = 9007199254740992 := by norm_num
  rw [h53]
  linarith

/-- Two values of `double` with `s < t` and `t` positive have a quotient of at most
`1 - 2 ^ -53`, the largest `double` below 1. -/
theorem double_ratio_gap (s t : ℚ) (hs : Dbl.IsDouble s) (ht : Dbl.IsDouble t) (hpos : 0 < t)
    (hlt : s < t) : s / t ≤ 1 - 1 / 2 ^ 53 := by
  rcases le_or_lt s 0 with hs0 | hs0
  · exact le_trans (div_nonpos_of_nonpos_of_nonneg hs0 (le_of_lt hpos)) (by norm_num)
  obtain ⟨m1, e1, hm1, -, -, hse⟩ := hs
  obtain ⟨m2, e2, hm2, -, -, hte⟩ := ht
  rw [abs_lt] at hm1 hm2
  have h53 : ((2 : Int) ^ 53) = 9007199254740992 := by norm_num
  rw [h53] at hm1 hm2
  have hm1pos : 0 < m1 := by
    by_contra hc
    have : (m1 : ℚ) ≤ 0 := by exact_mod_cast (not_lt.1 hc)
    have : s ≤ 0 := by
      rw [hse]
      exact mul_nonpos_of_nonpos_of_nonneg this (le_of_lt (two_zpow_pos e1))
    linarith
  have hm2pos : 0 < m2 := by
    by_contra hc
    have : (m2 : ℚ) ≤ 0 := by exact_mod_cast (not_lt.1 hc)
    have : t ≤ 0 := by
      rw [hte]
      exact mul_nonpos_of_nonpos_of_nonneg this (le_of_lt (two_zpow_pos e2))
    linarith
  rcases le_total e1 e2 with he | he
  · obtain ⟨n, hn⟩ := Int.eq_ofNat_of_zero_le (by omega : 0 ≤ e2 - e1)
    have hpow : (2 : ℚ) ^ e2 = (2 : ℚ) ^ n * (2 : ℚ) ^ e1 := by
      have : e2 = (n : Int) + e1 := by omega
      rw [this, two_zpow_add, zpow_natCast]
    have ht2 : t = ((m2 * 2 ^ n : Int) : ℚ) * (2 : ℚ) ^ e1 := by
      rw [hte, hpow]
      push_cast
      ring
    have hXT : m1 < m2 * 2 ^ n := by
      have h1 : (m1 : ℚ) * (2 : ℚ) ^ e1 < ((m2 * 2 ^ n : Int) : ℚ) * (2 : ℚ) ^ e1 := by
        rw [← hse, ← ht2]
        exact hlt
      have h2 := lt_of_mul_lt_mul_right h1 (le_of_lt (two_zpow_pos e1))
      exact_mod_cast h2
    have hratio : s / t = (m1 : ℚ) / ((m2 * 2 ^ n : Int) : ℚ) := by
      rw [hse, ht2]
      exact mul_div_mul_right _ _ (ne_of_gt (two_zpow_pos e1))
    rw [hratio]
    exact ratio_gap_of_integers m1 (m2 * 2 ^ n) (by omega) hXT (Or.inr hm1.2)
  · obtain ⟨n, hn⟩ := Int.eq_ofNat_of_zero_le (by omega : 0 ≤ e1 - e2)
    have hpow : (2 : ℚ) ^ e1 = (2 : ℚ) ^ n * (2 : ℚ) ^ e2 := by
      have : e1 = (n : Int) + e2 := by omega
      rw [this, two_zpow_add, zpow_natCast]
    have hs2 : s = ((m1 * 2 ^ n : Int) : ℚ) * (2 : ℚ) ^ e2 := by
      rw [hse, hpow]
      push_cast
      ring
    have hXT : m1 * 2 ^ n < m2 := by
      have h1 : ((m1 * 2 ^ n : Int) : ℚ) * (2 : ℚ) ^ e2 < (m2 : ℚ) * (2 : ℚ) ^ e2 := by
        rw [← hs2, ← hte]
        exact hlt
      have h2 := lt_of_mul_lt_mul_right h1 (le_of_lt (two_zpow_pos e2))
      exact_mod_cast h2
    have hratio : s / t = ((m1 * 2 ^ n : Int) : ℚ) / (m2 : ℚ) := by
      rw [hs2, hte]
      exact mul_div_mul_right _ _ (ne_of_gt (two_zpow_pos e2))
    rw [hratio]
    exact ratio_gap_of_integers (m1 * 2 ^ n) m2 hm2pos hXT (Or.inl hm2.2)

theorem isDoneFading_of_target (fl : ℚ → Dbl) (hfl : Dbl.IsRounding fl) (voxel : Int3)
    (t : ℚ) (hpos : 0 < t) :
    FadeState.isDoneFading fl ⟨voxel, Dbl.fin t, Dbl.fin t⟩ = true := by
  have hdiv : (Dbl.fin t / Dbl.fin t) = Dbl.fin 1 := by
    show Dbl.div _ _ = _
    simp only [Dbl.div, ne_of_gt hpos, if_false, div_self (ne_of_gt hpos)]
  have hone : fl 1 = Dbl.fin 1 := hfl.2.2.1 1 one_isDouble
  simp only [FadeState.isDoneFading, FadeState.getPercentDone, hdiv, Dbl.rounded, hone,
    Dbl.clamp, Dbl.lt]
  norm_num [Dbl.eq]

theorem isDoneFading_of_below (fl : ℚ → Dbl) (hfl : Dbl.IsRounding fl) (voxel : Int3)
    (s t : ℚ) (hs : Dbl.IsDouble s) (ht : Dbl.IsDouble t) (hpos : 0 < t) (hlt : s < t) :
    FadeState.isDoneFading fl ⟨voxel, Dbl.fin s, Dbl.fin t⟩ = false := by
  have hdiv : (Dbl.fin s / Dbl.fin t) = Dbl.fin (s / t) := by
    show Dbl.div _ _ = _
    simp only [Dbl.div, ne_of_gt hpos, if_false]
  have hgap := double_ratio_gap s t hs ht hpos hlt
  have hmono := hfl.1 _ _ hgap
  rw [hfl.2.2.1 _ below_one_isDouble] at hmono
  have hnan := hfl.2.1 (s / t)
  simp only [FadeState.isDoneFading, FadeState.getPercentDone, hdiv, Dbl.rounded]
  cases hr : fl (s / t) with
  | nan => exact absurd hr hnan
  | posInf =>
    rw [hr] at hmono
    simp [Dbl.lt] at hmono
  | negInf => simp [Dbl.clamp, Dbl.lt, Dbl.eq]
  | fin r =>
    rw [hr] at hmono
    simp only [Dbl.lt, decide_eq_false_iff_not, not_lt] at hmono
    have hr1 : r < 1 := lt_of_le_of_lt hmono (by norm_num)
    have hr2 : ¬ 1 < r := not_lt.2 (le_of_lt hr1)
    simp only [Dbl.clamp, Dbl.lt, decide_eq_true_eq, hr2, if_false]
    split
    · simp [Dbl.eq]
    · simp only [Dbl.eq, decide_eq_false_iff_not, Dbl.fin.injEq]
      exact ne_of_lt hr1

theorem fadeState_update_of_numbers (fl : ℚ → Dbl) (hfl : Dbl.IsRounding fl) (f : FadeState)
    (c t d : ℚ) (hc : f.currentSeconds = Dbl.fin c) (ht : f.targetSeconds = Dbl.fin t)
    (hpos : 0 < t) (htd : Dbl.IsDouble t) :
    (f.update fl (Dbl.fin d)).isDoneFading fl
      = !((f.currentSeconds + Dbl.fin d).rounded fl).lt f.targetSeconds ∧
    (((f.currentSeconds + Dbl.fin d).rounded fl).lt f.targetSeconds = true →
      f.update fl (Dbl.fin d)
        = { f with currentSeconds := (f.currentSeconds + Dbl.fin d).rounded fl }) := by
  have hadd : (f.currentSeconds + Dbl.fin d).rounded fl = fl (c + d) := by
    rw [hc]
    rfl
  have hnan := hfl.2.1 (c + d)
  obtain ⟨voxel, cur, target⟩ := f
  simp only [] at hc ht
  subst hc
  subst ht
  simp only [FadeState.update, hadd]
  cases hr : fl (c + d) with
  | nan => exact absurd hr hnan
  | posInf =>
    have hmin : Dbl.min Dbl.posInf (Dbl.fin t) = Dbl.fin t := by
      simp [Dbl.min, Dbl.lt]
    rw [hmin, isDoneFading_of_target fl hfl voxel t hpos]
    simp [Dbl.lt]
  | negInf =>
    have hmin : Dbl.min Dbl.negInf (Dbl.fin t) = Dbl.negInf := by
      simp [Dbl.min, Dbl.lt]
    rw [hmin]
    refine ⟨?_, fun _ => rfl⟩
    have hdiv : (Dbl.negInf / Dbl.fin t) = Dbl.negInf := by
      show Dbl.div _ _ = _
      simp [Dbl.div, le_of_lt hpos]
    simp [FadeState.isDoneFading, FadeState.getPercentDone, hdiv, Dbl.rounded, Dbl.clamp,
      Dbl.lt, Dbl.eq]
  | fin s =>
    have hsd : Dbl.IsDouble s := hfl.2.2.2.1 _ _ hr
    by_cases hlt : s < t
    · have hmin : Dbl.min (Dbl.fin s) (Dbl.fin t) = Dbl.fin s := by
        simp [Dbl.min, Dbl.lt, not_lt.2 (le_of_lt hlt)]
      rw [hmin, isDoneFading_of_below fl hfl voxel s t hsd htd hpos hlt]
      simp [Dbl.lt, hlt]
    · have hmin : Dbl.min (Dbl.fin s) (Dbl.fin t) = Dbl.fin t := by
        simp only [Dbl.min, Dbl.lt, decide_eq_true_eq]
        split
        · rfl
        · rw [le_antisymm (not_lt.mp (by assumption)) (not_lt.mp hlt)]
      rw [hmin, isDoneFading_of_target fl hfl voxel t hpos]
      simp [Dbl.lt, hlt]

theorem unfinished_eq_stillFading (fl : ℚ → Dbl) (hfl : Dbl.IsRounding fl) (d : ℚ)
    (fadingVoxels : List FadeState)
    (h : ∀ f ∈ fadingVoxels, ∃ c t, f.currentSeconds = Dbl.fin c ∧
      f.targetSeconds = Dbl.fin t ∧ 0 < t ∧ Dbl.IsDouble t) :
    unfinished fl (Dbl.fin d) fadingVoxels = stillFading fl (Dbl.fin d) fadingVoxels := by
  induction fadingVoxels with
  | nil => rfl
  | cons f rest ih =>
    obtain ⟨c, t, hc, ht, hpos, htd⟩ := h f (List.mem_cons_self _ _)
    obtain ⟨hdone, hupd⟩ := fadeState_update_of_numbers fl hfl f c t d hc ht hpos htd
    have ih1 := ih (fun g hg => h g (List.mem_cons_of_mem _ hg))
    simp only [unfinished, stillFading, List.map_cons, List.filter_cons] at ih1 ⊢
    rw [hdone]
    by_cases hlt : ((f.currentSeconds + Dbl.fin d).rounded fl).lt f.targetSeconds = true
    · simp only [hlt, Bool.not_true, Bool.not_false, if_true, List.map_cons]
      rw [hupd hlt, ih1]
    · have hf : ((f.currentSeconds + Dbl.fin d).rounded fl).lt f.targetSeconds = false := by
        simpa using hlt
      simp only [hf, Bool.not_false, Bool.not_true, Bool.false_eq_true, if_false]
      exact ih1

theorem unfinished_append (fl : ℚ → Dbl) (dt : Dbl) (l1 l2 : List FadeState) :
    unfinished fl dt (l1 ++ l2) = unfinished fl dt l1 ++ unfinished fl dt l2 := by
  simp [unfinished]

theorem set_at_length {α : Type} (pre post : List α) (a b : α) :
    (pre ++ a :: post).set pre.length b = pre ++ b :: post := by
  induction pre with
  | nil => rfl
  | cons x rest ih => simp [List.set, ih]

theorem eraseIdx_at_length {α : Type} (pre post : List α) (a : α) :
    (pre ++ a :: post).eraseIdx pre.length = pre ++ post := by
  induction pre with
  | nil => rfl
  | cons x rest ih => simp [List.eraseIdx, ih]

theorem getElem?_at_length {α : Type} (pre post : List α) (a : α) :
    (pre ++ a :: post)[pre.length]? = some a := by
  induction pre with
  | nil => simp
  | cons x rest ih => simpa using ih

theorem holdsFaded_after_set (g g2 g3 : LevelVoxelGrid) (voxel : Int3) (id : Nat)
    (hw : g2.width = g.width) (hh : g2.height = g.height) (hd : g2.depth = g.depth)
    (hvoxels : g2.voxels = g.voxels)
    (hdefs : ∃ added, g2.voxelDefs = g.voxelDefs ++ added)
    (hset : g2.setVoxel voxel.x voxel.y voxel.z id = .ok g3)
    (hair : voxel.y ≠ 0 → id = 0)
    (hchasm : voxel.y = 0 → ∃ textureID type,
      g2.getVoxelDef id = .ok (VoxelDefinition.Chasm textureID type)) :
    g3.holdsFaded voxel ∧ ∀ other, g.holdsFaded other → g3.holdsFaded other := by
  unfold LevelVoxelGrid.setVoxel at hset
  split at hset
  · rename_i hvalid
    simp only [Except.ok.injEq] at hset
    subst hset
    have hnew : LevelVoxelGrid.holdsFaded
        { g2 with voxels := (⟨voxel.x, voxel.y, voxel.z⟩, id) :: g2.voxels } voxel := by
      refine ⟨id, ?_, hair, hchasm⟩
      simp only [LevelVoxelGrid.getVoxel, LevelVoxelGrid.coordIsValid] at hvalid ⊢
      simp [hvalid, List.lookup_cons]
    refine ⟨hnew, ?_⟩
    intro other hother
    by_cases hsame : other = voxel
    · rw [hsame]
      exact hnew
    · obtain ⟨oid, hget, hoair, hochasm⟩ := hother
      obtain ⟨added, hadded⟩ := hdefs
      have hne : ((⟨other.x, other.y, other.z⟩ : Int3) == ⟨voxel.x, voxel.y, voxel.z⟩) = false := by
        cases other
        cases voxel
        simpa using hsame
      refine ⟨oid, ?_, hoair, ?_⟩
      · simp only [LevelVoxelGrid.getVoxel, LevelVoxelGrid.coordIsValid, hw, hh, hd, hvoxels,
          List.lookup_cons, hne] at hget ⊢
        exact hget
      · intro hy
        obtain ⟨textureID, type, hdef⟩ := hochasm hy
        refine ⟨textureID, type, ?_⟩
        simp only [LevelVoxelGrid.getVoxelDef, hadded] at hdef ⊢
        cases hlook : g.voxelDefs[oid]? with
        | none => simp [hlook] at hdef
        | some voxelDef =>
          have hlt : oid < g.voxelDefs.length := by
            by_contra hge
            rw [List.getElem?_eq_none (by omega)] at hlook
            cases hlook
          rw [List.getElem?_append_left hlt, hlook]
          simpa [hlook] using hdef
  · cases hset

theorem fadeLoop_spec (fl : ℚ → Dbl) (ctx : LevelContext) (dt : Dbl) (pre : List FadeState) :
    ∀ (post : List FadeState) (ld ld1 : LevelData) (completed completed1 : List Int3),
      ld.fadingVoxels = pre ++ post →
      fadeLoop fl ctx dt pre.length (ld, completed) = .ok (ld1, completed1) →
      ld1.fadingVoxels = unfinished fl dt pre ++ post ∧
      (∀ voxel ∈ completed, voxel ∈ completed1) ∧
      (∀ f ∈ pre, (f.update fl dt).isDoneFading fl = true → f.voxel ∈ completed1) ∧
      (∀ voxel ∈ completed1, voxel ∈ completed ∨
        ∃ f ∈ pre, (f.update fl dt).isDoneFading fl = true ∧ f.voxel = voxel) ∧
      ((∀ voxel ∈ completed, ld.voxelGrid.holdsFaded voxel) →
        ∀ voxel ∈ completed1, ld1.voxelGrid.holdsFaded voxel) ∧
      (ChasmStatesOK ld.chasmStates → ChasmStatesOK ld1.chasmStates) := by
  induction pre using List.reverseRecOn with
  | nil =>
    intro post ld ld1 completed completed1 hlist h
    simp only [List.length_nil, fadeLoop, Except.ok.injEq, Prod.mk.injEq] at h
    obtain ⟨rfl, rfl⟩ := h
    refine ⟨by simpa [unfinished] using hlist, fun _ hv => hv, ?_, fun _ hv => Or.inl hv,
      fun hc => hc, id⟩
    intro f hf
    cases hf
  | append_singleton pre f ih =>
    intro post ld ld1 completed completed1 hlist h
    have hlist1 : ld.fadingVoxels = pre ++ f :: post := by
      rw [hlist]
      simp
    rw [List.length_append, List.length_singleton, fadeLoop] at h
    simp only [hlist1, getElem?_at_length, set_at_length] at h
    have hun : unfinished fl dt (pre ++ [f])
        = unfinished fl dt pre ++ (if (f.update fl dt).isDoneFading fl then [] else [f.update fl dt]) := by
      rw [unfinished_append]
      congr 1
      simp only [unfinished, List.map_cons, List.map_nil, List.filter_cons, List.filter_nil]
      cases (f.update fl dt).isDoneFading fl <;> rfl
    by_cases hdone : (f.update fl dt).isDoneFading fl = true
    · simp only [hdone, if_true] at h
      split at h
      · cases h
      · rename_i newVoxelID ld2 hnew
        split at h
        · cases h
        · rename_i grid hset
          have hstate : ld2.fadingVoxels = pre ++ f.update fl dt :: post ∧
              ld2.voxelGrid.width = ld.voxelGrid.width ∧
              ld2.voxelGrid.height = ld.voxelGrid.height ∧
              ld2.voxelGrid.depth = ld.voxelGrid.depth ∧
              ld2.voxelGrid.voxels = ld.voxelGrid.voxels ∧
              (∃ added, ld2.voxelGrid.voxelDefs = ld.voxelGrid.voxelDefs ++ added) ∧
              (f.voxel.y ≠ 0 → newVoxelID = 0) ∧
              (f.voxel.y = 0 → ∃ textureID type,
                ld2.voxelGrid.getVoxelDef newVoxelID
                  = .ok (VoxelDefinition.Chasm textureID type)) ∧
              (ChasmStatesOK ld.chasmStates → ChasmStatesOK ld2.chasmStates) := by
            by_cases hy : f.voxel.y = 0
            · simp only [hy, decide_True, if_true] at hnew
              obtain ⟨faces, _, _, hstates, hfading, hw, hh, hd, hvoxels, hdefs, hdef⟩ :=
                getChasmIdFromFadedFloorVoxel_spec ctx _ ld2 f.voxel newVoxelID hnew
              exact ⟨hfading, hw, hh, hd, hvoxels, hdefs, fun hne => absurd hy hne,
                fun _ => hdef, fun hinv => by
                  rw [hstates]; exact updateChasmState_ok _ _ _ hinv⟩
            · simp only [hy, decide_False, Bool.false_eq_true, if_false, Except.ok.injEq,
                Prod.mk.injEq] at hnew
              obtain ⟨rfl, rfl⟩ := hnew
              exact ⟨rfl, rfl, rfl, rfl, rfl, ⟨[], by simp⟩, fun _ => rfl,
                fun h0 => absurd h0 hy, id⟩
          obtain ⟨hfading, hw, hh, hd, hvoxels, hdefs, hair, hchasm, hstates⟩ := hstate
          simp only [hfading, eraseIdx_at_length] at h
          obtain ⟨hnewFaded, hkeep⟩ := holdsFaded_after_set ld.voxelGrid ld2.voxelGrid grid
            f.voxel newVoxelID hw hh hd hvoxels hdefs hset hair hchasm
          obtain ⟨h1, h2, h3, h4, h5, h6⟩ := ih post _ ld1 _ completed1 rfl h
          refine ⟨by rw [h1, hun, hdone]; simp, ?_, ?_, ?_, ?_, fun hinv => h6 (hstates hinv)⟩
          · intro voxel hv
            exact h2 voxel (List.mem_append_left _ hv)
          · intro g hg hgdone
            rw [List.mem_append, List.mem_singleton] at hg
            rcases hg with hg | rfl
            · exact h3 g hg hgdone
            · exact h2 _ (List.mem_append_right _ (List.mem_singleton_self _))
          · intro voxel hv
            rcases h4 voxel hv with hv1 | ⟨g, hg, hgdone, hgv⟩
            · rw [List.mem_append, List.mem_singleton] at hv1
              rcases hv1 with hv1 | rfl
              · exact Or.inl hv1
              · exact Or.inr ⟨f, by simp, hdone, rfl⟩
            · exact Or.inr ⟨g, List.mem_append_left _ hg, hgdone, hgv⟩
          · intro hall voxel hv
            refine h5 ?_ voxel hv
            intro other hother
            rw [List.mem_append, List.mem_singleton] at hother
            rcases hother with hother | rfl
            · exact hkeep other (hall other hother)
            · exact hnewFaded
    · simp only [hdone, Bool.false_eq_true, if_false] at h
      obtain ⟨h1, h2, h3, h4, h5, h6⟩ := ih (f.update fl dt :: post) _ ld1 completed completed1 rfl h
      refine ⟨by rw [h1, hun]; simp [hdone], h2, ?_, ?_, h5, h6⟩
      · intro g hg hgdone
        rw [List.mem_append, List.mem_singleton] at hg
        rcases hg with hg | rfl
        · exact h3 g hg hgdone
        · exact absurd hgdone hdone
      · intro voxel hv
        rcases h4 voxel hv with hv1 | ⟨g, hg, hgdone, hgv⟩
        · exact Or.inl hv1
        · exact Or.inr ⟨g, List.mem_append_left _ hg, hgdone, hgv⟩

theorem updateAdjacentChasms_keeps (ctx : LevelContext) (ld ld1 : LevelData) (voxel : Int3)
    (h : updateAdjacentChasms ctx ld voxel = .ok ld1) :
    ld1.voxelGrid = ld.voxelGrid ∧ ld1.fadingVoxels = ld.fadingVoxels ∧
    (ChasmStatesOK ld.chasmStates → ChasmStatesOK ld1.chasmStates) := by
  unfold updateAdjacentChasms at h
  simp only [] at h
  split at h
  · split at h
    · cases h
    · rename_i a ha
      split at h
      · cases h
      · rename_i b hb
        split at h
        · cases h
        · rename_i c hc
          obtain ⟨a1, a2, a3⟩ := tryUpdateChasmVoxel_keeps ctx _ _ _ ha
          obtain ⟨b1, b2, b3⟩ := tryUpdateChasmVoxel_keeps ctx _ _ _ hb
          obtain ⟨c1, c2, c3⟩ := tryUpdateChasmVoxel_keeps ctx _ _ _ hc
          obtain ⟨d1, d2, d3⟩ := tryUpdateChasmVoxel_keeps ctx _ _ _ h
          exact ⟨by rw [d1, c1, b1, a1], by rw [d2, c2, b2, a2],
            fun hinv => d3 (c3 (b3 (a3 hinv)))⟩
  · simp only [Except.ok.injEq] at h
    subst h
    exact ⟨rfl, rfl, id⟩

theorem updateFadingVoxels_spec (fl : ℚ → Dbl) (ctx : LevelContext) (ld ld1 : LevelData) (dt : Dbl)
    (h : updateFadingVoxels fl ctx ld dt = .ok ld1) :
    ld1.fadingVoxels = unfinished fl dt ld.fadingVoxels ∧
    (∀ f ∈ ld.fadingVoxels, (f.update fl dt).isDoneFading fl = true →
      ld1.voxelGrid.holdsFaded f.voxel) ∧
    (ChasmStatesOK ld.chasmStates → ChasmStatesOK ld1.chasmStates) := by
  unfold updateFadingVoxels at h
  split at h
  · cases h
  · rename_i mid completed hloop
    obtain ⟨h1, _, h3, _, h5, h6⟩ :=
      fadeLoop_spec fl ctx dt ld.fadingVoxels [] ld mid [] completed (by simp) hloop
    have hkeep := forEach_invariant (updateAdjacentChasms ctx)
      (fun s => s.voxelGrid = mid.voxelGrid ∧ s.fadingVoxels = mid.fadingVoxels ∧
        (ChasmStatesOK mid.chasmStates → ChasmStatesOK s.chasmStates)) completed
      (fun s a s1 _ hP hb => by
        obtain ⟨k1, k2, k3⟩ := updateAdjacentChasms_keeps ctx s s1 a hb
        exact ⟨k1.trans hP.1, k2.trans hP.2.1, fun hinv => k3 (hP.2.2 hinv)⟩)
      mid ld1 ⟨rfl, rfl, id⟩ h
    obtain ⟨k1, k2, k3⟩ := hkeep
    refine ⟨by rw [k2, h1]; simp, ?_, fun hinv => k3 (h6 hinv)⟩
    intro f hf hdone
    rw [k1]
    exact h5 (fun voxel hv => by cases hv) f.voxel (h3 f hf hdone)

theorem lookup_some_mem {α β : Type} [BEq α] [LawfulBEq α] (l : List (α × β)) (k : α) (v : β)
    (h : l.lookup k = some v) : (k, v) ∈ l := by
  induction l with
  | nil => simp at h
  | cons a t ih =>
    obtain ⟨a1, a2⟩ := a
    rw [List.lookup_cons] at h
    by_cases hk : (k == a1) = true
    · simp only [hk, Option.some.injEq] at h
      have := eq_of_beq hk
      subst this
      subst h
      exact List.mem_cons_self _ _
    · have hf : (k == a1) = false := by simpa using hk
      simp only [hf] at h
      exact List.mem_cons_of_mem _ (ih h)

theorem getVoxelIdOrAir_wellFormed (ld : LevelData) (voxel : Int3)
    (hwf : ld.voxelGrid.WellFormed) :
    ∃ id, ld.getVoxelIdOrAir voxel = .ok id ∧ id < ld.voxelGrid.voxelDefs.length := by
  unfold getVoxelIdOrAir
  split
  · rename_i hvalid
    unfold LevelVoxelGrid.getVoxel
    rw [if_pos hvalid]
    refine ⟨_, rfl, ?_⟩
    cases hl : ld.voxelGrid.voxels.lookup ⟨voxel.x, voxel.y, voxel.z⟩ with
    | none => exact hwf.1
    | some id => exact hwf.2 _ (lookup_some_mem _ _ _ hl)
  · exact ⟨0, rfl, hwf.1⟩

theorem getVoxelDef_of_lt (g : LevelVoxelGrid) (id : Nat) (h : id < g.voxelDefs.length) :
    ∃ voxelDef, g.getVoxelDef id = .ok voxelDef := by
  unfold LevelVoxelGrid.getVoxelDef
  rw [List.getElem?_eq_getElem h]
  exact ⟨_, rfl⟩

theorem chasmFaces_wellFormed (ctx : LevelContext) (ld : LevelData) (voxel : Int3)
    (hwf : ld.voxelGrid.WellFormed) : ∃ faces, chasmFaces ctx ld voxel = .ok faces := by
  obtain ⟨northID, hn, hnl⟩ := getVoxelIdOrAir_wellFormed ld ⟨voxel.x - 1, voxel.y, voxel.z⟩ hwf
  obtain ⟨southID, hs, hsl⟩ := getVoxelIdOrAir_wellFormed ld ⟨voxel.x + 1, voxel.y, voxel.z⟩ hwf
  obtain ⟨eastID, he, hel⟩ := getVoxelIdOrAir_wellFormed ld ⟨voxel.x, voxel.y, voxel.z - 1⟩ hwf
  obtain ⟨westID, hw, hwl⟩ := getVoxelIdOrAir_wellFormed ld ⟨voxel.x, voxel.y, voxel.z + 1⟩ hwf
  obtain ⟨northDef, hnd⟩ := getVoxelDef_of_lt _ _ hnl
  obtain ⟨southDef, hsd⟩ := getVoxelDef_of_lt _ _ hsl
  obtain ⟨eastDef, hed⟩ := getVoxelDef_of_lt _ _ hel
  obtain ⟨westDef, hwd⟩ := getVoxelDef_of_lt _ _ hwl
  refine ⟨⟨ctx.allowsChasmFace northDef, ctx.allowsChasmFace southDef,
    ctx.allowsChasmFace eastDef, ctx.allowsChasmFace westDef⟩, ?_⟩
  simp only [chasmFaces, getAdjacentVoxelIDs, hn, hs, he, hw, hnd, hsd, hed, hwd]

theorem tryUpdateChasmVoxel_wellFormed (ctx : LevelContext) (ld : LevelData) (voxel : Int3)
    (hwf : ld.voxelGrid.WellFormed) : ∃ ld1, tryUpdateChasmVoxel ctx ld voxel = .ok ld1 := by
  unfold tryUpdateChasmVoxel
  split
  · exact ⟨_, rfl⟩
  · rename_i hvalid
    have hv : ld.voxelGrid.coordIsValid voxel.x voxel.y voxel.z = true := by simpa using hvalid
    obtain ⟨id, hid, hlt⟩ := getVoxelIdOrAir_wellFormed ld voxel hwf
    simp only [getVoxelIdOrAir, hv, if_true] at hid
    obtain ⟨voxelDef, hdef⟩ := getVoxelDef_of_lt _ _ hlt
    obtain ⟨faces, hfaces⟩ := chasmFaces_wellFormed ctx ld voxel hwf
    simp only [hid, hdef, hfaces]
    split <;> exact ⟨_, rfl⟩

theorem updateAdjacentChasms_wellFormed (ctx : LevelContext) (ld : LevelData) (voxel : Int3)
    (hwf : ld.voxelGrid.WellFormed) : ∃ ld1, updateAdjacentChasms ctx ld voxel = .ok ld1 := by
  unfold updateAdjacentChasms
  simp only []
  split
  · obtain ⟨a, ha⟩ := tryUpdateChasmVoxel_wellFormed ctx ld ⟨voxel.x - 1, voxel.y, voxel.z⟩ hwf
    have hwa : a.voxelGrid.WellFormed := by
      rw [(tryUpdateChasmVoxel_keeps ctx _ _ _ ha).1]; exact hwf
    obtain ⟨b, hb⟩ := tryUpdateChasmVoxel_wellFormed ctx a ⟨voxel.x + 1, voxel.y, voxel.z⟩ hwa
    have hwb : b.voxelGrid.WellFormed := by
      rw [(tryUpdateChasmVoxel_keeps ctx _ _ _ hb).1]; exact hwa
    obtain ⟨c, hc⟩ := tryUpdateChasmVoxel_wellFormed ctx b ⟨voxel.x, voxel.y, voxel.z - 1⟩ hwb
    have hwc : c.voxelGrid.WellFormed := by
      rw [(tryUpdateChasmVoxel_keeps ctx _ _ _ hc).1]; exact hwb
    obtain ⟨e, he⟩ := tryUpdateChasmVoxel_wellFormed ctx c ⟨voxel.x, voxel.y, voxel.z + 1⟩ hwc
    simp only [ha, hb, hc, he]
    exact ⟨_, rfl⟩
  · exact ⟨_, rfl⟩

theorem getChasmIdFromFadedFloorVoxel_wellFormed (ctx : LevelContext) (ld : LevelData)
    (voxel : Int3) (hwf : ld.voxelGrid.WellFormed)
    (hvalid : ld.voxelGrid.coordIsValid voxel.x voxel.y voxel.z = true) :
    ∃ id ld1, getChasmIdFromFadedFloorVoxel ctx ld voxel = .ok (id, ld1) ∧
      id < ld1.voxelGrid.voxelDefs.length ∧ ld1.voxelGrid.WellFormed := by
  obtain ⟨faces, hfaces⟩ := chasmFaces_wellFormed ctx ld voxel hwf
  unfold getChasmIdFromFadedFloorVoxel
  simp only [hvalid, Bool.not_true, Bool.false_eq_true, if_false, hfaces]
  split
  · rename_i chasmID hfind
    refine ⟨_, _, rfl, ?_, hwf⟩
    unfold LevelVoxelGrid.findVoxelDef at hfind
    have hmem := List.mem_of_find?_eq_some hfind
    simpa using hmem
  · refine ⟨_, _, rfl, ?_, ?_⟩
    · simp [LevelVoxelGrid.addVoxelDef]
    · refine ⟨by simp [LevelVoxelGrid.addVoxelDef], ?_⟩
      intro entry hentry
      have := hwf.2 entry hentry
      simp only [LevelVoxelGrid.addVoxelDef, List.length_append, List.length_singleton]
      omega

theorem setVoxel_wellFormed (g : LevelVoxelGrid) (x y z : Int) (id : Nat)
    (hwf : g.WellFormed) (hvalid : g.coordIsValid x y z = true)
    (hid : id < g.voxelDefs.length) :
    ∃ g1, g.setVoxel x y z id = .ok g1 ∧ g1.WellFormed ∧ g1.width = g.width ∧
      g1.height = g.height ∧ g1.depth = g.depth := by
  refine ⟨{ g with voxels := (⟨x, y, z⟩, id) :: g.voxels }, ?_, ⟨hwf.1, ?_⟩, rfl, rfl, rfl⟩
  · unfold LevelVoxelGrid.setVoxel
    rw [if_pos hvalid]
  · intro entry hentry
    simp only [List.mem_cons] at hentry
    rcases hentry with rfl | hentry
    · exact hid
    · exact hwf.2 entry hentry

theorem coordIsValid_of_dims (g g1 : LevelVoxelGrid) (hw : g1.width = g.width)
    (hh : g1.height = g.height) (hd : g1.depth = g.depth) (x y z : Int) :
    g1.coordIsValid x y z = g.coordIsValid x y z := by
  simp only [LevelVoxelGrid.coordIsValid, hw, hh, hd]

theorem fadeLoop_wellFormed (fl : ℚ → Dbl) (ctx : LevelContext) (dt : Dbl) (pre : List FadeState) :
    ∀ (post : List FadeState) (ld : LevelData) (completed : List Int3),
      ld.fadingVoxels = pre ++ post → ld.voxelGrid.WellFormed →
      (∀ f ∈ pre, ld.voxelGrid.coordIsValid f.voxel.x f.voxel.y f.voxel.z = true) →
      ∃ ld1 completed1, fadeLoop fl ctx dt pre.length (ld, completed) = .ok (ld1, completed1) ∧
        ld1.voxelGrid.WellFormed := by
  induction pre using List.reverseRecOn with
  | nil =>
    intro post ld completed _ hwf _
    exact ⟨ld, completed, rfl, hwf⟩
  | append_singleton pre f ih =>
    intro post ld completed hlist hwf hvalid
    have hlist1 : ld.fadingVoxels = pre ++ f :: post := by
      rw [hlist]
      simp
    have hf : ld.voxelGrid.coordIsValid f.voxel.x f.voxel.y f.voxel.z = true :=
      hvalid f (by simp)
    have hpre : ∀ g ∈ pre, ld.voxelGrid.coordIsValid g.voxel.x g.voxel.y g.voxel.z = true :=
      fun g hg => hvalid g (List.mem_append_left _ hg)
    rw [List.length_append, List.length_singleton, fadeLoop]
    simp only [hlist1, getElem?_at_length, set_at_length]
    by_cases hdone : (f.update fl dt).isDoneFading fl = true
    · simp only [hdone, if_true]
      by_cases hy : f.voxel.y = 0
      · simp only [hy, decide_True, if_true]
        obtain ⟨id, ld2, hnew, hlt, hwf2⟩ := getChasmIdFromFadedFloorVoxel_wellFormed ctx
          { ld with fadingVoxels := pre ++ f.update fl dt :: post } f.voxel hwf hf
        obtain ⟨_, _, _, _, hfading, hw, hh, hd, _⟩ :=
          getChasmIdFromFadedFloorVoxel_spec ctx _ ld2 f.voxel id hnew
        have hf2 : ld2.voxelGrid.coordIsValid f.voxel.x f.voxel.y f.voxel.z = true := by
          rw [coordIsValid_of_dims _ _ hw hh hd]; exact hf
        obtain ⟨g3, hset, hwf3, hw3, hh3, hd3⟩ :=
          setVoxel_wellFormed ld2.voxelGrid f.voxel.x f.voxel.y f.voxel.z id hwf2 hf2 hlt
        rw [hy] at hset
        simp only [hnew, hset, hfading, eraseIdx_at_length]
        exact ih post _ _ rfl hwf3 (fun g hg => by
          rw [coordIsValid_of_dims _ _ (hw3.trans hw) (hh3.trans hh) (hd3.trans hd)]
          exact hpre g hg)
      · simp only [hy, decide_False, Bool.false_eq_true, if_false]
        obtain ⟨g3, hset, hwf3, hw3, hh3, hd3⟩ :=
          setVoxel_wellFormed ld.voxelGrid f.voxel.x f.voxel.y f.voxel.z 0 hwf hf hwf.1
        simp only [hset, eraseIdx_at_length]
        exact ih post _ _ rfl hwf3 (fun g hg => by
          rw [coordIsValid_of_dims _ _ hw3 hh3 hd3]
          exact hpre g hg)
    · simp only [hdone, Bool.false_eq_true, if_false]
      exact ih (f.update fl dt :: post) _ _ rfl hwf hpre

/-- The fading update returns on a level whose fading voxels lie in the grid and whose
voxel IDs all have a definition. -/
theorem updateFadingVoxels_returns (fl : ℚ → Dbl) (ctx : LevelContext) (ld : LevelData) (dt : Dbl)
    (hwf : ld.voxelGrid.WellFormed)
    (hvalid : ∀ f ∈ ld.fadingVoxels,
      ld.voxelGrid.coordIsValid f.voxel.x f.voxel.y f.voxel.z = true) :
    ∃ ld1, updateFadingVoxels fl ctx ld dt = .ok ld1 := by
  obtain ⟨mid, completed, hloop, hwfm⟩ :=
    fadeLoop_wellFormed fl ctx dt ld.fadingVoxels [] ld [] (by simp) hwf hvalid
  unfold updateFadingVoxels
  simp only [hloop]
  have hall : ∀ (l : List Int3) (s : LevelData), s.voxelGrid.WellFormed →
      ∃ s1, forEach (updateAdjacentChasms ctx) l s = .ok s1 := by
    intro l
    induction l with
    | nil => intro s _; exact ⟨s, rfl⟩
    | cons a rest ih =>
      intro s hs
      obtain ⟨s1, h1⟩ := updateAdjacentChasms_wellFormed ctx s a hs
      have hs1 : s1.voxelGrid.WellFormed := by
        rw [(updateAdjacentChasms_keeps ctx s s1 a h1).1]; exact hs
      obtain ⟨s2, h2⟩ := ih s1 hs1
      exact ⟨s2, by simp only [forEach, h1, h2]⟩
  exact hall completed mid hwfm

/-- C39 as amended: `updateFadingVoxels` with a finite `dt`, on fade states whose time is
a number and whose target is a value of `double` above zero, for every rounding `fl` of
the results of `double` that is monotone, exact on the values of `double` and returns
values of `double`. When it returns, the fading list holds exactly the prior fade states
whose sum `currentSeconds + dt`, the exact sum rounded to `double`, is below
`targetSeconds`, in their order, with the time set to that sum; no remaining state is done
fading; and the voxel of every other prior state holds in the grid ID 0 when its `y` is
not 0 and the ID of a chasm definition when its `y` is 0. -/
theorem fading_update_keeps_the_unfinished_states (fl : ℚ → Dbl) (ctx : LevelContext)
    (ld ld1 : LevelData) (d : ℚ) (hfl : Dbl.IsRounding fl)
    (hnum : ∀ f ∈ ld.fadingVoxels, ∃ c t, f.currentSeconds = Dbl.fin c ∧
      f.targetSeconds = Dbl.fin t ∧ 0 < t ∧ Dbl.IsDouble t)
    (h : updateFadingVoxels fl ctx ld (Dbl.fin d) = .ok ld1) :
    ld1.fadingVoxels = stillFading fl (Dbl.fin d) ld.fadingVoxels ∧
    (∀ f ∈ ld1.fadingVoxels, f.isDoneFading fl = false) ∧
    (∀ f ∈ ld.fadingVoxels,
      ((f.currentSeconds + Dbl.fin d).rounded fl).lt f.targetSeconds = false →
      ∃ id, ld1.voxelGrid.getVoxel f.voxel.x f.voxel.y f.voxel.z = .ok id ∧
        (f.voxel.y ≠ 0 → id = 0) ∧
        (f.voxel.y = 0 → ∃ textureID type,
          ld1.voxelGrid.getVoxelDef id = .ok (VoxelDefinition.Chasm textureID type))) := by
  obtain ⟨hlist, hgrid, _⟩ := updateFadingVoxels_spec fl ctx ld ld1 (Dbl.fin d) h
  refine ⟨by rw [hlist, unfinished_eq_stillFading fl hfl d _ hnum], ?_, ?_⟩
  · intro f hf
    rw [hlist] at hf
    simp only [unfinished, List.mem_filter] at hf
    simpa using hf.2
  · intro f hf hlt
    obtain ⟨c, t, hc, ht, hpos, htd⟩ := hnum f hf
    have hdone := (fadeState_update_of_numbers fl hfl f c t d hc ht hpos htd).1
    rw [hlt] at hdone
    exact hgrid f hf hdone

/-- C39 as amended, with the rounding of IEEE 754 binary64 on the sample level and
`dt = 1`: the floor voxel `(1, 0, 0)` becomes a chasm, the voxel `(1, 1, 0)` becomes air,
and the state of `(0, 1, 1)` stays with one second of two. -/
theorem fading_update_keeps_the_unfinished_states_witness :
    ∃ ld1, updateFadingVoxels Dbl.binary64 sampleLevelContext sampleFadingLevel (Dbl.fin 1)
        = .ok ld1 ∧
      ld1.fadingVoxels = [⟨⟨0, 1, 1⟩, Dbl.fin 1, Dbl.fin 2⟩] ∧
      ld1.voxelGrid.getVoxel 1 0 0 = .ok 2 ∧ ld1.voxelGrid.getVoxel 1 1 0 = .ok 0 := by
  have hrun : ∃ ld1,
      updateFadingVoxels Dbl.binary64 sampleLevelContext sampleFadingLevel (Dbl.fin 1)
        = .ok ld1 ∧
      ld1.voxelGrid.getVoxel 1 0 0 = .ok 2 ∧ ld1.voxelGrid.getVoxel 1 1 0 = .ok 0 :=
    ⟨_, by with_unfolding_all rfl, by with_unfolding_all rfl, by with_unfolding_all rfl⟩
  obtain ⟨ld1, h, hfloor, hair⟩ := hrun
  have htwo : Dbl.IsDouble 2 := ⟨2, 0, by norm_num, by norm_num, by norm_num, by simp⟩
  have hnum : ∀ f ∈ sampleFadingLevel.fadingVoxels, ∃ c t, f.currentSeconds = Dbl.fin c ∧
      f.targetSeconds = Dbl.fin t ∧ 0 < t ∧ Dbl.IsDouble t := by
    intro f hf
    simp only [sampleFadingLevel, List.mem_cons, List.mem_singleton, List.mem_nil_iff,
      or_false] at hf
    rcases hf with rfl | rfl | rfl
    · exact ⟨0, 1, rfl, rfl, by norm_num, one_isDouble⟩
    · exact ⟨1 / 2, 1, rfl, rfl, by norm_num, one_isDouble⟩
    · exact ⟨0, 2, rfl, rfl, by norm_num, htwo⟩
  have hlist := (fading_update_keeps_the_unfinished_states Dbl.binary64 sampleLevelContext
    sampleFadingLevel ld1 1 binary64_isRounding hnum h).1
  refine ⟨ld1, h, ?_, hfloor, hair⟩
  rw [hlist]
  with_unfolding_all rfl

/-- A fade state with a target of zero seconds: after `updateFadingVoxels` with `dt = 1`
it is still in the list, its ratio `0 / 0` being no number, although the sum `0 + 1` is
not below the target 0. -/
theorem fade_state_with_zero_target_is_kept :
    ∃ ld1, updateFadingVoxels Dbl.binary64 sampleLevelContext sampleStuckLevel (Dbl.fin 1)
        = .ok ld1 ∧
      ld1.fadingVoxels = [⟨⟨1, 1, 0⟩, Dbl.fin 0, Dbl.fin 0⟩] ∧
      sampleStuckLevel.fadingVoxels = [⟨⟨1, 1, 0⟩, Dbl.fin 0, Dbl.fin 0⟩] ∧
      ((Dbl.fin 0 + Dbl.fin 1).rounded Dbl.binary64).lt (Dbl.fin 0) = false ∧
      (Dbl.fin 0 + Dbl.fin 1).lt (Dbl.fin 0) = false ∧
      stillFading Dbl.binary64 (Dbl.fin 1) sampleStuckLevel.fadingVoxels = [] :=
  ⟨_, by with_unfolding_all rfl, by with_unfolding_all rfl, rfl, by with_unfolding_all rfl,
    by with_unfolding_all rfl, by with_unfolding_all rfl⟩

/-- The sum of the condition is the sum in `double`: a fade state at the `double` nearest
to 0.7 with a target of one second, updated by the `double` nearest to 0.3, is removed
and its voxel cleared, because the sum rounds to 1.0, although the exact sum of the two
values is below 1. -/
theorem fade_state_is_removed_when_the_double_sum_reaches_the_target :
    Dbl.binary64 (7 / 10) = Dbl.fin (3152519739159347 / 4503599627370496) ∧
    Dbl.binary64 (3 / 10) = Dbl.fin (5404319552844595 / 18014398509481984) ∧
    (Dbl.fin (3152519739159347 / 4503599627370496)
      + Dbl.fin (5404319552844595 / 18014398509481984)).lt (Dbl.fin 1) = true ∧
    ((Dbl.fin (3152519739159347 / 4503599627370496)
      + Dbl.fin (5404319552844595 / 18014398509481984)).rounded Dbl.binary64) = Dbl.fin 1 ∧
    ∃ ld1, updateFadingVoxels Dbl.binary64 sampleLevelContext sampleRoundedFadeLevel
        (Dbl.fin (5404319552844595 / 18014398509481984)) = .ok ld1 ∧
      ld1.fadingVoxels = [] ∧ ld1.voxelGrid.getVoxel 1 1 0 = .ok 0 :=
  ⟨by with_unfolding_all rfl, by with_unfolding_all rfl, by with_unfolding_all rfl,
    by with_unfolding_all rfl,
    ⟨_, by with_unfolding_all rfl, by with_unfolding_all rfl, by with_unfolding_all rfl⟩⟩

end OpenTESArena
